import Mathlib

/-!
# Block linear algebra, boundary conditions and hexahedral elements of the solver

A shallow embedding of `src/src/vector_structure.cpp`,
`src/include/matrix_structure.inl` / `matrix_structure.hpp`, and of the functions of
`src/src/bdy_inters.cpp` and `src/src/eles_hexas.cpp` that the statements below are about.

Conventions of the embedding.

* `double` is idealised as an element of a linearly ordered field `α`
  (exact arithmetic, no rounding); every definition is computable and can be
  run at `α = ℚ`.
* `unsigned long` is a natural number below `2^64`, `unsigned int` below
  `2^32`; products and sums taken by the code in `unsigned long` are reduced
  with `ulong`.
* A heap buffer (`double*`) is a `List α` holding exactly the allocated
  entries.  Reading or writing an index outside the list is undefined
  behaviour in C++; here it ends the operation with `Fault.outOfBounds`.
* `throw(-1)` ends the operation with `Fault.thrown`, the macro `FatalError` with
  `Fault.fatal`.
* `int` is an integer and an array index a natural number; the counts and indexes held in
  `int` stay far inside its range, and signed overflow, undefined in C++, is not modelled.
* A `for` loop whose `unsigned long` counter runs from `0` to a bound is
  `forLoop`; a loop whose narrower counter can wrap, or a `while(1)` loop, is run with
  fuel and ends with `Fault.timeout` when the fuel is used up.
* The locals that `set_inv_boundary_conditions` declares without a value and copies to
  `u_r` for a boundary type without a branch hold the content `unset`, an argument.
* The file streams of the restart functions are the characters still to read, with the
  state flags of `std::ifstream`, and the text written; `getline` and `>>` act as the C++
  standard library documents them, and the conversions between numbers and text are
  arguments.
-/

namespace FR

/-- How an operation can end without a result. -/
inductive Fault where
  /-- The statement `throw(-1)` was executed. -/
  | thrown
  /-- An index outside the allocated buffer was read or written. -/
  | outOfBounds
  /-- The fuel given to a loop with a wrapping counter ran out. -/
  | timeout
  /-- The macro `FatalError` ended the process. -/
  | fatal
  /-- A variable was read before anything was assigned to it. -/
  | indeterminate
deriving DecidableEq

/-- Reduction of a natural number to the range of `unsigned long`. -/
def ulong (n : Nat) : Nat := n % 2 ^ 64

/-- Reduction of a natural number to the range of `unsigned int`. -/
def uint (n : Nat) : Nat := n % 2 ^ 32

/-- The constant `ULONG_MAX`. -/
def ULONG_MAX : Nat := 2 ^ 64 - 1

/-- The constant `UINT_MAX`. -/
def UINT_MAX : Nat := 2 ^ 32 - 1

/-- The read `buf[i]`. -/
def readAt {α : Type} (buf : List α) (i : Nat) : Except Fault α :=
  match buf[i]? with
  | some x => .ok x
  | none => .error .outOfBounds

/-- The write `buf[i] = x`. -/
def writeAt {α : Type} (buf : List α) (i : Nat) (x : α) : Except Fault (List α) :=
  if i < buf.length then .ok (buf.set i x) else .error .outOfBounds

/-- Runs `body i`, `body (i+1)`, ... for `k` iterations, stopping at the first fault. -/
def loopFrom {σ : Type} (body : Nat → σ → Except Fault σ) : Nat → Nat → σ → Except Fault σ
  | 0, _, s => .ok s
  | k + 1, i, s =>
    match body i s with
    | .ok s' => loopFrom body k (i + 1) s'
    | .error e => .error e

/-- The loop `for (unsigned long i = 0; i < n; i++) body`. -/
def forLoop {σ : Type} (n : Nat) (body : Nat → σ → Except Fault σ) (s : σ) : Except Fault σ :=
  loopFrom body n 0 s

/-- The storage returned by `new double[n]`: `n` entries, each overwritten before it is read. -/
def newBuffer {α : Type} [Zero α] (n : Nat) : List α := List.replicate n 0

/-! ## The block vector -/

/-- The fields of `CSysVector`. -/
structure CSysVector (α : Type) where
  /-- Total number of elements. -/
  nElm : Nat
  /-- Number of elements owned by this partition. -/
  nElmDomain : Nat
  /-- Number of blocks. -/
  nBlk : Nat
  /-- Number of blocks owned by this partition. -/
  nBlkDomain : Nat
  /-- Number of components per block. -/
  nVar : Nat
  /-- The buffer `vec_val`. -/
  vec_val : List α
deriving DecidableEq

/-- A vector argument of an in-place operation: the receiver itself, or another vector. -/
inductive Operand (α : Type) where
  /-- The argument is the object the method is called on. -/
  | self
  /-- The argument is a different object. -/
  | other (x : CSysVector α)

namespace Operand

/-- The field `x.nElm` of the argument. -/
def nElm {α : Type} (x : Operand α) (this : CSysVector α) : Nat :=
  match x with
  | .self => this.nElm
  | .other v => v.nElm

/-- The read `x.vec_val[i]` while the receiver's buffer holds `cur`. -/
def read {α : Type} (x : Operand α) (cur : List α) (i : Nat) : Except Fault α :=
  match x with
  | .self => readAt cur i
  | .other v => readAt v.vec_val i

end Operand

variable {α : Type} [LinearOrderedField α]

/-- The loop `for (unsigned int i = 0; i < nElm; i++) vec_val[i] = val;` of the two
fill constructors: the counter is 32 bits wide and wraps, the bound is 64 bits wide. -/
def fillLoop32 (val : α) (nElm : Nat) : Nat → Nat → List α → Except Fault (List α)
  | 0, _, _ => .error .timeout
  | fuel + 1, i, buf =>
    if i < nElm then
      match writeAt buf i val with
      | .ok buf' => fillLoop32 val nElm fuel (uint (i + 1)) buf'
      | .error e => .error e
    else .ok buf

namespace CSysVector

/-- The constructor `CSysVector(const unsigned long & size, const double & val)`. -/
def CSysVector_size_val (fuel : Nat) (size : Nat) (val : α) : Except Fault (CSysVector α) :=
  let nElm := size
  let nElmDomain := size
  if nElm ≤ 0 ∨ nElm ≥ UINT_MAX then .error .thrown
  else
    match fillLoop32 val nElm fuel 0 (newBuffer nElm) with
    | .ok buf => .ok ⟨nElm, nElmDomain, nElm, nElmDomain, 1, buf⟩
    | .error e => .error e

/-- The constructor `CSysVector(numBlk, numBlkDomain, numVar, const double & val)`. -/
def CSysVector_blk_val (fuel : Nat) (numBlk numBlkDomain numVar : Nat) (val : α) :
    Except Fault (CSysVector α) :=
  let nElm := ulong (numBlk * numVar)
  let nElmDomain := ulong (numBlkDomain * numVar)
  if nElm ≤ 0 ∨ nElm ≥ ULONG_MAX then .error .thrown
  else
    match fillLoop32 val nElm fuel 0 (newBuffer nElm) with
    | .ok buf => .ok ⟨nElm, nElmDomain, numBlk, numBlkDomain, numVar, buf⟩
    | .error e => .error e

/-- The copy constructor `CSysVector(const CSysVector & u)`. -/
def CSysVector_copy (u : CSysVector α) : Except Fault (CSysVector α) :=
  match forLoop u.nElm
      (fun i buf =>
        match readAt u.vec_val i with
        | .ok x => writeAt buf i x
        | .error e => .error e)
      (newBuffer u.nElm) with
  | .ok buf => .ok ⟨u.nElm, u.nElmDomain, u.nBlk, u.nBlkDomain, u.nVar, buf⟩
  | .error e => .error e

/-- The constructor `CSysVector(const unsigned long & size, const double* u_array)`. -/
def CSysVector_size_array (size : Nat) (u_array : List α) : Except Fault (CSysVector α) :=
  let nElm := size
  let nElmDomain := size
  if nElm ≤ 0 ∨ nElm ≥ ULONG_MAX then .error .thrown
  else
    match forLoop nElm
        (fun i buf =>
          match readAt u_array i with
          | .ok x => writeAt buf i x
          | .error e => .error e)
        (newBuffer nElm) with
    | .ok buf => .ok ⟨nElm, nElmDomain, nElm, nElmDomain, 1, buf⟩
    | .error e => .error e

/-- The constructor `CSysVector(numBlk, numBlkDomain, numVar, const double* u_array)`. -/
def CSysVector_blk_array (numBlk numBlkDomain numVar : Nat) (u_array : List α) :
    Except Fault (CSysVector α) :=
  let nElm := ulong (numBlk * numVar)
  let nElmDomain := ulong (numBlkDomain * numVar)
  if nElm ≤ 0 ∨ nElm ≥ ULONG_MAX then .error .thrown
  else
    match forLoop nElm
        (fun i buf =>
          match readAt u_array i with
          | .ok x => writeAt buf i x
          | .error e => .error e)
        (newBuffer nElm) with
    | .ok buf => .ok ⟨nElm, nElmDomain, numBlk, numBlkDomain, numVar, buf⟩
    | .error e => .error e

/-- The loop shared by the compound assignments with a vector argument (`+=`, `-=`,
`Plus_AX`): `for (unsigned long i = 0; i < nElm; i++) vec_val[i] = f(vec_val[i], x.vec_val[i]);`. -/
def zipLoop (this : CSysVector α) (x : Operand α) (f : α → α → α) : Except Fault (CSysVector α) :=
  match forLoop this.nElm
      (fun i buf =>
        match readAt buf i with
        | .ok t =>
          match x.read buf i with
          | .ok xi => writeAt buf i (f t xi)
          | .error e => .error e
        | .error e => .error e)
      this.vec_val with
  | .ok buf => .ok { this with vec_val := buf }
  | .error e => .error e

/-- The loop shared by the in-place operations with a scalar argument:
`for (unsigned long i = 0; i < nElm; i++) vec_val[i] = f(vec_val[i]);`. -/
def mapLoop (this : CSysVector α) (f : α → α) : Except Fault (CSysVector α) :=
  match forLoop this.nElm
      (fun i buf =>
        match readAt buf i with
        | .ok t => writeAt buf i (f t)
        | .error e => .error e)
      this.vec_val with
  | .ok buf => .ok { this with vec_val := buf }
  | .error e => .error e

/-- The method `Equals_AX(a, x)`: `vec_val[i] = a * x.vec_val[i]`. -/
def Equals_AX (this : CSysVector α) (a : α) (x : Operand α) : Except Fault (CSysVector α) :=
  if this.nElm ≠ x.nElm this then .error .thrown
  else
    match forLoop this.nElm
        (fun i buf =>
          match x.read buf i with
          | .ok xi => writeAt buf i (a * xi)
          | .error e => .error e)
        this.vec_val with
    | .ok buf => .ok { this with vec_val := buf }
    | .error e => .error e

/-- The method `Plus_AX(a, x)`: `vec_val[i] += a * x.vec_val[i]`. -/
def Plus_AX (this : CSysVector α) (a : α) (x : Operand α) : Except Fault (CSysVector α) :=
  if this.nElm ≠ x.nElm this then .error .thrown
  else zipLoop this x (fun t xi => t + a * xi)

/-- The method `Equals_AX_Plus_BY(a, x, b, y)`: `vec_val[i] = a * x.vec_val[i] + b * y.vec_val[i]`. -/
def Equals_AX_Plus_BY (this : CSysVector α) (a : α) (x : Operand α) (b : α) (y : Operand α) :
    Except Fault (CSysVector α) :=
  if this.nElm ≠ x.nElm this ∨ this.nElm ≠ y.nElm this then .error .thrown
  else
    match forLoop this.nElm
        (fun i buf =>
          match x.read buf i with
          | .ok xi =>
            match y.read buf i with
            | .ok yi => writeAt buf i (a * xi + b * yi)
            | .error e => .error e
          | .error e => .error e)
        this.vec_val with
    | .ok buf => .ok { this with vec_val := buf }
    | .error e => .error e

/-- The operator `+=`: `vec_val[i] += u.vec_val[i]`. -/
def operator_add_assign (this : CSysVector α) (u : Operand α) : Except Fault (CSysVector α) :=
  if this.nElm ≠ u.nElm this then .error .thrown
  else zipLoop this u (fun t ui => t + ui)

/-- The operator `+`: a copy of the receiver, then `+=` on the copy. -/
def operator_add (this u : CSysVector α) : Except Fault (CSysVector α) :=
  match CSysVector_copy this with
  | .ok sum => operator_add_assign sum (.other u)
  | .error e => .error e

/-- The operator `-=`: `vec_val[i] -= u.vec_val[i]`. -/
def operator_sub_assign (this : CSysVector α) (u : Operand α) : Except Fault (CSysVector α) :=
  if this.nElm ≠ u.nElm this then .error .thrown
  else zipLoop this u (fun t ui => t - ui)

/-- The operator `-`: a copy of the receiver, then `-=` on the copy. -/
def operator_sub (this u : CSysVector α) : Except Fault (CSysVector α) :=
  match CSysVector_copy this with
  | .ok diff => operator_sub_assign diff (.other u)
  | .error e => .error e

/-- The operator `*=` with a scalar: `vec_val[i] *= val`. -/
def operator_mul_assign (this : CSysVector α) (val : α) : Except Fault (CSysVector α) :=
  mapLoop this (fun t => t * val)

/-- The member operator `*` (vector times scalar): a copy, then `*=`. -/
def operator_mul (this : CSysVector α) (val : α) : Except Fault (CSysVector α) :=
  match CSysVector_copy this with
  | .ok prod => operator_mul_assign prod val
  | .error e => .error e

/-- The friend operator `*` (scalar times vector): a copy of `u`, then `*=`. -/
def operator_mul_scalar (val : α) (u : CSysVector α) : Except Fault (CSysVector α) :=
  match CSysVector_copy u with
  | .ok prod => operator_mul_assign prod val
  | .error e => .error e

/-- The operator `/=` with a scalar: `vec_val[i] /= val`. -/
def operator_div_assign (this : CSysVector α) (val : α) : Except Fault (CSysVector α) :=
  mapLoop this (fun t => t / val)

/-- The operator `/`: a copy, then `/=`. -/
def operator_div (this : CSysVector α) (val : α) : Except Fault (CSysVector α) :=
  match CSysVector_copy this with
  | .ok quotient => operator_div_assign quotient val
  | .error e => .error e

/-- The position `val_ipoint*nVar + iVar`, computed in `unsigned long`. -/
def blockIndex (this : CSysVector α) (val_ipoint iVar : Nat) : Nat :=
  ulong (ulong (val_ipoint * this.nVar) + iVar)

/-- The loop shared by the whole-block updates:
`for (iVar = 0; iVar < nVar; iVar++) vec_val[val_ipoint*nVar+iVar] = f(old, val_residual[iVar]);`.
The `unsigned short` counter stays below `nVar`, itself an `unsigned short`, so it never wraps. -/
def blockLoop (this : CSysVector α) (val_ipoint : Nat) (val_residual : List α) (f : α → α → α) :
    Except Fault (CSysVector α) :=
  match forLoop this.nVar
      (fun iVar buf =>
        match readAt buf (blockIndex this val_ipoint iVar) with
        | .ok t =>
          match readAt val_residual iVar with
          | .ok r => writeAt buf (blockIndex this val_ipoint iVar) (f t r)
          | .error e => .error e
        | .error e => .error e)
      this.vec_val with
  | .ok buf => .ok { this with vec_val := buf }
  | .error e => .error e

/-- The method `AddBlock(val_ipoint, val_residual)`. -/
def AddBlock (this : CSysVector α) (val_ipoint : Nat) (val_residual : List α) :
    Except Fault (CSysVector α) :=
  blockLoop this val_ipoint val_residual (fun t r => t + r)

/-- The method `SubtractBlock(val_ipoint, val_residual)`. -/
def SubtractBlock (this : CSysVector α) (val_ipoint : Nat) (val_residual : List α) :
    Except Fault (CSysVector α) :=
  blockLoop this val_ipoint val_residual (fun t r => t - r)

/-- The method `SetBlock(val_ipoint, double *val_residual)`. -/
def SetBlock (this : CSysVector α) (val_ipoint : Nat) (val_residual : List α) :
    Except Fault (CSysVector α) :=
  match forLoop this.nVar
      (fun iVar buf =>
        match readAt val_residual iVar with
        | .ok r => writeAt buf (blockIndex this val_ipoint iVar) r
        | .error e => .error e)
      this.vec_val with
  | .ok buf => .ok { this with vec_val := buf }
  | .error e => .error e

/-- The method `SetBlock(val_ipoint, val_var, double val_residual)`. -/
def SetBlock_var (this : CSysVector α) (val_ipoint val_var : Nat) (val_residual : α) :
    Except Fault (CSysVector α) :=
  match writeAt this.vec_val (blockIndex this val_ipoint val_var) val_residual with
  | .ok buf => .ok { this with vec_val := buf }
  | .error e => .error e

/-- The method `SetBlock_Zero(val_ipoint)`. -/
def SetBlock_Zero (this : CSysVector α) (val_ipoint : Nat) : Except Fault (CSysVector α) :=
  match forLoop this.nVar
      (fun iVar buf => writeAt buf (blockIndex this val_ipoint iVar) 0)
      this.vec_val with
  | .ok buf => .ok { this with vec_val := buf }
  | .error e => .error e

/-- The method `SetBlock_Zero(val_ipoint, val_var)`. -/
def SetBlock_Zero_var (this : CSysVector α) (val_ipoint val_var : Nat) :
    Except Fault (CSysVector α) :=
  match writeAt this.vec_val (blockIndex this val_ipoint val_var) 0 with
  | .ok buf => .ok { this with vec_val := buf }
  | .error e => .error e

/-- The method `GetBlock(val_ipoint, val_var)`. -/
def GetBlock (this : CSysVector α) (val_ipoint val_var : Nat) : Except Fault α :=
  readAt this.vec_val (blockIndex this val_ipoint val_var)

/-- The method `Initialize(numBlk, numVar, val)`: it assigns all the fields of the receiver,
`nElmDomain = nElm` and `nBlkDomain = nElmDomain`, and fills a fresh buffer with a loop
whose counter is an `unsigned long`. -/
def Initialize (numBlk numVar : Nat) (val : α) : Except Fault (CSysVector α) :=
  let nElm := ulong (numBlk * numVar)
  let nElmDomain := nElm
  let nBlk := numBlk
  let nBlkDomain := nElmDomain
  let nVar := numVar
  if nElm ≤ 0 ∨ nElm ≥ ULONG_MAX then .error .thrown
  else
    match forLoop nElm (fun i buf => writeAt buf i val) (newBuffer nElm) with
    | .ok buf => .ok ⟨nElm, nElmDomain, nBlk, nBlkDomain, nVar, buf⟩
    | .error e => .error e

/-- The operator `=` with a vector argument: nothing on self-assignment, otherwise the
fields of `u` and a fresh copy of its buffer. -/
def operator_assign (this : CSysVector α) (u : Operand α) : Except Fault (CSysVector α) :=
  match u with
  | .self => .ok this
  | .other u =>
    match forLoop u.nElm
        (fun i buf =>
          match readAt u.vec_val i with
          | .ok x => writeAt buf i x
          | .error e => .error e)
        (newBuffer u.nElm) with
    | .ok buf => .ok ⟨u.nElm, u.nElmDomain, u.nBlk, u.nBlkDomain, u.nVar, buf⟩
    | .error e => .error e

/-- The operator `=` with a scalar argument: `vec_val[i] = val`. -/
def operator_assign_val (this : CSysVector α) (val : α) : Except Fault (CSysVector α) :=
  match forLoop this.nElm (fun i buf => writeAt buf i val) this.vec_val with
  | .ok buf => .ok { this with vec_val := buf }
  | .error e => .error e

end CSysVector

/-- The friend function `dotProd(u, v)` of a build without MPI: the size check, then the
sum of `u.vec_val[i]*v.vec_val[i]` over `i < u.nElmDomain`. -/
def dotProd (u v : CSysVector α) : Except Fault α :=
  if u.nElm ≠ v.nElm then .error .thrown
  else
    forLoop u.nElmDomain
      (fun i loc_prod =>
        match readAt u.vec_val i with
        | .ok ui =>
          match readAt v.vec_val i with
          | .ok vi => .ok (loc_prod + ui * vi)
          | .error e => .error e
        | .error e => .error e)
      0

/-- The method `norm()`; `sqrt` is the square root of the C library, taken as a parameter. -/
def CSysVector.norm (sqrt : α → α) (this : CSysVector α) : Except Fault α :=
  match dotProd this this with
  | .ok val => if val < 0 then .error .thrown else .ok (sqrt val)
  | .error e => .error e

/-! ## The block sparse matrix -/

/-- The fields of `CSysMatrix` that the embedded operations read or write: the sizes, the
value buffer and the compressed-row arrays.  The scratch buffers (`block`,
`prod_block_vector`, `prod_row_vector`, `aux_vector`, `invM`) and the linelet fields are
touched by none of them and are left out. -/
structure CSysMatrix (α : Type) where
  /-- Number of points. -/
  nPoint : Nat
  /-- Number of points owned by this partition. -/
  nPointDomain : Nat
  /-- Number of variables. -/
  nVar : Nat
  /-- Number of equations. -/
  nEqn : Nat
  /-- The value buffer `matrix`. -/
  matrix : List α
  /-- First block of each row. -/
  row_ptr : List Nat
  /-- Column of each block. -/
  col_ind : List Nat
  /-- Number of blocks. -/
  nnz : Nat
deriving DecidableEq

namespace CSysMatrix

/-- The extent `nnz*nVar*nEqn` of the value buffer, as the code computes it in `unsigned long`. -/
def valExtent (this : CSysMatrix α) : Nat :=
  ulong (ulong (this.nnz * this.nVar) * this.nEqn)

/-- The method `SetValZero()`. -/
def SetValZero (this : CSysMatrix α) : Except Fault (CSysMatrix α) :=
  match forLoop (ulong (ulong (this.nnz * this.nVar) * this.nEqn))
      (fun index buf => writeAt buf index 0)
      this.matrix with
  | .ok buf => .ok { this with matrix := buf }
  | .error e => .error e

/-- The method `ScaleVals(val_scale)`. -/
def ScaleVals (this : CSysMatrix α) (val_scale : α) : Except Fault (CSysMatrix α) :=
  match forLoop (ulong (ulong (this.nnz * this.nVar) * this.nVar))
      (fun index buf =>
        match readAt buf index with
        | .ok t => writeAt buf index (t * val_scale)
        | .error e => .error e)
      this.matrix with
  | .ok buf => .ok { this with matrix := buf }
  | .error e => .error e

/-- Modelled from the spec: `SumAbsRowi`, declared in `matrix_structure.hpp`; its body is not
among the sources.  The spec: "L1 sum of all entries in row i".  Row `i` of the
compressed-row structure holds the blocks `row_ptr[i] .. row_ptr[i+1]-1`, and block `b`
holds the `nVar*nEqn` entries of `matrix` starting at `b*nVar*nEqn`. -/
def SumAbsRowi (this : CSysMatrix α) (i : Nat) : Except Fault α :=
  match readAt this.row_ptr i with
  | .ok first =>
    match readAt this.row_ptr (i + 1) with
    | .ok last =>
      forLoop (last - first)
        (fun k sum =>
          forLoop (this.nVar * this.nEqn)
            (fun e acc =>
              match readAt this.matrix ((first + k) * (this.nVar * this.nEqn) + e) with
              | .ok x => .ok (acc + |x|)
              | .error err => .error err)
            sum)
        0
    | .error e => .error e
  | .error e => .error e

end CSysMatrix

/-! ## The adapters -/

/-- The class `CSysMatrixVectorProduct`: the pointer `sparse_matrix`, possibly null.  The
pointer `FlowSol` is stored and never used by `operator()`. -/
structure CSysMatrixVectorProduct (α : Type) where
  /-- The bound matrix, `none` for a null pointer. -/
  sparse_matrix : Option (CSysMatrix α)

/-- The class `CLU_SGSPreconditioner`: the pointer `sparse_matrix`, possibly null. -/
structure CLU_SGSPreconditioner (α : Type) where
  /-- The bound matrix, `none` for a null pointer. -/
  sparse_matrix : Option (CSysMatrix α)

/-- The call `CSysMatrixVectorProduct::operator()(u, v)`.  The method
`CSysMatrix::MatrixVectorProduct` is defined outside the sources and is a parameter; `ρ` is
whatever that call leaves behind. -/
def CSysMatrixVectorProduct.operator_call {ρ : Type}
    (MatrixVectorProduct : CSysMatrix α → CSysVector α → CSysVector α → Except Fault ρ)
    (this : CSysMatrixVectorProduct α) (u v : CSysVector α) : Except Fault ρ :=
  match this.sparse_matrix with
  | none => .error .thrown
  | some m => MatrixVectorProduct m u v

/-- The call `CLU_SGSPreconditioner::operator()(u, v)`.  The method
`CSysMatrix::ComputeLU_SGSPreconditioner` is defined outside the sources and is a parameter. -/
def CLU_SGSPreconditioner.operator_call {ρ : Type}
    (ComputeLU_SGSPreconditioner : CSysMatrix α → CSysVector α → CSysVector α → Except Fault ρ)
    (this : CLU_SGSPreconditioner α) (u v : CSysVector α) : Except Fault ρ :=
  match this.sparse_matrix with
  | none => .error .thrown
  | some m => ComputeLU_SGSPreconditioner m u v

/-! ## Boundary conditions of `bdy_inters`

The arrays `u_l`, `u_r`, `v_g`, `norm`, `bdy_params` and `grad_u` reach these functions as
`double*`; they are lists, distinct from one another.  A pointer into `bdy_params`
(`v_bound = &bdy_params[1]`) is the reader of the entries from that offset on.  The library
functions `sqrt` and `pow` and the global `run_input.turb_model` are parameters.  The
arguments `loc`, `n_fields` and `time_bound` of `set_inv_boundary_conditions` are not used
by its body and are left out. -/

/-- The loop `for (int i=0; i<n; i++) acc += term(i);`. -/
def sumLoop (n : Nat) (term : Nat → Except Fault α) (acc : α) : Except Fault α :=
  forLoop n
    (fun i acc => do
      let t ← term i
      pure (acc + t))
    acc

/-- The loop `for (int i=0; i<n; i++) buf[off+i] = value(i);`, where `value(i)` does not
read `buf`. -/
def storeLoop (n off : Nat) (value : Nat → Except Fault α) (buf : List α) :
    Except Fault (List α) :=
  forLoop n
    (fun i buf => do
      let x ← value i
      writeAt buf (off + i) x)
    buf

/-- The statements `v_sq = 0.; for (int i=0; i<n_dims; i++) v_sq += v[i]*v[i];`. -/
def sqLoop (n_dims : Nat) (v : Nat → Except Fault α) : Except Fault α :=
  sumLoop n_dims
    (fun i => do
      let a ← v i
      pure (a * a))
    0

/-- The statements `vn = 0.; for (int i=0; i<n_dims; i++) vn += a[i]*b[i];`. -/
def dotLoop (n_dims : Nat) (a b : Nat → Except Fault α) : Except Fault α :=
  sumLoop n_dims
    (fun i => do
      let x ← a i
      let y ← b i
      pure (x * y))
    0

/-- The exterior state a branch of `set_inv_boundary_conditions` leaves in the locals
`rho_r`, `v_r`, `e_r`, together with the array `u_r` as the branch leaves it. -/
structure RightState (α : Type) where
  /-- The array `u_r`, with the turbulence entry written if the branch writes it. -/
  u_r : List α
  /-- The local `rho_r`. -/
  rho_r : α
  /-- The local array `v_r`. -/
  v_r : List α
  /-- The local `e_r`. -/
  e_r : α

/-- The statements `if (run_input.turb_model == 1) u_r[n_dims+2] = bdy_params[14];`. -/
def setTurbInf (turb_model : Int) (bdy_params u_r : List α) (n_dims : Nat) :
    Except Fault (List α) :=
  if turb_model = 1 then do
    let mu_tilde_inf ← readAt bdy_params 14
    writeAt u_r (n_dims + 2) mu_tilde_inf
  else pure u_r

/-- The statements `if (run_input.turb_model == 1) u_r[n_dims+2] = u_l[n_dims+2];`. -/
def setTurbExtrapolate (turb_model : Int) (u_l u_r : List α) (n_dims : Nat) :
    Except Fault (List α) :=
  if turb_model = 1 then do
    let x ← readAt u_l (n_dims + 2)
    writeAt u_r (n_dims + 2) x
  else pure u_r

/-- The statements `if (run_input.turb_model == 1) u_r[n_dims+2] = 0.0;`. -/
def setTurbZero (turb_model : Int) (u_r : List α) (n_dims : Nat) : Except Fault (List α) :=
  if turb_model = 1 then writeAt u_r (n_dims + 2) 0.0 else pure u_r

/-- Branch `bdy_type == 1`: subsonic inflow, simple. -/
def inv_bdy_type_1 (turb_model : Int) (u_r bdy_params : List α) (n_dims : Nat) (gamma : α)
    (rho_bound p_l : α) : Except Fault (RightState α) := do
  let rho_r := rho_bound
  let v_r ← storeLoop n_dims 0 (fun i => readAt bdy_params (1 + i)) (newBuffer n_dims)
  let p_r := p_l
  let v_sq ← sqLoop n_dims (readAt v_r)
  let e_r := (p_r / (gamma - 1.0)) + 0.5 * rho_r * v_sq
  let u_r ← setTurbInf turb_model bdy_params u_r n_dims
  pure ⟨u_r, rho_r, v_r, e_r⟩

/-- Branch `bdy_type == 2`: subsonic outflow, simple. -/
def inv_bdy_type_2 (turb_model : Int) (u_l u_r v_l : List α) (n_dims : Nat) (gamma : α)
    (rho_l p_bound : α) : Except Fault (RightState α) := do
  let rho_r := rho_l
  let v_r ← storeLoop n_dims 0 (readAt v_l) (newBuffer n_dims)
  let p_r := p_bound
  let v_sq ← sqLoop n_dims (readAt v_r)
  let e_r := (p_r / (gamma - 1.0)) + 0.5 * rho_r * v_sq
  let u_r ← setTurbExtrapolate turb_model u_l u_r n_dims
  pure ⟨u_r, rho_r, v_r, e_r⟩

/-- Branch `bdy_type == 3`: subsonic inflow, characteristic. -/
def inv_bdy_type_3 (sqrt : α → α) (pow : α → α → α) (turb_model : Int)
    (u_r v_l norm bdy_params : List α) (n_dims : Nat) (gamma R_ref : α)
    (rho_l e_l p_l : α) : Except Fault (RightState α) := do
  let p_total_bound ← readAt bdy_params 9
  let T_total_bound ← readAt bdy_params 10
  let n_free_stream := fun i => readAt bdy_params (11 + i)
  let vn_l ← dotLoop n_dims (readAt v_l) (readAt norm)
  let c_l := sqrt (gamma * p_l / rho_l)
  let R_plus := vn_l + 2.0 * c_l / (gamma - 1.0)
  let h_total := gamma * R_ref / (gamma - 1.0) * T_total_bound
  let v_sq ← sqLoop n_dims (readAt v_l)
  let c_total_sq := (gamma - 1.0) * (h_total - (e_l / rho_l + p_l / rho_l) + 0.5 * v_sq)
    + c_l * c_l
  let alpha ← dotLoop n_dims (readAt norm) n_free_stream
  let aa := 1.0 + 0.5 * (gamma - 1.0) * alpha * alpha
  let bb := -(gamma - 1.0) * alpha * R_plus
  let cc := 0.5 * (gamma - 1.0) * R_plus * R_plus - 2.0 * c_total_sq / (gamma - 1.0)
  let dd := bb * bb - 4.0 * aa * cc
  let dd := sqrt (max dd 0.0)
  let V_r := (-bb + dd) / (2.0 * aa)
  let V_r := max V_r 0.0
  let v_sq := V_r * V_r
  let c_r_sq := c_total_sq - 0.5 * (gamma - 1.0) * v_sq
  let Mach_sq := v_sq / c_r_sq
  let Mach_sq := min Mach_sq 1.0
  let v_sq := Mach_sq * c_r_sq
  let V_r := sqrt v_sq
  let c_r_sq := c_total_sq - 0.5 * (gamma - 1.0) * v_sq
  let v_r ← storeLoop n_dims 0
    (fun i => do
      let f ← n_free_stream i
      pure (V_r * f))
    (newBuffer n_dims)
  let T_r := c_r_sq / (gamma * R_ref)
  let p_r := p_total_bound * pow (T_r / T_total_bound) (gamma / (gamma - 1.0))
  let rho_r := p_r / (R_ref * T_r)
  let e_r := (p_r / (gamma - 1.0)) + 0.5 * rho_r * v_sq
  let u_r ← setTurbInf turb_model bdy_params u_r n_dims
  pure ⟨u_r, rho_r, v_r, e_r⟩

/-- Branch `bdy_type == 4`: subsonic outflow, characteristic. -/
def inv_bdy_type_4 (sqrt : α → α) (pow : α → α → α) (turb_model : Int)
    (u_l u_r v_l norm : List α) (n_dims : Nat) (gamma : α)
    (rho_l p_l p_bound : α) : Except Fault (RightState α) := do
  let vn_l ← dotLoop n_dims (readAt v_l) (readAt norm)
  let c_l := sqrt (gamma * p_l / rho_l)
  let R_plus := vn_l + 2.0 * c_l / (gamma - 1.0)
  let s := p_l / pow rho_l gamma
  let p_r := p_bound
  let rho_r := pow (p_r / s) (1.0 / gamma)
  let c_r := sqrt (gamma * p_r / rho_r)
  let vn_r := R_plus - 2.0 * c_r / (gamma - 1.0)
  let (v_r, v_sq) ← forLoop n_dims
    (fun i (st : List α × α) => do
      let a ← readAt v_l i
      let c ← readAt norm i
      let v_r ← writeAt st.1 i (a + (vn_r - vn_l) * c)
      let x ← readAt v_r i
      pure (v_r, st.2 + x * x))
    (newBuffer n_dims, 0)
  let e_r := (p_r / (gamma - 1.0)) + 0.5 * rho_r * v_sq
  let u_r ← setTurbExtrapolate turb_model u_l u_r n_dims
  pure ⟨u_r, rho_r, v_r, e_r⟩

/-- Branch `bdy_type == 5`: supersonic inflow. -/
def inv_bdy_type_5 (u_r bdy_params : List α) (n_dims : Nat) (gamma : α)
    (rho_bound p_bound : α) : Except Fault (RightState α) := do
  let rho_r := rho_bound
  let v_r ← storeLoop n_dims 0 (fun i => readAt bdy_params (1 + i)) (newBuffer n_dims)
  let p_r := p_bound
  let v_sq ← sqLoop n_dims (readAt v_r)
  let e_r := (p_r / (gamma - 1.0)) + 0.5 * rho_r * v_sq
  pure ⟨u_r, rho_r, v_r, e_r⟩

/-- Branch `bdy_type == 6`: supersonic outflow. -/
def inv_bdy_type_6 (u_r v_l : List α) (n_dims : Nat) (rho_l e_l : α) :
    Except Fault (RightState α) := do
  let rho_r := rho_l
  let v_r ← storeLoop n_dims 0 (readAt v_l) (newBuffer n_dims)
  let e_r := e_l
  pure ⟨u_r, rho_r, v_r, e_r⟩

/-- Branch `bdy_type == 7`: slip wall. -/
def inv_bdy_type_7 (u_r v_l v_g norm : List α) (n_dims : Nat) (rho_l e_l : α) :
    Except Fault (RightState α) := do
  let rho_r := rho_l
  let vn_l ← sumLoop n_dims
    (fun i => do
      let a ← readAt v_l i
      let g ← readAt v_g i
      let c ← readAt norm i
      pure ((a - g) * c))
    0
  let v_r ← storeLoop n_dims 0
    (fun i => do
      let a ← readAt v_l i
      let c ← readAt norm i
      pure (a - 2.0 * vn_l * c))
    (newBuffer n_dims)
  let e_r := e_l
  pure ⟨u_r, rho_r, v_r, e_r⟩

/-- Branch `bdy_type == 11`: isothermal no-slip wall, fixed. -/
def inv_bdy_type_11 (turb_model : Int) (u_r v_g : List α) (n_dims : Nat) (gamma R_ref : α)
    (p_l T_wall : α) : Except Fault (RightState α) := do
  let p_r := p_l
  let T_r := T_wall
  let rho_r := p_r / (R_ref * T_r)
  let v_r ← storeLoop n_dims 0 (readAt v_g) (newBuffer n_dims)
  let v_sq ← sqLoop n_dims (readAt v_r)
  let e_r := (p_r / (gamma - 1.0)) + 0.5 * rho_r * v_sq
  let u_r ← setTurbZero turb_model u_r n_dims
  pure ⟨u_r, rho_r, v_r, e_r⟩

/-- Branch `bdy_type == 12`: adiabatic no-slip wall, fixed. -/
def inv_bdy_type_12 (turb_model : Int) (u_r v_g : List α) (n_dims : Nat) (gamma : α)
    (rho_l p_l : α) : Except Fault (RightState α) := do
  let rho_r := rho_l
  let p_r := p_l
  let v_r ← storeLoop n_dims 0 (readAt v_g) (newBuffer n_dims)
  let v_sq ← sqLoop n_dims (readAt v_r)
  let e_r := (p_r / (gamma - 1.0)) + 0.5 * rho_r * v_sq
  let u_r ← setTurbZero turb_model u_r n_dims
  pure ⟨u_r, rho_r, v_r, e_r⟩

/-- Branch `bdy_type == 13`: isothermal no-slip wall, moving. -/
def inv_bdy_type_13 (u_r v_g bdy_params : List α) (n_dims : Nat) (gamma R_ref : α)
    (p_l T_wall : α) : Except Fault (RightState α) := do
  let p_r := p_l
  let T_r := T_wall
  let rho_r := p_r / (R_ref * T_r)
  let v_r ← storeLoop n_dims 0
    (fun i => do
      let w ← readAt bdy_params (5 + i)
      let g ← readAt v_g i
      pure (w + g))
    (newBuffer n_dims)
  let v_sq ← sqLoop n_dims (readAt v_r)
  let e_r := (p_r / (gamma - 1.0)) + 0.5 * rho_r * v_sq
  pure ⟨u_r, rho_r, v_r, e_r⟩

/-- Branch `bdy_type == 14`: adiabatic no-slip wall, moving. -/
def inv_bdy_type_14 (u_r v_g bdy_params : List α) (n_dims : Nat) (gamma : α)
    (rho_l p_l : α) : Except Fault (RightState α) := do
  let rho_r := rho_l
  let p_r := p_l
  let v_r ← storeLoop n_dims 0
    (fun i => do
      let w ← readAt bdy_params (5 + i)
      let g ← readAt v_g i
      pure (w + g))
    (newBuffer n_dims)
  let v_sq ← sqLoop n_dims (readAt v_r)
  let e_r := (p_r / (gamma - 1.0)) + 0.5 * rho_r * v_sq
  pure ⟨u_r, rho_r, v_r, e_r⟩

/-- Branch `bdy_type == 15`: far-field characteristic. -/
def inv_bdy_type_15 (sqrt : α → α) (pow : α → α → α) (turb_model : Int)
    (u_l u_r v_l norm bdy_params : List α) (n_dims : Nat) (gamma : α)
    (rho_l p_l rho_bound p_bound : α) : Except Fault (RightState α) := do
  let v_bound := fun i => readAt bdy_params (1 + i)
  let vn_l ← dotLoop n_dims (readAt v_l) (readAt norm)
  let vn_bound ← dotLoop n_dims v_bound (readAt norm)
  let r_plus := vn_l + 2.0 / (gamma - 1.0) * sqrt (gamma * p_l / rho_l)
  let r_minus := vn_bound - 2.0 / (gamma - 1.0) * sqrt (gamma * p_bound / rho_bound)
  let c_star := 0.25 * (gamma - 1.0) * (r_plus - r_minus)
  let vn_star := 0.5 * (r_plus + r_minus)
  if vn_l < 0 then do
    let one_over_s := pow rho_bound gamma / p_bound
    let v_sq ← sqLoop n_dims v_bound
    let h_free_stream := gamma / (gamma - 1.0) * p_bound / rho_bound + 0.5 * v_sq
    let rho_r := pow (1.0 / gamma * (one_over_s * c_star * c_star)) (1.0 / (gamma - 1.0))
    let v_r ← storeLoop n_dims 0
      (fun i => do
        let c ← readAt norm i
        let b ← v_bound i
        pure (vn_star * c + (b - vn_bound * c)))
      (newBuffer n_dims)
    let p_r := rho_r / gamma * c_star * c_star
    let e_r := rho_r * h_free_stream - p_r
    let u_r ← setTurbInf turb_model bdy_params u_r n_dims
    pure ⟨u_r, rho_r, v_r, e_r⟩
  else do
    let one_over_s := pow rho_l gamma / p_l
    let rho_r := pow (1.0 / gamma * (one_over_s * c_star * c_star)) (1.0 / (gamma - 1.0))
    let v_r ← storeLoop n_dims 0
      (fun i => do
        let c ← readAt norm i
        let a ← readAt v_l i
        pure (vn_star * c + (a - vn_l * c)))
      (newBuffer n_dims)
    let p_r := rho_r / gamma * c_star * c_star
    let v_sq ← sqLoop n_dims (readAt v_r)
    let e_r := (p_r / (gamma - 1.0)) + 0.5 * rho_r * v_sq
    let u_r ← setTurbExtrapolate turb_model u_l u_r n_dims
    pure ⟨u_r, rho_r, v_r, e_r⟩

/-- Branch `bdy_type == 16`: dual-consistent condition. -/
def inv_bdy_type_16 (u_r v_l norm : List α) (n_dims : Nat) (rho_l e_l : α) :
    Except Fault (RightState α) := do
  let rho_r := rho_l
  let vn_l ← dotLoop n_dims (readAt v_l) (readAt norm)
  let v_r ← storeLoop n_dims 0
    (fun i => do
      let a ← readAt v_l i
      let c ← readAt norm i
      pure (a - vn_l * c))
    (newBuffer n_dims)
  let e_r := e_l
  pure ⟨u_r, rho_r, v_r, e_r⟩

/-- The statements under `// Conservative variables on right side`:
`u_r[0] = rho_r; for (i) u_r[i+1] = rho_r*v_r[i]; u_r[n_dims+1] = e_r;`. -/
def writeConservative (r : RightState α) (n_dims : Nat) : Except Fault (List α) := do
  let u_r ← writeAt r.u_r 0 r.rho_r
  let u_r ← storeLoop n_dims 1
    (fun i => do
      let v ← readAt r.v_r i
      pure (r.rho_r * v))
    u_r
  writeAt u_r (n_dims + 1) r.e_r

/-- The content of the locals `rho_r`, `v_r[n_dims]` and `e_r` of
`set_inv_boundary_conditions` at their declaration, before anything is assigned to them: the
function declares them without an initial value. -/
structure UnsetLocals (α : Type) where
  /-- The local `rho_r` as declared. -/
  rho_r : α
  /-- The entries of the local array `v_r` as declared. -/
  v_r : Nat → α
  /-- The local `e_r` as declared. -/
  e_r : α

/-- The chain `if(bdy_type == 1) ... else if(bdy_type == 16) ... else ...` of
`set_inv_boundary_conditions`.  In the last `else` the code prints two messages and assigns
nothing to `rho_r`, `v_r`, `e_r`: the function goes on with the locals as declared, the
content `unset`, and copies them to `u_r`. -/
def inv_dispatch (unset : UnsetLocals α) (sqrt : α → α) (pow : α → α → α) (turb_model : Int)
    (bdy_type : Int)
    (u_l u_r v_l v_g norm bdy_params : List α) (n_dims : Nat) (gamma R_ref : α)
    (rho_l e_l p_l rho_bound p_bound T_wall : α) : Except Fault (RightState α) :=
  if bdy_type = 1 then
    inv_bdy_type_1 turb_model u_r bdy_params n_dims gamma rho_bound p_l
  else if bdy_type = 2 then
    inv_bdy_type_2 turb_model u_l u_r v_l n_dims gamma rho_l p_bound
  else if bdy_type = 3 then
    inv_bdy_type_3 sqrt pow turb_model u_r v_l norm bdy_params n_dims gamma R_ref
      rho_l e_l p_l
  else if bdy_type = 4 then
    inv_bdy_type_4 sqrt pow turb_model u_l u_r v_l norm n_dims gamma rho_l p_l p_bound
  else if bdy_type = 5 then
    inv_bdy_type_5 u_r bdy_params n_dims gamma rho_bound p_bound
  else if bdy_type = 6 then
    inv_bdy_type_6 u_r v_l n_dims rho_l e_l
  else if bdy_type = 7 then
    inv_bdy_type_7 u_r v_l v_g norm n_dims rho_l e_l
  else if bdy_type = 11 then
    inv_bdy_type_11 turb_model u_r v_g n_dims gamma R_ref p_l T_wall
  else if bdy_type = 12 then
    inv_bdy_type_12 turb_model u_r v_g n_dims gamma rho_l p_l
  else if bdy_type = 13 then
    inv_bdy_type_13 u_r v_g bdy_params n_dims gamma R_ref p_l T_wall
  else if bdy_type = 14 then
    inv_bdy_type_14 u_r v_g bdy_params n_dims gamma rho_l p_l
  else if bdy_type = 15 then
    inv_bdy_type_15 sqrt pow turb_model u_l u_r v_l norm bdy_params n_dims gamma
      rho_l p_l rho_bound p_bound
  else if bdy_type = 16 then
    inv_bdy_type_16 u_r v_l norm n_dims rho_l e_l
  else
    pure ⟨u_r, unset.rho_r, (List.range n_dims).map unset.v_r, unset.e_r⟩

/-- The function `bdy_inters::set_inv_boundary_conditions`; the result is the array `u_r`.
The argument `unset` is the content of the locals `rho_r`, `v_r`, `e_r` at their
declaration, which only an unknown `bdy_type` reads. -/
def set_inv_boundary_conditions (unset : UnsetLocals α) (sqrt : α → α) (pow : α → α → α)
    (turb_model : Int) (bdy_type : Int) (u_l u_r v_g norm bdy_params : List α)
    (n_dims : Nat) (gamma R_ref : α) (equation : Int) : Except Fault (List α) := do
  let rho_bound ← readAt bdy_params 0
  let p_bound ← readAt bdy_params 4
  let T_wall ← readAt bdy_params 8
  let u_r ←
    if equation = 0 then do
      let rho_l ← readAt u_l 0
      let v_l ← storeLoop n_dims 0
        (fun i => do
          let m ← readAt u_l (i + 1)
          let d ← readAt u_l 0
          pure (m / d))
        (newBuffer n_dims)
      let e_l ← readAt u_l (n_dims + 1)
      let v_sq ← sqLoop n_dims (readAt v_l)
      let p_l := (gamma - 1.0) * (e_l - 0.5 * rho_l * v_sq)
      let r ← inv_dispatch unset sqrt pow turb_model bdy_type u_l u_r v_l v_g norm
        bdy_params n_dims gamma R_ref rho_l e_l p_l rho_bound p_bound T_wall
      writeConservative r n_dims
    else pure u_r
  if equation = 1 then
    if bdy_type = 50 then writeAt u_r 0 0.0 else pure u_r
  else pure u_r

/-- The loops under `// Velocity gradients` of `set_vis_boundary_conditions`, which fill the
local array `grad_vel[n_dims*n_dims]`. -/
def vis_grad_vel (u_r grad_u : List α) (n_dims n_fields : Nat) : Except Fault (List α) :=
  forLoop n_dims
    (fun j gv =>
      storeLoop n_dims (j * n_dims)
        (fun i => do
          let gm ← readAt grad_u (i * n_fields + (j + 1))
          let gr ← readAt grad_u (i * n_fields + 0)
          let m ← readAt u_r (j + 1)
          let r ← readAt u_r 0
          pure ((gm - gr * m / r) / r))
        gv)
    (newBuffer (n_dims * n_dims))

/-- The loop under `// Energy gradients (grad T = 0)` of `set_vis_boundary_conditions` for
`n_dims == 2`. -/
def vis_energy_2d (inte : α) (u_r grad_vel grad_u : List α) (n_dims n_fields : Nat) :
    Except Fault (List α) :=
  forLoop n_dims
    (fun i g => do
      let gr ← readAt g (i * n_fields + 0)
      let r ← readAt u_r 0
      let m1 ← readAt u_r 1
      let m2 ← readAt u_r 2
      let gv0 ← readAt grad_vel (0 * n_dims + i)
      let gv1 ← readAt grad_vel (1 * n_dims + i)
      writeAt g (i * n_fields + 3)
        (inte * gr + 0.5 * ((m1 * m1 + m2 * m2) / (r * r)) * gr
          + r * ((m1 / r) * gv0 + (m2 / r) * gv1)))
    grad_u

/-- The loop under `// Energy gradients (grad T = 0)` of `set_vis_boundary_conditions` for
`n_dims == 3`. -/
def vis_energy_3d (inte : α) (u_r grad_vel grad_u : List α) (n_dims n_fields : Nat) :
    Except Fault (List α) :=
  forLoop n_dims
    (fun i g => do
      let gr ← readAt g (i * n_fields + 0)
      let r ← readAt u_r 0
      let m1 ← readAt u_r 1
      let m2 ← readAt u_r 2
      let m3 ← readAt u_r 3
      let gv0 ← readAt grad_vel (0 * n_dims + i)
      let gv1 ← readAt grad_vel (1 * n_dims + i)
      let gv2 ← readAt grad_vel (2 * n_dims + i)
      writeAt g (i * n_fields + 4)
        (inte * gr + 0.5 * ((m1 * m1 + m2 * m2 + m3 * m3) / (r * r)) * gr
          + r * ((m1 / r) * gv0 + (m2 / r) * gv1 + (m3 / r) * gv2)))
    grad_u

/-- The function `bdy_inters::set_vis_boundary_conditions`; the result is the array
`grad_u`, whose entry for direction `i` and field `k` is `grad_u[i*n_fields + k]`.  The
local `cpu_flag` is set to 1 at the top of the function, so the `else` branch of
`if(cpu_flag)` is never run and is left out; the arguments `norm`, `loc`, `bdy_params`,
`R_ref`, `time_bound` and `equation` are not used by the body and are left out. -/
def set_vis_boundary_conditions (bdy_type : Int) (u_l u_r grad_u : List α)
    (n_dims n_fields : Nat) (gamma : α) : Except Fault (List α) :=
  if bdy_type = 12 ∨ bdy_type = 14 then do
    let v_sq ← sumLoop n_dims
      (fun i => do
        let m ← readAt u_l (i + 1)
        pure (m * m))
      0
    let e ← readAt u_l (n_dims + 1)
    let d ← readAt u_l 0
    let p_l := (gamma - 1.0) * (e - 0.5 * v_sq / d)
    let p_r := p_l
    let r0 ← readAt u_r 0
    let inte := p_r / ((gamma - 1.0) * r0)
    let grad_vel ← vis_grad_vel u_r grad_u n_dims n_fields
    if n_dims = 2 then
      vis_energy_2d inte u_r grad_vel grad_u n_dims n_fields
    else if n_dims = 3 then
      vis_energy_3d inte u_r grad_vel grad_u n_dims n_fields
    else pure grad_u
  else pure grad_u

/-- The functions of `flux.h` and `inters.h` that `evaluate_boundaryConditions_invFlux`
calls; they are defined outside the sources.  Each is taken to return and to write only the
entries of the array it is given for its result (`f`, `fn`, `u_c`): the field gives the
value it leaves in entry `k`, from the arguments of the call. -/
structure FluxFunctions (α : Type) where
  /-- The call `calc_invf_2d(u, f)`. -/
  calc_invf_2d : List α → List α → Nat → α
  /-- The call `calc_invf_3d(u, f)`. -/
  calc_invf_3d : List α → List α → Nat → α
  /-- The call `calc_alef_2d(u, v, f)`. -/
  calc_alef_2d : List α → List α → List α → Nat → α
  /-- The call `calc_alef_3d(u, v, f)`. -/
  calc_alef_3d : List α → List α → List α → Nat → α
  /-- The call `right_flux(f_l, norm, fn, n_dims, n_fields, gamma)`. -/
  right_flux : List α → List α → List α → Nat → Nat → α → Nat → α
  /-- The call `convective_flux_boundary(f_l, f_r, norm, fn, n_dims, n_fields)`. -/
  convective_flux_boundary : List α → List α → List α → List α → Nat → Nat → Nat → α
  /-- The call `lax_friedrich(u_l, u_r, norm, fn, n_dims, n_fields, lambda, wave_speed)`. -/
  lax_friedrich : List α → List α → List α → List α → Nat → Nat → α → List α → Nat → α
  /-- The call `roe_flux(u_l, u_r, v, norm, fn, n_dims, n_fields, gamma)`. -/
  roe_flux : List α → List α → List α → List α → List α → Nat → Nat → α → Nat → α
  /-- The call `ldg_solution(flux_spec, u_l, u_r, u_c, pen_fact, norm)`. -/
  ldg_solution : Int → List α → List α → List α → α → List α → Nat → α

/-- The array `buf` after a call that leaves the value `value k` in each entry `k`. -/
def refill {α : Type} (buf : List α) (value : Nat → α) : List α :=
  (List.range buf.length).map value

/-- The members of `bdy_inters` and the values of `run_input` that
`evaluate_boundaryConditions_invFlux` reads.  An array of pointers such as `norm_fpts` is
the function giving the value pointed to at each index triple. -/
structure BdyInters (α : Type) where
  /-- The member `n_inters`. -/
  n_inters : Nat
  /-- The member `n_fpts_per_inter`. -/
  n_fpts_per_inter : Nat
  /-- The member `n_dims`. -/
  n_dims : Nat
  /-- The member `n_fields`. -/
  n_fields : Nat
  /-- The member `motion`. -/
  motion : Int
  /-- The member `viscous`. -/
  viscous : Int
  /-- The member `boundary_type`. -/
  boundary_type : List Int
  /-- The member `bdy_params`. -/
  bdy_params : List α
  /-- The value `run_input.gamma`. -/
  gamma : α
  /-- The value `run_input.R_ref`. -/
  R_ref : α
  /-- The value `run_input.equation`. -/
  equation : Int
  /-- The value `run_input.turb_model`. -/
  turb_model : Int
  /-- The value `run_input.riemann_solve_type`. -/
  riemann_solve_type : Int
  /-- The value `run_input.vis_riemann_solve_type`. -/
  vis_riemann_solve_type : Int
  /-- The value `run_input.lambda`. -/
  lambda : α
  /-- The value `run_input.pen_fact`. -/
  pen_fact : α
  /-- The array `run_input.wave_speed`. -/
  wave_speed : List α
  /-- The values `*norm_fpts(j,i,m)`. -/
  norm_fpts : Nat → Nat → Nat → α
  /-- The values `*norm_dyn_fpts(j,i,m)`. -/
  norm_dyn_fpts : Nat → Nat → Nat → α
  /-- The values `*pos_fpts(j,i,m)`. -/
  pos_fpts : Nat → Nat → Nat → α
  /-- The values `*pos_dyn_fpts(j,i,m)`. -/
  pos_dyn_fpts : Nat → Nat → Nat → α
  /-- The values `*grid_vel_fpts(j,i,k)`. -/
  grid_vel_fpts : Nat → Nat → Nat → α
  /-- The values `*disu_fpts_l(j,i,k)`. -/
  disu_fpts_l : Nat → Nat → Nat → α
  /-- The values `*J_dyn_fpts_l(j,i)`. -/
  J_dyn_fpts_l : Nat → Nat → α
  /-- The values `*ndA_dyn_fpts_l(j,i)`. -/
  ndA_dyn_fpts_l : Nat → Nat → α
  /-- The values `*tdA_fpts_l(j,i)`. -/
  tdA_fpts_l : Nat → Nat → α

/-- The arrays that `evaluate_boundaryConditions_invFlux` writes: the member work arrays,
the locals `norm`, `fn`, `u_c`, and the values pointed to by `norm_tconf_fpts_l` and
`delta_disu_fpts_l`, the pointers of different index triples being distinct. -/
structure InvFluxState (α : Type) where
  /-- The member `temp_u_l`. -/
  temp_u_l : List α
  /-- The member `temp_u_r`. -/
  temp_u_r : List α
  /-- The member `temp_v`. -/
  temp_v : List α
  /-- The member `temp_loc`. -/
  temp_loc : List α
  /-- The member `temp_f_l`. -/
  temp_f_l : List α
  /-- The member `temp_f_r`. -/
  temp_f_r : List α
  /-- The local `norm`. -/
  norm : List α
  /-- The local `fn`. -/
  fn : List α
  /-- The local `u_c`. -/
  u_c : List α
  /-- The values `*norm_tconf_fpts_l(j,i,k)`. -/
  norm_tconf_fpts_l : Nat → Nat → Nat → α
  /-- The values `*delta_disu_fpts_l(j,i,k)`. -/
  delta_disu_fpts_l : Nat → Nat → Nat → α

/-- The assignment `*p(j,i,k) = x` through an array of pointers. -/
def storeAt (p : Nat → Nat → Nat → α) (j i k : Nat) (x : α) : Nat → Nat → Nat → α :=
  fun j' i' k' => if j' = j ∧ i' = i ∧ k' = k then x else p j' i' k'

/-- The first part of the body of the loops of `evaluate_boundaryConditions_invFlux`, for
flux point `j` of interface `i`: the normal, the interior state, the grid velocity and the
location are loaded, and `set_inv_boundary_conditions` leaves the exterior state in
`temp_u_r`; `unset` is the content of the locals that this call declares. -/
def invFlux_exterior (unset : UnsetLocals α) (sqrt : α → α) (pow : α → α → α)
    (c : BdyInters α) (i j : Nat) (st : InvFluxState α) : Except Fault (InvFluxState α) := do
  let norm ←
    (if c.motion ≠ 0 then
      forLoop c.n_dims (fun m nrm => writeAt nrm m (c.norm_dyn_fpts j i m)) st.norm
    else
      forLoop c.n_dims (fun m nrm => writeAt nrm m (c.norm_fpts j i m)) st.norm)
  let temp_u_l ←
    forLoop c.n_fields (fun k u => writeAt u k (c.disu_fpts_l j i k)) st.temp_u_l
  let loaded ←
    (if c.motion ≠ 0 then
      (do
        let temp_u_l ← forLoop c.n_fields
          (fun k u => do
            let x ← readAt u k
            writeAt u k (x / c.J_dyn_fpts_l j i))
          temp_u_l
        let temp_v ←
          forLoop c.n_dims (fun k v => writeAt v k (c.grid_vel_fpts j i k)) st.temp_v
        let temp_loc ←
          forLoop c.n_dims (fun m l => writeAt l m (c.pos_dyn_fpts j i m)) st.temp_loc
        pure (temp_u_l, temp_v, temp_loc))
    else
      (do
        let temp_loc ←
          forLoop c.n_dims (fun m l => writeAt l m (c.pos_fpts j i m)) st.temp_loc
        let temp_v := st.temp_v.map (fun _ => 0)
        pure (temp_u_l, temp_v, temp_loc)))
  let bdy_type ← readAt c.boundary_type i
  let temp_u_r ← set_inv_boundary_conditions unset sqrt pow c.turb_model bdy_type loaded.1
    st.temp_u_r loaded.2.1 norm c.bdy_params c.n_dims c.gamma c.R_ref c.equation
  pure { st with
    norm := norm, temp_u_l := loaded.1, temp_v := loaded.2.1, temp_loc := loaded.2.2,
    temp_u_r := temp_u_r }

/-- The statements `if(n_dims==2) ... else if(n_dims==3) ... else FatalError(...)` of
`evaluate_boundaryConditions_invFlux`, which compute the fluxes of both states. -/
def invFlux_fluxes (F : FluxFunctions α) (c : BdyInters α) (st : InvFluxState α) :
    Except Fault (InvFluxState α) :=
  if c.n_dims = 2 then
    let temp_f_l := refill st.temp_f_l (F.calc_invf_2d st.temp_u_l st.temp_f_l)
    let temp_f_r := refill st.temp_f_r (F.calc_invf_2d st.temp_u_r st.temp_f_r)
    if c.motion ≠ 0 then
      pure { st with
        temp_f_l := refill temp_f_l (F.calc_alef_2d st.temp_u_l st.temp_v temp_f_l),
        temp_f_r := refill temp_f_r (F.calc_alef_2d st.temp_u_r st.temp_v temp_f_r) }
    else pure { st with temp_f_l := temp_f_l, temp_f_r := temp_f_r }
  else if c.n_dims = 3 then
    let temp_f_l := refill st.temp_f_l (F.calc_invf_3d st.temp_u_l st.temp_f_l)
    let temp_f_r := refill st.temp_f_r (F.calc_invf_3d st.temp_u_r st.temp_f_r)
    if c.motion ≠ 0 then
      pure { st with
        temp_f_l := refill temp_f_l (F.calc_alef_3d st.temp_u_l st.temp_v temp_f_l),
        temp_f_r := refill temp_f_r (F.calc_alef_3d st.temp_u_r st.temp_v temp_f_r) }
    else pure { st with temp_f_l := temp_f_l, temp_f_r := temp_f_r }
  else .error .fatal

/-- The statements `if (boundary_type(i)==16) ... else ...` of
`evaluate_boundaryConditions_invFlux`, which compute the normal flux `fn`. -/
def invFlux_riemann (F : FluxFunctions α) (c : BdyInters α) (i : Nat)
    (st : InvFluxState α) : Except Fault (InvFluxState α) := do
  let bdy_type ← readAt c.boundary_type i
  if bdy_type = 16 then
    pure { st with
      fn := refill st.fn
        (F.right_flux st.temp_f_l st.norm st.fn c.n_dims c.n_fields c.gamma) }
  else if c.riemann_solve_type = 0 then
    pure { st with
      fn := refill st.fn
        (F.convective_flux_boundary st.temp_f_l st.temp_f_r st.norm st.fn c.n_dims
          c.n_fields) }
  else if c.riemann_solve_type = 1 then
    pure { st with
      fn := refill st.fn
        (F.lax_friedrich st.temp_u_l st.temp_u_r st.norm st.fn c.n_dims c.n_fields
          c.lambda c.wave_speed) }
  else if c.riemann_solve_type = 2 then
    pure { st with
      fn := refill st.fn
        (F.roe_flux st.temp_u_l st.temp_u_r st.temp_v st.norm st.fn c.n_dims c.n_fields
          c.gamma) }
  else .error .fatal

/-- The statements under `Transform back to reference space` of
`evaluate_boundaryConditions_invFlux`. -/
def invFlux_store (c : BdyInters α) (i j : Nat) (st : InvFluxState α) :
    Except Fault (InvFluxState α) :=
  if c.motion ≠ 0 then
    forLoop c.n_fields
      (fun k (s : InvFluxState α) => do
        let f ← readAt s.fn k
        pure { s with
          norm_tconf_fpts_l := storeAt s.norm_tconf_fpts_l j i k
            (f * c.ndA_dyn_fpts_l j i * c.tdA_fpts_l j i) })
      st
  else
    forLoop c.n_fields
      (fun k (s : InvFluxState α) => do
        let f ← readAt s.fn k
        pure { s with
          norm_tconf_fpts_l := storeAt s.norm_tconf_fpts_l j i k (f * c.tdA_fpts_l j i) })
      st

/-- The statements under `if(viscous)` of `evaluate_boundaryConditions_invFlux`. -/
def invFlux_viscous (F : FluxFunctions α) (c : BdyInters α) (i j : Nat)
    (st : InvFluxState α) : Except Fault (InvFluxState α) :=
  if c.viscous ≠ 0 then do
    let bdy_spec ← readAt c.boundary_type i
    let flux_spec : Int := if bdy_spec = 12 ∨ bdy_spec = 14 then 2 else 1
    let u_c ←
      (if c.vis_riemann_solve_type = 0 then
        pure (refill st.u_c
          (F.ldg_solution flux_spec st.temp_u_l st.temp_u_r st.u_c c.pen_fact st.norm))
      else .error .fatal)
    let st := { st with u_c := u_c }
    if c.motion ≠ 0 then
      forLoop c.n_fields
        (fun k (s : InvFluxState α) => do
          let uc ← readAt s.u_c k
          let ul ← readAt s.temp_u_l k
          pure { s with
            delta_disu_fpts_l := storeAt s.delta_disu_fpts_l j i k
              ((uc - ul) * c.J_dyn_fpts_l j i) })
        st
    else
      forLoop c.n_fields
        (fun k (s : InvFluxState α) => do
          let uc ← readAt s.u_c k
          let ul ← readAt s.temp_u_l k
          pure { s with
            delta_disu_fpts_l := storeAt s.delta_disu_fpts_l j i k (uc - ul) })
        st
  else pure st

/-- The body of the loops of `evaluate_boundaryConditions_invFlux`, for flux point `j` of
interface `i`. -/
def invFlux_fpt (unset : UnsetLocals α) (sqrt : α → α) (pow : α → α → α)
    (F : FluxFunctions α) (c : BdyInters α) (i j : Nat) (st : InvFluxState α) :
    Except Fault (InvFluxState α) := do
  let st ← invFlux_exterior unset sqrt pow c i j st
  let st ← invFlux_fluxes F c st
  let st ← invFlux_riemann F c i st
  let st ← invFlux_store c i j st
  invFlux_viscous F c i j st

/-- The function `bdy_inters::evaluate_boundaryConditions_invFlux` as compiled with `_CPU`;
the argument `time_bound` is only passed on to `set_inv_boundary_conditions`, which does
not use it.  The locals `norm`, `fn` and `u_c` are fresh arrays of `n_dims`, `n_fields`
and `n_fields` entries; `unset i j` is the content of the locals that the call of
`set_inv_boundary_conditions` for flux point `j` of interface `i` declares. -/
def evaluate_boundaryConditions_invFlux (unset : Nat → Nat → UnsetLocals α)
    (sqrt : α → α) (pow : α → α → α) (F : FluxFunctions α) (c : BdyInters α)
    (st : InvFluxState α) : Except Fault (InvFluxState α) :=
  forLoop c.n_inters
    (fun i st =>
      forLoop c.n_fpts_per_inter (fun j st => invFlux_fpt (unset i j) sqrt pow F c i j st) st)
    { st with
      norm := newBuffer c.n_dims, fn := newBuffer c.n_fields, u_c := newBuffer c.n_fields }

/-- The function `bdy_inters::set_bdy_params`; the result is the member `bdy_params`.  The
values of `run_input` and the member `viscous` are arguments; `fresh k` is the content of
entry `k` of the storage that `bdy_params.setup(max_bdy_params)` allocates. -/
def set_bdy_params (viscous turb_model : Int) (rho_bound : α) (v_bound : List α)
    (p_bound : α) (v_wall : List α) (T_wall p_total_bound T_total_bound : α)
    (nx_free_stream ny_free_stream nz_free_stream mu_tilde_inf : α) (fresh : Nat → α) :
    Except Fault (List α) := do
  let max_bdy_params := 30
  let bdy_params := (List.range max_bdy_params).map fresh
  let bdy_params ← writeAt bdy_params 0 rho_bound
  let v0 ← readAt v_bound 0
  let bdy_params ← writeAt bdy_params 1 v0
  let v1 ← readAt v_bound 1
  let bdy_params ← writeAt bdy_params 2 v1
  let v2 ← readAt v_bound 2
  let bdy_params ← writeAt bdy_params 3 v2
  let bdy_params ← writeAt bdy_params 4 p_bound
  let bdy_params ←
    (if viscous ≠ 0 then
      (do
        let w0 ← readAt v_wall 0
        let bdy_params ← writeAt bdy_params 5 w0
        let w1 ← readAt v_wall 1
        let bdy_params ← writeAt bdy_params 6 w1
        let w2 ← readAt v_wall 2
        let bdy_params ← writeAt bdy_params 7 w2
        writeAt bdy_params 8 T_wall)
    else pure bdy_params)
  let bdy_params ← writeAt bdy_params 9 p_total_bound
  let bdy_params ← writeAt bdy_params 10 T_total_bound
  let bdy_params ← writeAt bdy_params 11 nx_free_stream
  let bdy_params ← writeAt bdy_params 12 ny_free_stream
  let bdy_params ← writeAt bdy_params 13 nz_free_stream
  if turb_model = 1 then writeAt bdy_params 14 mu_tilde_inf else pure bdy_params

/-! ## The hexahedral element `eles_hexas`

The members `order` and `p_res` and the values read from `run_input` are arguments. -/

/-- Modelled from the spec: the container `array<double>` of `array.h`, which is not among
the sources, in its two-index use.  The specification speaks of it only through its uses
(coordinates "per point", normals "per face", operator matrices): it has the two dimensions
given to `setup` and one cell per index pair; an index outside the dimensions is outside
the storage and ends the operation with `Fault.outOfBounds`. -/
structure Array2 (α : Type) where
  /-- The first dimension given to `setup`. -/
  dim_0 : Nat
  /-- The second dimension given to `setup`. -/
  dim_1 : Nat
  /-- The value held for an index pair. -/
  cell : Nat → Nat → α

namespace Array2

/-- The call `a.setup(d0, d1)`; the fresh cells are written before they are read. -/
def setup (d0 d1 : Nat) : Array2 α := ⟨d0, d1, fun _ _ => 0⟩

/-- The read `a(i, j)`. -/
def get {β : Type} (a : Array2 β) (i j : Nat) : Except Fault β :=
  if i < a.dim_0 ∧ j < a.dim_1 then .ok (a.cell i j) else .error .outOfBounds

/-- The write `a(i, j) = x`. -/
def set {β : Type} (a : Array2 β) (i j : Nat) (x : β) : Except Fault (Array2 β) :=
  if i < a.dim_0 ∧ j < a.dim_1 then
    .ok { a with cell := fun p q => if p = i ∧ q = j then x else a.cell p q }
  else .error .outOfBounds

/-- The three writes `a(0,p) = x; a(1,p) = y; a(2,p) = z;`. -/
def set3 {β : Type} (a : Array2 β) (p : Nat) (x y z : β) : Except Fault (Array2 β) := do
  let a ← a.set 0 p x
  let a ← a.set 1 p y
  a.set 2 p z

end Array2

/-- The number of iterations of a loop `for (j=0; j<(order+1); ++j)`. -/
def nPts1d (order : Int) : Nat := (order + 1).toNat

/-- The integer members that `setup_ele_type_specific` assigns. -/
structure eles_hexas where
  /-- The member `ele_type`. -/
  ele_type : Int
  /-- The member `n_dims`. -/
  n_dims : Int
  /-- The member `n_fields`. -/
  n_fields : Int
  /-- The member `n_inters_per_ele`. -/
  n_inters_per_ele : Int
  /-- The member `n_upts_per_ele`. -/
  n_upts_per_ele : Int
  /-- The member `upts_type`. -/
  upts_type : Int
  /-- The member `n_ppts_per_ele`. -/
  n_ppts_per_ele : Int
  /-- The member `n_peles_per_ele`. -/
  n_peles_per_ele : Int
  /-- The member `n_verts_per_ele`. -/
  n_verts_per_ele : Int
  /-- The member `n_fpts_per_inter`, an array of 6 entries. -/
  n_fpts_per_inter : List Int
  /-- The member `n_fpts_per_ele`. -/
  n_fpts_per_ele : Int
deriving DecidableEq

/-- The function `eles_hexas::setup_ele_type_specific`, as far as the integer members go.
The calls `set_loc_1d_upts()` ... `set_opp_6()` and the `setup` of the temporary arrays,
which stand between and after these assignments, fill arrays and assign none of these
members; they are left out. -/
def setup_ele_type_specific (order p_res equation turb_model upts_type_hexa : Int) :
    Except Fault eles_hexas := do
  let ele_type := 4
  let n_dims := 3
  let n_fields ←
    if equation = 0 then pure 5
    else if equation = 1 then pure 1
    else .error .fatal
  let n_fields := if turb_model = 1 then n_fields + 1 else n_fields
  let n_inters_per_ele := 6
  let n_upts_per_ele := (order + 1) * (order + 1) * (order + 1)
  let upts_type := upts_type_hexa
  let n_ppts_per_ele := p_res * p_res * p_res
  let n_peles_per_ele := (p_res - 1) * (p_res - 1) * (p_res - 1)
  let n_verts_per_ele := 8
  let n_fpts_per_inter : List Int := List.replicate 6 0
  let n_fpts_per_inter ← writeAt n_fpts_per_inter 0 ((order + 1) * (order + 1))
  let n_fpts_per_inter ← writeAt n_fpts_per_inter 1 ((order + 1) * (order + 1))
  let n_fpts_per_inter ← writeAt n_fpts_per_inter 2 ((order + 1) * (order + 1))
  let n_fpts_per_inter ← writeAt n_fpts_per_inter 3 ((order + 1) * (order + 1))
  let n_fpts_per_inter ← writeAt n_fpts_per_inter 4 ((order + 1) * (order + 1))
  let n_fpts_per_inter ← writeAt n_fpts_per_inter 5 ((order + 1) * (order + 1))
  let n_fpts_per_ele := n_inters_per_ele * (order + 1) * (order + 1)
  pure ⟨ele_type, n_dims, n_fields, n_inters_per_ele, n_upts_per_ele, upts_type,
    n_ppts_per_ele, n_peles_per_ele, n_verts_per_ele, n_fpts_per_inter, n_fpts_per_ele⟩

/-- The function `eles_hexas::set_tnorm_fpts`; the result is the member `tnorm_fpts`. -/
def set_tnorm_fpts (n_dims n_fpts_per_ele n_inters_per_ele : Nat) (order : Int) :
    Except Fault (Array2 α) :=
  forLoop n_inters_per_ele
    (fun i a =>
      forLoop (nPts1d order)
        (fun j a =>
          forLoop (nPts1d order)
            (fun k a =>
              let fpt := k + (nPts1d order * j) + (nPts1d order * nPts1d order * i)
              if i = 0 then a.set3 fpt 0.0 0.0 (-1.0)
              else if i = 1 then a.set3 fpt 0.0 (-1.0) 0.0
              else if i = 2 then a.set3 fpt 1.0 0.0 0.0
              else if i = 3 then a.set3 fpt 0.0 1.0 0.0
              else if i = 4 then a.set3 fpt (-1.0) 0.0 0.0
              else if i = 5 then a.set3 fpt 0.0 0.0 1.0
              else pure a)
            a)
        a)
    (Array2.setup n_dims n_fpts_per_ele)

/-- The members that `set_inters_cubpts` fills, one entry per face. -/
structure InterCubpts (α : Type) where
  /-- The member `n_cubpts_per_inter`. -/
  n_cubpts_per_inter : List Nat
  /-- The member `loc_inters_cubpts`. -/
  loc_inters_cubpts : List (Array2 α)
  /-- The member `weight_inters_cubpts`. -/
  weight_inters_cubpts : List (List α)
  /-- The member `tnorm_inters_cubpts`. -/
  tnorm_inters_cubpts : List (Array2 α)

/-- The body of the loop over the cubature points `j` of face `i` in `set_inters_cubpts`,
on the three arrays of that face. -/
def inters_cubpt (get_r get_s get_weight : Nat → α) (i j : Nat)
    (st : Array2 α × List α × Array2 α) : Except Fault (Array2 α × List α × Array2 α) := do
  let loc ←
    if i = 0 then st.1.set3 j (get_r j) (get_s j) (-1.0)
    else if i = 1 then st.1.set3 j (get_r j) (-1.0) (get_s j)
    else if i = 2 then st.1.set3 j 1.0 (get_r j) (get_s j)
    else if i = 3 then st.1.set3 j (get_r j) 1.0 (get_s j)
    else if i = 4 then st.1.set3 j (-1.0) (get_r j) (get_s j)
    else if i = 5 then st.1.set3 j (get_r j) (get_s j) 1.0
    else pure st.1
  let weight ← writeAt st.2.1 j (get_weight j)
  let tnorm ←
    if i = 0 then st.2.2.set3 j 0.0 0.0 (-1.0)
    else if i = 1 then st.2.2.set3 j 0.0 (-1.0) 0.0
    else if i = 2 then st.2.2.set3 j 1.0 0.0 0.0
    else if i = 3 then st.2.2.set3 j 0.0 1.0 0.0
    else if i = 4 then st.2.2.set3 j (-1.0) 0.0 0.0
    else if i = 5 then st.2.2.set3 j 0.0 0.0 1.0
    else pure st.2.2
  pure (loc, weight, tnorm)

/-- The function `eles_hexas::set_inters_cubpts` up to its last statement.  The class
`cubature_quad` is defined outside the sources: its `get_n_pts()` is the argument
`n_cubpts_quad`, and `get_r`, `get_s`, `get_weight` are arguments.  The closing call
`set_opp_inters_cubpts()`, defined outside the sources, is left out. -/
def set_inters_cubpts (n_cubpts_quad : Nat) (get_r get_s get_weight : Nat → α)
    (n_dims n_inters_per_ele : Nat) : Except Fault (InterCubpts α) := do
  let n_cubpts_per_inter ← forLoop n_inters_per_ele
    (fun i l => writeAt l i n_cubpts_quad)
    (List.replicate n_inters_per_ele 0)
  forLoop n_inters_per_ele
    (fun i st => do
      let n ← readAt st.n_cubpts_per_inter i
      let face ← forLoop n_cubpts_quad (inters_cubpt get_r get_s get_weight i)
        (Array2.setup n_dims n, newBuffer n, Array2.setup n_dims n)
      let locs ← writeAt st.loc_inters_cubpts i face.1
      let weights ← writeAt st.weight_inters_cubpts i face.2.1
      let tnorms ← writeAt st.tnorm_inters_cubpts i face.2.2
      pure ⟨st.n_cubpts_per_inter, locs, weights, tnorms⟩)
    ⟨n_cubpts_per_inter, List.replicate n_inters_per_ele (Array2.setup 0 0),
      List.replicate n_inters_per_ele [], List.replicate n_inters_per_ele (Array2.setup 0 0)⟩

/-- The function `eles_hexas::compute_inter_detjac_inters_cubpts`; the library function
`sqrt` is a parameter. -/
def compute_inter_detjac_inters_cubpts (sqrt : α → α) (in_inter : Int) (d_pos : Array2 α) :
    Except Fault α := do
  let xr ← d_pos.get 0 0
  let xs ← d_pos.get 0 1
  let xt ← d_pos.get 0 2
  let yr ← d_pos.get 1 0
  let ys ← d_pos.get 1 1
  let yt ← d_pos.get 1 2
  let zr ← d_pos.get 2 0
  let zs ← d_pos.get 2 1
  let zt ← d_pos.get 2 2
  let uv : (α × α × α) × (α × α × α) :=
    if in_inter = 0 then ((xr, yr, zr), (xs, ys, zs))
    else if in_inter = 1 then ((xr, yr, zr), (xt, yt, zt))
    else if in_inter = 2 then ((xs, ys, zs), (xt, yt, zt))
    else if in_inter = 3 then ((xr, yr, zr), (xt, yt, zt))
    else if in_inter = 4 then ((xs, ys, zs), (xt, yt, zt))
    else if in_inter = 5 then ((xr, yr, zr), (xs, ys, zs))
    else ((0.0, 0.0, 0.0), (0.0, 0.0, 0.0))
  let xu := uv.1.1
  let yu := uv.1.2.1
  let zu := uv.1.2.2
  let xv := uv.2.1
  let yv := uv.2.2.1
  let zv := uv.2.2.2
  let temp0 := yu * zv - zu * yv
  let temp1 := zu * xv - xu * zv
  let temp2 := xu * yv - yu * xv
  pure (sqrt (temp0 * temp0 + temp1 * temp1 + temp2 * temp2))

/-- The chain `if (in_index==0) ... else if (in_index==19) ...` of the 20-node branch of
`eval_nodal_s_basis`, at the point `(x, y, z) = (in_loc(0), in_loc(1), in_loc(2))`.  For an
index outside `0..19` the chain assigns nothing to `nodal_s_basis`. -/
def nodal_s_basis_20 (in_index : Int) (x y z : α) : Option α :=
  if in_index = 0 then
    some ((1.0 / 8.0 * (-1 + x)) * (-1 + y) * (-1 + z) * (x + 2 + y + z))
  else if in_index = 1 then
    some (-(1.0 / 8.0 * (x + 1)) * (-1 + y) * (-1 + z) * (-x + 2 + y + z))
  else if in_index = 2 then
    some (-(1.0 / 8.0 * (x + 1)) * (y + 1) * (-1 + z) * (x - 2 + y - z))
  else if in_index = 3 then
    some ((1.0 / 8.0 * (-1 + x)) * (y + 1) * (-1 + z) * (-x - 2 + y - z))
  else if in_index = 4 then
    some (-(1.0 / 8.0 * (-1 + x)) * (-1 + y) * (z + 1) * (x + 2 + y - z))
  else if in_index = 5 then
    some ((1.0 / 8.0 * (x + 1)) * (-1 + y) * (z + 1) * (-x + 2 + y - z))
  else if in_index = 6 then
    some ((1.0 / 8.0 * (x + 1)) * (y + 1) * (z + 1) * (x - 2 + y + z))
  else if in_index = 7 then
    some (-(1.0 / 8.0 * (-1 + x)) * (y + 1) * (z + 1) * (-x - 2 + y + z))
  else if in_index = 8 then
    some (-(1.0 / 4.0 * (-1 + y)) * (-1 + z) * (x * x - 1))
  else if in_index = 9 then
    some ((1.0 / 4.0 * (x + 1)) * (-1 + z) * (y * y - 1))
  else if in_index = 10 then
    some ((1.0 / 4.0 * (y + 1)) * (-1 + z) * (x * x - 1))
  else if in_index = 11 then
    some (-(1.0 / 4.0 * (-1 + x)) * (-1 + z) * (y * y - 1))
  else if in_index = 12 then
    some (-(1.0 / 4.0 * (-1 + x)) * (-1 + y) * (z * z - 1))
  else if in_index = 13 then
    some ((1.0 / 4.0 * (x + 1)) * (-1 + y) * (z * z - 1))
  else if in_index = 14 then
    some (-(1.0 / 4.0 * (x + 1)) * (y + 1) * (z * z - 1))
  else if in_index = 15 then
    some ((1.0 / 4.0 * (-1 + x)) * (y + 1) * (z * z - 1))
  else if in_index = 16 then
    some ((1.0 / 4.0 * (-1 + y)) * (z + 1) * (x * x - 1))
  else if in_index = 17 then
    some (-(1.0 / 4.0 * (x + 1)) * (z + 1) * (y * y - 1))
  else if in_index = 18 then
    some (-(1.0 / 4.0 * (y + 1)) * (z + 1) * (x * x - 1))
  else if in_index = 19 then
    some ((1.0 / 4.0 * (-1 + x)) * (z + 1) * (y * y - 1))
  else none

/-- The 20 assignments `d_nodal_s_basis(m, 0) = ...;` of the 20-node branch of
`eval_d_nodal_s_basis`, in the order of the source: row `m`, column `0` and the value
assigned, as a function of `(x, y, z) = (in_loc(0), in_loc(1), in_loc(2))`. -/
def d_nodal_s_basis_20_r : List (Nat × Nat × (α → α → α → α)) :=
  [(0, 0, fun (x y z : α) => (1.0 / 8.0 * (z - 1)) * (-1 + y) * (y + z + 2 * x + 1)),
   (1, 0, fun (x y z : α) => -(1.0 / 8.0 * (z - 1)) * (-1 + y) * (y + z - 2 * x + 1)),
   (2, 0, fun (x y z : α) => -(1.0 / 8.0 * (z - 1)) * (y + 1) * (y - z + 2 * x - 1)),
   (3, 0, fun (x y z : α) => (1.0 / 8.0 * (z - 1)) * (y + 1) * (y - z - 2 * x - 1)),
   (4, 0, fun (x y z : α) => -(1.0 / 8.0 * (z + 1)) * (-1 + y) * (y - z + 2 * x + 1)),
   (5, 0, fun (x y z : α) => (1.0 / 8.0 * (z + 1)) * (-1 + y) * (y - z - 2 * x + 1)),
   (6, 0, fun (x y z : α) => (1.0 / 8.0 * (z + 1)) * (y + 1) * (y + z + 2 * x - 1)),
   (7, 0, fun (x y z : α) => -(1.0 / 8.0 * (z + 1)) * (y + 1) * (y + z - 1 - 2 * x)),
   (8, 0, fun (x y z : α) => -(1.0 / 2.0) * x * (z - 1) * (-1 + y)),
   (9, 0, fun (_ y z : α) => (1.0 / 4.0 * (z - 1)) * (y * y - 1)),
   (10, 0, fun (x y z : α) => (1.0 / 2.0) * x * (z - 1) * (y + 1)),
   (11, 0, fun (_ y z : α) => -(1.0 / 4.0 * (z - 1)) * (y * y - 1)),
   (12, 0, fun (_ y z : α) => -(1.0 / 4.0 * (-1 + y)) * (z * z - 1)),
   (13, 0, fun (_ y z : α) => (1.0 / 4.0 * (-1 + y)) * (z * z - 1)),
   (14, 0, fun (_ y z : α) => -(1.0 / 4.0 * (y + 1)) * (z * z - 1)),
   (15, 0, fun (_ y z : α) => (1.0 / 4.0 * (y + 1)) * (z * z - 1)),
   (16, 0, fun (x y z : α) => (1.0 / 2.0) * x * (z + 1) * (-1 + y)),
   (17, 0, fun (_ y z : α) => -(1.0 / 4.0 * (z + 1)) * (y * y - 1)),
   (18, 0, fun (x y z : α) => -(1.0 / 2.0) * x * (z + 1) * (y + 1)),
   (19, 0, fun (_ y z : α) => (1.0 / 4.0 * (z + 1)) * (y * y - 1))]

/-- The 20 assignments `d_nodal_s_basis(m, 1) = ...;` of the 20-node branch of
`eval_d_nodal_s_basis`, in the order of the source: row `m`, column `1` and the value
assigned, as a function of `(x, y, z) = (in_loc(0), in_loc(1), in_loc(2))`. -/
def d_nodal_s_basis_20_s : List (Nat × Nat × (α → α → α → α)) :=
  [(0, 1, fun (x y z : α) => (1.0 / 8.0 * (z - 1)) * (-1 + x) * (x + z + 2 * y + 1)),
   (1, 1, fun (x y z : α) => -(1.0 / 8.0 * (z - 1)) * (x + 1) * (-x + z + 2 * y + 1)),
   (2, 1, fun (x y z : α) => -(1.0 / 8.0 * (z - 1)) * (x + 1) * (x - z + 2 * y - 1)),
   (3, 1, fun (x y z : α) => (1.0 / 8.0 * (z - 1)) * (-1 + x) * (-x - z + 2 * y - 1)),
   (4, 1, fun (x y z : α) => -(1.0 / 8.0 * (z + 1)) * (-1 + x) * (x - z + 2 * y + 1)),
   (5, 1, fun (x y z : α) => (1.0 / 8.0 * (z + 1)) * (x + 1) * (-x - z + 2 * y + 1)),
   (6, 1, fun (x y z : α) => (1.0 / 8.0 * (z + 1)) * (x + 1) * (x + z - 1 + 2 * y)),
   (7, 1, fun (x y z : α) => -(1.0 / 8.0 * (z + 1)) * (-1 + x) * (-x + z - 1 + 2 * y)),
   (8, 1, fun (x _ z : α) => -(1.0 / 4.0 * (z - 1)) * (x * x - 1)),
   (9, 1, fun (x y z : α) => (1.0 / 2.0) * y * (z - 1) * (x + 1)),
   (10, 1, fun (x _ z : α) => (1.0 / 4.0 * (z - 1)) * (x * x - 1)),
   (11, 1, fun (x y z : α) => -(1.0 / 2.0) * y * (z - 1) * (-1 + x)),
   (12, 1, fun (x _ z : α) => -(1.0 / 4.0 * (-1 + x)) * (z * z - 1)),
   (13, 1, fun (x _ z : α) => (1.0 / 4.0 * (x + 1)) * (z * z - 1)),
   (14, 1, fun (x _ z : α) => -(1.0 / 4.0 * (x + 1)) * (z * z - 1)),
   (15, 1, fun (x _ z : α) => (1.0 / 4.0 * (-1 + x)) * (z * z - 1)),
   (16, 1, fun (x _ z : α) => (1.0 / 4.0 * (z + 1)) * (x * x - 1)),
   (17, 1, fun (x y z : α) => -(1.0 / 2.0) * y * (z + 1) * (x + 1)),
   (18, 1, fun (x _ z : α) => -(1.0 / 4.0 * (z + 1)) * (x * x - 1)),
   (19, 1, fun (x y z : α) => (1.0 / 2.0) * y * (z + 1) * (-1 + x))]

/-- The 20 assignments `d_nodal_s_basis(m, 2) = ...;` of the 20-node branch of
`eval_d_nodal_s_basis`, in the order of the source: row `m`, column `2` and the value
assigned, as a function of `(x, y, z) = (in_loc(0), in_loc(1), in_loc(2))`. -/
def d_nodal_s_basis_20_t : List (Nat × Nat × (α → α → α → α)) :=
  [(0, 2, fun (x y z : α) => (1.0 / 8.0 * (-1 + x)) * (-1 + y) * (y + x + 2 * z + 1)),
   (1, 2, fun (x y z : α) => -(1.0 / 8.0 * (y - 1)) * (x + 1) * (-x + y + 2 * z + 1)),
   (2, 2, fun (x y z : α) => -(1.0 / 8.0 * (x + 1)) * (y + 1) * (y + x - 2 * z - 1)),
   (3, 2, fun (x y z : α) => (1.0 / 8.0 * (-1 + x)) * (y + 1) * (y - x - 2 * z - 1)),
   (4, 2, fun (x y z : α) => -(1.0 / 8.0 * (-1 + x)) * (-1 + y) * (y + x - 2 * z + 1)),
   (5, 2, fun (x y z : α) => (1.0 / 8.0 * (x + 1)) * (-1 + y) * (y - x - 2 * z + 1)),
   (6, 2, fun (x y z : α) => (1.0 / 8.0 * (x + 1)) * (y + 1) * (y + x + 2 * z - 1)),
   (7, 2, fun (x y z : α) => -(1.0 / 8.0 * (-1 + x)) * (y + 1) * (y - x + 2 * z - 1)),
   (8, 2, fun (x y _ : α) => -(1.0 / 4.0 * (-1 + y)) * (x * x - 1)),
   (9, 2, fun (x y _ : α) => (1.0 / 4.0 * (x + 1)) * (y * y - 1)),
   (10, 2, fun (x y _ : α) => (1.0 / 4.0 * (y + 1)) * (x * x - 1)),
   (11, 2, fun (x y _ : α) => -(1.0 / 4.0 * (-1 + x)) * (y * y - 1)),
   (12, 2, fun (x y z : α) => -(1.0 / 2.0) * z * (-1 + x) * (-1 + y)),
   (13, 2, fun (x y z : α) => (1.0 / 2.0) * z * (x + 1) * (-1 + y)),
   (14, 2, fun (x y z : α) => -(1.0 / 2.0) * z * (x + 1) * (y + 1)),
   (15, 2, fun (x y z : α) => (1.0 / 2.0) * z * (-1 + x) * (y + 1)),
   (16, 2, fun (x y _ : α) => (1.0 / 4.0 * (-1 + y)) * (x * x - 1)),
   (17, 2, fun (x y _ : α) => -(1.0 / 4.0 * (x + 1)) * (y * y - 1)),
   (18, 2, fun (x y _ : α) => -(1.0 / 4.0 * (y + 1)) * (x * x - 1)),
   (19, 2, fun (x y _ : α) => (1.0 / 4.0 * (-1 + x)) * (y * y - 1))]

/-- The 60 assignments `d_nodal_s_basis(m, c) = ...;` of the 20-node branch of
`eval_d_nodal_s_basis`, in the order of the source. -/
def d_nodal_s_basis_20 : List (Nat × Nat × (α → α → α → α)) :=
  d_nodal_s_basis_20_r ++ d_nodal_s_basis_20_s ++ d_nodal_s_basis_20_t

/-- The function `eles_hexas::eval_nodal_s_basis`.  The helper `is_perfect_cube` is defined
outside the sources and is a parameter; so is the branch it guards, which calls
`eval_lagrange`, `round` and `pow`.  Every expression of the 20-node branch reads the three
coordinates of `in_loc`; they are read before the chain on `in_index` is entered. -/
def eval_nodal_s_basis (is_perfect_cube : Int → Bool)
    (lagrange_basis : Int → List α → Int → Except Fault α)
    (in_index : Int) (in_loc : List α) (in_n_spts : Int) : Except Fault α :=
  if is_perfect_cube in_n_spts then lagrange_basis in_index in_loc in_n_spts
  else if in_n_spts = 20 then do
    let x ← readAt in_loc 0
    let y ← readAt in_loc 1
    let z ← readAt in_loc 2
    match nodal_s_basis_20 in_index x y z with
    | some nodal_s_basis => pure nodal_s_basis
    | none => .error .indeterminate
  else .error .fatal

/-- The function `eles_hexas::eval_d_nodal_s_basis`; the result is the array
`d_nodal_s_basis`, passed by reference.  The helper `is_perfect_cube` is defined outside the
sources and is a parameter; so is the branch it guards.  The 20-node branch runs the 60
assignments of `d_nodal_s_basis_20` in order. -/
def eval_d_nodal_s_basis (is_perfect_cube : Int → Bool)
    (lagrange_basis : Array2 α → List α → Int → Except Fault (Array2 α))
    (d_nodal_s_basis : Array2 α) (in_loc : List α) (in_n_spts : Int) :
    Except Fault (Array2 α) :=
  if is_perfect_cube in_n_spts then lagrange_basis d_nodal_s_basis in_loc in_n_spts
  else if in_n_spts = 20 then
    d_nodal_s_basis_20.foldlM
      (fun d e => do
        let x ← readAt in_loc 0
        let y ← readAt in_loc 1
        let z ← readAt in_loc 2
        d.set e.1 e.2.1 (e.2.2 x y z))
      d_nodal_s_basis
  else .error .fatal

/-- The function `eles_hexas::set_connectivity_plot`; the result is the member
`connectivity_plot`, whose storage is allocated before the call.  The local `count` starts
at 0 and is only incremented. -/
def set_connectivity_plot (p_res : Int) (connectivity_plot : Array2 Int) :
    Except Fault (Array2 Int) := do
  let st ← forLoop (p_res - 1).toNat
    (fun k st =>
      forLoop (p_res - 1).toNat
        (fun l st =>
          forLoop (p_res - 1).toNat
            (fun m (st : Array2 Int × Nat) => do
              let vertex_0 : Int := m + (p_res * l) + (p_res * p_res * k)
              let vertex_1 := vertex_0 + 1
              let vertex_2 := vertex_0 + p_res + 1
              let vertex_3 := vertex_0 + p_res
              let vertex_4 := vertex_0 + p_res * p_res
              let vertex_5 := vertex_4 + 1
              let vertex_6 := vertex_4 + p_res + 1
              let vertex_7 := vertex_4 + p_res
              let a ← st.1.set 0 st.2 vertex_0
              let a ← a.set 1 st.2 vertex_1
              let a ← a.set 2 st.2 vertex_2
              let a ← a.set 3 st.2 vertex_3
              let a ← a.set 4 st.2 vertex_4
              let a ← a.set 5 st.2 vertex_5
              let a ← a.set 6 st.2 vertex_6
              let a ← a.set 7 st.2 vertex_7
              pure (a, st.2 + 1))
            st)
        st)
    (connectivity_plot, 0)
  pure st.1

/-- The function `eles_hexas::set_loc_upts`; the result is the member `loc_upts`. -/
def set_loc_upts (n_dims n_upts_per_ele : Nat) (order : Int) (loc_1d_upts : List α) :
    Except Fault (Array2 α) :=
  forLoop (nPts1d order)
    (fun i a =>
      forLoop (nPts1d order)
        (fun j a =>
          forLoop (nPts1d order)
            (fun k a => do
              let upt := k + nPts1d order * j + nPts1d order * nPts1d order * i
              let x ← readAt loc_1d_upts k
              let a ← a.set 0 upt x
              let y ← readAt loc_1d_upts j
              let a ← a.set 1 upt y
              let z ← readAt loc_1d_upts i
              a.set 2 upt z)
            a)
        a)
    (Array2.setup n_dims n_upts_per_ele)

/-- The function `eles_hexas::set_tloc_fpts`; the result is the member `tloc_fpts`.  The
index `order-k` is not negative inside the loop over `k`. -/
def set_tloc_fpts (n_dims n_fpts_per_ele n_inters_per_ele : Nat) (order : Int)
    (loc_1d_upts : List α) : Except Fault (Array2 α) :=
  forLoop n_inters_per_ele
    (fun i a =>
      forLoop (nPts1d order)
        (fun j a =>
          forLoop (nPts1d order)
            (fun k a =>
              let fpt := k + (nPts1d order * j) + (nPts1d order * nPts1d order * i)
              if i = 0 then do
                let x ← readAt loc_1d_upts (order - k).toNat
                let a ← a.set 0 fpt x
                let y ← readAt loc_1d_upts j
                let a ← a.set 1 fpt y
                a.set 2 fpt (-1.0)
              else if i = 1 then do
                let x ← readAt loc_1d_upts k
                let a ← a.set 0 fpt x
                let a ← a.set 1 fpt (-1.0)
                let z ← readAt loc_1d_upts j
                a.set 2 fpt z
              else if i = 2 then do
                let a ← a.set 0 fpt 1.0
                let y ← readAt loc_1d_upts k
                let a ← a.set 1 fpt y
                let z ← readAt loc_1d_upts j
                a.set 2 fpt z
              else if i = 3 then do
                let x ← readAt loc_1d_upts (order - k).toNat
                let a ← a.set 0 fpt x
                let a ← a.set 1 fpt 1.0
                let z ← readAt loc_1d_upts j
                a.set 2 fpt z
              else if i = 4 then do
                let a ← a.set 0 fpt (-1.0)
                let y ← readAt loc_1d_upts (order - k).toNat
                let a ← a.set 1 fpt y
                let z ← readAt loc_1d_upts j
                a.set 2 fpt z
              else if i = 5 then do
                let x ← readAt loc_1d_upts k
                let a ← a.set 0 fpt x
                let y ← readAt loc_1d_upts j
                let a ← a.set 1 fpt y
                a.set 2 fpt 1.0
              else pure a)
            a)
        a)
    (Array2.setup n_dims n_fpts_per_ele)

/-- The quotient `a/b` of two `int`s: it truncates, and a zero divisor has no result. -/
def intDiv (a b : Int) : Except Fault Int :=
  if b = 0 then .error .indeterminate else .ok (a.tdiv b)

/-- The function `eles_hexas::eval_nodal_basis`.  The function `eval_lagrange`, defined
outside the sources, is an argument. -/
def eval_nodal_basis (eval_lagrange : α → Int → List α → α) (order : Int)
    (loc_1d_upts : List α) (in_index : Int) (in_loc : List α) : Except Fault α := do
  let i ← intDiv in_index ((order + 1) * (order + 1))
  let j ← intDiv (in_index - ((order + 1) * (order + 1) * i)) (order + 1)
  let k := in_index - ((order + 1) * j) - ((order + 1) * (order + 1) * i)
  let x ← readAt in_loc 0
  let y ← readAt in_loc 1
  let z ← readAt in_loc 2
  let nodal_basis := eval_lagrange x k loc_1d_upts * eval_lagrange y j loc_1d_upts
    * eval_lagrange z i loc_1d_upts
  pure nodal_basis

/-- The chain `if(i==0) ... else if(i==5) ...` that `eval_div_vcjh_basis` repeats for each
family of schemes, with the 1-D derivative of the correction function `d_corr(r, side)`
of that family; `div_vcjh_basis` is assigned in no other case. -/
def div_vcjh_face (eval_lagrange : α → Int → List α → α) (d_corr : α → Int → α)
    (order : Int) (loc_1d_upts : List α) (i j k : Int) (loc : List α) : Except Fault α :=
  if i = 0 then do
    let x ← readAt loc 0
    let y ← readAt loc 1
    let z ← readAt loc 2
    pure (-eval_lagrange x (order - k) loc_1d_upts * eval_lagrange y j loc_1d_upts
      * d_corr z 0)
  else if i = 1 then do
    let x ← readAt loc 0
    let z ← readAt loc 2
    let y ← readAt loc 1
    pure (-eval_lagrange x k loc_1d_upts * eval_lagrange z j loc_1d_upts * d_corr y 0)
  else if i = 2 then do
    let y ← readAt loc 1
    let z ← readAt loc 2
    let x ← readAt loc 0
    pure (eval_lagrange y k loc_1d_upts * eval_lagrange z j loc_1d_upts * d_corr x 1)
  else if i = 3 then do
    let x ← readAt loc 0
    let z ← readAt loc 2
    let y ← readAt loc 1
    pure (eval_lagrange x (order - k) loc_1d_upts * eval_lagrange z j loc_1d_upts
      * d_corr y 1)
  else if i = 4 then do
    let y ← readAt loc 1
    let z ← readAt loc 2
    let x ← readAt loc 0
    pure (-eval_lagrange y (order - k) loc_1d_upts * eval_lagrange z j loc_1d_upts
      * d_corr x 0)
  else if i = 5 then do
    let x ← readAt loc 0
    let y ← readAt loc 1
    let z ← readAt loc 2
    pure (eval_lagrange x k loc_1d_upts * eval_lagrange y j loc_1d_upts * d_corr z 1)
  else .error .indeterminate

/-- The function `eles_hexas::eval_div_vcjh_basis`.  The functions `eval_lagrange`,
`eval_d_vcjh_1d`, `eval_d_ofr_1d`, `eval_d_oesfr_1d` and `compute_eta`, defined outside the
sources, and the values `run_input.vcjh_scheme_hexa` and `run_input.eta_hexa` are
arguments.  The local `eta` is read only when `scheme < 5`, where it has been assigned. -/
def eval_div_vcjh_basis (eval_lagrange : α → Int → List α → α)
    (eval_d_vcjh_1d : α → Int → Int → α → α) (eval_d_ofr_1d eval_d_oesfr_1d : α → Int → Int → α)
    (compute_eta : Int → Int → α) (vcjh_scheme_hexa : Int) (eta_hexa : α) (order : Int)
    (n_fpts_per_inter : List Int) (loc_1d_upts : List α) (in_index : Int) (loc : List α) :
    Except Fault α := do
  let scheme := vcjh_scheme_hexa
  let eta := if scheme = 0 then eta_hexa else compute_eta vcjh_scheme_hexa order
  let n0 ← readAt n_fpts_per_inter 0
  let i ← intDiv in_index n0
  let j ← intDiv (in_index - (n0 * i)) (order + 1)
  let k := in_index - (n0 * i) - ((order + 1) * j)
  if scheme < 5 then
    div_vcjh_face eval_lagrange (fun r side => eval_d_vcjh_1d r side order eta) order
      loc_1d_upts i j k loc
  else if scheme = 5 then
    div_vcjh_face eval_lagrange (fun r side => eval_d_ofr_1d r side order) order
      loc_1d_upts i j k loc
  else if scheme = 6 then
    div_vcjh_face eval_lagrange (fun r side => eval_d_oesfr_1d r side order) order
      loc_1d_upts i j k loc
  else .error .indeterminate

/-! ## Restart information of `eles_hexas` -/

/-- The character that ends a line, which `endl` writes and `getline` looks for. -/
def newline : Char := Char.ofNat 10

/-- The test `isspace` of the C locale: the blank and the characters 9 to 13 (tab, line
feed, vertical tab, form feed, carriage return). -/
def isspace (c : Char) : Bool :=
  decide (c.toNat = 32) || (decide (9 ≤ c.toNat) && decide (c.toNat ≤ 13))

/-- The class `std::ifstream` of the C++ standard library as far as `read_restart_info`
uses it: the characters of the file that are not yet extracted, and the state flags
`eofbit` and `failbit`. -/
structure IfStream where
  /-- The characters not yet extracted. -/
  chars : List Char
  /-- The flag `eofbit`: an extraction reached the end of the file. -/
  eofbit : Bool
  /-- The flag `failbit`: an extraction found nothing to extract. -/
  failbit : Bool

/-- The characters before the first line end, and the characters after it if there is
one. -/
def splitLine : List Char → List Char × Option (List Char)
  | [] => ([], none)
  | c :: cs =>
    if c = newline then ([], some cs)
    else ((c :: (splitLine cs).1), (splitLine cs).2)

/-- The call `getline(restart_file, str)` of the C++ standard library.  On a stream whose
`eofbit` or `failbit` is set it sets `failbit` and leaves `str` as it is.  Otherwise `str`
becomes the characters up to the next line end, which is extracted and dropped; when the
file ends first, `eofbit` is set, and `failbit` too if no character was extracted. -/
def getline (f : IfStream) (str : List Char) : IfStream × List Char :=
  if f.eofbit = true ∨ f.failbit = true then ({ f with failbit := true }, str)
  else
    match splitLine f.chars with
    | (line, some rest) => ({ f with chars := rest }, line)
    | (line, none) => ({ chars := [], eofbit := true, failbit := line.isEmpty }, line)

/-- The formatted extraction `restart_file >> x` of a number by the C++ standard library.
On a stream whose `eofbit` or `failbit` is set it sets `failbit` and leaves `x` as it is.
Otherwise the leading white space is skipped; when the file ends there, `eofbit` and
`failbit` are set and `x` is left as it is.  Then the conversion `num_get` of the library
reads the number: it gives the value, or none when the characters are no number, and the
characters it leaves; `x` becomes the value, or 0 when there is none and `failbit` is set,
and `eofbit` is set when the conversion has read up to the end of the file. -/
def extract {β : Type} [Zero β] (num_get : List Char → Option β × List Char) (f : IfStream)
    (x : β) : IfStream × β :=
  if f.eofbit = true ∨ f.failbit = true then ({ f with failbit := true }, x)
  else
    match f.chars.dropWhile isspace with
    | [] => ({ chars := [], eofbit := true, failbit := true }, x)
    | c :: cs =>
      ({ chars := (num_get (c :: cs)).2, eofbit := (num_get (c :: cs)).2.isEmpty,
         failbit := (num_get (c :: cs)).1.isNone },
        (num_get (c :: cs)).1.getD 0)

/-- The members of `eles_hexas` that `read_restart_info` writes: the three restart fields,
and `opp_r`, which the call `set_opp_r()` computes. -/
structure RestartInfo (β ρ : Type) where
  /-- The member `order_rest`. -/
  order_rest : Int
  /-- The member `n_upts_per_ele_rest`. -/
  n_upts_per_ele_rest : Int
  /-- The member `loc_1d_upts_rest`. -/
  loc_1d_upts_rest : List β
  /-- The member `opp_r`. -/
  opp_r : ρ

/-- The loop `while(1) { getline(restart_file,str); if (str=="HEXAS") break;
if (restart_file.eof()) return 0; }` of `read_restart_info`, with the number of iterations
granted: the result is the stream, `str`, and whether the loop ended by `break`. -/
def read_restart_scan : Nat → IfStream → List Char → Except Fault (IfStream × List Char × Bool)
  | 0, _, _ => .error .timeout
  | fuel + 1, restart_file, str =>
    if (getline restart_file str).2 = "HEXAS".toList then
      .ok ((getline restart_file str).1, (getline restart_file str).2, true)
    else if (getline restart_file str).1.eofbit = true then
      .ok ((getline restart_file str).1, (getline restart_file str).2, false)
    else read_restart_scan fuel (getline restart_file str).1 (getline restart_file str).2

/-- The loop `for (int i=0;i<order_rest+1;++i) restart_file >> loc_1d_upts_rest(i);` of
`read_restart_info`. -/
def read_restart_locs {β : Type} [Zero β] (num_get_double : List Char → Option β × List Char)
    (order_rest : Int) (restart_file : IfStream) (loc_1d_upts_rest : List β) :
    Except Fault (IfStream × List β) :=
  forLoop (nPts1d order_rest)
    (fun i (s : IfStream × List β) => do
      let x ← readAt s.2 i
      let buf ← writeAt s.2 i (extract num_get_double s.1 x).2
      pure ((extract num_get_double s.1 x).1, buf))
    (restart_file, loc_1d_upts_rest)

/-- The function `eles_hexas::read_restart_info`; the result is the stream, the members
and the value returned.  The conversions `num_get_int` and `num_get_double` of the library
and the function `set_opp_r`, which is defined outside the sources and taken to write
`opp_r` only, are arguments; `fuel` bounds the iterations of the first loop.  The array
`loc_1d_upts_rest` is set up with `order_rest+1` entries, none for a negative number. -/
def read_restart_info {β ρ : Type} [Zero β] (num_get_int : List Char → Option Int × List Char)
    (num_get_double : List Char → Option β × List Char)
    (set_opp_r : Int → Int → List β → ρ) (fuel : Nat) (restart_file : IfStream)
    (this : RestartInfo β ρ) : Except Fault (IfStream × RestartInfo β ρ × Int) := do
  let found ← read_restart_scan fuel restart_file []
  if found.2.2 = false then pure (found.1, this, 0)
  else
    let f1 := getline found.1 found.2.1
    let r2 := extract num_get_int f1.1 this.order_rest
    let order_rest := r2.2
    let f3 := getline r2.1 f1.2
    let f4 := getline f3.1 f3.2
    let r5 := extract num_get_int f4.1 this.n_upts_per_ele_rest
    let n_upts_per_ele_rest := r5.2
    let f6 := getline r5.1 f4.2
    let f7 := getline f6.1 f6.2
    let locs ← read_restart_locs num_get_double order_rest f7.1
      (newBuffer (nPts1d order_rest))
    pure (locs.1,
      { order_rest := order_rest, n_upts_per_ele_rest := n_upts_per_ele_rest,
        loc_1d_upts_rest := locs.2,
        opp_r := set_opp_r order_rest n_upts_per_ele_rest locs.2 }, 1)

/-- The buffer of an argument as it stands when the method is entered. -/
def Operand.buffer (x : Operand α) (this : CSysVector α) : List α :=
  match x with
  | .self => this.vec_val
  | .other v => v.vec_val

/-- The entry `u[i]` of a vector, for `i` inside the buffer. -/
def CSysVector.entry (u : CSysVector α) (i : Nat) : α := u.vec_val.getD i 0

/-- The buffer of the vector holds exactly `nElm` entries. -/
def CSysVector.Allocated (u : CSysVector α) : Prop := u.vec_val.length = u.nElm

/-- Two vectors agree on the five size fields. -/
def CSysVector.SameShape (w u : CSysVector α) : Prop :=
  w.nElm = u.nElm ∧ w.nElmDomain = u.nElmDomain ∧ w.nBlk = u.nBlk ∧
    w.nBlkDomain = u.nBlkDomain ∧ w.nVar = u.nVar

/-- The buffer of an argument holds exactly as many entries as its `nElm` says. -/
def Operand.Allocated (x : Operand α) : Prop :=
  match x with
  | .self => True
  | .other v => v.Allocated

/-- The entry `x[i]` of an argument as it stands when the method is entered. -/
def Operand.entry (x : Operand α) (this : CSysVector α) (i : Nat) : α :=
  (x.buffer this).getD i 0

/-- The vector `w` has the shape of `u`, a buffer of `nElm` entries, and `g i` as entry `i`. -/
def CSysVector.IsPointwise (w u : CSysVector α) (g : Nat → α) : Prop :=
  w.SameShape u ∧ w.Allocated ∧ ∀ i, i < u.nElm → w.entry i = g i

/-- The vector `w` has the shape of `u` and the entries of `u` everywhere outside the
positions `[p*nVar, p*nVar+nVar)` of block `p`. -/
def CSysVector.FrameOutsideBlock (w u : CSysVector α) (p : Nat) : Prop :=
  w.SameShape u ∧
    ∀ j, (j < p * u.nVar ∨ p * u.nVar + u.nVar ≤ j) → w.vec_val[j]? = u.vec_val[j]?

/-- The operation throws exactly when `mismatch` holds, and returns a result otherwise. -/
def ThrowsIff {β : Type} (r : Except Fault β) (mismatch : Prop) : Prop :=
  (r = .error .thrown ↔ mismatch) ∧ (¬ mismatch → ∃ w, r = .ok w)

/-- The velocity component `u[i+1]/u[0]` of a conservative state. -/
def velocity (u : List α) (i : Nat) : α := u.getD (i + 1) 0 / u.getD 0 0

/-- The sum of `a i * b i` over `i` below `n`. -/
def dotN (n : Nat) (a b : Nat → α) : α := ∑ i ∈ Finset.range n, a i * b i

/-- The array `u` holds density `rho` in entry 0, momentum `rho * v i` in entries
`1 .. n_dims`, total energy `e` in entry `n_dims+1`, and beyond that the entries of `old`. -/
def IsConservative (u : List α) (n_dims : Nat) (rho : α) (v : Nat → α) (e : α)
    (old : List α) : Prop :=
  u.length = old.length ∧ u[0]? = some rho ∧ (∀ i, i < n_dims → u[i + 1]? = some (rho * v i)) ∧
    u[n_dims + 1]? = some e ∧ ∀ k, n_dims + 2 ≤ k → u[k]? = old[k]?

/-- The entry of `grad_u` for direction `d` and field `k`. -/
def gradEntry (grad_u : List α) (n_fields d k : Nat) : α := grad_u.getD (d * n_fields + k) 0

/-- The interior pressure of `set_vis_boundary_conditions`:
`(gamma-1)*(u_l[n_dims+1] - 0.5*(sum of u_l[k+1]^2)/u_l[0])`. -/
def wallPressure (gamma : α) (u_l : List α) (n_dims : Nat) : α :=
  (gamma - 1) * (u_l.getD (n_dims + 1) 0
    - 1 / 2 * (∑ k ∈ Finset.range n_dims, u_l.getD (k + 1) 0 * u_l.getD (k + 1) 0)
      / u_l.getD 0 0)

/-- The internal energy `e_int = p/((gamma-1)*rho)`, with the interior pressure and the
exterior density. -/
def wallInternalEnergy (gamma : α) (u_l u_r : List α) (n_dims : Nat) : α :=
  wallPressure gamma u_l n_dims / ((gamma - 1) * u_r.getD 0 0)

/-- The gradient in direction `d` of velocity component `k`, derived from the momentum and
density gradient entries: `(d(rho v_k)/dd - (d rho/dd) * v_k) / rho`. -/
def velocityGradient (u_r grad_u : List α) (n_fields k d : Nat) : α :=
  (gradEntry grad_u n_fields d (k + 1)
    - gradEntry grad_u n_fields d 0 * u_r.getD (k + 1) 0 / u_r.getD 0 0) / u_r.getD 0 0

/-- The total-energy gradient in direction `d` under a zero temperature gradient:
`e_int*(d rho/dd) + 1/2 |v|^2 (d rho/dd) + rho * sum_k v_k * (d v_k/dd)`. -/
def wallEnergyGradient (gamma : α) (u_l u_r grad_u : List α) (n_dims n_fields d : Nat) : α :=
  wallInternalEnergy gamma u_l u_r n_dims * gradEntry grad_u n_fields d 0
    + 1 / 2 * dotN n_dims (velocity u_r) (velocity u_r) * gradEntry grad_u n_fields d 0
    + u_r.getD 0 0 * ∑ k ∈ Finset.range n_dims,
        velocity u_r k * velocityGradient u_r grad_u n_fields k d

/-- The formula of the specification for the total-energy gradient in direction `d`:
`e_int*(d rho/dd) + 1/2 |v|^2 (d rho/dd) + rho * sum_k (v_k/rho) * (d(rho v_k)/dd)`, the
last factor being the momentum gradient entry of the supplied array. -/
def specEnergyGradient (gamma : α) (u_l u_r grad_u : List α) (n_dims n_fields d : Nat) : α :=
  wallInternalEnergy gamma u_l u_r n_dims * gradEntry grad_u n_fields d 0
    + 1 / 2 * dotN n_dims (velocity u_r) (velocity u_r) * gradEntry grad_u n_fields d 0
    + u_r.getD 0 0 * ∑ k ∈ Finset.range n_dims,
        velocity u_r k / u_r.getD 0 0 * gradEntry grad_u n_fields d (k + 1)

/-- The reference normal that the specification lists for face `f`: face 0: (0,0,-1),
1: (0,-1,0), 2: (1,0,0), 3: (0,1,0), 4: (-1,0,0), 5: (0,0,1). -/
def refNormal (f : Nat) : α × α × α :=
  match f with
  | 0 => (0, 0, -1)
  | 1 => (0, -1, 0)
  | 2 => (1, 0, 0)
  | 3 => (0, 1, 0)
  | 4 => (-1, 0, 0)
  | _ => (0, 0, 1)

/-- The three components stored for point `p` in an array of dimensions `3 x n`. -/
def Array2.column3 {β : Type} (a : Array2 β) (p : Nat) : β × β × β :=
  (a.cell 0 p, a.cell 1 p, a.cell 2 p)

/-- Exactly one component of the triple is `1` or `-1` and the other two are `0`. -/
def IsAxisDirection (v : α × α × α) : Prop :=
  ((v.1 = 1 ∨ v.1 = -1) ∧ v.2.1 = 0 ∧ v.2.2 = 0) ∨
  (v.1 = 0 ∧ (v.2.1 = 1 ∨ v.2.1 = -1) ∧ v.2.2 = 0) ∨
  (v.1 = 0 ∧ v.2.1 = 0 ∧ (v.2.2 = 1 ∨ v.2.2 = -1))

/-- What the loops of `set_tnorm_fpts` have established once the first `c` flux points are
written: the dimensions are those of `setup`, and point `p` below `c` holds the reference
normal of face `p / N^2`. -/
def TnormInv (n_dims n_fpts_per_ele N c : Nat) (a : Array2 α) : Prop :=
  a.dim_0 = n_dims ∧ a.dim_1 = n_fpts_per_ele ∧
    ∀ p, p < c → a.column3 p = refNormal (p / (N * N))

/-- The pressure of a conservative state, `(gamma-1)*(e - 1/2*rho*|v|^2)` with
`v = (rho v)/rho`, as `set_inv_boundary_conditions` computes it for the interior state. -/
def pressure (gamma : α) (u : List α) (n_dims : Nat) : α :=
  (gamma - 1) * (u.getD (n_dims + 1) 0
    - 1 / 2 * u.getD 0 0 * dotN n_dims (velocity u) (velocity u))

/-- The array `u_r` after a statement `if (run_input.turb_model == 1) u_r[n_dims+2] = x;`. -/
def withTurb (turb_model : Int) (u_r : List α) (n_dims : Nat) (x : α) : List α :=
  if turb_model = 1 then u_r.set (n_dims + 2) x else u_r

/-- The component `v_bound[i] = bdy_params[1+i]` of the free-stream velocity. -/
def vBound (bdy_params : List α) (i : Nat) : α := bdy_params.getD (1 + i) 0

/-- The component `v_wall[i] = bdy_params[5+i]` of the wall velocity. -/
def vWall (bdy_params : List α) (i : Nat) : α := bdy_params.getD (5 + i) 0

/-- The total energy `p/(gamma-1) + 1/2*rho*|v|^2` of a state given by pressure, density and
the `n_dims` velocity components. -/
def totalEnergy (gamma p rho : α) (n_dims : Nat) (v : Nat → α) : α :=
  p / (gamma - 1) + 1 / 2 * rho * dotN n_dims v v

/-- The locals of the branch `bdy_type == 3` of `set_inv_boundary_conditions` that the
statements name, with the values the branch gives them. -/
structure CharInflow (α : Type) where
  /-- The discriminant `bb*bb - 4.0*aa*cc`. -/
  disc : α
  /-- The argument `max(dd, 0.0)` of the square root that follows. -/
  radicand : α
  /-- The local `c_total_sq`. -/
  c_total_sq : α
  /-- The local `V_r` after `V_r = max(V_r, 0.0)`. -/
  V_first : α
  /-- The local `V_r` after the Mach cutoff, `V_r = sqrt(v_sq)`. -/
  V_r : α
  /-- The local `c_r_sq` after the Mach cutoff. -/
  c_r_sq : α
  /-- The local `rho_r`. -/
  rho_r : α
  /-- The local `e_r`. -/
  e_r : α

/-- The values of the locals of the branch `bdy_type == 3`, statement by statement, from the
interior state `u_l`, the normal and the boundary parameters (`p_total_bound`,
`T_total_bound` and the free-stream direction in entries 9, 10 and 11 on). -/
def charInflow (sqrt : α → α) (pow : α → α → α) (gamma R_ref : α)
    (u_l norm bdy_params : List α) (n_dims : Nat) : CharInflow α :=
  let rho_l := u_l.getD 0 0
  let e_l := u_l.getD (n_dims + 1) 0
  let p_l := pressure gamma u_l n_dims
  let p_total_bound := bdy_params.getD 9 0
  let T_total_bound := bdy_params.getD 10 0
  let vn_l := dotN n_dims (velocity u_l) (fun k => norm.getD k 0)
  let c_l := sqrt (gamma * p_l / rho_l)
  let R_plus := vn_l + 2.0 * c_l / (gamma - 1.0)
  let h_total := gamma * R_ref / (gamma - 1.0) * T_total_bound
  let v_sq := dotN n_dims (velocity u_l) (velocity u_l)
  let c_total_sq := (gamma - 1.0) * (h_total - (e_l / rho_l + p_l / rho_l) + 0.5 * v_sq)
    + c_l * c_l
  let alpha := dotN n_dims (fun k => norm.getD k 0) (fun k => bdy_params.getD (11 + k) 0)
  let aa := 1.0 + 0.5 * (gamma - 1.0) * alpha * alpha
  let bb := -(gamma - 1.0) * alpha * R_plus
  let cc := 0.5 * (gamma - 1.0) * R_plus * R_plus - 2.0 * c_total_sq / (gamma - 1.0)
  let disc := bb * bb - 4.0 * aa * cc
  let radicand := max disc 0.0
  let dd := sqrt radicand
  let V_first := max ((-bb + dd) / (2.0 * aa)) 0.0
  let v_sq := V_first * V_first
  let c_r_sq := c_total_sq - 0.5 * (gamma - 1.0) * v_sq
  let Mach_sq := min (v_sq / c_r_sq) 1.0
  let v_sq := Mach_sq * c_r_sq
  let V_r := sqrt v_sq
  let c_r_sq := c_total_sq - 0.5 * (gamma - 1.0) * v_sq
  let T_r := c_r_sq / (gamma * R_ref)
  let p_r := p_total_bound * pow (T_r / T_total_bound) (gamma / (gamma - 1.0))
  let rho_r := p_r / (R_ref * T_r)
  let e_r := (p_r / (gamma - 1.0)) + 0.5 * rho_r * v_sq
  ⟨disc, radicand, c_total_sq, V_first, V_r, c_r_sq, rho_r, e_r⟩

/-- The value of `v_sq` after the Mach cutoff of the branch `bdy_type == 3`: with
`c1 = c_t - k*v1` the statements `Mach_sq = min(v1/c1, 1.0); v_sq = Mach_sq*c1;`. -/
def machCutoff (k c_t v1 : α) : α := min (v1 / (c_t - k * v1)) 1.0 * (c_t - k * v1)

/-- The Riemann invariant `R+ = v_l·n + 2 c_l/(gamma-1)` of the interior state, with
`c_l = sqrt(gamma p_l/rho_l)`. -/
def riemannPlus (sqrt : α → α) (gamma : α) (u_l norm : List α) (n_dims : Nat) : α :=
  dotN n_dims (velocity u_l) (fun k => norm.getD k 0)
    + 2 / (gamma - 1) * sqrt (gamma * pressure gamma u_l n_dims / u_l.getD 0 0)

/-- The Riemann invariant `R- = v_bound·n - 2 c_bound/(gamma-1)` of the free stream, with
`c_bound = sqrt(gamma p_bound/rho_bound)`. -/
def riemannMinus (sqrt : α → α) (gamma : α) (norm bdy_params : List α) (n_dims : Nat) : α :=
  dotN n_dims (vBound bdy_params) (fun k => norm.getD k 0)
    - 2 / (gamma - 1) * sqrt (gamma * bdy_params.getD 4 0 / bdy_params.getD 0 0)

/-- The speed of sound `c* = 1/4 (gamma-1) (R+ - R-)`. -/
def cStar (sqrt : α → α) (gamma : α) (u_l norm bdy_params : List α) (n_dims : Nat) : α :=
  1 / 4 * (gamma - 1) * (riemannPlus sqrt gamma u_l norm n_dims
    - riemannMinus sqrt gamma norm bdy_params n_dims)

/-- The normal velocity `v_n* = 1/2 (R+ + R-)`. -/
def vnStar (sqrt : α → α) (gamma : α) (u_l norm bdy_params : List α) (n_dims : Nat) : α :=
  1 / 2 * (riemannPlus sqrt gamma u_l norm n_dims
    + riemannMinus sqrt gamma norm bdy_params n_dims)

/-- The density `(1/gamma * (one_over_s * c*^2))^(1/(gamma-1))` reconstructed from the
inverse entropy `one_over_s` and the speed of sound `c*`. -/
def isentropicDensity (pow : α → α → α) (gamma one_over_s c_star : α) : α :=
  pow (1 / gamma * (one_over_s * c_star * c_star)) (1 / (gamma - 1))

/-- The pressure `rho/gamma * c^2` of a state of density `rho` and speed of sound `c`. -/
def acousticPressure (gamma rho c : α) : α := rho / gamma * c * c

/-- The free-stream total enthalpy `gamma/(gamma-1) * p_bound/rho_bound + 1/2 |v_bound|^2`
of the branch `bdy_type == 15`. -/
def freeStreamEnthalpy (gamma : α) (bdy_params : List α) (n_dims : Nat) : α :=
  gamma / (gamma - 1) * bdy_params.getD 4 0 / bdy_params.getD 0 0
    + 1 / 2 * dotN n_dims (vBound bdy_params) (vBound bdy_params)

/-- The exterior velocity of the branch `bdy_type == 15`: normal component `vn_star`,
tangential part that of the velocity `w`. -/
def farFieldVelocity (vn_star : α) (w : Nat → α) (norm : List α) (n_dims : Nat) (i : Nat) : α :=
  vn_star * norm.getD i 0 + (w i - dotN n_dims w (fun k => norm.getD k 0) * norm.getD i 0)

/-- The cross product of two vectors of three components. -/
def cross3 (a b : α × α × α) : α × α × α :=
  (a.2.1 * b.2.2 - a.2.2 * b.2.1, a.2.2 * b.1 - a.1 * b.2.2, a.1 * b.2.1 - a.2.1 * b.1)

/-- The sum of the squares of three components. -/
def normSq3 (a : α × α × α) : α := a.1 * a.1 + a.2.1 * a.2.1 + a.2.2 * a.2.2

/-- The columns `(u, v)` of the position-gradient tensor that the specification assigns to
a face: `(0, 1)` for faces 0 and 5, `(0, 2)` for faces 1 and 3, `(1, 2)` for faces 2 and 4. -/
def faceTangents (f : Int) : Nat × Nat :=
  if f = 0 ∨ f = 5 then (0, 1) else if f = 1 ∨ f = 3 then (0, 2) else (1, 2)

/-- The value last assigned to cell `(m, c)` by a list of assignments, if there is one. -/
def lastAssigned {β : Type} (table : List (Nat × Nat × β)) (m c : Nat) : Option β :=
  match table with
  | [] => none
  | e :: es =>
    match lastAssigned es m c with
    | some f => some f
    | none => if e.1 = m ∧ e.2.1 = c then some e.2.2 else none

/-- The value that the 20-node branch of `eval_d_nodal_s_basis` assigns to
`d_nodal_s_basis(m, c)` at the point `(x, y, z)`. -/
def dShape20 (m c : Nat) (x y z : α) : α :=
  match lastAssigned (d_nodal_s_basis_20 (α := α)) m c with
  | some f => f x y z
  | none => 0

/-- The shape function of node `m` of the 20-node hexahedron, as `eval_nodal_s_basis`
returns it at the point `(x, y, z)`. -/
def shape20 (m : Nat) (x y z : α) : α := (nodal_s_basis_20 (m : Int) x y z).getD 0

/-- The result `r` is not the fault raised by `FatalError`. -/
def NoFatal {β : Type} (r : Except Fault β) : Prop := r ≠ .error .fatal

/-- A run at rest over one inviscid interface of boundary type `bdy_type` with one flux
point, in `n_dims` dimensions with `n_dims + 2` fields: the normal is the first axis and
the interior state is `ρ = 1`, `v = 0`, `e = 1`. -/
def singleFluxPointRun (n_dims : Nat) (bdy_type riemann_solve_type : Int) : BdyInters ℚ where
  n_inters := 1
  n_fpts_per_inter := 1
  n_dims := n_dims
  n_fields := n_dims + 2
  motion := 0
  viscous := 0
  boundary_type := [bdy_type]
  bdy_params := List.replicate 30 0
  gamma := 7 / 5
  R_ref := 1
  equation := 0
  turb_model := 0
  riemann_solve_type := riemann_solve_type
  vis_riemann_solve_type := 0
  lambda := 0
  pen_fact := 0
  wave_speed := [0, 0, 0]
  norm_fpts := fun _ _ m => if m = 0 then 1 else 0
  norm_dyn_fpts := fun _ _ m => if m = 0 then 1 else 0
  pos_fpts := fun _ _ _ => 0
  pos_dyn_fpts := fun _ _ _ => 0
  grid_vel_fpts := fun _ _ _ => 0
  disu_fpts_l := fun _ _ k => if k = 0 ∨ k = n_dims + 1 then 1 else 0
  J_dyn_fpts_l := fun _ _ => 1
  ndA_dyn_fpts_l := fun _ _ => 1
  tdA_fpts_l := fun _ _ => 1

/-- The work arrays of `singleFluxPointRun`, zero-filled: `n_dims + 2` fields, `n_dims`
components, and `(n_dims + 2) * n_dims` flux entries. -/
def singleFluxPointArrays (n_dims : Nat) : InvFluxState ℚ where
  temp_u_l := List.replicate (n_dims + 2) 0
  temp_u_r := List.replicate (n_dims + 2) 0
  temp_v := List.replicate n_dims 0
  temp_loc := List.replicate n_dims 0
  temp_f_l := List.replicate ((n_dims + 2) * n_dims) 0
  temp_f_r := List.replicate ((n_dims + 2) * n_dims) 0
  norm := []
  fn := []
  u_c := []
  norm_tconf_fpts_l := fun _ _ _ => 0
  delta_disu_fpts_l := fun _ _ _ => 0

/-- The arrays of a run have the sizes that `evaluate_boundaryConditions_invFlux` and
`set_inv_boundary_conditions` index: at least one field, for the Navier-Stokes equations
`n_dims + 2` fields (one more with the turbulence model), a boundary type for every
interface, `bdy_params` with its entries up to 14 and up to `11 + n_dims`, work arrays of
`n_fields` and `n_dims` entries. -/
def InvFluxSizes (c : BdyInters α) (st : InvFluxState α) : Prop :=
  1 ≤ c.n_fields ∧ (c.equation = 0 → c.n_dims + 2 ≤ c.n_fields) ∧
  (c.equation = 0 → c.turb_model = 1 → c.n_dims + 3 ≤ c.n_fields) ∧
  c.n_inters ≤ c.boundary_type.length ∧
  15 ≤ c.bdy_params.length ∧ 11 + c.n_dims ≤ c.bdy_params.length ∧
  c.n_fields ≤ st.temp_u_l.length ∧ c.n_fields ≤ st.temp_u_r.length ∧
  c.n_dims ≤ st.temp_v.length ∧ c.n_dims ≤ st.temp_loc.length

/-- The sizes of `InvFluxSizes` together with those of the locals `norm`, `fn` and `u_c`,
which the function declares with `n_dims`, `n_fields` and `n_fields` entries. -/
def InvFluxFits (c : BdyInters α) (st : InvFluxState α) : Prop :=
  InvFluxSizes c st ∧ c.n_dims ≤ st.norm.length ∧ c.n_fields ≤ st.fn.length ∧
  c.n_fields ≤ st.u_c.length

/-- The size invariant of a vector: `nElm = nBlk*nVar`, `nElmDomain = nBlkDomain*nVar` and
`nElmDomain <= nElm`. -/
def CSysVector.SizeInvariant (v : CSysVector α) : Prop :=
  v.nElm = v.nBlk * v.nVar ∧ v.nElmDomain = v.nBlkDomain * v.nVar ∧ v.nElmDomain ≤ v.nElm

/-- The index `k + N*j + N*N*i` of the point `(i, j, k)` of a tensor-product numbering
with `N` points per direction. -/
def hexIndex (N i j k : Nat) : Nat := k + N * j + N * N * i

/-- The corner `r` (0 to 7) of the plot sub-cell `(k, l, m)`: the vertex
`v0 = m + p_res*l + p_res^2*k`, then `v0+1`, `v0+p_res+1`, `v0+p_res`, and the same four
plus `p_res^2`. -/
def subCellCorner (p_res : Int) (k l m r : Nat) : Int :=
  (m + p_res * l + p_res * p_res * k)
    + (if r = 0 then 0 else if r = 1 then 1 else if r = 2 then p_res + 1
      else if r = 3 then p_res else if r = 4 then p_res * p_res
      else if r = 5 then p_res * p_res + 1 else if r = 6 then p_res * p_res + p_res + 1
      else p_res * p_res + p_res)

/-- The reference coordinates that `set_tloc_fpts` gives the flux point `(j, k)` of face
`f`, with `x` the 1-D abscissas and `N` their number. -/
def refFluxPoint (x : Nat → α) (N f j k : Nat) : α × α × α :=
  match f with
  | 0 => (x (N - 1 - k), x j, -1)
  | 1 => (x k, -1, x j)
  | 2 => (1, x k, x j)
  | 3 => (x (N - 1 - k), 1, x j)
  | 4 => (-1, x (N - 1 - k), x j)
  | _ => (x k, x j, 1)

/-- The component `d` (0, 1 or 2) of a triple. -/
def comp3 {β : Type} (t : β × β × β) (d : Nat) : β :=
  if d = 0 then t.1 else if d = 1 then t.2.1 else t.2.2

/-- The sum of the products of the components of two triples. -/
def dot3 (a b : α × α × α) : α := a.1 * b.1 + a.2.1 * b.2.1 + a.2.2 * b.2.2

/-- How a face of the reference hexahedron lies in it: the axes of its two in-face
coordinates, whether the first in-face index runs backwards (`order-k` for `k`), the axis
normal to the face, and the side of the face on that axis (0 at -1, 1 at +1). -/
structure FaceFrame where
  /-- The axis of the first in-face coordinate. -/
  axisA : Nat
  /-- Whether the first in-face index is `order-k` (true) or `k` (false). -/
  reversed : Bool
  /-- The axis of the second in-face coordinate, of index `j`. -/
  axisB : Nat
  /-- The axis normal to the face. -/
  axisN : Nat
  /-- The side of the face on its normal axis: 0 at -1, 1 at +1. -/
  side : Int

/-- The frame of each face 0 to 5 of the reference hexahedron. -/
def faceFrame (f : Nat) : FaceFrame :=
  match f with
  | 0 => ⟨0, true, 1, 2, 0⟩
  | 1 => ⟨0, false, 2, 1, 0⟩
  | 2 => ⟨1, false, 2, 0, 1⟩
  | 3 => ⟨0, true, 2, 1, 1⟩
  | 4 => ⟨1, true, 2, 0, 0⟩
  | _ => ⟨0, false, 1, 2, 1⟩

/-- The sign of a side: -1 for side 0, +1 otherwise. -/
def sideSign (side : Int) : α := if side = 0 then -1 else 1

/-- The first in-face index of the flux point `(j, k)`: `order-k` on a face whose first
index runs backwards, `k` otherwise. -/
def firstIndex (fr : FaceFrame) (order : Int) (k : Nat) : Int :=
  if fr.reversed then order - k else k

/-- The term that `eval_div_vcjh_basis` forms for the flux point `(j, k)` of face `f`, as
the frame of the face gives it: the sign of the side, the Lagrange polynomials of the two
in-face indices at the in-face coordinates of `loc`, and the derivative `d_corr` of the
correction function at its normal coordinate, on the side of the face. -/
def faceTerm (eval_lagrange : α → Int → List α → α) (d_corr : α → Int → α) (order : Int)
    (loc_1d_upts loc : List α) (f j k : Nat) : α :=
  sideSign (faceFrame f).side
    * eval_lagrange (loc.getD (faceFrame f).axisA 0) (firstIndex (faceFrame f) order k)
        loc_1d_upts
    * eval_lagrange (loc.getD (faceFrame f).axisB 0) j loc_1d_upts
    * d_corr (loc.getD (faceFrame f).axisN 0) (faceFrame f).side

section Loops

variable {β σ : Type}

theorem readAt_of_getElem? {buf : List β} {i : Nat} {x : β} (h : buf[i]? = some x) :
    readAt buf i = .ok x := by
  simp [readAt, h]

theorem readAt_of_lt {buf : List β} {i : Nat} (h : i < buf.length) :
    readAt buf i = .ok buf[i] := by
  simp [readAt, List.getElem?_eq_getElem h]

theorem readAt_of_le {buf : List β} {i : Nat} (h : buf.length ≤ i) :
    readAt buf i = .error .outOfBounds := by
  simp [readAt, List.getElem?_eq_none h]

theorem writeAt_of_lt {buf : List β} {i : Nat} (x : β) (h : i < buf.length) :
    writeAt buf i x = .ok (buf.set i x) := by
  simp [writeAt, h]

theorem writeAt_of_le {buf : List β} {i : Nat} (x : β) (h : buf.length ≤ i) :
    writeAt buf i x = .error .outOfBounds := by
  simp [writeAt, Nat.not_lt.mpr h]

theorem getElem?_eq_some_getD {buf : List β} {i : Nat} (d : β) (h : i < buf.length) :
    buf[i]? = some (buf.getD i d) := by
  rw [List.getD_eq_getElem buf d h, List.getElem?_eq_getElem h]

/-- Invariant rule for `loopFrom`: an invariant that every iteration re-establishes
without fault holds after the last iteration, and the loop returns. -/
theorem loopFrom_inv (body : Nat → σ → Except Fault σ) (P : Nat → σ → Prop) :
    ∀ (k i : Nat) (s : σ), P i s →
      (∀ j t, i ≤ j → j < i + k → P j t → ∃ t', body j t = .ok t' ∧ P (j + 1) t') →
      ∃ s', loopFrom body k i s = .ok s' ∧ P (i + k) s' := by
  intro k
  induction k with
  | zero =>
    intro i s h0 _
    exact ⟨s, rfl, by simpa using h0⟩
  | succ k ih =>
    intro i s h0 hstep
    obtain ⟨t', hb, hP⟩ := hstep i s (Nat.le_refl i) (by omega) h0
    obtain ⟨s', hl, hP'⟩ := ih (i + 1) t' hP
      (fun j t hij hjk hPj => hstep j t (by omega) (by omega) hPj)
    refine ⟨s', ?_, ?_⟩
    · simp [loopFrom, hb, hl]
    · have : i + (k + 1) = i + 1 + k := by omega
      rw [this]
      exact hP'

/-- Invariant rule for `forLoop`. -/
theorem forLoop_inv (n : Nat) (body : Nat → σ → Except Fault σ) (P : Nat → σ → Prop) (s : σ)
    (h0 : P 0 s)
    (hstep : ∀ j t, j < n → P j t → ∃ t', body j t = .ok t' ∧ P (j + 1) t') :
    ∃ s', forLoop n body s = .ok s' ∧ P n s' := by
  obtain ⟨s', hl, hP⟩ := loopFrom_inv body P n 0 s h0
    (fun j t _ hj hPj => hstep j t (by omega) hPj)
  exact ⟨s', hl, by simpa using hP⟩

/-- A loop whose iteration `i` stores `f i` at position `idx i`, the positions being
distinct and inside the buffer: it returns, the positions hold the stored values and
every other entry is the one of the initial buffer. -/
theorem forLoop_write (n L : Nat) (idx : Nat → Nat) (f : Nat → β)
    (body : Nat → List β → Except Fault (List β)) (buf0 : List β)
    (hlen : buf0.length = L)
    (hidx : ∀ i, i < n → idx i < L)
    (hinj : ∀ i j, i < n → j < n → idx i = idx j → i = j)
    (hbody : ∀ i buf, i < n → buf.length = L → buf[idx i]? = buf0[idx i]? →
      body i buf = .ok (buf.set (idx i) (f i))) :
    ∃ buf', forLoop n body buf0 = .ok buf' ∧ buf'.length = L ∧
      (∀ i, i < n → buf'[idx i]? = some (f i)) ∧
      (∀ j, (∀ i, i < n → idx i ≠ j) → buf'[j]? = buf0[j]?) := by
  have key := forLoop_inv n body
    (fun m buf => m ≤ n ∧ buf.length = L ∧ (∀ i, i < m → buf[idx i]? = some (f i)) ∧
      (∀ j, (∀ i, i < m → idx i ≠ j) → buf[j]? = buf0[j]?)) buf0
    ⟨Nat.zero_le n, hlen, fun i hi => absurd hi (Nat.not_lt_zero i), fun j _ => rfl⟩
    (by
      intro m buf hm ⟨_, hl, hset, hrest⟩
      have hsame : buf[idx m]? = buf0[idx m]? :=
        hrest (idx m) (fun i hi heq => by
          have := hinj i m (by omega) hm heq
          omega)
      refine ⟨buf.set (idx m) (f m), hbody m buf hm hl hsame, hm, ?_, ?_, ?_⟩
      · rw [List.length_set]; exact hl
      · intro i hi
        by_cases him : i = m
        · subst him
          rw [List.getElem?_set_self (by rw [hl]; exact hidx i hm)]
        · have hne : idx m ≠ idx i := fun heq => him (hinj i m (by omega) hm heq.symm)
          rw [List.getElem?_set_ne hne]
          exact hset i (by omega)
      · intro j hj
        have hne : idx m ≠ j := hj m (Nat.lt_succ_self m)
        rw [List.getElem?_set_ne hne]
        exact hrest j (fun i hi => hj i (by omega)))
  obtain ⟨buf', hrun, _, h1, h2, h3⟩ := key
  exact ⟨buf', hrun, h1, h2, h3⟩

/-- A loop whose iteration `i` stores `f i` at position `i`, over a whole buffer. -/
theorem forLoop_fill (L : Nat) (f : Nat → β)
    (body : Nat → List β → Except Fault (List β)) (buf0 : List β)
    (hlen : buf0.length = L)
    (hbody : ∀ i buf, i < L → buf.length = L → buf[i]? = buf0[i]? →
      body i buf = .ok (buf.set i (f i))) :
    forLoop L body buf0 = .ok ((List.range L).map f) := by
  obtain ⟨buf', hrun, hl, hv, _⟩ := forLoop_write L L (fun i => i) f body buf0 hlen
    (fun i hi => hi) (fun i j _ _ h => h) hbody
  rw [hrun]
  congr 1
  apply List.ext_getElem?
  intro j
  by_cases hj : j < L
  · rw [hv j hj, List.getElem?_map, List.getElem?_range hj]
    rfl
  · rw [List.getElem?_eq_none (by omega), List.getElem?_eq_none (by simp; omega)]

theorem getElem?_range_map (n : Nat) (g : Nat → β) (i : Nat) (hi : i < n) :
    ((List.range n).map g)[i]? = some (g i) := by
  rw [List.getElem?_map, List.getElem?_range hi]
  rfl

theorem getD_range_map (n : Nat) (g : Nat → β) (d : β) (i : Nat) (hi : i < n) :
    ((List.range n).map g).getD i d = g i := by
  rw [List.getD_eq_getElem?_getD, getElem?_range_map n g i hi]
  rfl

theorem range_map_getD (l : List β) (n : Nat) (d : β) (h : l.length = n) :
    (List.range n).map (fun i => l.getD i d) = l := by
  apply List.ext_getElem?
  intro j
  by_cases hj : j < n
  · rw [getElem?_range_map n _ j hj]
    exact (getElem?_eq_some_getD d (h ▸ hj)).symm
  · rw [List.getElem?_eq_none (by simp; omega), List.getElem?_eq_none (by omega)]

end Loops

/-! ## Element-wise operations of the vector -/

section VectorLemmas

variable {α : Type} [LinearOrderedField α]

theorem Operand.read_eq (x : Operand α) (this : CSysVector α) (buf : List α) (i : Nat)
    (hx : i < (x.buffer this).length) (hsame : buf[i]? = this.vec_val[i]?) :
    x.read buf i = .ok ((x.buffer this).getD i 0) := by
  cases x with
  | self =>
    simp only [Operand.read, Operand.buffer] at *
    exact readAt_of_getElem? (hsame.trans (getElem?_eq_some_getD 0 hx))
  | other v =>
    simp only [Operand.read, Operand.buffer] at *
    exact readAt_of_getElem? (getElem?_eq_some_getD 0 hx)

theorem CSysVector.copy_eq (u : CSysVector α) (hu : u.Allocated) :
    CSysVector.CSysVector_copy u = .ok u := by
  unfold CSysVector.Allocated at hu
  have h := forLoop_fill u.nElm (fun i => u.vec_val.getD i 0)
    (fun i buf =>
        match readAt u.vec_val i with
        | .ok x => writeAt buf i x
        | .error e => .error e) (newBuffer u.nElm) (by simp [newBuffer])
    (by
      intro i buf hi hl _
      dsimp only
      rw [readAt_of_getElem? (getElem?_eq_some_getD 0 (hu ▸ hi))]
      exact writeAt_of_lt _ (hl ▸ hi))
  simp only [CSysVector.CSysVector_copy, h, range_map_getD u.vec_val u.nElm 0 hu]

theorem CSysVector.zipLoop_eq (this : CSysVector α) (x : Operand α) (f : α → α → α)
    (ht : this.Allocated) (hx : (x.buffer this).length = this.nElm) :
    this.zipLoop x f = .ok { this with
      vec_val := (List.range this.nElm).map
        (fun i => f (this.entry i) ((x.buffer this).getD i 0)) } := by
  unfold CSysVector.Allocated at ht
  have h := forLoop_fill this.nElm (fun i => f (this.entry i) ((x.buffer this).getD i 0))
    (fun i buf =>
        match readAt buf i with
        | .ok t =>
          match x.read buf i with
          | .ok xi => writeAt buf i (f t xi)
          | .error e => .error e
        | .error e => .error e) this.vec_val ht
    (by
      intro i buf hi hl hsame
      dsimp only
      rw [readAt_of_getElem? (hsame.trans (getElem?_eq_some_getD 0 (ht ▸ hi)))]
      simp only [Operand.read_eq x this buf i (hx ▸ hi) hsame]
      exact writeAt_of_lt _ (hl ▸ hi))
  simp only [CSysVector.zipLoop, h]

theorem CSysVector.mapLoop_eq (this : CSysVector α) (f : α → α) (ht : this.Allocated) :
    this.mapLoop f = .ok { this with
      vec_val := (List.range this.nElm).map (fun i => f (this.entry i)) } := by
  unfold CSysVector.Allocated at ht
  have h := forLoop_fill this.nElm (fun i => f (this.entry i))
    (fun i buf =>
        match readAt buf i with
        | .ok t => writeAt buf i (f t)
        | .error e => .error e) this.vec_val ht
    (by
      intro i buf hi hl hsame
      dsimp only
      rw [readAt_of_getElem? (hsame.trans (getElem?_eq_some_getD 0 (ht ▸ hi)))]
      exact writeAt_of_lt _ (hl ▸ hi))
  simp only [CSysVector.mapLoop, h]

theorem CSysVector.Equals_AX_eq (this : CSysVector α) (a : α) (x : Operand α)
    (ht : this.Allocated) (hx : (x.buffer this).length = this.nElm)
    (hn : this.nElm = x.nElm this) :
    this.Equals_AX a x = .ok { this with
      vec_val := (List.range this.nElm).map (fun i => a * (x.buffer this).getD i 0) } := by
  unfold CSysVector.Allocated at ht
  have h := forLoop_fill this.nElm (fun i => a * (x.buffer this).getD i 0)
    (fun i buf =>
        match x.read buf i with
        | .ok xi => writeAt buf i (a * xi)
        | .error e => .error e) this.vec_val ht
    (by
      intro i buf hi hl hsame
      dsimp only
      simp only [Operand.read_eq x this buf i (hx ▸ hi) hsame]
      exact writeAt_of_lt _ (hl ▸ hi))
  have hc : ¬ (this.nElm ≠ x.nElm this) := fun h1 => h1 hn
  simp only [CSysVector.Equals_AX, hc, if_false, h]

theorem CSysVector.Equals_AX_Plus_BY_eq (this : CSysVector α) (a b : α) (x y : Operand α)
    (ht : this.Allocated) (hx : (x.buffer this).length = this.nElm)
    (hy : (y.buffer this).length = this.nElm)
    (hnx : this.nElm = x.nElm this) (hny : this.nElm = y.nElm this) :
    this.Equals_AX_Plus_BY a x b y = .ok { this with
      vec_val := (List.range this.nElm).map
        (fun i => a * (x.buffer this).getD i 0 + b * (y.buffer this).getD i 0) } := by
  unfold CSysVector.Allocated at ht
  have h := forLoop_fill this.nElm
    (fun i => a * (x.buffer this).getD i 0 + b * (y.buffer this).getD i 0)
    (fun i buf =>
        match x.read buf i with
        | .ok xi =>
          match y.read buf i with
          | .ok yi => writeAt buf i (a * xi + b * yi)
          | .error e => .error e
        | .error e => .error e) this.vec_val ht
    (by
      intro i buf hi hl hsame
      dsimp only
      simp only [Operand.read_eq x this buf i (hx ▸ hi) hsame,
        Operand.read_eq y this buf i (hy ▸ hi) hsame]
      exact writeAt_of_lt _ (hl ▸ hi))
  have hc : ¬ (this.nElm ≠ x.nElm this ∨ this.nElm ≠ y.nElm this) := by
    rintro (h1 | h1)
    · exact h1 hnx
    · exact h1 hny
  simp only [CSysVector.Equals_AX_Plus_BY, h, hc, if_false]

end VectorLemmas

/-! ## The inner product and the norm -/

section DotProd

variable {α : Type} [LinearOrderedField α]

theorem dotProd_eq (u v : CSysVector α) (hn : u.nElm = v.nElm)
    (hu : u.nElmDomain ≤ u.vec_val.length) (hv : u.nElmDomain ≤ v.vec_val.length) :
    dotProd u v = .ok (∑ i ∈ Finset.range u.nElmDomain, u.entry i * v.entry i) := by
  have key := forLoop_inv u.nElmDomain
    (fun i loc_prod =>
        match readAt u.vec_val i with
        | .ok ui =>
          match readAt v.vec_val i with
          | .ok vi => .ok (loc_prod + ui * vi)
          | .error e => .error e
        | .error e => .error e)
    (fun m acc => acc = ∑ i ∈ Finset.range m, u.entry i * v.entry i) (0 : α)
    (by simp)
    (by
      intro j acc hj hacc
      refine ⟨acc + u.entry j * v.entry j, ?_, ?_⟩
      · dsimp only
        rw [readAt_of_getElem? (getElem?_eq_some_getD 0 (show j < u.vec_val.length by omega))]
        dsimp only
        rw [readAt_of_getElem? (getElem?_eq_some_getD 0 (show j < v.vec_val.length by omega))]
        rfl
      · dsimp only
        rw [Finset.sum_range_succ, hacc])
  obtain ⟨r, hrun, hr⟩ := key
  have hc : ¬ (u.nElm ≠ v.nElm) := fun h1 => h1 hn
  simp only [dotProd, hc, if_false, hrun, hr]

theorem sum_sq_nonneg (u : CSysVector α) (n : Nat) :
    0 ≤ ∑ i ∈ Finset.range n, u.entry i * u.entry i :=
  Finset.sum_nonneg (fun i _ => mul_self_nonneg (u.entry i))

theorem norm_eq (sqrt : α → α) (u : CSysVector α) (hu : u.nElmDomain ≤ u.vec_val.length) :
    u.norm sqrt = .ok (sqrt (∑ i ∈ Finset.range u.nElmDomain, u.entry i * u.entry i)) := by
  have hneg : ¬ (∑ i ∈ Finset.range u.nElmDomain, u.entry i * u.entry i < 0) :=
    not_lt.mpr (sum_sq_nonneg u u.nElmDomain)
  simp only [CSysVector.norm, dotProd_eq u u rfl hu hu, hneg, if_false]

theorem blk_array_three (a b c : α) :
    CSysVector.CSysVector_blk_array 3 3 1 [a, b, c] = .ok ⟨3, 3, 3, 3, 1, [a, b, c]⟩ := by
  rfl

end DotProd

/-! ## Closed forms of the in-place operations -/

section ClosedForms

variable {α : Type} [LinearOrderedField α]

theorem throwsIff_of {β : Type} (r : Except Fault β) (mismatch : Prop)
    (h1 : mismatch → r = .error .thrown) (h2 : ¬ mismatch → ∃ w, r = .ok w) :
    ThrowsIff r mismatch := by
  refine ⟨⟨fun hr => ?_, h1⟩, h2⟩
  by_contra hm
  obtain ⟨w, hw⟩ := h2 hm
  rw [hw] at hr
  cases hr

theorem Operand.buffer_length {β : Type} (x : Operand β) (this : CSysVector β)
    (ht : this.Allocated) (hx : x.Allocated) (hn : this.nElm = x.nElm this) :
    (x.buffer this).length = this.nElm := by
  cases x with
  | self => exact ht
  | other v =>
    simp only [Operand.buffer, Operand.nElm, Operand.Allocated, CSysVector.Allocated] at *
    omega

theorem CSysVector.isPointwise_mk (u : CSysVector α) (g : Nat → α) :
    CSysVector.IsPointwise { u with vec_val := (List.range u.nElm).map g } u g := by
  refine ⟨⟨rfl, rfl, rfl, rfl, rfl⟩, ?_, ?_⟩
  · simp [CSysVector.Allocated]
  · intro i hi
    exact getD_range_map u.nElm g 0 i hi

theorem CSysVector.ext_of_isPointwise (w1 w2 u : CSysVector α) (g1 g2 : Nat → α)
    (h1 : w1.IsPointwise u g1) (h2 : w2.IsPointwise u g2)
    (hg : ∀ i, i < u.nElm → g1 i = g2 i) : w1 = w2 := by
  obtain ⟨⟨a1, a2, a3, a4, a5⟩, l1, e1⟩ := h1
  obtain ⟨⟨b1, b2, b3, b4, b5⟩, l2, e2⟩ := h2
  unfold CSysVector.Allocated at l1 l2
  have hv : w1.vec_val = w2.vec_val := by
    apply List.ext_getElem?
    intro j
    by_cases hj : j < u.nElm
    · have x1 := e1 j hj
      have x2 := e2 j hj
      unfold CSysVector.entry at x1 x2
      rw [getElem?_eq_some_getD 0 (show j < w1.vec_val.length by omega),
        getElem?_eq_some_getD 0 (show j < w2.vec_val.length by omega), x1, x2, hg j hj]
    · rw [List.getElem?_eq_none (by omega), List.getElem?_eq_none (by omega)]
  cases w1
  cases w2
  simp only at a1 a2 a3 a4 a5 b1 b2 b3 b4 b5 hv
  subst hv
  simp only [CSysVector.mk.injEq, and_true]
  omega

theorem CSysVector.operator_add_assign_eq (this : CSysVector α) (x : Operand α)
    (ht : this.Allocated) (hx : x.Allocated) (hn : this.nElm = x.nElm this) :
    this.operator_add_assign x = .ok { this with
      vec_val := (List.range this.nElm).map (fun i => this.entry i + x.entry this i) } := by
  have hc : ¬ (this.nElm ≠ x.nElm this) := fun h1 => h1 hn
  simp only [CSysVector.operator_add_assign, hc, if_false,
    CSysVector.zipLoop_eq this x _ ht (x.buffer_length this ht hx hn), Operand.entry]

theorem CSysVector.operator_sub_assign_eq (this : CSysVector α) (x : Operand α)
    (ht : this.Allocated) (hx : x.Allocated) (hn : this.nElm = x.nElm this) :
    this.operator_sub_assign x = .ok { this with
      vec_val := (List.range this.nElm).map (fun i => this.entry i - x.entry this i) } := by
  have hc : ¬ (this.nElm ≠ x.nElm this) := fun h1 => h1 hn
  simp only [CSysVector.operator_sub_assign, hc, if_false,
    CSysVector.zipLoop_eq this x _ ht (x.buffer_length this ht hx hn), Operand.entry]

theorem CSysVector.Plus_AX_eq (this : CSysVector α) (a : α) (x : Operand α)
    (ht : this.Allocated) (hx : x.Allocated) (hn : this.nElm = x.nElm this) :
    this.Plus_AX a x = .ok { this with
      vec_val := (List.range this.nElm).map (fun i => this.entry i + a * x.entry this i) } := by
  have hc : ¬ (this.nElm ≠ x.nElm this) := fun h1 => h1 hn
  simp only [CSysVector.Plus_AX, hc, if_false,
    CSysVector.zipLoop_eq this x _ ht (x.buffer_length this ht hx hn), Operand.entry]

theorem CSysVector.operator_add_eq (u v : CSysVector α) (hu : u.Allocated) :
    u.operator_add v = u.operator_add_assign (.other v) := by
  simp only [CSysVector.operator_add, CSysVector.copy_eq u hu]

theorem CSysVector.operator_sub_eq (u v : CSysVector α) (hu : u.Allocated) :
    u.operator_sub v = u.operator_sub_assign (.other v) := by
  simp only [CSysVector.operator_sub, CSysVector.copy_eq u hu]

theorem CSysVector.operator_mul_eq (u : CSysVector α) (a : α) (hu : u.Allocated) :
    u.operator_mul a = u.operator_mul_assign a := by
  simp only [CSysVector.operator_mul, CSysVector.copy_eq u hu]

theorem CSysVector.operator_mul_scalar_eq (u : CSysVector α) (a : α) (hu : u.Allocated) :
    CSysVector.operator_mul_scalar a u = u.operator_mul_assign a := by
  simp only [CSysVector.operator_mul_scalar, CSysVector.copy_eq u hu]

theorem CSysVector.operator_div_eq (u : CSysVector α) (a : α) (hu : u.Allocated) :
    u.operator_div a = u.operator_div_assign a := by
  simp only [CSysVector.operator_div, CSysVector.copy_eq u hu]

end ClosedForms

/-! ## Block accessors of the vector -/

section Blocks

variable {α : Type} [LinearOrderedField α]

theorem CSysVector.blockIndex_eq {β : Type} (u : CSysVector β) (p i : Nat)
    (h : p * u.nVar + i < 2 ^ 64) : u.blockIndex p i = p * u.nVar + i := by
  unfold CSysVector.blockIndex ulong
  rw [Nat.mod_eq_of_lt (show p * u.nVar < 2 ^ 64 by omega), Nat.mod_eq_of_lt h]

theorem CSysVector.block_pos_lt {β : Type} (u : CSysVector β) (p i : Nat)
    (hsz : u.nElm = u.nBlk * u.nVar) (hp : p < u.nBlk) (hi : i < u.nVar) :
    p * u.nVar + i < u.nElm := by
  have h1 : (p + 1) * u.nVar ≤ u.nBlk * u.nVar := Nat.mul_le_mul_right _ hp
  rw [Nat.add_mul, Nat.one_mul] at h1
  omega

/-- A loop over the components of block `p` that stores `f iVar` at the position of
component `iVar`: it returns, block `p` holds the stored values and the rest of the
buffer is unchanged. -/
theorem CSysVector.block_write {β : Type} (u : CSysVector β) (p : Nat) (f : Nat → β)
    (body : Nat → List β → Except Fault (List β))
    (hu : u.Allocated) (hsz : u.nElm = u.nBlk * u.nVar) (hfit : u.nElm < 2 ^ 64)
    (hp : p < u.nBlk)
    (hbody : ∀ i buf, i < u.nVar → buf.length = u.nElm →
      buf[u.blockIndex p i]? = u.vec_val[u.blockIndex p i]? →
      body i buf = .ok (buf.set (u.blockIndex p i) (f i))) :
    ∃ buf, forLoop u.nVar body u.vec_val = .ok buf ∧
      (∀ c, c < u.nVar →
        CSysVector.GetBlock { u with vec_val := buf } p c = .ok (f c)) ∧
      CSysVector.FrameOutsideBlock { u with vec_val := buf } u p := by
  have hidx : ∀ i, i < u.nVar → u.blockIndex p i = p * u.nVar + i := fun i hi =>
    u.blockIndex_eq p i (by have := u.block_pos_lt p i hsz hp hi; omega)
  obtain ⟨buf, hrun, _, hval, hrest⟩ := forLoop_write u.nVar u.nElm (u.blockIndex p) f body
    u.vec_val hu
    (fun i hi => by rw [hidx i hi]; exact u.block_pos_lt p i hsz hp hi)
    (fun i j hi hj h => by rw [hidx i hi, hidx j hj] at h; omega)
    hbody
  refine ⟨buf, hrun, fun c hc => ?_, ⟨rfl, rfl, rfl, rfl, rfl⟩, fun j hj => ?_⟩
  · exact readAt_of_getElem? (hval c hc)
  · exact hrest j (fun i hi h => by rw [hidx i hi] at h; omega)

theorem CSysVector.SetBlock_spec (u : CSysVector α) (p : Nat) (vals : List α)
    (hu : u.Allocated) (hsz : u.nElm = u.nBlk * u.nVar) (hfit : u.nElm < 2 ^ 64)
    (hp : p < u.nBlk) (hvals : u.nVar ≤ vals.length) :
    ∃ w, u.SetBlock p vals = .ok w ∧
      (∀ c, c < u.nVar → w.GetBlock p c = .ok (vals.getD c 0)) ∧ w.FrameOutsideBlock u p := by
  obtain ⟨buf, hrun, hget, hframe⟩ := u.block_write p (fun i => vals.getD i 0)
    (fun iVar buf =>
        match readAt vals iVar with
        | .ok r => writeAt buf (u.blockIndex p iVar) r
        | .error e => .error e) hu hsz hfit hp
    (by
      intro i buf hi hl _
      dsimp only
      rw [readAt_of_getElem? (getElem?_eq_some_getD 0 (show i < vals.length by omega))]
      refine writeAt_of_lt _ ?_
      rw [hl, u.blockIndex_eq p i (by have := u.block_pos_lt p i hsz hp hi; omega)]
      exact u.block_pos_lt p i hsz hp hi)
  exact ⟨_, by simp only [CSysVector.SetBlock, hrun], hget, hframe⟩

theorem CSysVector.SetBlock_Zero_spec (u : CSysVector α) (p : Nat)
    (hu : u.Allocated) (hsz : u.nElm = u.nBlk * u.nVar) (hfit : u.nElm < 2 ^ 64)
    (hp : p < u.nBlk) :
    ∃ w, u.SetBlock_Zero p = .ok w ∧
      (∀ c, c < u.nVar → w.GetBlock p c = .ok 0) ∧ w.FrameOutsideBlock u p := by
  obtain ⟨buf, hrun, hget, hframe⟩ := u.block_write p (fun _ => 0)
    (fun iVar buf => writeAt buf (u.blockIndex p iVar) 0) hu hsz hfit hp
    (by
      intro i buf hi hl _
      refine writeAt_of_lt _ ?_
      rw [hl, u.blockIndex_eq p i (by have := u.block_pos_lt p i hsz hp hi; omega)]
      exact u.block_pos_lt p i hsz hp hi)
  exact ⟨_, by simp only [CSysVector.SetBlock_Zero, hrun], hget, hframe⟩

theorem CSysVector.blockLoop_spec (u : CSysVector α) (p : Nat) (vals : List α) (f : α → α → α)
    (hu : u.Allocated) (hsz : u.nElm = u.nBlk * u.nVar) (hfit : u.nElm < 2 ^ 64)
    (hp : p < u.nBlk) (hvals : u.nVar ≤ vals.length) :
    ∃ w, u.blockLoop p vals f = .ok w ∧
      (∀ c, c < u.nVar →
        w.GetBlock p c = .ok (f (u.entry (p * u.nVar + c)) (vals.getD c 0))) ∧
      w.FrameOutsideBlock u p := by
  obtain ⟨buf, hrun, hget, hframe⟩ := u.block_write p
    (fun i => f (u.entry (p * u.nVar + i)) (vals.getD i 0))
    (fun iVar buf =>
        match readAt buf (u.blockIndex p iVar) with
        | .ok t =>
          match readAt vals iVar with
          | .ok r => writeAt buf (u.blockIndex p iVar) (f t r)
          | .error e => .error e
        | .error e => .error e) hu hsz hfit hp
    (by
      intro i buf hi hl hsame
      have hlt := u.block_pos_lt p i hsz hp hi
      have hi64 := u.blockIndex_eq p i (by omega)
      dsimp only
      rw [hi64] at hsame ⊢
      rw [readAt_of_getElem? (hsame.trans
        (getElem?_eq_some_getD 0 (show p * u.nVar + i < u.vec_val.length by rw [hu]; exact hlt)))]
      dsimp only
      rw [readAt_of_getElem? (getElem?_eq_some_getD 0 (show i < vals.length by omega))]
      exact writeAt_of_lt _ (by rw [hl]; exact hlt))
  exact ⟨_, by simp only [CSysVector.blockLoop, hrun], hget, hframe⟩

theorem CSysVector.write_one_spec {β : Type} (u : CSysVector β) (p c : Nat) (x : β)
    (hu : u.Allocated) (hsz : u.nElm = u.nBlk * u.nVar) (hfit : u.nElm < 2 ^ 64)
    (hp : p < u.nBlk) (hc : c < u.nVar) :
    ∃ buf, writeAt u.vec_val (u.blockIndex p c) x = .ok buf ∧
      CSysVector.GetBlock { u with vec_val := buf } p c = .ok x ∧
      CSysVector.FrameOutsideBlock { u with vec_val := buf } u p := by
  have hlt := u.block_pos_lt p c hsz hp hc
  have hi64 := u.blockIndex_eq p c (by omega)
  have hlen : u.blockIndex p c < u.vec_val.length := by rw [hi64, hu]; exact hlt
  refine ⟨_, writeAt_of_lt x hlen, ?_, ⟨rfl, rfl, rfl, rfl, rfl⟩, fun j hj => ?_⟩
  · exact readAt_of_getElem? (List.getElem?_set_self hlen)
  · exact List.getElem?_set_ne (by rw [hi64]; omega)

end Blocks

/-! ## Bulk operations of the matrix -/

section Matrix

variable {α : Type} [LinearOrderedField α]

theorem ulong_mul3 (a b c : Nat) (h : a * b * c < 2 ^ 64) :
    ulong (ulong (a * b) * c) = a * b * c := by
  unfold ulong
  rw [Nat.mod_mul_mod, Nat.mod_eq_of_lt h]

theorem CSysMatrix.SetValZero_eq (m : CSysMatrix α)
    (hlen : m.matrix.length = m.nnz * m.nVar * m.nEqn)
    (hfit : m.nnz * m.nVar * m.nEqn < 2 ^ 64) :
    m.SetValZero = .ok { m with matrix := List.replicate (m.nnz * m.nVar * m.nEqn) 0 } := by
  have h := forLoop_fill (m.nnz * m.nVar * m.nEqn) (fun _ => (0 : α))
    (fun index buf => writeAt buf index 0) m.matrix hlen
    (by
      intro i buf hi hl _
      exact writeAt_of_lt _ (hl ▸ hi))
  have hmap : (List.range (m.nnz * m.nVar * m.nEqn)).map (fun _ => (0 : α))
      = List.replicate (m.nnz * m.nVar * m.nEqn) 0 := by
    apply List.ext_getElem?
    intro j
    by_cases hj : j < m.nnz * m.nVar * m.nEqn
    · rw [getElem?_range_map _ _ j hj, List.getElem?_replicate, if_pos hj]
    · rw [List.getElem?_eq_none (by simp; omega), List.getElem?_eq_none (by simp; omega)]
  simp only [CSysMatrix.SetValZero, ulong_mul3 _ _ _ hfit, h, hmap]

/-- Over a value buffer of zeros, the row sum of any row whose blocks lie inside the
buffer is zero. -/
theorem CSysMatrix.SumAbsRowi_zero (z : CSysMatrix α) (i first last : Nat)
    (hz : z.matrix = List.replicate (z.nnz * z.nVar * z.nEqn) 0)
    (hfirst : z.row_ptr[i]? = some first) (hlast : z.row_ptr[i + 1]? = some last)
    (hnnz : last ≤ z.nnz) :
    z.SumAbsRowi i = .ok 0 := by
  have inner : ∀ k, k < last - first → ∀ acc : α,
      forLoop (z.nVar * z.nEqn)
        (fun e acc =>
          match readAt z.matrix ((first + k) * (z.nVar * z.nEqn) + e) with
          | .ok x => .ok (acc + |x|)
          | .error err => .error err) acc = .ok acc := by
    intro k hk acc
    obtain ⟨r, hrun, hr⟩ := forLoop_inv (z.nVar * z.nEqn)
      (fun e acc =>
        match readAt z.matrix ((first + k) * (z.nVar * z.nEqn) + e) with
        | .ok x => .ok (acc + |x|)
        | .error err => .error err)
      (fun _ t => t = acc) acc rfl
      (by
        intro e t he ht
        refine ⟨t, ?_, ht⟩
        have hb : (first + k) * (z.nVar * z.nEqn) + e < z.nnz * z.nVar * z.nEqn := by
          have h1 : (first + k + 1) * (z.nVar * z.nEqn) ≤ z.nnz * (z.nVar * z.nEqn) :=
            Nat.mul_le_mul_right _ (by omega)
          rw [Nat.add_mul, Nat.one_mul] at h1
          rw [Nat.mul_assoc]
          omega
        dsimp only
        rw [readAt_of_getElem? (show z.matrix[(first + k) * (z.nVar * z.nEqn) + e]? = some 0 by
          rw [hz, List.getElem?_replicate, if_pos hb])]
        simp)
    rw [hrun, hr]
  obtain ⟨r, hrun, hr⟩ := forLoop_inv (last - first)
    (fun k sum =>
      forLoop (z.nVar * z.nEqn)
        (fun e acc =>
          match readAt z.matrix ((first + k) * (z.nVar * z.nEqn) + e) with
          | .ok x => .ok (acc + |x|)
          | .error err => .error err) sum)
    (fun _ t => t = 0) (0 : α) rfl
    (by
      intro k t hk ht
      exact ⟨t, inner k hk t, ht⟩)
  simp only [CSysMatrix.SumAbsRowi, readAt_of_getElem? hfirst, readAt_of_getElem? hlast, hrun, hr]

theorem CSysMatrix.ScaleVals_spec (m : CSysMatrix α) (val_scale : α)
    (hfit : m.nnz * m.nVar * m.nVar < 2 ^ 64)
    (hin : m.nnz * m.nVar * m.nVar ≤ m.matrix.length) :
    ∃ buf, m.ScaleVals val_scale = .ok { m with matrix := buf } ∧
      buf.length = m.matrix.length ∧
      (∀ k, k < m.nnz * m.nVar * m.nVar → buf[k]? = some (m.matrix.getD k 0 * val_scale)) ∧
      (∀ k, m.nnz * m.nVar * m.nVar ≤ k → buf[k]? = m.matrix[k]?) := by
  obtain ⟨buf, hrun, hl, hv, hrest⟩ := forLoop_write (m.nnz * m.nVar * m.nVar)
    m.matrix.length (fun i => i) (fun i => m.matrix.getD i 0 * val_scale)
    (fun index buf =>
        match readAt buf index with
        | .ok t => writeAt buf index (t * val_scale)
        | .error e => .error e) m.matrix rfl
    (fun i hi => show i < m.matrix.length by omega) (fun i j _ _ h => h)
    (by
      intro i buf hi hl hsame
      dsimp only
      rw [readAt_of_getElem? (hsame.trans
        (getElem?_eq_some_getD 0 (show i < m.matrix.length by omega)))]
      exact writeAt_of_lt _ (by omega))
  refine ⟨buf, ?_, hl, hv, fun k hk => hrest k (fun i hi h => by omega)⟩
  simp only [CSysMatrix.ScaleVals, ulong_mul3 _ _ _ hfit, hrun]

theorem CSysVector.blk_val_zero_product (fuel numBlk numBlkDomain numVar : Nat) (val : α)
    (h : numBlk * numVar = 0) :
    CSysVector.CSysVector_blk_val fuel numBlk numBlkDomain numVar val = .error .thrown := by
  simp [CSysVector.CSysVector_blk_val, h, ulong]

theorem CSysVector.size_val_zero (fuel : Nat) (val : α) :
    CSysVector.CSysVector_size_val fuel 0 val = .error .thrown := by
  simp [CSysVector.CSysVector_size_val]

theorem CSysMatrix.SumAbsRowi_example :
    (⟨1, 1, 1, 2, [1, -2, 3, 4], [0, 2], [0, 0], 2⟩ : CSysMatrix ℚ).SumAbsRowi 0 = .ok 10 := by
  simp [CSysMatrix.SumAbsRowi, forLoop, loopFrom, readAt]
  norm_num

end Matrix

/-! ## Loops of the boundary conditions -/

section BoundaryLoops

variable {α : Type} [LinearOrderedField α]

theorem ok_bind {β γ : Type} (x : β) (f : β → Except Fault γ) :
    (Except.ok x >>= f) = f x := rfl

theorem pure_ok {β : Type} (x : β) : (pure x : Except Fault β) = .ok x := rfl

theorem readAt_getD (l : List α) (i : Nat) (h : i < l.length) :
    readAt l i = .ok (l.getD i 0) :=
  readAt_of_getElem? (getElem?_eq_some_getD 0 h)

theorem readAt_range_map {β : Type} (n : Nat) (g : Nat → β) (i : Nat) (hi : i < n) :
    readAt ((List.range n).map g) i = .ok (g i) :=
  readAt_of_getElem? (getElem?_range_map n g i hi)

theorem sumLoop_eq (n : Nat) (term : Nat → Except Fault α) (acc : α) (g : Nat → α)
    (hterm : ∀ i, i < n → term i = .ok (g i)) :
    sumLoop n term acc = .ok (acc + ∑ i ∈ Finset.range n, g i) := by
  obtain ⟨r, hrun, hr⟩ := forLoop_inv n
    (fun i acc => do
      let t ← term i
      pure (acc + t))
    (fun m a => a = acc + ∑ i ∈ Finset.range m, g i) acc (by simp)
    (by
      intro j a hj ha
      refine ⟨a + g j, ?_, ?_⟩
      · simp only [hterm j hj, ok_bind, pure_ok]
      · dsimp only
        rw [Finset.sum_range_succ, ha, add_assoc])
  rw [sumLoop, hrun, hr]

theorem sqLoop_eq (n : Nat) (v : Nat → Except Fault α) (g : Nat → α)
    (hv : ∀ i, i < n → v i = .ok (g i)) :
    sqLoop n v = .ok (dotN n g g) := by
  rw [sqLoop, sumLoop_eq n _ 0 (fun i => g i * g i), zero_add]
  · rfl
  · intro i hi
    simp only [hv i hi, ok_bind, pure_ok]

theorem dotLoop_eq (n : Nat) (a b : Nat → Except Fault α) (f g : Nat → α)
    (ha : ∀ i, i < n → a i = .ok (f i)) (hb : ∀ i, i < n → b i = .ok (g i)) :
    dotLoop n a b = .ok (dotN n f g) := by
  rw [dotLoop, sumLoop_eq n _ 0 (fun i => f i * g i), zero_add]
  · rfl
  · intro i hi
    simp only [ha i hi, hb i hi, ok_bind, pure_ok]

/-- A `storeLoop` whose values are available and whose positions lie inside the buffer
returns; the positions hold the values and every other entry is unchanged. -/
theorem storeLoop_spec {β : Type} (n off : Nat) (value : Nat → Except Fault β)
    (buf : List β) (g : Nat → β) (hval : ∀ i, i < n → value i = .ok (g i)) (hlen : off + n ≤ buf.length) :
    ∃ buf', storeLoop n off value buf = .ok buf' ∧ buf'.length = buf.length ∧
      (∀ i, i < n → buf'[off + i]? = some (g i)) ∧
      (∀ j, (j < off ∨ off + n ≤ j) → buf'[j]? = buf[j]?) := by
  obtain ⟨buf', hrun, hl, hv, hrest⟩ := forLoop_write n buf.length (fun i => off + i) g
    (fun i buf => do
      let x ← value i
      writeAt buf (off + i) x) buf rfl
    (fun i hi => by dsimp only; omega) (fun i j _ _ h => by dsimp only at h; omega)
    (by
      intro i b hi hl _
      simp only [hval i hi, ok_bind]
      exact writeAt_of_lt _ (by omega))
  exact ⟨buf', hrun, hl, hv, fun j hj => hrest j (fun i hi h => by omega)⟩

/-- A `storeLoop` that fills a fresh local array of `n` entries. -/
theorem storeLoop_new (n : Nat) (value : Nat → Except Fault α) (g : Nat → α)
    (hval : ∀ i, i < n → value i = .ok (g i)) :
    storeLoop n 0 value (newBuffer n) = .ok ((List.range n).map g) := by
  obtain ⟨buf', hrun, hl, hv, _⟩ := storeLoop_spec n 0 value (newBuffer n) g hval
    (by simp [newBuffer])
  rw [hrun]
  congr 1
  apply List.ext_getElem?
  intro j
  by_cases hj : j < n
  · have := hv j hj
    rw [Nat.zero_add] at this
    rw [this, getElem?_range_map n g j hj]
  · have hl' : buf'.length = n := by simpa [newBuffer] using hl
    rw [List.getElem?_eq_none (by omega), List.getElem?_eq_none (by simp; omega)]

theorem writeConservative_spec (r : RightState α) (n_dims : Nat) (g : Nat → α)
    (hv : r.v_r = (List.range n_dims).map g) (hlen : n_dims + 2 ≤ r.u_r.length) :
    ∃ u, writeConservative r n_dims = .ok u ∧
      IsConservative u n_dims r.rho_r g r.e_r r.u_r := by
  have h0 : writeAt r.u_r 0 r.rho_r = .ok (r.u_r.set 0 r.rho_r) :=
    writeAt_of_lt _ (by omega)
  obtain ⟨b, hrun, hl, hval, hrest⟩ := storeLoop_spec n_dims 1
    (fun i => do
      let v ← readAt r.v_r i
      pure (r.rho_r * v))
    (r.u_r.set 0 r.rho_r) (fun i => r.rho_r * g i)
    (by
      intro i hi
      simp only [hv, readAt_range_map n_dims g i hi, ok_bind, pure_ok])
    (by rw [List.length_set]; omega)
  rw [List.length_set] at hl
  refine ⟨b.set (n_dims + 1) r.e_r, ?_, ?_, ?_, ?_, ?_, ?_⟩
  · simp only [writeConservative, h0, ok_bind, hrun]
    exact writeAt_of_lt _ (by omega)
  · rw [List.length_set, hl]
  · rw [List.getElem?_set_ne (by omega), hrest 0 (Or.inl (by omega)),
      List.getElem?_set_self (by omega)]
  · intro i hi
    rw [List.getElem?_set_ne (by omega), Nat.add_comm i 1]
    exact hval i hi
  · exact List.getElem?_set_self (by omega)
  · intro k hk
    rw [List.getElem?_set_ne (by omega), hrest k (Or.inr (by omega)),
      List.getElem?_set_ne (by omega)]

/-- The list of the interior velocity components, as the first loop of
`set_inv_boundary_conditions` leaves it in the local array `v_l`. -/
theorem v_l_eq (u_l : List α) (n_dims : Nat) (hul : n_dims + 2 ≤ u_l.length) :
    storeLoop n_dims 0
      (fun i => do
        let m ← readAt u_l (i + 1)
        let d ← readAt u_l 0
        pure (m / d))
      (newBuffer n_dims) = .ok ((List.range n_dims).map (velocity u_l)) := by
  apply storeLoop_new
  intro i hi
  simp only [readAt_getD u_l (i + 1) (by omega), readAt_getD u_l 0 (by omega), ok_bind,
    pure_ok, velocity]

/-- The Navier-Stokes part of `set_inv_boundary_conditions` on arrays that are long
enough: the interior primitive state is extracted, the branch chain is run on it, and the
exterior state it leaves is written to `u_r`. -/
theorem set_inv_navier_stokes {unset : UnsetLocals α}
    (sqrt : α → α) (pow : α → α → α) (turb_model bdy_type : Int)
    (u_l u_r v_g norm bdy_params : List α) (n_dims : Nat) (gamma R_ref : α)
    (hbp : 9 ≤ bdy_params.length) (hul : n_dims + 2 ≤ u_l.length) :
    set_inv_boundary_conditions unset sqrt pow turb_model bdy_type u_l u_r v_g norm bdy_params
        n_dims gamma R_ref 0 =
      (inv_dispatch unset sqrt pow turb_model bdy_type u_l u_r
        ((List.range n_dims).map (velocity u_l)) v_g norm bdy_params n_dims gamma R_ref
        (u_l.getD 0 0) (u_l.getD (n_dims + 1) 0)
        ((gamma - 1.0) * (u_l.getD (n_dims + 1) 0
          - 0.5 * u_l.getD 0 0 * dotN n_dims (velocity u_l) (velocity u_l)))
        (bdy_params.getD 0 0) (bdy_params.getD 4 0) (bdy_params.getD 8 0)) >>=
      fun r => writeConservative r n_dims := by
  have hsq : sqLoop n_dims (readAt ((List.range n_dims).map (velocity u_l)))
      = .ok (dotN n_dims (velocity u_l) (velocity u_l)) :=
    sqLoop_eq n_dims _ _ (fun i hi => readAt_range_map n_dims _ i hi)
  simp only [set_inv_boundary_conditions, v_l_eq u_l n_dims hul, hsq, ok_bind]
  simp only [readAt_getD bdy_params 0 (by omega),
    readAt_getD bdy_params 4 (by omega), readAt_getD bdy_params 8 (by omega),
    readAt_getD u_l 0 (by omega), readAt_getD u_l (n_dims + 1) (by omega), ok_bind, if_true]
  cases inv_dispatch unset sqrt pow turb_model bdy_type u_l u_r
      ((List.range n_dims).map (velocity u_l)) v_g norm bdy_params n_dims gamma R_ref
      (u_l.getD 0 0) (u_l.getD (n_dims + 1) 0)
      ((gamma - 1.0) * (u_l.getD (n_dims + 1) 0
        - 0.5 * u_l.getD 0 0 * dotN n_dims (velocity u_l) (velocity u_l)))
      (bdy_params.getD 0 0) (bdy_params.getD 4 0) (bdy_params.getD 8 0) with
  | error e => rfl
  | ok r =>
    simp only [ok_bind]
    cases writeConservative r n_dims with
    | error e => rfl
    | ok u => rfl

theorem inv_bdy_type_6_eq (u_r u_l : List α) (n_dims : Nat) (rho_l e_l : α) :
    inv_bdy_type_6 u_r ((List.range n_dims).map (velocity u_l)) n_dims rho_l e_l
      = .ok ⟨u_r, rho_l, (List.range n_dims).map (velocity u_l), e_l⟩ := by
  have h := storeLoop_new n_dims (readAt ((List.range n_dims).map (velocity u_l)))
    (velocity u_l) (fun i hi => readAt_range_map n_dims _ i hi)
  simp only [inv_bdy_type_6, h, ok_bind, pure_ok]

theorem inv_bdy_type_7_eq (u_r u_l v_g norm : List α) (n_dims : Nat) (rho_l e_l : α)
    (hvg : n_dims ≤ v_g.length) (hn : n_dims ≤ norm.length) :
    inv_bdy_type_7 u_r ((List.range n_dims).map (velocity u_l)) v_g norm n_dims rho_l e_l
      = .ok ⟨u_r, rho_l,
          (List.range n_dims).map (fun i => velocity u_l i
            - 2 * dotN n_dims (fun k => velocity u_l k - v_g.getD k 0) (fun k => norm.getD k 0)
              * norm.getD i 0),
          e_l⟩ := by
  have h1 : sumLoop n_dims
      (fun i => do
        let a ← readAt ((List.range n_dims).map (velocity u_l)) i
        let g ← readAt v_g i
        let c ← readAt norm i
        pure ((a - g) * c))
      0 = .ok (dotN n_dims (fun k => velocity u_l k - v_g.getD k 0)
        (fun k => norm.getD k 0)) := by
    rw [sumLoop_eq n_dims _ 0 (fun i => (velocity u_l i - v_g.getD i 0) * norm.getD i 0),
      zero_add]
    · rfl
    · intro i hi
      simp only [readAt_range_map n_dims _ i hi, readAt_getD v_g i (by omega),
        readAt_getD norm i (by omega), ok_bind, pure_ok]
  simp only [inv_bdy_type_7, h1, ok_bind]
  rw [storeLoop_new n_dims _ (fun i => velocity u_l i
    - 2 * dotN n_dims (fun k => velocity u_l k - v_g.getD k 0) (fun k => norm.getD k 0)
      * norm.getD i 0)]
  · rfl
  · intro i hi
    simp only [readAt_range_map n_dims _ i hi, readAt_getD norm i (by omega), ok_bind,
      pure_ok]
    norm_num

theorem inv_bdy_type_16_eq (u_r u_l norm : List α) (n_dims : Nat) (rho_l e_l : α)
    (hn : n_dims ≤ norm.length) :
    inv_bdy_type_16 u_r ((List.range n_dims).map (velocity u_l)) norm n_dims rho_l e_l
      = .ok ⟨u_r, rho_l,
          (List.range n_dims).map (fun i => velocity u_l i
            - dotN n_dims (velocity u_l) (fun k => norm.getD k 0) * norm.getD i 0),
          e_l⟩ := by
  have h1 : dotLoop n_dims (readAt ((List.range n_dims).map (velocity u_l))) (readAt norm)
      = .ok (dotN n_dims (velocity u_l) (fun k => norm.getD k 0)) :=
    dotLoop_eq n_dims _ _ _ _ (fun i hi => readAt_range_map n_dims _ i hi)
      (fun i hi => readAt_getD norm i (by omega))
  simp only [inv_bdy_type_16, h1, ok_bind]
  rw [storeLoop_new n_dims _ (fun i => velocity u_l i
    - dotN n_dims (velocity u_l) (fun k => norm.getD k 0) * norm.getD i 0)]
  · rfl
  · intro i hi
    simp only [readAt_range_map n_dims _ i hi, readAt_getD norm i (by omega), ok_bind,
      pure_ok]

theorem inv_dispatch_6 {unset : UnsetLocals α} (sqrt : α → α) (pow : α → α → α) (turb_model : Int)
    (u_l u_r v_l v_g norm bdy_params : List α) (n_dims : Nat)
    (gamma R_ref rho_l e_l p_l rho_bound p_bound T_wall : α) :
    inv_dispatch unset sqrt pow turb_model 6 u_l u_r v_l v_g norm bdy_params n_dims gamma R_ref
      rho_l e_l p_l rho_bound p_bound T_wall = inv_bdy_type_6 u_r v_l n_dims rho_l e_l := by
  simp [inv_dispatch]

theorem inv_dispatch_7 {unset : UnsetLocals α} (sqrt : α → α) (pow : α → α → α) (turb_model : Int)
    (u_l u_r v_l v_g norm bdy_params : List α) (n_dims : Nat)
    (gamma R_ref rho_l e_l p_l rho_bound p_bound T_wall : α) :
    inv_dispatch unset sqrt pow turb_model 7 u_l u_r v_l v_g norm bdy_params n_dims gamma R_ref
      rho_l e_l p_l rho_bound p_bound T_wall
      = inv_bdy_type_7 u_r v_l v_g norm n_dims rho_l e_l := by
  simp [inv_dispatch]

theorem inv_dispatch_16 {unset : UnsetLocals α} (sqrt : α → α) (pow : α → α → α) (turb_model : Int)
    (u_l u_r v_l v_g norm bdy_params : List α) (n_dims : Nat)
    (gamma R_ref rho_l e_l p_l rho_bound p_bound T_wall : α) :
    inv_dispatch unset sqrt pow turb_model 16 u_l u_r v_l v_g norm bdy_params n_dims gamma R_ref
      rho_l e_l p_l rho_bound p_bound T_wall
      = inv_bdy_type_16 u_r v_l norm n_dims rho_l e_l := by
  simp [inv_dispatch]

/-- Boundary type 6 on arrays that are long enough. -/
theorem set_inv_type_6 {unset : UnsetLocals α} (sqrt : α → α) (pow : α → α → α) (turb_model : Int)
    (u_l u_r v_g norm bdy_params : List α) (n_dims : Nat) (gamma R_ref : α)
    (hbp : 9 ≤ bdy_params.length) (hul : n_dims + 2 ≤ u_l.length)
    (hur : n_dims + 2 ≤ u_r.length) :
    ∃ u, set_inv_boundary_conditions unset sqrt pow turb_model 6 u_l u_r v_g norm bdy_params
        n_dims gamma R_ref 0 = .ok u ∧
      IsConservative u n_dims (u_l.getD 0 0) (velocity u_l) (u_l.getD (n_dims + 1) 0) u_r := by
  obtain ⟨u, hrun, hu⟩ := writeConservative_spec
    (⟨u_r, u_l.getD 0 0, (List.range n_dims).map (velocity u_l), u_l.getD (n_dims + 1) 0⟩ :
      RightState α) n_dims (velocity u_l) rfl hur
  refine ⟨u, ?_, hu⟩
  rw [set_inv_navier_stokes sqrt pow turb_model 6 u_l u_r v_g norm bdy_params n_dims gamma
    R_ref hbp hul, inv_dispatch_6, inv_bdy_type_6_eq, ok_bind, hrun]

/-- Boundary type 7 on arrays that are long enough. -/
theorem set_inv_type_7 {unset : UnsetLocals α} (sqrt : α → α) (pow : α → α → α) (turb_model : Int)
    (u_l u_r v_g norm bdy_params : List α) (n_dims : Nat) (gamma R_ref : α)
    (hbp : 9 ≤ bdy_params.length) (hul : n_dims + 2 ≤ u_l.length)
    (hur : n_dims + 2 ≤ u_r.length) (hvg : n_dims ≤ v_g.length)
    (hn : n_dims ≤ norm.length) :
    ∃ u, set_inv_boundary_conditions unset sqrt pow turb_model 7 u_l u_r v_g norm bdy_params
        n_dims gamma R_ref 0 = .ok u ∧
      IsConservative u n_dims (u_l.getD 0 0)
        (fun i => velocity u_l i
          - 2 * dotN n_dims (fun k => velocity u_l k - v_g.getD k 0) (fun k => norm.getD k 0)
            * norm.getD i 0)
        (u_l.getD (n_dims + 1) 0) u_r := by
  obtain ⟨u, hrun, hu⟩ := writeConservative_spec
    (⟨u_r, u_l.getD 0 0,
      (List.range n_dims).map (fun i => velocity u_l i
        - 2 * dotN n_dims (fun k => velocity u_l k - v_g.getD k 0) (fun k => norm.getD k 0)
          * norm.getD i 0),
      u_l.getD (n_dims + 1) 0⟩ : RightState α) n_dims _ rfl hur
  refine ⟨u, ?_, hu⟩
  rw [set_inv_navier_stokes sqrt pow turb_model 7 u_l u_r v_g norm bdy_params n_dims gamma
    R_ref hbp hul, inv_dispatch_7, inv_bdy_type_7_eq u_r u_l v_g norm n_dims _ _ hvg hn,
    ok_bind, hrun]

/-- Boundary type 16 on arrays that are long enough. -/
theorem set_inv_type_16 {unset : UnsetLocals α} (sqrt : α → α) (pow : α → α → α) (turb_model : Int)
    (u_l u_r v_g norm bdy_params : List α) (n_dims : Nat) (gamma R_ref : α)
    (hbp : 9 ≤ bdy_params.length) (hul : n_dims + 2 ≤ u_l.length)
    (hur : n_dims + 2 ≤ u_r.length) (hn : n_dims ≤ norm.length) :
    ∃ u, set_inv_boundary_conditions unset sqrt pow turb_model 16 u_l u_r v_g norm bdy_params
        n_dims gamma R_ref 0 = .ok u ∧
      IsConservative u n_dims (u_l.getD 0 0)
        (fun i => velocity u_l i
          - dotN n_dims (velocity u_l) (fun k => norm.getD k 0) * norm.getD i 0)
        (u_l.getD (n_dims + 1) 0) u_r := by
  obtain ⟨u, hrun, hu⟩ := writeConservative_spec
    (⟨u_r, u_l.getD 0 0,
      (List.range n_dims).map (fun i => velocity u_l i
        - dotN n_dims (velocity u_l) (fun k => norm.getD k 0) * norm.getD i 0),
      u_l.getD (n_dims + 1) 0⟩ : RightState α) n_dims _ rfl hur
  refine ⟨u, ?_, hu⟩
  rw [set_inv_navier_stokes sqrt pow turb_model 16 u_l u_r v_g norm bdy_params n_dims gamma
    R_ref hbp hul, inv_dispatch_16, inv_bdy_type_16_eq u_r u_l norm n_dims _ _ hn,
    ok_bind, hrun]

theorem getD_of_getElem? {β : Type} (l : List β) (i : Nat) (d x : β) (h : l[i]? = some x) :
    l.getD i d = x := by
  rw [List.getD_eq_getElem?_getD, h]
  rfl

/-- The velocity recovered from a conservative state of non-zero density. -/
theorem velocity_of_isConservative (u old : List α) (n_dims : Nat) (rho e : α)
    (v : Nat → α) (h : IsConservative u n_dims rho v e old) (hrho : rho ≠ 0) (i : Nat)
    (hi : i < n_dims) : velocity u i = v i := by
  obtain ⟨_, h0, hm, _, _⟩ := h
  rw [velocity, getD_of_getElem? u (i + 1) 0 _ (hm i hi), getD_of_getElem? u 0 0 _ h0,
    mul_div_cancel_left₀ _ hrho]

theorem dotN_congr (n : Nat) (a b c : Nat → α) (h : ∀ i, i < n → a i = b i) :
    dotN n a c = dotN n b c := by
  unfold dotN
  exact Finset.sum_congr rfl (fun i hi => by rw [h i (Finset.mem_range.mp hi)])

theorem dotN_sub_smul (n : Nat) (a c : Nat → α) (t : α) :
    dotN n (fun i => a i - t * c i) c = dotN n a c - t * dotN n c c := by
  unfold dotN
  rw [Finset.mul_sum, ← Finset.sum_sub_distrib]
  exact Finset.sum_congr rfl (fun i _ => by ring)

theorem dotN_sub_left (n : Nat) (a b c : Nat → α) :
    dotN n (fun i => a i - b i) c = dotN n a c - dotN n b c := by
  unfold dotN
  rw [← Finset.sum_sub_distrib]
  exact Finset.sum_congr rfl (fun i _ => by ring)

theorem setTurbInf_eq (turb_model : Int) (bdy_params u_r : List α) (n_dims : Nat)
    (h : turb_model = 1 → 15 ≤ bdy_params.length ∧ n_dims + 3 ≤ u_r.length) :
    setTurbInf turb_model bdy_params u_r n_dims
      = .ok (withTurb turb_model u_r n_dims (bdy_params.getD 14 0)) := by
  unfold setTurbInf withTurb
  split_ifs with ht
  · obtain ⟨h1, h2⟩ := h ht
    rw [readAt_getD bdy_params 14 (by omega), ok_bind]
    exact writeAt_of_lt _ (by omega)
  · rfl

theorem setTurbExtrapolate_eq (turb_model : Int) (u_l u_r : List α) (n_dims : Nat)
    (h : turb_model = 1 → n_dims + 3 ≤ u_l.length ∧ n_dims + 3 ≤ u_r.length) :
    setTurbExtrapolate turb_model u_l u_r n_dims
      = .ok (withTurb turb_model u_r n_dims (u_l.getD (n_dims + 2) 0)) := by
  unfold setTurbExtrapolate withTurb
  split_ifs with ht
  · obtain ⟨h1, h2⟩ := h ht
    rw [readAt_getD u_l (n_dims + 2) (by omega), ok_bind]
    exact writeAt_of_lt _ (by omega)
  · rfl

theorem setTurbZero_eq (turb_model : Int) (u_r : List α) (n_dims : Nat)
    (h : turb_model = 1 → n_dims + 3 ≤ u_r.length) :
    setTurbZero turb_model u_r n_dims = .ok (withTurb turb_model u_r n_dims 0) := by
  unfold setTurbZero withTurb
  split_ifs with ht
  · rw [writeAt_of_lt _ (show n_dims + 2 < u_r.length by have := h ht; omega)]
    norm_num
  · rfl

theorem withTurb_length {β : Type} (turb_model : Int) (u_r : List β) (n_dims : Nat) (x : β) :
    (withTurb turb_model u_r n_dims x).length = u_r.length := by
  unfold withTurb
  split_ifs <;> simp

/-- With the turbulence model active and room for the entry, `withTurb` holds `x` in entry
`n_dims+2`. -/
theorem withTurb_entry {β : Type} (u_r : List β) (n_dims : Nat) (x : β)
    (h : n_dims + 3 ≤ u_r.length) :
    (withTurb 1 u_r n_dims x)[n_dims + 2]? = some x := by
  unfold withTurb
  rw [if_pos rfl]
  exact List.getElem?_set_self (by omega)

/-- The interior pressure in the form the code computes it. -/
theorem pressure_eq (gamma : α) (u : List α) (n_dims : Nat) :
    (gamma - 1.0) * (u.getD (n_dims + 1) 0
      - 0.5 * u.getD 0 0 * dotN n_dims (velocity u) (velocity u)) = pressure gamma u n_dims := by
  unfold pressure
  norm_num

/-- Once the branch chain has returned the exterior state `r`, with `v_r` holding `n_dims`
components, the function writes it to `u_r` and returns. -/
theorem set_inv_of_dispatch {unset : UnsetLocals α}
    (sqrt : α → α) (pow : α → α → α) (turb_model bdy_type : Int)
    (u_l u_r v_g norm bdy_params : List α) (n_dims : Nat) (gamma R_ref : α)
    (hbp : 9 ≤ bdy_params.length) (hul : n_dims + 2 ≤ u_l.length)
    (r : RightState α) (g : Nat → α)
    (hd : inv_dispatch unset sqrt pow turb_model bdy_type u_l u_r
      ((List.range n_dims).map (velocity u_l)) v_g norm bdy_params n_dims gamma R_ref
      (u_l.getD 0 0) (u_l.getD (n_dims + 1) 0) (pressure gamma u_l n_dims)
      (bdy_params.getD 0 0) (bdy_params.getD 4 0) (bdy_params.getD 8 0) = .ok r)
    (hv : r.v_r = (List.range n_dims).map g) (hlen : n_dims + 2 ≤ r.u_r.length) :
    ∃ u, set_inv_boundary_conditions unset sqrt pow turb_model bdy_type u_l u_r v_g norm
        bdy_params n_dims gamma R_ref 0 = .ok u ∧
      IsConservative u n_dims r.rho_r g r.e_r r.u_r := by
  obtain ⟨u, hrun, hu⟩ := writeConservative_spec r n_dims g hv hlen
  refine ⟨u, ?_, hu⟩
  rw [set_inv_navier_stokes sqrt pow turb_model bdy_type u_l u_r v_g norm bdy_params n_dims
    gamma R_ref hbp hul, pressure_eq, hd, ok_bind, hrun]

theorem sqLoop_range_map (n : Nat) (g : Nat → α) :
    sqLoop n (readAt ((List.range n).map g)) = .ok (dotN n g g) :=
  sqLoop_eq n _ _ (fun i hi => readAt_range_map n _ i hi)

theorem inv_bdy_type_1_eq (turb_model : Int) (u_r bdy_params : List α) (n_dims : Nat)
    (gamma rho_bound p_l : α) (hb : 1 + n_dims ≤ bdy_params.length)
    (ht : turb_model = 1 → 15 ≤ bdy_params.length ∧ n_dims + 3 ≤ u_r.length) :
    inv_bdy_type_1 turb_model u_r bdy_params n_dims gamma rho_bound p_l
      = .ok ⟨withTurb turb_model u_r n_dims (bdy_params.getD 14 0), rho_bound,
          (List.range n_dims).map (vBound bdy_params),
          totalEnergy gamma p_l rho_bound n_dims (vBound bdy_params)⟩ := by
  have h1 := storeLoop_new n_dims (fun i => readAt bdy_params (1 + i)) (vBound bdy_params)
    (fun i hi => readAt_getD _ _ (by omega))
  simp only [inv_bdy_type_1, h1, ok_bind, sqLoop_range_map, setTurbInf_eq _ _ _ _ ht,
    pure_ok, totalEnergy]
  norm_num

theorem inv_bdy_type_2_eq (turb_model : Int) (u_l u_r : List α) (n_dims : Nat)
    (gamma rho_l p_bound : α)
    (ht : turb_model = 1 → n_dims + 3 ≤ u_l.length ∧ n_dims + 3 ≤ u_r.length) :
    inv_bdy_type_2 turb_model u_l u_r ((List.range n_dims).map (velocity u_l)) n_dims gamma
        rho_l p_bound
      = .ok ⟨withTurb turb_model u_r n_dims (u_l.getD (n_dims + 2) 0), rho_l,
          (List.range n_dims).map (velocity u_l),
          totalEnergy gamma p_bound rho_l n_dims (velocity u_l)⟩ := by
  have h1 := storeLoop_new n_dims (readAt ((List.range n_dims).map (velocity u_l)))
    (velocity u_l) (fun i hi => readAt_range_map n_dims _ i hi)
  simp only [inv_bdy_type_2, h1, ok_bind, sqLoop_range_map, setTurbExtrapolate_eq _ _ _ _ ht,
    pure_ok, totalEnergy]
  norm_num

theorem inv_bdy_type_5_eq (u_r bdy_params : List α) (n_dims : Nat)
    (gamma rho_bound p_bound : α) (hb : 1 + n_dims ≤ bdy_params.length) :
    inv_bdy_type_5 u_r bdy_params n_dims gamma rho_bound p_bound
      = .ok ⟨u_r, rho_bound, (List.range n_dims).map (vBound bdy_params),
          totalEnergy gamma p_bound rho_bound n_dims (vBound bdy_params)⟩ := by
  have h1 := storeLoop_new n_dims (fun i => readAt bdy_params (1 + i)) (vBound bdy_params)
    (fun i hi => readAt_getD _ _ (by omega))
  simp only [inv_bdy_type_5, h1, ok_bind, sqLoop_range_map, pure_ok, totalEnergy]
  norm_num

theorem inv_bdy_type_11_eq (turb_model : Int) (u_r v_g : List α) (n_dims : Nat)
    (gamma R_ref p_l T_wall : α) (hvg : n_dims ≤ v_g.length)
    (ht : turb_model = 1 → n_dims + 3 ≤ u_r.length) :
    inv_bdy_type_11 turb_model u_r v_g n_dims gamma R_ref p_l T_wall
      = .ok ⟨withTurb turb_model u_r n_dims 0, p_l / (R_ref * T_wall),
          (List.range n_dims).map (fun i => v_g.getD i 0),
          totalEnergy gamma p_l (p_l / (R_ref * T_wall)) n_dims (fun i => v_g.getD i 0)⟩ := by
  have h1 := storeLoop_new n_dims (readAt v_g) (fun i => v_g.getD i 0)
    (fun i hi => readAt_getD _ _ (by omega))
  simp only [inv_bdy_type_11, h1, ok_bind, sqLoop_range_map, setTurbZero_eq _ _ _ ht,
    pure_ok, totalEnergy]
  norm_num

theorem inv_bdy_type_12_eq (turb_model : Int) (u_r v_g : List α) (n_dims : Nat)
    (gamma rho_l p_l : α) (hvg : n_dims ≤ v_g.length)
    (ht : turb_model = 1 → n_dims + 3 ≤ u_r.length) :
    inv_bdy_type_12 turb_model u_r v_g n_dims gamma rho_l p_l
      = .ok ⟨withTurb turb_model u_r n_dims 0, rho_l,
          (List.range n_dims).map (fun i => v_g.getD i 0),
          totalEnergy gamma p_l rho_l n_dims (fun i => v_g.getD i 0)⟩ := by
  have h1 := storeLoop_new n_dims (readAt v_g) (fun i => v_g.getD i 0)
    (fun i hi => readAt_getD _ _ (by omega))
  simp only [inv_bdy_type_12, h1, ok_bind, sqLoop_range_map, setTurbZero_eq _ _ _ ht,
    pure_ok, totalEnergy]
  norm_num

theorem wall_velocity_loop (v_g bdy_params : List α) (n_dims : Nat)
    (hvg : n_dims ≤ v_g.length) (hb : 5 + n_dims ≤ bdy_params.length) :
    storeLoop n_dims 0
      (fun i => do
        let w ← readAt bdy_params (5 + i)
        let g ← readAt v_g i
        pure (w + g))
      (newBuffer n_dims)
      = .ok ((List.range n_dims).map (fun i => vWall bdy_params i + v_g.getD i 0)) := by
  apply storeLoop_new
  intro i hi
  simp only [readAt_getD bdy_params (5 + i) (by omega), readAt_getD v_g i (by omega),
    ok_bind, pure_ok, vWall]

theorem inv_bdy_type_13_eq (u_r v_g bdy_params : List α) (n_dims : Nat)
    (gamma R_ref p_l T_wall : α) (hvg : n_dims ≤ v_g.length)
    (hb : 5 + n_dims ≤ bdy_params.length) :
    inv_bdy_type_13 u_r v_g bdy_params n_dims gamma R_ref p_l T_wall
      = .ok ⟨u_r, p_l / (R_ref * T_wall),
          (List.range n_dims).map (fun i => vWall bdy_params i + v_g.getD i 0),
          totalEnergy gamma p_l (p_l / (R_ref * T_wall)) n_dims
            (fun i => vWall bdy_params i + v_g.getD i 0)⟩ := by
  simp only [inv_bdy_type_13, wall_velocity_loop v_g bdy_params n_dims hvg hb, ok_bind,
    sqLoop_range_map]
  simp only [pure_ok, totalEnergy]
  norm_num

theorem inv_bdy_type_14_eq (u_r v_g bdy_params : List α) (n_dims : Nat)
    (gamma rho_l p_l : α) (hvg : n_dims ≤ v_g.length)
    (hb : 5 + n_dims ≤ bdy_params.length) :
    inv_bdy_type_14 u_r v_g bdy_params n_dims gamma rho_l p_l
      = .ok ⟨u_r, rho_l,
          (List.range n_dims).map (fun i => vWall bdy_params i + v_g.getD i 0),
          totalEnergy gamma p_l rho_l n_dims
            (fun i => vWall bdy_params i + v_g.getD i 0)⟩ := by
  simp only [inv_bdy_type_14, wall_velocity_loop v_g bdy_params n_dims hvg hb, ok_bind,
    sqLoop_range_map]
  simp only [pure_ok, totalEnergy]
  norm_num

/-- The branch the chain selects for each supported type. -/
theorem inv_dispatch_eq (unset : UnsetLocals α) (sqrt : α → α) (pow : α → α → α) (turb_model : Int)
    (u_l u_r v_l v_g norm bdy_params : List α) (n_dims : Nat)
    (gamma R_ref rho_l e_l p_l rho_bound p_bound T_wall : α) :
    (inv_dispatch unset sqrt pow turb_model 1 u_l u_r v_l v_g norm bdy_params n_dims gamma R_ref
        rho_l e_l p_l rho_bound p_bound T_wall
      = inv_bdy_type_1 turb_model u_r bdy_params n_dims gamma rho_bound p_l) ∧
    (inv_dispatch unset sqrt pow turb_model 2 u_l u_r v_l v_g norm bdy_params n_dims gamma R_ref
        rho_l e_l p_l rho_bound p_bound T_wall
      = inv_bdy_type_2 turb_model u_l u_r v_l n_dims gamma rho_l p_bound) ∧
    (inv_dispatch unset sqrt pow turb_model 3 u_l u_r v_l v_g norm bdy_params n_dims gamma R_ref
        rho_l e_l p_l rho_bound p_bound T_wall
      = inv_bdy_type_3 sqrt pow turb_model u_r v_l norm bdy_params n_dims gamma R_ref
          rho_l e_l p_l) ∧
    (inv_dispatch unset sqrt pow turb_model 4 u_l u_r v_l v_g norm bdy_params n_dims gamma R_ref
        rho_l e_l p_l rho_bound p_bound T_wall
      = inv_bdy_type_4 sqrt pow turb_model u_l u_r v_l norm n_dims gamma rho_l p_l
          p_bound) ∧
    (inv_dispatch unset sqrt pow turb_model 5 u_l u_r v_l v_g norm bdy_params n_dims gamma R_ref
        rho_l e_l p_l rho_bound p_bound T_wall
      = inv_bdy_type_5 u_r bdy_params n_dims gamma rho_bound p_bound) ∧
    (inv_dispatch unset sqrt pow turb_model 11 u_l u_r v_l v_g norm bdy_params n_dims gamma R_ref
        rho_l e_l p_l rho_bound p_bound T_wall
      = inv_bdy_type_11 turb_model u_r v_g n_dims gamma R_ref p_l T_wall) ∧
    (inv_dispatch unset sqrt pow turb_model 12 u_l u_r v_l v_g norm bdy_params n_dims gamma R_ref
        rho_l e_l p_l rho_bound p_bound T_wall
      = inv_bdy_type_12 turb_model u_r v_g n_dims gamma rho_l p_l) ∧
    (inv_dispatch unset sqrt pow turb_model 13 u_l u_r v_l v_g norm bdy_params n_dims gamma R_ref
        rho_l e_l p_l rho_bound p_bound T_wall
      = inv_bdy_type_13 u_r v_g bdy_params n_dims gamma R_ref p_l T_wall) ∧
    (inv_dispatch unset sqrt pow turb_model 14 u_l u_r v_l v_g norm bdy_params n_dims gamma R_ref
        rho_l e_l p_l rho_bound p_bound T_wall
      = inv_bdy_type_14 u_r v_g bdy_params n_dims gamma rho_l p_l) ∧
    (inv_dispatch unset sqrt pow turb_model 15 u_l u_r v_l v_g norm bdy_params n_dims gamma R_ref
        rho_l e_l p_l rho_bound p_bound T_wall
      = inv_bdy_type_15 sqrt pow turb_model u_l u_r v_l norm bdy_params n_dims gamma
          rho_l p_l rho_bound p_bound) := by
  refine ⟨?_, ?_, ?_, ?_, ?_, ?_, ?_, ?_, ?_, ?_⟩ <;> simp [inv_dispatch]

theorem dotLoop_vl_norm (u_l norm : List α) (n_dims : Nat) (hn : n_dims ≤ norm.length) :
    dotLoop n_dims (readAt ((List.range n_dims).map (velocity u_l))) (readAt norm)
      = .ok (dotN n_dims (velocity u_l) (fun k => norm.getD k 0)) :=
  dotLoop_eq n_dims _ _ _ _ (fun i hi => readAt_range_map n_dims _ i hi)
    (fun i hi => readAt_getD norm i (by omega))

theorem inv_bdy_type_3_eq (sqrt : α → α) (pow : α → α → α) (turb_model : Int)
    (u_l u_r norm bdy_params : List α) (n_dims : Nat) (gamma R_ref : α)
    (hn : n_dims ≤ norm.length) (hb : 11 + n_dims ≤ bdy_params.length)
    (ht : turb_model = 1 → 15 ≤ bdy_params.length ∧ n_dims + 3 ≤ u_r.length) :
    inv_bdy_type_3 sqrt pow turb_model u_r ((List.range n_dims).map (velocity u_l)) norm
        bdy_params n_dims gamma R_ref (u_l.getD 0 0) (u_l.getD (n_dims + 1) 0)
        (pressure gamma u_l n_dims)
      = .ok ⟨withTurb turb_model u_r n_dims (bdy_params.getD 14 0),
          (charInflow sqrt pow gamma R_ref u_l norm bdy_params n_dims).rho_r,
          (List.range n_dims).map (fun i =>
            (charInflow sqrt pow gamma R_ref u_l norm bdy_params n_dims).V_r
              * bdy_params.getD (11 + i) 0),
          (charInflow sqrt pow gamma R_ref u_l norm bdy_params n_dims).e_r⟩ := by
  have h1 : dotLoop n_dims (readAt norm) (fun i => readAt bdy_params (11 + i))
      = .ok (dotN n_dims (fun k => norm.getD k 0) (fun k => bdy_params.getD (11 + k) 0)) :=
    dotLoop_eq n_dims _ _ _ _ (fun i hi => readAt_getD norm i (by omega))
      (fun i hi => readAt_getD bdy_params (11 + i) (by omega))
  have h2 : ∀ V : α, storeLoop n_dims 0
      (fun i => do
        let f ← readAt bdy_params (11 + i)
        pure (V * f))
      (newBuffer n_dims)
      = .ok ((List.range n_dims).map (fun i => V * bdy_params.getD (11 + i) 0)) := by
    intro V
    apply storeLoop_new
    intro i hi
    simp only [readAt_getD bdy_params (11 + i) (by omega), ok_bind, pure_ok]
  unfold inv_bdy_type_3
  rw [readAt_getD bdy_params 9 (by omega), ok_bind, readAt_getD bdy_params 10 (by omega),
    ok_bind]
  simp only [dotLoop_vl_norm u_l norm n_dims hn, ok_bind, sqLoop_range_map, h1, h2,
    setTurbInf_eq _ _ _ _ ht]
  rfl

theorem farField_loops (u_l norm bdy_params : List α) (n_dims : Nat)
    (hn : n_dims ≤ norm.length) (hb : 1 + n_dims ≤ bdy_params.length) :
    dotLoop n_dims (fun i => readAt bdy_params (1 + i)) (readAt norm)
        = .ok (dotN n_dims (vBound bdy_params) (fun k => norm.getD k 0)) ∧
    sqLoop n_dims (fun i => readAt bdy_params (1 + i))
        = .ok (dotN n_dims (vBound bdy_params) (vBound bdy_params)) ∧
    (∀ s : α, storeLoop n_dims 0
      (fun i => do
        let c ← readAt norm i
        let b ← readAt bdy_params (1 + i)
        pure (s * c + (b - dotN n_dims (vBound bdy_params) (fun k => norm.getD k 0) * c)))
      (newBuffer n_dims)
      = .ok ((List.range n_dims).map (farFieldVelocity s (vBound bdy_params) norm n_dims))) ∧
    (∀ s : α, storeLoop n_dims 0
      (fun i => do
        let c ← readAt norm i
        let a ← readAt ((List.range n_dims).map (velocity u_l)) i
        pure (s * c + (a - dotN n_dims (velocity u_l) (fun k => norm.getD k 0) * c)))
      (newBuffer n_dims)
      = .ok ((List.range n_dims).map (farFieldVelocity s (velocity u_l) norm n_dims))) := by
  refine ⟨?_, ?_, ?_, ?_⟩
  · exact dotLoop_eq n_dims _ _ _ _ (fun i hi => readAt_getD bdy_params (1 + i) (by omega))
      (fun i hi => readAt_getD norm i (by omega))
  · exact sqLoop_eq n_dims _ _ (fun i hi => readAt_getD bdy_params (1 + i) (by omega))
  · intro s
    apply storeLoop_new
    intro i hi
    simp only [readAt_getD norm i (by omega), readAt_getD bdy_params (1 + i) (by omega),
      ok_bind, pure_ok, vBound, farFieldVelocity]
  · intro s
    apply storeLoop_new
    intro i hi
    simp only [readAt_getD norm i (by omega), readAt_range_map n_dims _ i hi, ok_bind,
      pure_ok, farFieldVelocity]

/-- The locals `c_star` and `vn_star` of the branch `bdy_type == 15`. -/
theorem farField_star (sqrt : α → α) (gamma : α) (u_l norm bdy_params : List α)
    (n_dims : Nat) :
    0.25 * (gamma - 1.0)
        * (dotN n_dims (velocity u_l) (fun k => norm.getD k 0)
            + 2.0 / (gamma - 1.0) * sqrt (gamma * pressure gamma u_l n_dims / u_l.getD 0 0)
          - (dotN n_dims (vBound bdy_params) (fun k => norm.getD k 0)
            - 2.0 / (gamma - 1.0) * sqrt (gamma * bdy_params.getD 4 0 / bdy_params.getD 0 0)))
      = cStar sqrt gamma u_l norm bdy_params n_dims ∧
    0.5 * (dotN n_dims (velocity u_l) (fun k => norm.getD k 0)
            + 2.0 / (gamma - 1.0) * sqrt (gamma * pressure gamma u_l n_dims / u_l.getD 0 0)
          + (dotN n_dims (vBound bdy_params) (fun k => norm.getD k 0)
            - 2.0 / (gamma - 1.0) * sqrt (gamma * bdy_params.getD 4 0 / bdy_params.getD 0 0)))
      = vnStar sqrt gamma u_l norm bdy_params n_dims := by
  unfold cStar vnStar riemannPlus riemannMinus
  constructor <;> norm_num

/-- The inflow side of the branch `bdy_type == 15`. -/
theorem inv_bdy_type_15_inflow (sqrt : α → α) (pow : α → α → α) (turb_model : Int)
    (u_l u_r norm bdy_params : List α) (n_dims : Nat) (gamma : α)
    (hn : n_dims ≤ norm.length) (hb : 1 + n_dims ≤ bdy_params.length)
    (ht : turb_model = 1 → 15 ≤ bdy_params.length ∧ n_dims + 3 ≤ u_r.length)
    (hin : dotN n_dims (velocity u_l) (fun k => norm.getD k 0) < 0) :
    inv_bdy_type_15 sqrt pow turb_model u_l u_r ((List.range n_dims).map (velocity u_l)) norm
        bdy_params n_dims gamma (u_l.getD 0 0) (pressure gamma u_l n_dims)
        (bdy_params.getD 0 0) (bdy_params.getD 4 0)
      = .ok ⟨withTurb turb_model u_r n_dims (bdy_params.getD 14 0),
          isentropicDensity pow gamma
            (pow (bdy_params.getD 0 0) gamma / bdy_params.getD 4 0)
            (cStar sqrt gamma u_l norm bdy_params n_dims),
          (List.range n_dims).map
            (farFieldVelocity (vnStar sqrt gamma u_l norm bdy_params n_dims)
              (vBound bdy_params) norm n_dims),
          isentropicDensity pow gamma
              (pow (bdy_params.getD 0 0) gamma / bdy_params.getD 4 0)
              (cStar sqrt gamma u_l norm bdy_params n_dims)
            * freeStreamEnthalpy gamma bdy_params n_dims
          - acousticPressure gamma
              (isentropicDensity pow gamma
                (pow (bdy_params.getD 0 0) gamma / bdy_params.getD 4 0)
                (cStar sqrt gamma u_l norm bdy_params n_dims))
              (cStar sqrt gamma u_l norm bdy_params n_dims)⟩ := by
  obtain ⟨h1, h2, h3, _⟩ := farField_loops u_l norm bdy_params n_dims hn hb
  obtain ⟨hc, hv⟩ := farField_star sqrt gamma u_l norm bdy_params n_dims
  unfold inv_bdy_type_15
  simp only [dotLoop_vl_norm u_l norm n_dims hn, ok_bind, h1, if_pos hin, h2, h3,
    setTurbInf_eq _ _ _ _ ht, hc, hv]
  simp only [pure_ok, isentropicDensity, freeStreamEnthalpy, acousticPressure]
  norm_num

/-- The outflow side of the branch `bdy_type == 15`. -/
theorem inv_bdy_type_15_outflow (sqrt : α → α) (pow : α → α → α) (turb_model : Int)
    (u_l u_r norm bdy_params : List α) (n_dims : Nat) (gamma : α)
    (hn : n_dims ≤ norm.length) (hb : 1 + n_dims ≤ bdy_params.length)
    (ht : turb_model = 1 → n_dims + 3 ≤ u_l.length ∧ n_dims + 3 ≤ u_r.length)
    (hout : ¬ dotN n_dims (velocity u_l) (fun k => norm.getD k 0) < 0) :
    inv_bdy_type_15 sqrt pow turb_model u_l u_r ((List.range n_dims).map (velocity u_l)) norm
        bdy_params n_dims gamma (u_l.getD 0 0) (pressure gamma u_l n_dims)
        (bdy_params.getD 0 0) (bdy_params.getD 4 0)
      = .ok ⟨withTurb turb_model u_r n_dims (u_l.getD (n_dims + 2) 0),
          isentropicDensity pow gamma
            (pow (u_l.getD 0 0) gamma / pressure gamma u_l n_dims)
            (cStar sqrt gamma u_l norm bdy_params n_dims),
          (List.range n_dims).map
            (farFieldVelocity (vnStar sqrt gamma u_l norm bdy_params n_dims)
              (velocity u_l) norm n_dims),
          totalEnergy gamma
            (acousticPressure gamma
              (isentropicDensity pow gamma
                (pow (u_l.getD 0 0) gamma / pressure gamma u_l n_dims)
                (cStar sqrt gamma u_l norm bdy_params n_dims))
              (cStar sqrt gamma u_l norm bdy_params n_dims))
            (isentropicDensity pow gamma
              (pow (u_l.getD 0 0) gamma / pressure gamma u_l n_dims)
              (cStar sqrt gamma u_l norm bdy_params n_dims))
            n_dims
            (farFieldVelocity (vnStar sqrt gamma u_l norm bdy_params n_dims)
              (velocity u_l) norm n_dims)⟩ := by
  obtain ⟨h1, _, _, h4⟩ := farField_loops u_l norm bdy_params n_dims hn hb
  obtain ⟨hc, hv⟩ := farField_star sqrt gamma u_l norm bdy_params n_dims
  unfold inv_bdy_type_15
  simp only [dotLoop_vl_norm u_l norm n_dims hn, ok_bind, h1, if_neg hout, h4,
    sqLoop_range_map, setTurbExtrapolate_eq _ _ _ _ ht, hc, hv]
  simp only [pure_ok, isentropicDensity, totalEnergy, acousticPressure]
  norm_num

/-- The loop of the branch `bdy_type == 4` that fills `v_r` and accumulates `v_sq`. -/
theorem fused_velocity_loop (n : Nat) (v_l norm : List α) (f g : Nat → α) (d : α)
    (hv : ∀ i, i < n → readAt v_l i = .ok (f i))
    (hnm : ∀ i, i < n → readAt norm i = .ok (g i)) :
    forLoop n
      (fun i (st : List α × α) => do
        let a ← readAt v_l i
        let c ← readAt norm i
        let v_r ← writeAt st.1 i (a + d * c)
        let x ← readAt v_r i
        pure (v_r, st.2 + x * x))
      (newBuffer n, 0)
      = .ok ((List.range n).map (fun i => f i + d * g i),
          dotN n (fun i => f i + d * g i) (fun i => f i + d * g i)) := by
  obtain ⟨st, hrun, hl, hval, hsum⟩ := forLoop_inv n
    (fun i (st : List α × α) => do
      let a ← readAt v_l i
      let c ← readAt norm i
      let v_r ← writeAt st.1 i (a + d * c)
      let x ← readAt v_r i
      pure (v_r, st.2 + x * x))
    (fun k (st : List α × α) => st.1.length = n ∧
      (∀ j, j < k → st.1[j]? = some (f j + d * g j)) ∧
      st.2 = dotN k (fun i => f i + d * g i) (fun i => f i + d * g i))
    (newBuffer n, 0)
    ⟨by simp [newBuffer], fun j hj => absurd hj (Nat.not_lt_zero j), by simp [dotN]⟩
    (by
      intro k st hk ⟨hl, hval, hsum⟩
      refine ⟨(st.1.set k (f k + d * g k), st.2 + (f k + d * g k) * (f k + d * g k)),
        ?_, by simp [hl], fun j hj => ?_, ?_⟩
      · have hw : writeAt st.1 k (f k + d * g k) = .ok (st.1.set k (f k + d * g k)) :=
          writeAt_of_lt _ (by omega)
        have hr : readAt (st.1.set k (f k + d * g k)) k = .ok (f k + d * g k) :=
          readAt_of_getElem? (List.getElem?_set_self (by omega))
        simp only [hv k hk, hnm k hk, ok_bind, hw, hr, pure_ok]
      · dsimp only
        by_cases hjk : j = k
        · subst hjk
          exact List.getElem?_set_self (by omega)
        · rw [List.getElem?_set_ne (fun h => hjk h.symm)]
          exact hval j (by omega)
      · dsimp only
        rw [hsum]
        unfold dotN
        rw [Finset.sum_range_succ])
  rw [hrun]
  congr 1
  refine Prod.ext ?_ hsum
  apply List.ext_getElem?
  intro j
  by_cases hj : j < n
  · rw [hval j hj, getElem?_range_map n _ j hj]
  · rw [List.getElem?_eq_none (by omega), List.getElem?_eq_none (by simp; omega)]

/-- The branch `bdy_type == 4` returns; the turbulence entry is extrapolated. -/
theorem inv_bdy_type_4_eq (sqrt : α → α) (pow : α → α → α) (turb_model : Int)
    (u_l u_r norm : List α) (n_dims : Nat) (gamma rho_l p_l p_bound : α)
    (hn : n_dims ≤ norm.length)
    (ht : turb_model = 1 → n_dims + 3 ≤ u_l.length ∧ n_dims + 3 ≤ u_r.length) :
    ∃ (r : RightState α) (g : Nat → α),
      inv_bdy_type_4 sqrt pow turb_model u_l u_r ((List.range n_dims).map (velocity u_l)) norm
        n_dims gamma rho_l p_l p_bound = .ok r ∧
      r.u_r = withTurb turb_model u_r n_dims (u_l.getD (n_dims + 2) 0) ∧
      r.v_r = (List.range n_dims).map g := by
  have hloop := fun d : α => fused_velocity_loop n_dims
    ((List.range n_dims).map (velocity u_l)) norm (velocity u_l) (fun k => norm.getD k 0) d
    (fun i hi => readAt_range_map n_dims _ i hi) (fun i hi => readAt_getD norm i (by omega))
  unfold inv_bdy_type_4
  simp only [dotLoop_vl_norm u_l norm n_dims hn, ok_bind, hloop,
    setTurbExtrapolate_eq _ _ _ _ ht]
  exact ⟨_, _, rfl, rfl, rfl⟩

theorem dotN_congr_both (n : Nat) (a b : Nat → α) (h : ∀ i, i < n → a i = b i) :
    dotN n a a = dotN n b b := by
  unfold dotN
  exact Finset.sum_congr rfl (fun i hi => by rw [h i (Finset.mem_range.mp hi)])

/-- The pressure recomputed from a conservative state whose total energy is
`p/(gamma-1) + 1/2 rho |v|^2` is `p`. -/
theorem pressure_of_isConservative (gamma p rho : α) (u old : List α) (n_dims : Nat)
    (v : Nat → α)
    (h : IsConservative u n_dims rho v (totalEnergy gamma p rho n_dims v) old)
    (hg : gamma = 1 → p = 0) : pressure gamma u n_dims = p := by
  have h0 : u.getD 0 0 = rho := getD_of_getElem? u 0 0 _ h.2.1
  have he : u.getD (n_dims + 1) 0 = totalEnergy gamma p rho n_dims v :=
    getD_of_getElem? u (n_dims + 1) 0 _ h.2.2.2.1
  have hkin : u.getD 0 0 * dotN n_dims (velocity u) (velocity u) = rho * dotN n_dims v v := by
    by_cases hr : rho = 0
    · rw [h0, hr, zero_mul, zero_mul]
    · rw [h0, dotN_congr_both n_dims _ _
        (fun i hi => velocity_of_isConservative u old n_dims rho _ v h hr i hi)]
  unfold pressure
  rw [he, mul_assoc, hkin, totalEnergy]
  by_cases hg1 : gamma = 1
  · rw [hg hg1, hg1]
    simp
  · have : gamma - 1 ≠ 0 := sub_ne_zero.mpr hg1
    field_simp
    ring

/-- At `gamma = 1` the pressure of every state is 0. -/
theorem pressure_gamma_one (gamma : α) (u : List α) (n_dims : Nat) (h : gamma = 1) :
    pressure gamma u n_dims = 0 := by
  unfold pressure
  rw [h, sub_self, zero_mul]

/-- The entry `n_dims+2` of the array returned by `set_inv_boundary_conditions` is the one
the branch left in `u_r`. -/
theorem turb_entry_of_isConservative (u old : List α) (n_dims : Nat) (rho e : α)
    (v : Nat → α) (h : IsConservative u n_dims rho v e old) :
    u[n_dims + 2]? = old[n_dims + 2]? :=
  h.2.2.2.2 (n_dims + 2) (Nat.le_refl _)

/-- With the turbulence model active, the branches 1, 2, 3, 4, 11, 12 and 15 return, and the
entry `n_dims+2` of the result is the value the branch assigns. -/
theorem set_inv_turbulence {unset : UnsetLocals α} (sqrt : α → α) (pow : α → α → α)
    (u_l u_r v_g norm bdy_params : List α) (n_dims : Nat) (gamma R_ref : α)
    (hbp : 15 ≤ bdy_params.length) (hb : 11 + n_dims ≤ bdy_params.length)
    (hul : n_dims + 3 ≤ u_l.length) (hur : n_dims + 3 ≤ u_r.length)
    (hvg : n_dims ≤ v_g.length) (hn : n_dims ≤ norm.length) (bdy_type : Int) (x : α)
    (hx : (bdy_type = 1 ∧ x = bdy_params.getD 14 0) ∨
      (bdy_type = 2 ∧ x = u_l.getD (n_dims + 2) 0) ∨
      (bdy_type = 3 ∧ x = bdy_params.getD 14 0) ∨
      (bdy_type = 4 ∧ x = u_l.getD (n_dims + 2) 0) ∨
      (bdy_type = 11 ∧ x = 0) ∨ (bdy_type = 12 ∧ x = 0) ∨
      (bdy_type = 15 ∧ dotN n_dims (velocity u_l) (fun k => norm.getD k 0) < 0 ∧
        x = bdy_params.getD 14 0) ∨
      (bdy_type = 15 ∧ ¬ dotN n_dims (velocity u_l) (fun k => norm.getD k 0) < 0 ∧
        x = u_l.getD (n_dims + 2) 0)) :
    ∃ u, set_inv_boundary_conditions unset sqrt pow 1 bdy_type u_l u_r v_g norm bdy_params n_dims
        gamma R_ref 0 = .ok u ∧ u[n_dims + 2]? = some x := by
  have hd := inv_dispatch_eq unset sqrt pow 1 u_l u_r ((List.range n_dims).map (velocity u_l)) v_g
    norm bdy_params n_dims gamma R_ref (u_l.getD 0 0) (u_l.getD (n_dims + 1) 0)
    (pressure gamma u_l n_dims) (bdy_params.getD 0 0) (bdy_params.getD 4 0)
    (bdy_params.getD 8 0)
  have hlen : ∀ y : α, n_dims + 2 ≤ (withTurb 1 u_r n_dims y).length := by
    intro y
    rw [withTurb_length]
    omega
  have fin : ∀ (r : RightState α) (g : Nat → α),
      inv_dispatch unset sqrt pow 1 bdy_type u_l u_r ((List.range n_dims).map (velocity u_l)) v_g
        norm bdy_params n_dims gamma R_ref (u_l.getD 0 0) (u_l.getD (n_dims + 1) 0)
        (pressure gamma u_l n_dims) (bdy_params.getD 0 0) (bdy_params.getD 4 0)
        (bdy_params.getD 8 0) = .ok r →
      r.v_r = (List.range n_dims).map g → r.u_r = withTurb 1 u_r n_dims x →
      ∃ u, set_inv_boundary_conditions unset sqrt pow 1 bdy_type u_l u_r v_g norm bdy_params n_dims
        gamma R_ref 0 = .ok u ∧ u[n_dims + 2]? = some x := by
    intro r g hr hv hu
    obtain ⟨u, hrun, hcons⟩ := set_inv_of_dispatch sqrt pow 1 bdy_type u_l u_r v_g norm
      bdy_params n_dims gamma R_ref (by omega) (by omega) r g hr hv
      (by rw [hu]; exact hlen x)
    refine ⟨u, hrun, ?_⟩
    rw [turb_entry_of_isConservative u _ n_dims _ _ _ hcons, hu]
    exact withTurb_entry u_r n_dims x hur
  rcases hx with ⟨rfl, rfl⟩ | ⟨rfl, rfl⟩ | ⟨rfl, rfl⟩ | ⟨rfl, rfl⟩ | ⟨rfl, rfl⟩ | ⟨rfl, rfl⟩ |
    ⟨rfl, hin, rfl⟩ | ⟨rfl, hout, rfl⟩
  · exact fin _ _ (by rw [hd.1, inv_bdy_type_1_eq 1 u_r bdy_params n_dims gamma _ _
      (by omega) (fun _ => ⟨hbp, hur⟩)]) rfl rfl
  · exact fin _ _ (by rw [hd.2.1, inv_bdy_type_2_eq 1 u_l u_r n_dims gamma _ _
      (fun _ => ⟨hul, hur⟩)]) rfl rfl
  · exact fin _ _ (by rw [hd.2.2.1, inv_bdy_type_3_eq sqrt pow 1 u_l u_r norm bdy_params
      n_dims gamma R_ref hn hb (fun _ => ⟨hbp, hur⟩)]) rfl rfl
  · obtain ⟨r, g, hr, hu, hv⟩ := inv_bdy_type_4_eq sqrt pow 1 u_l u_r norm n_dims gamma
      (u_l.getD 0 0) (pressure gamma u_l n_dims) (bdy_params.getD 4 0) hn
      (fun _ => ⟨hul, hur⟩)
    exact fin r g (by rw [hd.2.2.2.1, hr]) hv hu
  · exact fin _ _ (by rw [hd.2.2.2.2.2.1, inv_bdy_type_11_eq 1 u_r v_g n_dims gamma R_ref
      _ _ hvg (fun _ => hur)]) rfl rfl
  · exact fin _ _ (by rw [hd.2.2.2.2.2.2.1, inv_bdy_type_12_eq 1 u_r v_g n_dims gamma
      _ _ hvg (fun _ => hur)]) rfl rfl
  · exact fin _ _ (by rw [hd.2.2.2.2.2.2.2.2.2, inv_bdy_type_15_inflow sqrt pow 1 u_l u_r
      norm bdy_params n_dims gamma hn (by omega) (fun _ => ⟨hbp, hur⟩) hin]) rfl rfl
  · exact fin _ _ (by rw [hd.2.2.2.2.2.2.2.2.2, inv_bdy_type_15_outflow sqrt pow 1 u_l u_r
      norm bdy_params n_dims gamma hn (by omega) (fun _ => ⟨hul, hur⟩) hout]) rfl rfl

/-- The Mach cutoff of the branch `bdy_type == 3`: from a speed squared `v1 >= 0` the
cutoff leaves a non-negative `v_sq` that is at most the new speed of sound squared
`c_t - k*v_sq` whenever the latter is positive. -/
theorem machCutoff_spec (k c_t v1 : α) (hk : 0 ≤ k) (hv : 0 ≤ v1) :
    0 ≤ machCutoff k c_t v1 ∧
    (0 < c_t - k * machCutoff k c_t v1 → machCutoff k c_t v1 ≤ c_t - k * machCutoff k c_t v1) := by
  have h1 : (1.0 : α) = 1 := by norm_num
  unfold machCutoff
  rw [h1]
  rcases lt_trichotomy (c_t - k * v1) 0 with hc | hc | hc
  · have hM : v1 / (c_t - k * v1) ≤ 0 := div_nonpos_of_nonneg_of_nonpos hv hc.le
    have hmin : min (v1 / (c_t - k * v1)) 1 = v1 / (c_t - k * v1) :=
      min_eq_left (hM.trans zero_le_one)
    rw [hmin, div_mul_cancel₀ _ hc.ne]
    exact ⟨hv, fun h => absurd h (not_lt.mpr hc.le)⟩
  · rw [hc, mul_zero, mul_zero, sub_zero]
    exact ⟨le_refl 0, fun h => h.le⟩
  · by_cases hM : v1 / (c_t - k * v1) ≤ 1
    · rw [min_eq_left hM, div_mul_cancel₀ _ hc.ne']
      exact ⟨hv, fun _ => (div_le_one hc).mp hM⟩
    · have hM' : 1 < v1 / (c_t - k * v1) := not_le.mp hM
      rw [min_eq_right hM'.le, one_mul]
      refine ⟨hc.le, fun _ => ?_⟩
      have hlt : c_t - k * v1 < v1 := (one_lt_div hc).mp hM'
      nlinarith [mul_le_mul_of_nonneg_left hlt.le hk]

/-- The locals `V_r` and `c_r_sq` of the branch `bdy_type == 3` in terms of the cutoff. -/
theorem charInflow_cutoff (sqrt : α → α) (pow : α → α → α) (gamma R_ref : α)
    (u_l norm bdy_params : List α) (n_dims : Nat) :
    (charInflow sqrt pow gamma R_ref u_l norm bdy_params n_dims).V_r
      = sqrt (machCutoff (0.5 * (gamma - 1.0))
          (charInflow sqrt pow gamma R_ref u_l norm bdy_params n_dims).c_total_sq
          ((charInflow sqrt pow gamma R_ref u_l norm bdy_params n_dims).V_first
            * (charInflow sqrt pow gamma R_ref u_l norm bdy_params n_dims).V_first)) ∧
    (charInflow sqrt pow gamma R_ref u_l norm bdy_params n_dims).c_r_sq
      = (charInflow sqrt pow gamma R_ref u_l norm bdy_params n_dims).c_total_sq
        - 0.5 * (gamma - 1.0) * machCutoff (0.5 * (gamma - 1.0))
          (charInflow sqrt pow gamma R_ref u_l norm bdy_params n_dims).c_total_sq
          ((charInflow sqrt pow gamma R_ref u_l norm bdy_params n_dims).V_first
            * (charInflow sqrt pow gamma R_ref u_l norm bdy_params n_dims).V_first) ∧
    (charInflow sqrt pow gamma R_ref u_l norm bdy_params n_dims).radicand
      = max (charInflow sqrt pow gamma R_ref u_l norm bdy_params n_dims).disc 0.0 ∧
    ∃ x, (charInflow sqrt pow gamma R_ref u_l norm bdy_params n_dims).V_first = max x 0.0 :=
  ⟨rfl, rfl, rfl, _, rfl⟩

/-- The locals of the branch `bdy_type == 3` after the clamp of the discriminant and the
Mach cutoff. -/
theorem charInflow_spec (sqrt : α → α) (pow : α → α → α) (gamma R_ref : α)
    (u_l norm bdy_params : List α) (n_dims : Nat)
    (hsqrt : ∀ x, 0 ≤ x → 0 ≤ sqrt x ∧ sqrt x * sqrt x = x) (hgamma : 1 < gamma) :
    (charInflow sqrt pow gamma R_ref u_l norm bdy_params n_dims).radicand
      = max (charInflow sqrt pow gamma R_ref u_l norm bdy_params n_dims).disc 0 ∧
    0 ≤ (charInflow sqrt pow gamma R_ref u_l norm bdy_params n_dims).V_first ∧
    0 ≤ (charInflow sqrt pow gamma R_ref u_l norm bdy_params n_dims).V_r ∧
    (0 < (charInflow sqrt pow gamma R_ref u_l norm bdy_params n_dims).c_r_sq →
      (charInflow sqrt pow gamma R_ref u_l norm bdy_params n_dims).V_r
        * (charInflow sqrt pow gamma R_ref u_l norm bdy_params n_dims).V_r
        / (charInflow sqrt pow gamma R_ref u_l norm bdy_params n_dims).c_r_sq ≤ 1) := by
  have h0 : (0.0 : α) = 0 := by norm_num
  have hk : (0 : α) ≤ 0.5 * (gamma - 1.0) := by
    have : 0 < gamma - 1 := sub_pos.mpr hgamma
    norm_num
    exact hgamma.le
  obtain ⟨hV, hc, hr, x, hx⟩ :=
    charInflow_cutoff sqrt pow gamma R_ref u_l norm bdy_params n_dims
  have hcut := machCutoff_spec (0.5 * (gamma - 1.0))
    (charInflow sqrt pow gamma R_ref u_l norm bdy_params n_dims).c_total_sq
    ((charInflow sqrt pow gamma R_ref u_l norm bdy_params n_dims).V_first
      * (charInflow sqrt pow gamma R_ref u_l norm bdy_params n_dims).V_first)
    hk (mul_self_nonneg _)
  refine ⟨?_, ?_, ?_, ?_⟩
  · rw [hr, h0]
  · rw [hx, h0]
    exact le_max_right _ _
  · rw [hV]
    exact (hsqrt _ hcut.1).1
  · intro hpos
    rw [hV, (hsqrt _ hcut.1).2, div_le_one hpos, hc]
    rw [hc] at hpos
    exact hcut.2 hpos

/-- The normal component of the exterior velocity of the branch `bdy_type == 15` is
`vn_star` when the normal has unit length. -/
theorem farFieldVelocity_normal (vn_star : α) (w : Nat → α) (norm : List α) (n_dims : Nat)
    (hunit : dotN n_dims (fun k => norm.getD k 0) (fun k => norm.getD k 0) = 1) :
    dotN n_dims (farFieldVelocity vn_star w norm n_dims) (fun k => norm.getD k 0)
      = vn_star := by
  have hsplit : dotN n_dims (farFieldVelocity vn_star w norm n_dims)
      (fun k => norm.getD k 0)
      = vn_star * dotN n_dims (fun k => norm.getD k 0) (fun k => norm.getD k 0)
        + (dotN n_dims w (fun k => norm.getD k 0)
          - dotN n_dims w (fun k => norm.getD k 0)
            * dotN n_dims (fun k => norm.getD k 0) (fun k => norm.getD k 0)) := by
    generalize hD : dotN n_dims w (fun k => norm.getD k 0) = D
    have hf : ∀ i, farFieldVelocity vn_star w norm n_dims i
        = vn_star * norm.getD i 0 + (w i - D * norm.getD i 0) := by
      intro i
      rw [farFieldVelocity, hD]
    rw [← hD]
    unfold dotN
    rw [Finset.mul_sum, Finset.mul_sum, ← Finset.sum_sub_distrib, ← Finset.sum_add_distrib]
    refine Finset.sum_congr rfl (fun i _ => ?_)
    rw [hf i, ← hD]
    unfold dotN
    ring
  rw [hsplit, hunit]
  ring

end BoundaryLoops

/-! ## The adiabatic-wall gradient closure -/

section ViscousWall

variable {α : Type} [LinearOrderedField α]

/-- A loop whose iteration `i` stores `f i` at position `idx i` and may read, besides, any
entry that no earlier iteration has written. -/
theorem forLoop_write_frame {β : Type} (n L : Nat) (idx : Nat → Nat) (f : Nat → β)
    (body : Nat → List β → Except Fault (List β)) (buf0 : List β)
    (hlen : buf0.length = L)
    (hidx : ∀ i, i < n → idx i < L)
    (hinj : ∀ i j, i < n → j < n → idx i = idx j → i = j)
    (hbody : ∀ i buf, i < n → buf.length = L →
      (∀ j, (∀ k, k < i → idx k ≠ j) → buf[j]? = buf0[j]?) →
      body i buf = .ok (buf.set (idx i) (f i))) :
    ∃ buf', forLoop n body buf0 = .ok buf' ∧ buf'.length = L ∧
      (∀ i, i < n → buf'[idx i]? = some (f i)) ∧
      (∀ j, (∀ i, i < n → idx i ≠ j) → buf'[j]? = buf0[j]?) := by
  have key := forLoop_inv n body
    (fun m buf => m ≤ n ∧ buf.length = L ∧ (∀ i, i < m → buf[idx i]? = some (f i)) ∧
      (∀ j, (∀ i, i < m → idx i ≠ j) → buf[j]? = buf0[j]?)) buf0
    ⟨Nat.zero_le n, hlen, fun i hi => absurd hi (Nat.not_lt_zero i), fun j _ => rfl⟩
    (by
      intro m buf hm ⟨_, hl, hset, hrest⟩
      refine ⟨buf.set (idx m) (f m), hbody m buf hm hl hrest, hm, ?_, ?_, ?_⟩
      · rw [List.length_set]; exact hl
      · intro i hi
        by_cases him : i = m
        · subst him
          rw [List.getElem?_set_self (by rw [hl]; exact hidx i hm)]
        · have hne : idx m ≠ idx i := fun heq => him (hinj i m (by omega) hm heq.symm)
          rw [List.getElem?_set_ne hne]
          exact hset i (by omega)
      · intro j hj
        have hne : idx m ≠ j := hj m (Nat.lt_succ_self m)
        rw [List.getElem?_set_ne hne]
        exact hrest j (fun i hi => hj i (by omega)))
  obtain ⟨buf', hrun, _, h1, h2, h3⟩ := key
  exact ⟨buf', hrun, h1, h2, h3⟩

/-- Two nested loops that fill a fresh local array of `n*m` entries row by row. -/
theorem nested_fill (n m : Nat) (value : Nat → Nat → Except Fault α) (g : Nat → Nat → α)
    (hval : ∀ j i, j < n → i < m → value j i = .ok (g j i)) :
    ∃ gv, forLoop n (fun j gv => storeLoop m (j * m) (value j) gv) (newBuffer (n * m))
        = .ok gv ∧ gv.length = n * m ∧
      ∀ j i, j < n → i < m → gv[j * m + i]? = some (g j i) := by
  obtain ⟨gv, hrun, hl, hv⟩ := forLoop_inv n
    (fun j gv => storeLoop m (j * m) (value j) gv)
    (fun k (gv : List α) => gv.length = n * m ∧
      ∀ j i, j < k → i < m → gv[j * m + i]? = some (g j i))
    (newBuffer (n * m)) ⟨by simp [newBuffer], fun j i hj _ => absurd hj (Nat.not_lt_zero j)⟩
    (by
      intro k gv hk ⟨hl, hprev⟩
      have hrow : k * m + m ≤ n * m := by
        have h1 : (k + 1) * m ≤ n * m := Nat.mul_le_mul_right _ hk
        rw [Nat.add_mul, Nat.one_mul] at h1
        exact h1
      obtain ⟨gv', hrun, hl', hnew, hold⟩ := storeLoop_spec m (k * m) (value k) gv (g k)
        (fun i hi => hval k i hk hi) (by omega)
      refine ⟨gv', hrun, by omega, fun j i hj hi => ?_⟩
      by_cases hjk : j = k
      · subst hjk
        exact hnew i hi
      · have hlt : j < k := by omega
        have h1 : (j + 1) * m ≤ k * m := Nat.mul_le_mul_right _ hlt
        rw [Nat.add_mul, Nat.one_mul] at h1
        rw [hold (j * m + i) (Or.inl (by omega))]
        exact hprev j i hlt hi)
  exact ⟨gv, hrun, hl, hv⟩

theorem vis_grad_vel_spec (u_r grad_u : List α) (n_dims n_fields : Nat)
    (hf : n_dims + 1 ≤ n_fields) (hur : n_dims + 1 ≤ u_r.length)
    (hg : n_dims * n_fields ≤ grad_u.length) :
    ∃ gv, vis_grad_vel u_r grad_u n_dims n_fields = .ok gv ∧
      ∀ j i, j < n_dims → i < n_dims →
        gv[j * n_dims + i]? = some (velocityGradient u_r grad_u n_fields j i) := by
  obtain ⟨gv, hrun, _, hv⟩ := nested_fill n_dims n_dims
    (fun j i => do
      let gm ← readAt grad_u (i * n_fields + (j + 1))
      let gr ← readAt grad_u (i * n_fields + 0)
      let m ← readAt u_r (j + 1)
      let r ← readAt u_r 0
      pure ((gm - gr * m / r) / r))
    (fun j i => velocityGradient u_r grad_u n_fields j i)
    (by
      intro j i hj hi
      have h1 : (i + 1) * n_fields ≤ n_dims * n_fields := Nat.mul_le_mul_right _ hi
      rw [Nat.add_mul, Nat.one_mul] at h1
      simp only [readAt_getD grad_u (i * n_fields + (j + 1)) (by omega),
        readAt_getD grad_u (i * n_fields + 0) (by omega), readAt_getD u_r (j + 1) (by omega),
        readAt_getD u_r 0 (by omega), ok_bind, pure_ok, velocityGradient, gradEntry])
  exact ⟨gv, hrun, hv⟩

theorem vis_energy_2d_spec (inte : α) (u_r gv grad_u : List α) (n_fields : Nat)
    (GV : Nat → Nat → α) (hf : 4 ≤ n_fields) (hur : 3 ≤ u_r.length)
    (hg : 2 * n_fields ≤ grad_u.length)
    (hgv : ∀ j i, j < 2 → i < 2 → gv[j * 2 + i]? = some (GV j i)) :
    ∃ g, vis_energy_2d inte u_r gv grad_u 2 n_fields = .ok g ∧ g.length = grad_u.length ∧
      (∀ i, i < 2 → g[i * n_fields + 3]? = some
        (inte * gradEntry grad_u n_fields i 0
          + 0.5 * ((u_r.getD 1 0 * u_r.getD 1 0 + u_r.getD 2 0 * u_r.getD 2 0)
              / (u_r.getD 0 0 * u_r.getD 0 0)) * gradEntry grad_u n_fields i 0
          + u_r.getD 0 0 * ((u_r.getD 1 0 / u_r.getD 0 0) * GV 0 i
              + (u_r.getD 2 0 / u_r.getD 0 0) * GV 1 i))) ∧
      (∀ j, (∀ i, i < 2 → i * n_fields + 3 ≠ j) → g[j]? = grad_u[j]?) := by
  have hrow : ∀ i, i < 2 → i * n_fields + n_fields ≤ 2 * n_fields := by
    intro i hi
    have h1 : (i + 1) * n_fields ≤ 2 * n_fields := Nat.mul_le_mul_right _ hi
    rw [Nat.add_mul, Nat.one_mul] at h1
    exact h1
  have hsep : ∀ k i, k < i → k * n_fields + n_fields ≤ i * n_fields := by
    intro k i hki
    have h1 : (k + 1) * n_fields ≤ i * n_fields := Nat.mul_le_mul_right _ hki
    rw [Nat.add_mul, Nat.one_mul] at h1
    exact h1
  exact forLoop_write_frame 2 grad_u.length (fun i => i * n_fields + 3) _ _ grad_u rfl
    (fun i hi => by have := hrow i hi; dsimp only; omega)
    (fun i j hi hj h => by
      dsimp only at h
      rcases Nat.lt_trichotomy i j with hlt | heq | hgt
      · have := hsep i j hlt; omega
      · exact heq
      · have := hsep j i hgt; omega)
    (by
      intro i buf hi hl hframe
      have hread : buf[i * n_fields + 0]? = some (gradEntry grad_u n_fields i 0) := by
        rw [hframe (i * n_fields + 0) (fun k hk h => by
          have := hsep k i hk
          dsimp only at h
          omega)]
        exact getElem?_eq_some_getD 0 (by have := hrow i hi; omega)
      simp only [readAt_of_getElem? hread, readAt_getD u_r 0 (by omega),
        readAt_getD u_r 1 (by omega), readAt_getD u_r 2 (by omega),
        readAt_of_getElem? (hgv 0 i (by omega) hi), readAt_of_getElem? (hgv 1 i (by omega) hi),
        ok_bind]
      exact writeAt_of_lt _ (by have := hrow i hi; omega))

theorem vis_energy_3d_spec (inte : α) (u_r gv grad_u : List α) (n_fields : Nat)
    (GV : Nat → Nat → α) (hf : 5 ≤ n_fields) (hur : 4 ≤ u_r.length)
    (hg : 3 * n_fields ≤ grad_u.length)
    (hgv : ∀ j i, j < 3 → i < 3 → gv[j * 3 + i]? = some (GV j i)) :
    ∃ g, vis_energy_3d inte u_r gv grad_u 3 n_fields = .ok g ∧ g.length = grad_u.length ∧
      (∀ i, i < 3 → g[i * n_fields + 4]? = some
        (inte * gradEntry grad_u n_fields i 0
          + 0.5 * ((u_r.getD 1 0 * u_r.getD 1 0 + u_r.getD 2 0 * u_r.getD 2 0
                + u_r.getD 3 0 * u_r.getD 3 0)
              / (u_r.getD 0 0 * u_r.getD 0 0)) * gradEntry grad_u n_fields i 0
          + u_r.getD 0 0 * ((u_r.getD 1 0 / u_r.getD 0 0) * GV 0 i
              + (u_r.getD 2 0 / u_r.getD 0 0) * GV 1 i
              + (u_r.getD 3 0 / u_r.getD 0 0) * GV 2 i))) ∧
      (∀ j, (∀ i, i < 3 → i * n_fields + 4 ≠ j) → g[j]? = grad_u[j]?) := by
  have hrow : ∀ i, i < 3 → i * n_fields + n_fields ≤ 3 * n_fields := by
    intro i hi
    have h1 : (i + 1) * n_fields ≤ 3 * n_fields := Nat.mul_le_mul_right _ hi
    rw [Nat.add_mul, Nat.one_mul] at h1
    exact h1
  have hsep : ∀ k i, k < i → k * n_fields + n_fields ≤ i * n_fields := by
    intro k i hki
    have h1 : (k + 1) * n_fields ≤ i * n_fields := Nat.mul_le_mul_right _ hki
    rw [Nat.add_mul, Nat.one_mul] at h1
    exact h1
  exact forLoop_write_frame 3 grad_u.length (fun i => i * n_fields + 4) _ _ grad_u rfl
    (fun i hi => by have := hrow i hi; dsimp only; omega)
    (fun i j hi hj h => by
      dsimp only at h
      rcases Nat.lt_trichotomy i j with hlt | heq | hgt
      · have := hsep i j hlt; omega
      · exact heq
      · have := hsep j i hgt; omega)
    (by
      intro i buf hi hl hframe
      have hread : buf[i * n_fields + 0]? = some (gradEntry grad_u n_fields i 0) := by
        rw [hframe (i * n_fields + 0) (fun k hk h => by
          have := hsep k i hk
          dsimp only at h
          omega)]
        exact getElem?_eq_some_getD 0 (by have := hrow i hi; omega)
      simp only [readAt_of_getElem? hread, readAt_getD u_r 0 (by omega),
        readAt_getD u_r 1 (by omega), readAt_getD u_r 2 (by omega),
        readAt_getD u_r 3 (by omega),
        readAt_of_getElem? (hgv 0 i (by omega) hi), readAt_of_getElem? (hgv 1 i (by omega) hi),
        readAt_of_getElem? (hgv 2 i (by omega) hi), ok_bind]
      exact writeAt_of_lt _ (by have := hrow i hi; omega))

theorem set_vis_prelude (bdy_type : Int) (hb : bdy_type = 12 ∨ bdy_type = 14)
    (u_l u_r grad_u gv : List α) (n_dims n_fields : Nat) (gamma : α)
    (hul : n_dims + 2 ≤ u_l.length) (hur : 1 ≤ u_r.length)
    (hgv : vis_grad_vel u_r grad_u n_dims n_fields = .ok gv) :
    set_vis_boundary_conditions bdy_type u_l u_r grad_u n_dims n_fields gamma =
      if n_dims = 2 then
        vis_energy_2d (wallInternalEnergy gamma u_l u_r n_dims) u_r gv grad_u n_dims n_fields
      else if n_dims = 3 then
        vis_energy_3d (wallInternalEnergy gamma u_l u_r n_dims) u_r gv grad_u n_dims n_fields
      else .ok grad_u := by
  have hsq : sumLoop n_dims
      (fun i => do
        let m ← readAt u_l (i + 1)
        pure (m * m))
      0 = .ok (∑ k ∈ Finset.range n_dims, u_l.getD (k + 1) 0 * u_l.getD (k + 1) 0) := by
    rw [sumLoop_eq n_dims _ 0 (fun k => u_l.getD (k + 1) 0 * u_l.getD (k + 1) 0), zero_add]
    intro i hi
    simp only [readAt_getD u_l (i + 1) (by omega), ok_bind, pure_ok]
  have hinte : (gamma - 1.0) * (u_l.getD (n_dims + 1) 0
      - 0.5 * (∑ k ∈ Finset.range n_dims, u_l.getD (k + 1) 0 * u_l.getD (k + 1) 0)
        / u_l.getD 0 0) / ((gamma - 1.0) * u_r.getD 0 0)
      = wallInternalEnergy gamma u_l u_r n_dims := by
    unfold wallInternalEnergy wallPressure
    norm_num
  simp only [set_vis_boundary_conditions, if_pos hb, hsq, hgv, ok_bind]
  simp only [readAt_getD u_l (n_dims + 1) (by omega), readAt_getD u_l 0 (by omega),
    readAt_getD u_r 0 (by omega), ok_bind, pure_ok, hinte]

/-- The adiabatic-wall closure in 2-D and 3-D on arrays that are long enough: the function
returns, the total-energy entry of every direction holds `wallEnergyGradient`, and every
other entry of `grad_u` is unchanged. -/
theorem set_vis_adiabatic (bdy_type : Int) (hb : bdy_type = 12 ∨ bdy_type = 14)
    (u_l u_r grad_u : List α) (n_dims n_fields : Nat) (gamma : α)
    (hd : n_dims = 2 ∨ n_dims = 3) (hf : n_dims + 2 ≤ n_fields)
    (hul : n_dims + 2 ≤ u_l.length) (hur : n_dims + 1 ≤ u_r.length)
    (hg : n_dims * n_fields ≤ grad_u.length) :
    ∃ g, set_vis_boundary_conditions bdy_type u_l u_r grad_u n_dims n_fields gamma = .ok g ∧
      g.length = grad_u.length ∧
      (∀ d, d < n_dims → g[d * n_fields + (n_dims + 1)]? =
        some (wallEnergyGradient gamma u_l u_r grad_u n_dims n_fields d)) ∧
      (∀ j, (∀ d, d < n_dims → d * n_fields + (n_dims + 1) ≠ j) → g[j]? = grad_u[j]?) := by
  obtain ⟨gv, hgvrun, hgv⟩ := vis_grad_vel_spec u_r grad_u n_dims n_fields (by omega) hur hg
  have hpre := set_vis_prelude bdy_type hb u_l u_r grad_u gv n_dims n_fields gamma hul
    (by omega) hgvrun
  rcases hd with h2 | h3
  · subst h2
    obtain ⟨g, hrun, hl, hval, hrest⟩ := vis_energy_2d_spec
      (wallInternalEnergy gamma u_l u_r 2) u_r gv grad_u n_fields
      (velocityGradient u_r grad_u n_fields) hf hur hg hgv
    refine ⟨g, ?_, hl, fun d hd => ?_, hrest⟩
    · rw [hpre, if_pos rfl, hrun]
    · rw [hval d hd]
      congr 1
      simp only [wallEnergyGradient, dotN, Finset.sum_range_succ, Finset.sum_range_zero,
        velocity, zero_add]
      rw [add_div, ← div_mul_div_comm, ← div_mul_div_comm]
      norm_num
  · subst h3
    obtain ⟨g, hrun, hl, hval, hrest⟩ := vis_energy_3d_spec
      (wallInternalEnergy gamma u_l u_r 3) u_r gv grad_u n_fields
      (velocityGradient u_r grad_u n_fields) hf hur hg hgv
    refine ⟨g, ?_, hl, fun d hd => ?_, hrest⟩
    · rw [hpre, if_neg (by decide), if_pos rfl, hrun]
    · rw [hval d hd]
      congr 1
      simp only [wallEnergyGradient, dotN, Finset.sum_range_succ, Finset.sum_range_zero,
        velocity, zero_add]
      rw [add_div, add_div, ← div_mul_div_comm, ← div_mul_div_comm, ← div_mul_div_comm]
      norm_num

theorem set_vis_other_type (bdy_type : Int) (h12 : bdy_type ≠ 12) (h14 : bdy_type ≠ 14)
    (u_l u_r grad_u : List α) (n_dims n_fields : Nat) (gamma : α) :
    set_vis_boundary_conditions bdy_type u_l u_r grad_u n_dims n_fields gamma = .ok grad_u := by
  have hc : ¬ (bdy_type = 12 ∨ bdy_type = 14) := by
    rintro (h | h)
    · exact h12 h
    · exact h14 h
  simp only [set_vis_boundary_conditions, if_neg hc, pure_ok]

end ViscousWall

/-! ## The hexahedral element -/

section Hexas

variable {α : Type} [LinearOrderedField α]

/-- With a supported equation, `setup_ele_type_specific` returns these members. -/
theorem setup_ele_type_specific_eq (order p_res equation turb_model upts_type_hexa : Int)
    (heq : equation = 0 ∨ equation = 1) :
    setup_ele_type_specific order p_res equation turb_model upts_type_hexa =
      .ok ⟨4, 3,
        (if turb_model = 1 then (if equation = 0 then 5 else 1) + 1
          else (if equation = 0 then 5 else 1)),
        6, (order + 1) * (order + 1) * (order + 1), upts_type_hexa,
        p_res * p_res * p_res, (p_res - 1) * (p_res - 1) * (p_res - 1), 8,
        List.replicate 6 ((order + 1) * (order + 1)), 6 * (order + 1) * (order + 1)⟩ := by
  rcases heq with h | h <;> subst h <;>
    simp [setup_ele_type_specific, writeAt, ok_bind, pure_ok, List.replicate]

/-- With an unsupported equation, `setup_ele_type_specific` ends in `FatalError`. -/
theorem setup_ele_type_specific_fatal (order p_res equation turb_model upts_type_hexa : Int)
    (h0 : equation ≠ 0) (h1 : equation ≠ 1) :
    setup_ele_type_specific order p_res equation turb_model upts_type_hexa
      = .error .fatal := by
  simp only [setup_ele_type_specific, if_neg h0, if_neg h1]
  rfl

theorem Array2.set_ok {β : Type} (a : Array2 β) (i j : Nat) (x : β)
    (hi : i < a.dim_0) (hj : j < a.dim_1) :
    a.set i j x = .ok { a with cell := fun p q => if p = i ∧ q = j then x else a.cell p q } := by
  simp [Array2.set, hi, hj]

theorem Array2.get_ok {β : Type} (a : Array2 β) (i j : Nat)
    (hi : i < a.dim_0) (hj : j < a.dim_1) : a.get i j = .ok (a.cell i j) := by
  simp [Array2.get, hi, hj]

/-- Three in-range writes at point `p` return; the point holds the three values and every
other point is unchanged. -/
theorem Array2.set3_spec {β : Type} (a : Array2 β) (p : Nat) (x y z : β)
    (h3 : 3 ≤ a.dim_0) (hp : p < a.dim_1) :
    ∃ b, a.set3 p x y z = .ok b ∧ b.dim_0 = a.dim_0 ∧ b.dim_1 = a.dim_1 ∧
      b.column3 p = (x, y, z) ∧ ∀ q, q ≠ p → ∀ d, b.cell d q = a.cell d q := by
  refine ⟨⟨a.dim_0, a.dim_1, fun d q =>
      if d = 2 ∧ q = p then z else if d = 1 ∧ q = p then y
      else if d = 0 ∧ q = p then x else a.cell d q⟩, ?_, ?_, ?_, ?_, ?_⟩
  · rw [Array2.set3, Array2.set_ok a 0 p x (by omega) hp, ok_bind,
      Array2.set_ok _ 1 p y (by simpa using (by omega : 1 < a.dim_0)) (by simpa using hp),
      ok_bind,
      Array2.set_ok _ 2 p z (by simpa using (by omega : 2 < a.dim_0)) (by simpa using hp)]
  · rfl
  · rfl
  · simp [Array2.column3]
  · intro q hq d
    simp [hq]

/-- The chain of `set_tnorm_fpts` writes the reference normal of face `i`. -/
theorem tnorm_chain_eq (a : Array2 α) (i fpt : Nat) (hi : i < 6) :
    (if i = 0 then a.set3 fpt 0.0 0.0 (-1.0)
      else if i = 1 then a.set3 fpt 0.0 (-1.0) 0.0
      else if i = 2 then a.set3 fpt 1.0 0.0 0.0
      else if i = 3 then a.set3 fpt 0.0 1.0 0.0
      else if i = 4 then a.set3 fpt (-1.0) 0.0 0.0
      else if i = 5 then a.set3 fpt 0.0 0.0 1.0
      else pure a)
    = a.set3 fpt (refNormal (α := α) i).1 (refNormal (α := α) i).2.1
        (refNormal (α := α) i).2.2 := by
  interval_cases i <;> norm_num [refNormal]

theorem tnorm_inner (n_dims n_fpts_per_ele N i j : Nat) (h3 : 3 ≤ n_dims)
    (hn : 6 * (N * N) ≤ n_fpts_per_ele) (hi : i < 6) (hj : j < N) (a : Array2 α)
    (ha : TnormInv n_dims n_fpts_per_ele N (N * j + N * N * i) a) :
    ∃ b, forLoop N
        (fun k (a : Array2 α) =>
          let fpt := k + (N * j) + (N * N * i)
          if i = 0 then a.set3 fpt 0.0 0.0 (-1.0)
          else if i = 1 then a.set3 fpt 0.0 (-1.0) 0.0
          else if i = 2 then a.set3 fpt 1.0 0.0 0.0
          else if i = 3 then a.set3 fpt 0.0 1.0 0.0
          else if i = 4 then a.set3 fpt (-1.0) 0.0 0.0
          else if i = 5 then a.set3 fpt 0.0 0.0 1.0
          else pure a) a = .ok b ∧
      TnormInv n_dims n_fpts_per_ele N (N * (j + 1) + N * N * i) b := by
  have hjN : N * j + N ≤ N * N := by
    have := Nat.mul_le_mul_left N (show j + 1 ≤ N from hj)
    rwa [Nat.mul_succ] at this
  have hiM : N * N * i + N * N ≤ 6 * (N * N) := by
    have := Nat.mul_le_mul_left (N * N) (show i + 1 ≤ 6 from hi)
    rw [Nat.mul_succ] at this
    omega
  obtain ⟨b, hrun, hb⟩ := forLoop_inv N
    (fun k (a : Array2 α) =>
      let fpt := k + (N * j) + (N * N * i)
      if i = 0 then a.set3 fpt 0.0 0.0 (-1.0)
      else if i = 1 then a.set3 fpt 0.0 (-1.0) 0.0
      else if i = 2 then a.set3 fpt 1.0 0.0 0.0
      else if i = 3 then a.set3 fpt 0.0 1.0 0.0
      else if i = 4 then a.set3 fpt (-1.0) 0.0 0.0
      else if i = 5 then a.set3 fpt 0.0 0.0 1.0
      else pure a)
    (fun k a => TnormInv n_dims n_fpts_per_ele N (k + N * j + N * N * i) a) a
    (by simpa using ha)
    (by
      intro k c hk ⟨hd0, hd1, hc⟩
      dsimp only
      rw [tnorm_chain_eq c i _ hi]
      obtain ⟨b, hrun, hb0, hb1, hcol, hrest⟩ := Array2.set3_spec c (k + N * j + N * N * i)
        (refNormal (α := α) i).1 (refNormal (α := α) i).2.1 (refNormal (α := α) i).2.2
        (by omega) (by omega)
      refine ⟨b, hrun, by omega, by omega, fun p hp => ?_⟩
      by_cases hpk : p = k + N * j + N * N * i
      · subst hpk
        have hdiv : (k + N * j + N * N * i) / (N * N) = i := by
          rw [Nat.add_mul_div_left _ _ (show 0 < N * N by
            have : 0 < N := by omega
            exact Nat.mul_pos this this), Nat.div_eq_of_lt (by omega), Nat.zero_add]
        rw [hcol, hdiv]
      · have hlt : p < k + N * j + N * N * i := by omega
        have hsame : b.column3 p = c.column3 p := by
          simp only [Array2.column3, hrest p hpk]
        rw [hsame]
        exact hc p hlt)
  refine ⟨b, hrun, ?_⟩
  have he : N * (j + 1) + N * N * i = N + N * j + N * N * i := by
    rw [Nat.mul_succ]
    omega
  rw [he]
  exact hb

theorem tnorm_middle (n_dims n_fpts_per_ele N i : Nat) (h3 : 3 ≤ n_dims)
    (hn : 6 * (N * N) ≤ n_fpts_per_ele) (hi : i < 6) (a : Array2 α)
    (ha : TnormInv n_dims n_fpts_per_ele N (N * N * i) a) :
    ∃ b, forLoop N
        (fun j (a : Array2 α) =>
          forLoop N
            (fun k (a : Array2 α) =>
              let fpt := k + (N * j) + (N * N * i)
              if i = 0 then a.set3 fpt 0.0 0.0 (-1.0)
              else if i = 1 then a.set3 fpt 0.0 (-1.0) 0.0
              else if i = 2 then a.set3 fpt 1.0 0.0 0.0
              else if i = 3 then a.set3 fpt 0.0 1.0 0.0
              else if i = 4 then a.set3 fpt (-1.0) 0.0 0.0
              else if i = 5 then a.set3 fpt 0.0 0.0 1.0
              else pure a) a) a = .ok b ∧
      TnormInv n_dims n_fpts_per_ele N (N * N * (i + 1)) b := by
  obtain ⟨b, hrun, hb⟩ := forLoop_inv N
    (fun j (a : Array2 α) =>
      forLoop N
        (fun k (a : Array2 α) =>
          let fpt := k + (N * j) + (N * N * i)
          if i = 0 then a.set3 fpt 0.0 0.0 (-1.0)
          else if i = 1 then a.set3 fpt 0.0 (-1.0) 0.0
          else if i = 2 then a.set3 fpt 1.0 0.0 0.0
          else if i = 3 then a.set3 fpt 0.0 1.0 0.0
          else if i = 4 then a.set3 fpt (-1.0) 0.0 0.0
          else if i = 5 then a.set3 fpt 0.0 0.0 1.0
          else pure a) a)
    (fun j a => TnormInv n_dims n_fpts_per_ele N (N * j + N * N * i) a) a
    (by simpa using ha)
    (fun j c hj hc => tnorm_inner n_dims n_fpts_per_ele N i j h3 hn hi hj c hc)
  refine ⟨b, hrun, ?_⟩
  have he : N * N * (i + 1) = N * N + N * N * i := by
    rw [Nat.mul_succ]
    omega
  rw [he]
  exact hb

/-- The array left by `set_tnorm_fpts` for 6 faces: every flux point of face `f` holds the
reference normal of face `f`. -/
theorem set_tnorm_fpts_spec (n_dims n_fpts_per_ele : Nat) (order : Int) (h3 : 3 ≤ n_dims)
    (hn : 6 * (nPts1d order * nPts1d order) ≤ n_fpts_per_ele) :
    ∃ a : Array2 α, set_tnorm_fpts n_dims n_fpts_per_ele 6 order = .ok a ∧
      a.dim_0 = n_dims ∧ a.dim_1 = n_fpts_per_ele ∧
      ∀ f p, f < 6 → f * (nPts1d order * nPts1d order) ≤ p →
        p < (f + 1) * (nPts1d order * nPts1d order) → a.column3 p = refNormal f := by
  obtain ⟨a, hrun, hd0, hd1, ha⟩ := forLoop_inv 6
    (fun i (a : Array2 α) =>
      forLoop (nPts1d order)
        (fun j (a : Array2 α) =>
          forLoop (nPts1d order)
            (fun k (a : Array2 α) =>
              let fpt := k + (nPts1d order * j) + (nPts1d order * nPts1d order * i)
              if i = 0 then a.set3 fpt 0.0 0.0 (-1.0)
              else if i = 1 then a.set3 fpt 0.0 (-1.0) 0.0
              else if i = 2 then a.set3 fpt 1.0 0.0 0.0
              else if i = 3 then a.set3 fpt 0.0 1.0 0.0
              else if i = 4 then a.set3 fpt (-1.0) 0.0 0.0
              else if i = 5 then a.set3 fpt 0.0 0.0 1.0
              else pure a) a) a)
    (fun i a => TnormInv n_dims n_fpts_per_ele (nPts1d order)
      (nPts1d order * nPts1d order * i) a)
    (Array2.setup n_dims n_fpts_per_ele)
    ⟨rfl, rfl, fun p hp => absurd hp (by simp)⟩
    (fun i c hi hc => tnorm_middle n_dims n_fpts_per_ele (nPts1d order) i h3 hn hi c hc)
  refine ⟨a, hrun, hd0, hd1, fun f p hf hlo hhi => ?_⟩
  have hM : (f + 1) * (nPts1d order * nPts1d order) ≤ 6 * (nPts1d order * nPts1d order) :=
    Nat.mul_le_mul_right _ hf
  rw [ha p (by omega), Nat.div_eq_of_lt_le hlo hhi]

/-- One cubature point of face `i`: the three arrays of the face keep their sizes, the
normal of point `j` is the reference normal of face `i`, the normals of the other points
are unchanged. -/
theorem inters_cubpt_spec (get_r get_s get_weight : Nat → α) (i j n_dims n : Nat)
    (hi : i < 6) (hj : j < n) (h3 : 3 ≤ n_dims) (st : Array2 α × List α × Array2 α)
    (hl0 : st.1.dim_0 = n_dims) (hl1 : st.1.dim_1 = n) (hw : st.2.1.length = n)
    (ht0 : st.2.2.dim_0 = n_dims) (ht1 : st.2.2.dim_1 = n) :
    ∃ st', inters_cubpt get_r get_s get_weight i j st = .ok st' ∧
      st'.1.dim_0 = n_dims ∧ st'.1.dim_1 = n ∧ st'.2.1.length = n ∧
      st'.2.2.dim_0 = n_dims ∧ st'.2.2.dim_1 = n ∧
      st'.2.2.column3 j = refNormal i ∧
      ∀ q, q ≠ j → st'.2.2.column3 q = st.2.2.column3 q := by
  have hloc : ∃ x y z,
      (if i = 0 then st.1.set3 j (get_r j) (get_s j) (-1.0)
        else if i = 1 then st.1.set3 j (get_r j) (-1.0) (get_s j)
        else if i = 2 then st.1.set3 j 1.0 (get_r j) (get_s j)
        else if i = 3 then st.1.set3 j (get_r j) 1.0 (get_s j)
        else if i = 4 then st.1.set3 j (-1.0) (get_r j) (get_s j)
        else if i = 5 then st.1.set3 j (get_r j) (get_s j) 1.0
        else pure st.1) = st.1.set3 j x y z := by
    interval_cases i <;> exact ⟨_, _, _, rfl⟩
  obtain ⟨x, y, z, hchain⟩ := hloc
  obtain ⟨loc, hlrun, hld0, hld1, _, _⟩ := Array2.set3_spec st.1 j x y z (by omega) (by omega)
  obtain ⟨tn, htrun, htd0, htd1, hcol, hrest⟩ := Array2.set3_spec st.2.2 j
    (refNormal (α := α) i).1 (refNormal (α := α) i).2.1 (refNormal (α := α) i).2.2
    (by omega) (by omega)
  refine ⟨(loc, st.2.1.set j (get_weight j), tn), ?_, by dsimp only; omega,
    by dsimp only; omega, ?_, by dsimp only; omega, by dsimp only; omega, hcol,
    fun q hq => ?_⟩
  · have key : inters_cubpt get_r get_s get_weight i j st =
        ((if i = 0 then st.1.set3 j (get_r j) (get_s j) (-1.0)
          else if i = 1 then st.1.set3 j (get_r j) (-1.0) (get_s j)
          else if i = 2 then st.1.set3 j 1.0 (get_r j) (get_s j)
          else if i = 3 then st.1.set3 j (get_r j) 1.0 (get_s j)
          else if i = 4 then st.1.set3 j (-1.0) (get_r j) (get_s j)
          else if i = 5 then st.1.set3 j (get_r j) (get_s j) 1.0
          else pure st.1) >>= fun loc =>
        writeAt st.2.1 j (get_weight j) >>= fun weight =>
        (if i = 0 then st.2.2.set3 j 0.0 0.0 (-1.0)
          else if i = 1 then st.2.2.set3 j 0.0 (-1.0) 0.0
          else if i = 2 then st.2.2.set3 j 1.0 0.0 0.0
          else if i = 3 then st.2.2.set3 j 0.0 1.0 0.0
          else if i = 4 then st.2.2.set3 j (-1.0) 0.0 0.0
          else if i = 5 then st.2.2.set3 j 0.0 0.0 1.0
          else pure st.2.2) >>= fun tnorm => pure (loc, weight, tnorm)) := by
      unfold inters_cubpt
      interval_cases i <;> rfl
    rw [key, hchain, hlrun, ok_bind,
      writeAt_of_lt (get_weight j) (show j < st.2.1.length by omega), ok_bind,
      tnorm_chain_eq st.2.2 i j hi, htrun, ok_bind]
    rfl
  · simp only [List.length_set, hw]
  · simp only [Array2.column3, hrest q hq]

/-- The loop over the cubature points of face `i`, started on fresh arrays. -/
theorem inters_face_spec (get_r get_s get_weight : Nat → α) (i n_dims n : Nat)
    (hi : i < 6) (h3 : 3 ≤ n_dims) :
    ∃ face, forLoop n (inters_cubpt get_r get_s get_weight i)
        (Array2.setup n_dims n, newBuffer n, Array2.setup n_dims n) = .ok face ∧
      face.2.2.dim_0 = n_dims ∧ face.2.2.dim_1 = n ∧
      ∀ j, j < n → face.2.2.column3 j = refNormal i := by
  obtain ⟨face, hrun, _, _, _, h4, h5, h6⟩ := forLoop_inv n
    (inters_cubpt get_r get_s get_weight i)
    (fun j (st : Array2 α × List α × Array2 α) =>
      st.1.dim_0 = n_dims ∧ st.1.dim_1 = n ∧ st.2.1.length = n ∧
      st.2.2.dim_0 = n_dims ∧ st.2.2.dim_1 = n ∧
      ∀ q, q < j → st.2.2.column3 q = refNormal i)
    (Array2.setup n_dims n, newBuffer n, Array2.setup n_dims n)
    ⟨rfl, rfl, by simp [newBuffer], rfl, rfl, fun q hq => absurd hq (by simp)⟩
    (by
      intro j st hj ⟨h1, h2, h3', h4, h5, h6⟩
      obtain ⟨st', hrun, g1, g2, g3, g4, g5, g6, g7⟩ := inters_cubpt_spec get_r get_s
        get_weight i j n_dims n hi hj h3 st h1 h2 h3' h4 h5
      refine ⟨st', hrun, g1, g2, g3, g4, g5, fun q hq => ?_⟩
      by_cases hqj : q = j
      · subst hqj
        exact g6
      · rw [g7 q hqj]
        exact h6 q (by omega))
  exact ⟨face, hrun, h4, h5, h6⟩

/-- The member `tnorm_inters_cubpts` left by `set_inters_cubpts` for 6 faces: the array of
face `f` has dimensions `n_dims x n_cubpts_quad` and holds the reference normal of face
`f` at every cubature point. -/
theorem set_inters_cubpts_spec (n_cubpts_quad : Nat) (get_r get_s get_weight : Nat → α)
    (n_dims : Nat) (h3 : 3 ≤ n_dims) :
    ∃ r, set_inters_cubpts n_cubpts_quad get_r get_s get_weight n_dims 6 = .ok r ∧
      ∀ f, f < 6 → ∃ tn, r.tnorm_inters_cubpts[f]? = some tn ∧ tn.dim_0 = n_dims ∧
        tn.dim_1 = n_cubpts_quad ∧ ∀ j, j < n_cubpts_quad → tn.column3 j = refNormal f := by
  have hfirst : forLoop 6 (fun i (l : List Nat) => writeAt l i n_cubpts_quad)
      (List.replicate 6 0) = .ok ((List.range 6).map (fun _ => n_cubpts_quad)) :=
    forLoop_fill 6 (fun _ => n_cubpts_quad) _ _ (by simp)
      (fun i buf hi hl _ => writeAt_of_lt _ (by omega))
  obtain ⟨r, hrun, _, _, _, _, hr⟩ := forLoop_inv 6
    (fun i (st : InterCubpts α) => do
      let n ← readAt st.n_cubpts_per_inter i
      let face ← forLoop n_cubpts_quad (inters_cubpt get_r get_s get_weight i)
        (Array2.setup n_dims n, newBuffer n, Array2.setup n_dims n)
      let locs ← writeAt st.loc_inters_cubpts i face.1
      let weights ← writeAt st.weight_inters_cubpts i face.2.1
      let tnorms ← writeAt st.tnorm_inters_cubpts i face.2.2
      pure ⟨st.n_cubpts_per_inter, locs, weights, tnorms⟩)
    (fun i (st : InterCubpts α) =>
      st.n_cubpts_per_inter = (List.range 6).map (fun _ => n_cubpts_quad) ∧
      st.loc_inters_cubpts.length = 6 ∧ st.weight_inters_cubpts.length = 6 ∧
      st.tnorm_inters_cubpts.length = 6 ∧
      ∀ f, f < i → ∃ tn, st.tnorm_inters_cubpts[f]? = some tn ∧ tn.dim_0 = n_dims ∧
        tn.dim_1 = n_cubpts_quad ∧ ∀ j, j < n_cubpts_quad → tn.column3 j = refNormal f)
    ⟨(List.range 6).map (fun _ => n_cubpts_quad), List.replicate 6 (Array2.setup 0 0),
      List.replicate 6 [], List.replicate 6 (Array2.setup 0 0)⟩
    ⟨rfl, by simp, by simp, by simp, fun f hf => absurd hf (by simp)⟩
    (by
      intro i st hi ⟨h1, h2, h3', h4, h5⟩
      obtain ⟨face, hface, hd0, hd1, hcol⟩ := inters_face_spec get_r get_s get_weight i
        n_dims n_cubpts_quad hi h3
      refine ⟨⟨st.n_cubpts_per_inter, st.loc_inters_cubpts.set i face.1,
        st.weight_inters_cubpts.set i face.2.1, st.tnorm_inters_cubpts.set i face.2.2⟩,
        ?_, h1, by simp [h2], by simp [h3'], by simp [h4], fun f hf => ?_⟩
      · simp only [h1, readAt_range_map 6 _ i hi, ok_bind, hface,
          writeAt_of_lt face.1 (show i < st.loc_inters_cubpts.length by omega),
          writeAt_of_lt face.2.1 (show i < st.weight_inters_cubpts.length by omega),
          writeAt_of_lt face.2.2 (show i < st.tnorm_inters_cubpts.length by omega), pure_ok]
      · by_cases hfi : f = i
        · subst hfi
          exact ⟨face.2.2, List.getElem?_set_self (by omega), hd0, hd1, hcol⟩
        · obtain ⟨tn, htn, k1, k2, k3⟩ := h5 f (by omega)
          refine ⟨tn, ?_, k1, k2, k3⟩
          dsimp only
          rw [List.getElem?_set_ne (fun h => hfi h.symm)]
          exact htn)
  refine ⟨r, ?_, hr⟩
  simp only [set_inters_cubpts, hfirst, ok_bind, hrun]

end Hexas

/-! ## Face Jacobians and shape functions of the hexahedron -/

section Shapes

variable {α : Type} [LinearOrderedField α]

/-- On a tensor of at least 3 x 3 entries and a face `0..5`, the function returns the square
root of the squared length of the cross product of the two columns of the face. -/
theorem compute_inter_detjac_eq (sqrt : α → α) (in_inter : Int) (d_pos : Array2 α)
    (h0 : 3 ≤ d_pos.dim_0) (h1 : 3 ≤ d_pos.dim_1) (hlo : 0 ≤ in_inter) (hhi : in_inter ≤ 5) :
    compute_inter_detjac_inters_cubpts sqrt in_inter d_pos
      = .ok (sqrt (normSq3 (cross3 (d_pos.column3 (faceTangents in_inter).1)
          (d_pos.column3 (faceTangents in_inter).2)))) := by
  unfold compute_inter_detjac_inters_cubpts
  simp only [Array2.get_ok d_pos _ _ (show 0 < d_pos.dim_0 by omega)
      (show 0 < d_pos.dim_1 by omega),
    Array2.get_ok d_pos _ _ (show 0 < d_pos.dim_0 by omega) (show 1 < d_pos.dim_1 by omega),
    Array2.get_ok d_pos _ _ (show 0 < d_pos.dim_0 by omega) (show 2 < d_pos.dim_1 by omega),
    Array2.get_ok d_pos _ _ (show 1 < d_pos.dim_0 by omega) (show 0 < d_pos.dim_1 by omega),
    Array2.get_ok d_pos _ _ (show 1 < d_pos.dim_0 by omega) (show 1 < d_pos.dim_1 by omega),
    Array2.get_ok d_pos _ _ (show 1 < d_pos.dim_0 by omega) (show 2 < d_pos.dim_1 by omega),
    Array2.get_ok d_pos _ _ (show 2 < d_pos.dim_0 by omega) (show 0 < d_pos.dim_1 by omega),
    Array2.get_ok d_pos _ _ (show 2 < d_pos.dim_0 by omega) (show 1 < d_pos.dim_1 by omega),
    Array2.get_ok d_pos _ _ (show 2 < d_pos.dim_0 by omega) (show 2 < d_pos.dim_1 by omega),
    ok_bind, pure_ok]
  have hcases : in_inter = 0 ∨ in_inter = 1 ∨ in_inter = 2 ∨ in_inter = 3 ∨ in_inter = 4 ∨
      in_inter = 5 := by omega
  rcases hcases with h | h | h | h | h | h <;> subst h <;>
    simp [faceTangents, cross3, normSq3, Array2.column3]

/-- A non-negative number whose square is 1 is 1. -/
theorem eq_one_of_sq (v : α) (h0 : 0 ≤ v) (h1 : v * v = 1) : v = 1 := by
  have h : (v - 1) * (v + 1) = 0 := by
    ring_nf
    rw [show v ^ 2 = v * v by ring, h1]
    ring
  rcases mul_eq_zero.mp h with h | h
  · exact sub_eq_zero.mp h
  · have hv : v = -1 := eq_neg_of_add_eq_zero_left h
    rw [hv] at h0
    exact absurd h0 (by norm_num)

theorem normSq3_nonneg (a : α × α × α) : 0 ≤ normSq3 a := by
  unfold normSq3
  have := mul_self_nonneg a.1
  have := mul_self_nonneg a.2.1
  have := mul_self_nonneg a.2.2
  linarith

/-- A list of assignments `d(e.1, e.2.1) = e.2.2(x, y, z)` to cells inside the array, run in
order: it returns, and each cell holds the value last assigned to it, or its old value. -/
theorem assignments_spec (table : List (Nat × Nat × (α → α → α → α))) (in_loc : List α)
    (hl : 3 ≤ in_loc.length) :
    ∀ d0 : Array2 α, (∀ e ∈ table, e.1 < d0.dim_0 ∧ e.2.1 < d0.dim_1) →
      ∃ d, table.foldlM
          (fun d e => do
            let x ← readAt in_loc 0
            let y ← readAt in_loc 1
            let z ← readAt in_loc 2
            d.set e.1 e.2.1 (e.2.2 x y z))
          d0 = .ok d ∧ d.dim_0 = d0.dim_0 ∧ d.dim_1 = d0.dim_1 ∧
        ∀ m c, d.cell m c =
          match lastAssigned table m c with
          | some f => f (in_loc.getD 0 0) (in_loc.getD 1 0) (in_loc.getD 2 0)
          | none => d0.cell m c := by
  induction table with
  | nil =>
    intro d0 _
    exact ⟨d0, rfl, rfl, rfl, fun m c => rfl⟩
  | cons e es ih =>
    intro d0 hb
    obtain ⟨he0, he1⟩ := hb e (List.mem_cons_self e es)
    obtain ⟨d, hrun, h0, h1, hc⟩ := ih
      { d0 with
        cell := fun p q => if p = e.1 ∧ q = e.2.1
          then e.2.2 (in_loc.getD 0 0) (in_loc.getD 1 0) (in_loc.getD 2 0) else d0.cell p q }
      (fun e' he' => hb e' (List.mem_cons_of_mem e he'))
    have hstep : (do
        let x ← readAt in_loc 0
        let y ← readAt in_loc 1
        let z ← readAt in_loc 2
        d0.set e.1 e.2.1 (e.2.2 x y z))
        = .ok { d0 with
            cell := fun p q => if p = e.1 ∧ q = e.2.1
              then e.2.2 (in_loc.getD 0 0) (in_loc.getD 1 0) (in_loc.getD 2 0)
              else d0.cell p q } := by
      rw [readAt_getD in_loc 0 (by omega), ok_bind, readAt_getD in_loc 1 (by omega), ok_bind,
        readAt_getD in_loc 2 (by omega), ok_bind]
      exact Array2.set_ok d0 e.1 e.2.1 _ he0 he1
    refine ⟨d, ?_, h0, h1, fun m c => ?_⟩
    · rw [List.foldlM_cons, hstep, ok_bind]
      exact hrun
    · rw [hc m c, lastAssigned]
      cases lastAssigned es m c with
      | some f => rfl
      | none =>
        dsimp only
        by_cases hk : e.1 = m ∧ e.2.1 = c
        · rw [if_pos hk, if_pos ⟨hk.1.symm, hk.2.symm⟩]
        · rw [if_neg hk, if_neg (fun h => hk ⟨h.1.symm, h.2.symm⟩)]

/-- Every assignment of the 20-node branch addresses a cell of a `20 x 3` array. -/
theorem d_nodal_s_basis_20_keys :
    ∀ e ∈ (d_nodal_s_basis_20 (α := α)), e.1 < 20 ∧ e.2.1 < 3 := by
  intro e he
  have hmap : (e.1, e.2.1) ∈ (d_nodal_s_basis_20 (α := α)).map (fun e => (e.1, e.2.1)) :=
    List.mem_map_of_mem _ he
  have hkeys : (d_nodal_s_basis_20 (α := α)).map (fun e => (e.1, e.2.1))
      = (List.range 60).map (fun i => (i % 20, i / 20)) := by
    rfl
  rw [hkeys, List.mem_map] at hmap
  obtain ⟨i, hi, hie⟩ := hmap
  rw [List.mem_range] at hi
  obtain ⟨h1, h2⟩ := Prod.mk.inj hie
  omega

/-- Every cell of the `20 x 3` array is assigned by the 20-node branch. -/
theorem d_nodal_s_basis_20_assigned (m c : Nat) (hm : m < 20) (hc : c < 3) :
    ∃ f, lastAssigned (d_nodal_s_basis_20 (α := α)) m c = some f ∧
      ∀ x y z, dShape20 m c x y z = f x y z := by
  have h : (lastAssigned (d_nodal_s_basis_20 (α := α)) m c).isSome = true := by
    interval_cases m <;> interval_cases c <;> rfl
  obtain ⟨f, hf⟩ := Option.isSome_iff_exists.mp h
  refine ⟨f, hf, fun x y z => ?_⟩
  unfold dShape20
  rw [hf]

/-- The 20-node branch of `eval_d_nodal_s_basis` on an array of at least `20 x 3` cells and
a point of three coordinates: it returns, and cell `(m, c)` holds `dShape20 m c`. -/
theorem eval_d_nodal_s_basis_20 (is_perfect_cube : Int → Bool)
    (lagrange_basis : Array2 α → List α → Int → Except Fault (Array2 α))
    (d0 : Array2 α) (in_loc : List α) (h20 : is_perfect_cube 20 = false)
    (hl : 3 ≤ in_loc.length) (hd0 : 20 ≤ d0.dim_0) (hd1 : 3 ≤ d0.dim_1) :
    ∃ d, eval_d_nodal_s_basis is_perfect_cube lagrange_basis d0 in_loc 20 = .ok d ∧
      d.dim_0 = d0.dim_0 ∧ d.dim_1 = d0.dim_1 ∧
      ∀ m c, m < 20 → c < 3 →
        d.cell m c = dShape20 m c (in_loc.getD 0 0) (in_loc.getD 1 0) (in_loc.getD 2 0) := by
  obtain ⟨d, hrun, h0, h1, hc⟩ := assignments_spec d_nodal_s_basis_20 in_loc hl d0
    (fun e he => by
      have := d_nodal_s_basis_20_keys (α := α) e he
      omega)
  refine ⟨d, ?_, h0, h1, fun m c hm hcc => ?_⟩
  · unfold eval_d_nodal_s_basis
    rw [h20]
    simp only [Bool.false_eq_true, if_false, if_true]
    exact hrun
  · obtain ⟨f, hf, hval⟩ := d_nodal_s_basis_20_assigned (α := α) m c hm hcc
    rw [hc m c, hf, hval]

/-- The chain of the 20-node branch assigns a value for every index `0..19`. -/
theorem nodal_s_basis_20_some (m : Nat) (hm : m < 20) (x y z : α) :
    nodal_s_basis_20 (m : Int) x y z = some (shape20 m x y z) := by
  have h : (nodal_s_basis_20 (m : Int) x y z).isSome = true := by
    interval_cases m <;> rfl
  obtain ⟨v, hv⟩ := Option.isSome_iff_exists.mp h
  rw [shape20, hv]
  rfl

/-- The 20-node branch of `eval_nodal_s_basis` at a point of three coordinates. -/
theorem eval_nodal_s_basis_20 (is_perfect_cube : Int → Bool)
    (lagrange_basis : Int → List α → Int → Except Fault α) (m : Nat) (hm : m < 20)
    (in_loc : List α) (h20 : is_perfect_cube 20 = false) (hl : 3 ≤ in_loc.length) :
    eval_nodal_s_basis is_perfect_cube lagrange_basis (m : Int) in_loc 20
      = .ok (shape20 m (in_loc.getD 0 0) (in_loc.getD 1 0) (in_loc.getD 2 0)) := by
  unfold eval_nodal_s_basis
  rw [h20]
  simp only [Bool.false_eq_true, if_false, if_true]
  rw [readAt_getD in_loc 0 (by omega), ok_bind, readAt_getD in_loc 1 (by omega), ok_bind,
    readAt_getD in_loc 2 (by omega), ok_bind, nodal_s_basis_20_some m hm]
  rfl

/-- A node count that is neither a perfect cube nor 20 ends both functions in
`FatalError`. -/
theorem eval_nodal_s_basis_fatal (is_perfect_cube : Int → Bool)
    (lagrange_basis : Int → List α → Int → Except Fault α)
    (lagrange_d : Array2 α → List α → Int → Except Fault (Array2 α))
    (n in_index : Int) (in_loc : List α) (d : Array2 α)
    (hc : is_perfect_cube n = false) (hn : n ≠ 20) :
    eval_nodal_s_basis is_perfect_cube lagrange_basis in_index in_loc n = .error .fatal ∧
    eval_d_nodal_s_basis is_perfect_cube lagrange_d d in_loc n = .error .fatal := by
  constructor
  · simp [eval_nodal_s_basis, hc, hn]
  · simp [eval_d_nodal_s_basis, hc, hn]

theorem shape20_node_0 (x y z : α) :
    shape20 0 x y z = (1.0 / 8.0 * (-1 + x)) * (-1 + y) * (-1 + z) * (x + 2 + y + z) ∧
    dShape20 0 0 x y z = (1.0 / 8.0 * (z - 1)) * (-1 + y) * (y + z + 2 * x + 1) ∧
    dShape20 0 1 x y z = (1.0 / 8.0 * (z - 1)) * (-1 + x) * (x + z + 2 * y + 1) ∧
    dShape20 0 2 x y z = (1.0 / 8.0 * (-1 + x)) * (-1 + y) * (y + x + 2 * z + 1) :=
  ⟨rfl, rfl, rfl, rfl⟩

theorem shape20_node_1 (x y z : α) :
    shape20 1 x y z = -(1.0 / 8.0 * (x + 1)) * (-1 + y) * (-1 + z) * (-x + 2 + y + z) ∧
    dShape20 1 0 x y z = -(1.0 / 8.0 * (z - 1)) * (-1 + y) * (y + z - 2 * x + 1) ∧
    dShape20 1 1 x y z = -(1.0 / 8.0 * (z - 1)) * (x + 1) * (-x + z + 2 * y + 1) ∧
    dShape20 1 2 x y z = -(1.0 / 8.0 * (y - 1)) * (x + 1) * (-x + y + 2 * z + 1) :=
  ⟨rfl, rfl, rfl, rfl⟩

theorem shape20_node_2 (x y z : α) :
    shape20 2 x y z = -(1.0 / 8.0 * (x + 1)) * (y + 1) * (-1 + z) * (x - 2 + y - z) ∧
    dShape20 2 0 x y z = -(1.0 / 8.0 * (z - 1)) * (y + 1) * (y - z + 2 * x - 1) ∧
    dShape20 2 1 x y z = -(1.0 / 8.0 * (z - 1)) * (x + 1) * (x - z + 2 * y - 1) ∧
    dShape20 2 2 x y z = -(1.0 / 8.0 * (x + 1)) * (y + 1) * (y + x - 2 * z - 1) :=
  ⟨rfl, rfl, rfl, rfl⟩

theorem shape20_node_3 (x y z : α) :
    shape20 3 x y z = (1.0 / 8.0 * (-1 + x)) * (y + 1) * (-1 + z) * (-x - 2 + y - z) ∧
    dShape20 3 0 x y z = (1.0 / 8.0 * (z - 1)) * (y + 1) * (y - z - 2 * x - 1) ∧
    dShape20 3 1 x y z = (1.0 / 8.0 * (z - 1)) * (-1 + x) * (-x - z + 2 * y - 1) ∧
    dShape20 3 2 x y z = (1.0 / 8.0 * (-1 + x)) * (y + 1) * (y - x - 2 * z - 1) :=
  ⟨rfl, rfl, rfl, rfl⟩

theorem shape20_node_4 (x y z : α) :
    shape20 4 x y z = -(1.0 / 8.0 * (-1 + x)) * (-1 + y) * (z + 1) * (x + 2 + y - z) ∧
    dShape20 4 0 x y z = -(1.0 / 8.0 * (z + 1)) * (-1 + y) * (y - z + 2 * x + 1) ∧
    dShape20 4 1 x y z = -(1.0 / 8.0 * (z + 1)) * (-1 + x) * (x - z + 2 * y + 1) ∧
    dShape20 4 2 x y z = -(1.0 / 8.0 * (-1 + x)) * (-1 + y) * (y + x - 2 * z + 1) :=
  ⟨rfl, rfl, rfl, rfl⟩

theorem shape20_node_5 (x y z : α) :
    shape20 5 x y z = (1.0 / 8.0 * (x + 1)) * (-1 + y) * (z + 1) * (-x + 2 + y - z) ∧
    dShape20 5 0 x y z = (1.0 / 8.0 * (z + 1)) * (-1 + y) * (y - z - 2 * x + 1) ∧
    dShape20 5 1 x y z = (1.0 / 8.0 * (z + 1)) * (x + 1) * (-x - z + 2 * y + 1) ∧
    dShape20 5 2 x y z = (1.0 / 8.0 * (x + 1)) * (-1 + y) * (y - x - 2 * z + 1) :=
  ⟨rfl, rfl, rfl, rfl⟩

theorem shape20_node_6 (x y z : α) :
    shape20 6 x y z = (1.0 / 8.0 * (x + 1)) * (y + 1) * (z + 1) * (x - 2 + y + z) ∧
    dShape20 6 0 x y z = (1.0 / 8.0 * (z + 1)) * (y + 1) * (y + z + 2 * x - 1) ∧
    dShape20 6 1 x y z = (1.0 / 8.0 * (z + 1)) * (x + 1) * (x + z - 1 + 2 * y) ∧
    dShape20 6 2 x y z = (1.0 / 8.0 * (x + 1)) * (y + 1) * (y + x + 2 * z - 1) :=
  ⟨rfl, rfl, rfl, rfl⟩

theorem shape20_node_7 (x y z : α) :
    shape20 7 x y z = -(1.0 / 8.0 * (-1 + x)) * (y + 1) * (z + 1) * (-x - 2 + y + z) ∧
    dShape20 7 0 x y z = -(1.0 / 8.0 * (z + 1)) * (y + 1) * (y + z - 1 - 2 * x) ∧
    dShape20 7 1 x y z = -(1.0 / 8.0 * (z + 1)) * (-1 + x) * (-x + z - 1 + 2 * y) ∧
    dShape20 7 2 x y z = -(1.0 / 8.0 * (-1 + x)) * (y + 1) * (y - x + 2 * z - 1) :=
  ⟨rfl, rfl, rfl, rfl⟩

theorem shape20_node_8 (x y z : α) :
    shape20 8 x y z = -(1.0 / 4.0 * (-1 + y)) * (-1 + z) * (x * x - 1) ∧
    dShape20 8 0 x y z = -(1.0 / 2.0) * x * (z - 1) * (-1 + y) ∧
    dShape20 8 1 x y z = -(1.0 / 4.0 * (z - 1)) * (x * x - 1) ∧
    dShape20 8 2 x y z = -(1.0 / 4.0 * (-1 + y)) * (x * x - 1) :=
  ⟨rfl, rfl, rfl, rfl⟩

theorem shape20_node_9 (x y z : α) :
    shape20 9 x y z = (1.0 / 4.0 * (x + 1)) * (-1 + z) * (y * y - 1) ∧
    dShape20 9 0 x y z = (1.0 / 4.0 * (z - 1)) * (y * y - 1) ∧
    dShape20 9 1 x y z = (1.0 / 2.0) * y * (z - 1) * (x + 1) ∧
    dShape20 9 2 x y z = (1.0 / 4.0 * (x + 1)) * (y * y - 1) :=
  ⟨rfl, rfl, rfl, rfl⟩

theorem shape20_node_10 (x y z : α) :
    shape20 10 x y z = (1.0 / 4.0 * (y + 1)) * (-1 + z) * (x * x - 1) ∧
    dShape20 10 0 x y z = (1.0 / 2.0) * x * (z - 1) * (y + 1) ∧
    dShape20 10 1 x y z = (1.0 / 4.0 * (z - 1)) * (x * x - 1) ∧
    dShape20 10 2 x y z = (1.0 / 4.0 * (y + 1)) * (x * x - 1) :=
  ⟨rfl, rfl, rfl, rfl⟩

theorem shape20_node_11 (x y z : α) :
    shape20 11 x y z = -(1.0 / 4.0 * (-1 + x)) * (-1 + z) * (y * y - 1) ∧
    dShape20 11 0 x y z = -(1.0 / 4.0 * (z - 1)) * (y * y - 1) ∧
    dShape20 11 1 x y z = -(1.0 / 2.0) * y * (z - 1) * (-1 + x) ∧
    dShape20 11 2 x y z = -(1.0 / 4.0 * (-1 + x)) * (y * y - 1) :=
  ⟨rfl, rfl, rfl, rfl⟩

theorem shape20_node_12 (x y z : α) :
    shape20 12 x y z = -(1.0 / 4.0 * (-1 + x)) * (-1 + y) * (z * z - 1) ∧
    dShape20 12 0 x y z = -(1.0 / 4.0 * (-1 + y)) * (z * z - 1) ∧
    dShape20 12 1 x y z = -(1.0 / 4.0 * (-1 + x)) * (z * z - 1) ∧
    dShape20 12 2 x y z = -(1.0 / 2.0) * z * (-1 + x) * (-1 + y) :=
  ⟨rfl, rfl, rfl, rfl⟩

theorem shape20_node_13 (x y z : α) :
    shape20 13 x y z = (1.0 / 4.0 * (x + 1)) * (-1 + y) * (z * z - 1) ∧
    dShape20 13 0 x y z = (1.0 / 4.0 * (-1 + y)) * (z * z - 1) ∧
    dShape20 13 1 x y z = (1.0 / 4.0 * (x + 1)) * (z * z - 1) ∧
    dShape20 13 2 x y z = (1.0 / 2.0) * z * (x + 1) * (-1 + y) :=
  ⟨rfl, rfl, rfl, rfl⟩

theorem shape20_node_14 (x y z : α) :
    shape20 14 x y z = -(1.0 / 4.0 * (x + 1)) * (y + 1) * (z * z - 1) ∧
    dShape20 14 0 x y z = -(1.0 / 4.0 * (y + 1)) * (z * z - 1) ∧
    dShape20 14 1 x y z = -(1.0 / 4.0 * (x + 1)) * (z * z - 1) ∧
    dShape20 14 2 x y z = -(1.0 / 2.0) * z * (x + 1) * (y + 1) :=
  ⟨rfl, rfl, rfl, rfl⟩

theorem shape20_node_15 (x y z : α) :
    shape20 15 x y z = (1.0 / 4.0 * (-1 + x)) * (y + 1) * (z * z - 1) ∧
    dShape20 15 0 x y z = (1.0 / 4.0 * (y + 1)) * (z * z - 1) ∧
    dShape20 15 1 x y z = (1.0 / 4.0 * (-1 + x)) * (z * z - 1) ∧
    dShape20 15 2 x y z = (1.0 / 2.0) * z * (-1 + x) * (y + 1) :=
  ⟨rfl, rfl, rfl, rfl⟩

theorem shape20_node_16 (x y z : α) :
    shape20 16 x y z = (1.0 / 4.0 * (-1 + y)) * (z + 1) * (x * x - 1) ∧
    dShape20 16 0 x y z = (1.0 / 2.0) * x * (z + 1) * (-1 + y) ∧
    dShape20 16 1 x y z = (1.0 / 4.0 * (z + 1)) * (x * x - 1) ∧
    dShape20 16 2 x y z = (1.0 / 4.0 * (-1 + y)) * (x * x - 1) :=
  ⟨rfl, rfl, rfl, rfl⟩

theorem shape20_node_17 (x y z : α) :
    shape20 17 x y z = -(1.0 / 4.0 * (x + 1)) * (z + 1) * (y * y - 1) ∧
    dShape20 17 0 x y z = -(1.0 / 4.0 * (z + 1)) * (y * y - 1) ∧
    dShape20 17 1 x y z = -(1.0 / 2.0) * y * (z + 1) * (x + 1) ∧
    dShape20 17 2 x y z = -(1.0 / 4.0 * (x + 1)) * (y * y - 1) :=
  ⟨rfl, rfl, rfl, rfl⟩

theorem shape20_node_18 (x y z : α) :
    shape20 18 x y z = -(1.0 / 4.0 * (y + 1)) * (z + 1) * (x * x - 1) ∧
    dShape20 18 0 x y z = -(1.0 / 2.0) * x * (z + 1) * (y + 1) ∧
    dShape20 18 1 x y z = -(1.0 / 4.0 * (z + 1)) * (x * x - 1) ∧
    dShape20 18 2 x y z = -(1.0 / 4.0 * (y + 1)) * (x * x - 1) :=
  ⟨rfl, rfl, rfl, rfl⟩

theorem shape20_node_19 (x y z : α) :
    shape20 19 x y z = (1.0 / 4.0 * (-1 + x)) * (z + 1) * (y * y - 1) ∧
    dShape20 19 0 x y z = (1.0 / 4.0 * (z + 1)) * (y * y - 1) ∧
    dShape20 19 1 x y z = (1.0 / 2.0) * y * (z + 1) * (-1 + x) ∧
    dShape20 19 2 x y z = (1.0 / 4.0 * (-1 + x)) * (y * y - 1) :=
  ⟨rfl, rfl, rfl, rfl⟩

/-- A real function that is a polynomial of degree at most 2 has the derivative `D` that
its increments determine. -/
theorem hasDerivAt_of_quadratic (f D : ℝ → ℝ)
    (h : ∀ a t, f (a + t) = f a + t * D a + t ^ 2 * ((f 1 - 2 * f 0 + f (-1)) / 2)) (x : ℝ) :
    HasDerivAt f (D x) x := by
  obtain ⟨c, hc⟩ : ∃ c, c = f x := ⟨_, rfl⟩
  obtain ⟨E, hE⟩ : ∃ E, E = (f 1 - 2 * f 0 + f (-1)) / 2 := ⟨_, rfl⟩
  have hf : f = fun y => c + (y - x) * D x + (y - x) ^ 2 * E := by
    funext y
    have := h x (y - x)
    rw [show x + (y - x) = y by ring] at this
    rw [this, hc, hE]
  have h1 : HasDerivAt (fun y : ℝ => y - x) 1 x := (hasDerivAt_id x).sub_const x
  have h2 := ((h1.mul_const (D x)).const_add c).add ((h1.pow 2).mul_const E)
  rw [hf]
  convert h2 using 1
  simp

theorem shape20_hasDerivAt_0 (x y z : ℝ) :
    HasDerivAt (fun t => shape20 0 t y z) (dShape20 0 0 x y z) x ∧
    HasDerivAt (fun t => shape20 0 x t z) (dShape20 0 1 x y z) y ∧
    HasDerivAt (fun t => shape20 0 x y t) (dShape20 0 2 x y z) z := by
  have hN := fun a b c : ℝ => (shape20_node_0 a b c).1
  have h0 := fun a b c : ℝ => (shape20_node_0 a b c).2.1
  have h1 := fun a b c : ℝ => (shape20_node_0 a b c).2.2.1
  have h2 := fun a b c : ℝ => (shape20_node_0 a b c).2.2.2
  refine ⟨hasDerivAt_of_quadratic _ (fun t => dShape20 0 0 t y z) (fun a t => ?_) x,
    hasDerivAt_of_quadratic _ (fun t => dShape20 0 1 x t z) (fun a t => ?_) y,
    hasDerivAt_of_quadratic _ (fun t => dShape20 0 2 x y t) (fun a t => ?_) z⟩ <;>
  · simp only [hN, h0, h1, h2]
    norm_num
    ring

theorem shape20_hasDerivAt_1 (x y z : ℝ) :
    HasDerivAt (fun t => shape20 1 t y z) (dShape20 1 0 x y z) x ∧
    HasDerivAt (fun t => shape20 1 x t z) (dShape20 1 1 x y z) y ∧
    HasDerivAt (fun t => shape20 1 x y t) (dShape20 1 2 x y z) z := by
  have hN := fun a b c : ℝ => (shape20_node_1 a b c).1
  have h0 := fun a b c : ℝ => (shape20_node_1 a b c).2.1
  have h1 := fun a b c : ℝ => (shape20_node_1 a b c).2.2.1
  have h2 := fun a b c : ℝ => (shape20_node_1 a b c).2.2.2
  refine ⟨hasDerivAt_of_quadratic _ (fun t => dShape20 1 0 t y z) (fun a t => ?_) x,
    hasDerivAt_of_quadratic _ (fun t => dShape20 1 1 x t z) (fun a t => ?_) y,
    hasDerivAt_of_quadratic _ (fun t => dShape20 1 2 x y t) (fun a t => ?_) z⟩ <;>
  · simp only [hN, h0, h1, h2]
    norm_num
    ring

theorem shape20_hasDerivAt_2 (x y z : ℝ) :
    HasDerivAt (fun t => shape20 2 t y z) (dShape20 2 0 x y z) x ∧
    HasDerivAt (fun t => shape20 2 x t z) (dShape20 2 1 x y z) y ∧
    HasDerivAt (fun t => shape20 2 x y t) (dShape20 2 2 x y z) z := by
  have hN := fun a b c : ℝ => (shape20_node_2 a b c).1
  have h0 := fun a b c : ℝ => (shape20_node_2 a b c).2.1
  have h1 := fun a b c : ℝ => (shape20_node_2 a b c).2.2.1
  have h2 := fun a b c : ℝ => (shape20_node_2 a b c).2.2.2
  refine ⟨hasDerivAt_of_quadratic _ (fun t => dShape20 2 0 t y z) (fun a t => ?_) x,
    hasDerivAt_of_quadratic _ (fun t => dShape20 2 1 x t z) (fun a t => ?_) y,
    hasDerivAt_of_quadratic _ (fun t => dShape20 2 2 x y t) (fun a t => ?_) z⟩ <;>
  · simp only [hN, h0, h1, h2]
    norm_num
    ring

theorem shape20_hasDerivAt_3 (x y z : ℝ) :
    HasDerivAt (fun t => shape20 3 t y z) (dShape20 3 0 x y z) x ∧
    HasDerivAt (fun t => shape20 3 x t z) (dShape20 3 1 x y z) y ∧
    HasDerivAt (fun t => shape20 3 x y t) (dShape20 3 2 x y z) z := by
  have hN := fun a b c : ℝ => (shape20_node_3 a b c).1
  have h0 := fun a b c : ℝ => (shape20_node_3 a b c).2.1
  have h1 := fun a b c : ℝ => (shape20_node_3 a b c).2.2.1
  have h2 := fun a b c : ℝ => (shape20_node_3 a b c).2.2.2
  refine ⟨hasDerivAt_of_quadratic _ (fun t => dShape20 3 0 t y z) (fun a t => ?_) x,
    hasDerivAt_of_quadratic _ (fun t => dShape20 3 1 x t z) (fun a t => ?_) y,
    hasDerivAt_of_quadratic _ (fun t => dShape20 3 2 x y t) (fun a t => ?_) z⟩ <;>
  · simp only [hN, h0, h1, h2]
    norm_num
    ring

theorem shape20_hasDerivAt_4 (x y z : ℝ) :
    HasDerivAt (fun t => shape20 4 t y z) (dShape20 4 0 x y z) x ∧
    HasDerivAt (fun t => shape20 4 x t z) (dShape20 4 1 x y z) y ∧
    HasDerivAt (fun t => shape20 4 x y t) (dShape20 4 2 x y z) z := by
  have hN := fun a b c : ℝ => (shape20_node_4 a b c).1
  have h0 := fun a b c : ℝ => (shape20_node_4 a b c).2.1
  have h1 := fun a b c : ℝ => (shape20_node_4 a b c).2.2.1
  have h2 := fun a b c : ℝ => (shape20_node_4 a b c).2.2.2
  refine ⟨hasDerivAt_of_quadratic _ (fun t => dShape20 4 0 t y z) (fun a t => ?_) x,
    hasDerivAt_of_quadratic _ (fun t => dShape20 4 1 x t z) (fun a t => ?_) y,
    hasDerivAt_of_quadratic _ (fun t => dShape20 4 2 x y t) (fun a t => ?_) z⟩ <;>
  · simp only [hN, h0, h1, h2]
    norm_num
    ring

theorem shape20_hasDerivAt_5 (x y z : ℝ) :
    HasDerivAt (fun t => shape20 5 t y z) (dShape20 5 0 x y z) x ∧
    HasDerivAt (fun t => shape20 5 x t z) (dShape20 5 1 x y z) y ∧
    HasDerivAt (fun t => shape20 5 x y t) (dShape20 5 2 x y z) z := by
  have hN := fun a b c : ℝ => (shape20_node_5 a b c).1
  have h0 := fun a b c : ℝ => (shape20_node_5 a b c).2.1
  have h1 := fun a b c : ℝ => (shape20_node_5 a b c).2.2.1
  have h2 := fun a b c : ℝ => (shape20_node_5 a b c).2.2.2
  refine ⟨hasDerivAt_of_quadratic _ (fun t => dShape20 5 0 t y z) (fun a t => ?_) x,
    hasDerivAt_of_quadratic _ (fun t => dShape20 5 1 x t z) (fun a t => ?_) y,
    hasDerivAt_of_quadratic _ (fun t => dShape20 5 2 x y t) (fun a t => ?_) z⟩ <;>
  · simp only [hN, h0, h1, h2]
    norm_num
    ring

theorem shape20_hasDerivAt_6 (x y z : ℝ) :
    HasDerivAt (fun t => shape20 6 t y z) (dShape20 6 0 x y z) x ∧
    HasDerivAt (fun t => shape20 6 x t z) (dShape20 6 1 x y z) y ∧
    HasDerivAt (fun t => shape20 6 x y t) (dShape20 6 2 x y z) z := by
  have hN := fun a b c : ℝ => (shape20_node_6 a b c).1
  have h0 := fun a b c : ℝ => (shape20_node_6 a b c).2.1
  have h1 := fun a b c : ℝ => (shape20_node_6 a b c).2.2.1
  have h2 := fun a b c : ℝ => (shape20_node_6 a b c).2.2.2
  refine ⟨hasDerivAt_of_quadratic _ (fun t => dShape20 6 0 t y z) (fun a t => ?_) x,
    hasDerivAt_of_quadratic _ (fun t => dShape20 6 1 x t z) (fun a t => ?_) y,
    hasDerivAt_of_quadratic _ (fun t => dShape20 6 2 x y t) (fun a t => ?_) z⟩ <;>
  · simp only [hN, h0, h1, h2]
    norm_num
    ring

theorem shape20_hasDerivAt_7 (x y z : ℝ) :
    HasDerivAt (fun t => shape20 7 t y z) (dShape20 7 0 x y z) x ∧
    HasDerivAt (fun t => shape20 7 x t z) (dShape20 7 1 x y z) y ∧
    HasDerivAt (fun t => shape20 7 x y t) (dShape20 7 2 x y z) z := by
  have hN := fun a b c : ℝ => (shape20_node_7 a b c).1
  have h0 := fun a b c : ℝ => (shape20_node_7 a b c).2.1
  have h1 := fun a b c : ℝ => (shape20_node_7 a b c).2.2.1
  have h2 := fun a b c : ℝ => (shape20_node_7 a b c).2.2.2
  refine ⟨hasDerivAt_of_quadratic _ (fun t => dShape20 7 0 t y z) (fun a t => ?_) x,
    hasDerivAt_of_quadratic _ (fun t => dShape20 7 1 x t z) (fun a t => ?_) y,
    hasDerivAt_of_quadratic _ (fun t => dShape20 7 2 x y t) (fun a t => ?_) z⟩ <;>
  · simp only [hN, h0, h1, h2]
    norm_num
    ring

theorem shape20_hasDerivAt_8 (x y z : ℝ) :
    HasDerivAt (fun t => shape20 8 t y z) (dShape20 8 0 x y z) x ∧
    HasDerivAt (fun t => shape20 8 x t z) (dShape20 8 1 x y z) y ∧
    HasDerivAt (fun t => shape20 8 x y t) (dShape20 8 2 x y z) z := by
  have hN := fun a b c : ℝ => (shape20_node_8 a b c).1
  have h0 := fun a b c : ℝ => (shape20_node_8 a b c).2.1
  have h1 := fun a b c : ℝ => (shape20_node_8 a b c).2.2.1
  have h2 := fun a b c : ℝ => (shape20_node_8 a b c).2.2.2
  refine ⟨hasDerivAt_of_quadratic _ (fun t => dShape20 8 0 t y z) (fun a t => ?_) x,
    hasDerivAt_of_quadratic _ (fun t => dShape20 8 1 x t z) (fun a t => ?_) y,
    hasDerivAt_of_quadratic _ (fun t => dShape20 8 2 x y t) (fun a t => ?_) z⟩ <;>
  · simp only [hN, h0, h1, h2]
    norm_num
    ring

theorem shape20_hasDerivAt_9 (x y z : ℝ) :
    HasDerivAt (fun t => shape20 9 t y z) (dShape20 9 0 x y z) x ∧
    HasDerivAt (fun t => shape20 9 x t z) (dShape20 9 1 x y z) y ∧
    HasDerivAt (fun t => shape20 9 x y t) (dShape20 9 2 x y z) z := by
  have hN := fun a b c : ℝ => (shape20_node_9 a b c).1
  have h0 := fun a b c : ℝ => (shape20_node_9 a b c).2.1
  have h1 := fun a b c : ℝ => (shape20_node_9 a b c).2.2.1
  have h2 := fun a b c : ℝ => (shape20_node_9 a b c).2.2.2
  refine ⟨hasDerivAt_of_quadratic _ (fun t => dShape20 9 0 t y z) (fun a t => ?_) x,
    hasDerivAt_of_quadratic _ (fun t => dShape20 9 1 x t z) (fun a t => ?_) y,
    hasDerivAt_of_quadratic _ (fun t => dShape20 9 2 x y t) (fun a t => ?_) z⟩ <;>
  · simp only [hN, h0, h1, h2]
    norm_num
    ring

theorem shape20_hasDerivAt_10 (x y z : ℝ) :
    HasDerivAt (fun t => shape20 10 t y z) (dShape20 10 0 x y z) x ∧
    HasDerivAt (fun t => shape20 10 x t z) (dShape20 10 1 x y z) y ∧
    HasDerivAt (fun t => shape20 10 x y t) (dShape20 10 2 x y z) z := by
  have hN := fun a b c : ℝ => (shape20_node_10 a b c).1
  have h0 := fun a b c : ℝ => (shape20_node_10 a b c).2.1
  have h1 := fun a b c : ℝ => (shape20_node_10 a b c).2.2.1
  have h2 := fun a b c : ℝ => (shape20_node_10 a b c).2.2.2
  refine ⟨hasDerivAt_of_quadratic _ (fun t => dShape20 10 0 t y z) (fun a t => ?_) x,
    hasDerivAt_of_quadratic _ (fun t => dShape20 10 1 x t z) (fun a t => ?_) y,
    hasDerivAt_of_quadratic _ (fun t => dShape20 10 2 x y t) (fun a t => ?_) z⟩ <;>
  · simp only [hN, h0, h1, h2]
    norm_num
    ring

theorem shape20_hasDerivAt_11 (x y z : ℝ) :
    HasDerivAt (fun t => shape20 11 t y z) (dShape20 11 0 x y z) x ∧
    HasDerivAt (fun t => shape20 11 x t z) (dShape20 11 1 x y z) y ∧
    HasDerivAt (fun t => shape20 11 x y t) (dShape20 11 2 x y z) z := by
  have hN := fun a b c : ℝ => (shape20_node_11 a b c).1
  have h0 := fun a b c : ℝ => (shape20_node_11 a b c).2.1
  have h1 := fun a b c : ℝ => (shape20_node_11 a b c).2.2.1
  have h2 := fun a b c : ℝ => (shape20_node_11 a b c).2.2.2
  refine ⟨hasDerivAt_of_quadratic _ (fun t => dShape20 11 0 t y z) (fun a t => ?_) x,
    hasDerivAt_of_quadratic _ (fun t => dShape20 11 1 x t z) (fun a t => ?_) y,
    hasDerivAt_of_quadratic _ (fun t => dShape20 11 2 x y t) (fun a t => ?_) z⟩ <;>
  · simp only [hN, h0, h1, h2]
    norm_num
    ring

theorem shape20_hasDerivAt_12 (x y z : ℝ) :
    HasDerivAt (fun t => shape20 12 t y z) (dShape20 12 0 x y z) x ∧
    HasDerivAt (fun t => shape20 12 x t z) (dShape20 12 1 x y z) y ∧
    HasDerivAt (fun t => shape20 12 x y t) (dShape20 12 2 x y z) z := by
  have hN := fun a b c : ℝ => (shape20_node_12 a b c).1
  have h0 := fun a b c : ℝ => (shape20_node_12 a b c).2.1
  have h1 := fun a b c : ℝ => (shape20_node_12 a b c).2.2.1
  have h2 := fun a b c : ℝ => (shape20_node_12 a b c).2.2.2
  refine ⟨hasDerivAt_of_quadratic _ (fun t => dShape20 12 0 t y z) (fun a t => ?_) x,
    hasDerivAt_of_quadratic _ (fun t => dShape20 12 1 x t z) (fun a t => ?_) y,
    hasDerivAt_of_quadratic _ (fun t => dShape20 12 2 x y t) (fun a t => ?_) z⟩ <;>
  · simp only [hN, h0, h1, h2]
    norm_num
    ring

theorem shape20_hasDerivAt_13 (x y z : ℝ) :
    HasDerivAt (fun t => shape20 13 t y z) (dShape20 13 0 x y z) x ∧
    HasDerivAt (fun t => shape20 13 x t z) (dShape20 13 1 x y z) y ∧
    HasDerivAt (fun t => shape20 13 x y t) (dShape20 13 2 x y z) z := by
  have hN := fun a b c : ℝ => (shape20_node_13 a b c).1
  have h0 := fun a b c : ℝ => (shape20_node_13 a b c).2.1
  have h1 := fun a b c : ℝ => (shape20_node_13 a b c).2.2.1
  have h2 := fun a b c : ℝ => (shape20_node_13 a b c).2.2.2
  refine ⟨hasDerivAt_of_quadratic _ (fun t => dShape20 13 0 t y z) (fun a t => ?_) x,
    hasDerivAt_of_quadratic _ (fun t => dShape20 13 1 x t z) (fun a t => ?_) y,
    hasDerivAt_of_quadratic _ (fun t => dShape20 13 2 x y t) (fun a t => ?_) z⟩ <;>
  · simp only [hN, h0, h1, h2]
    norm_num
    ring

theorem shape20_hasDerivAt_14 (x y z : ℝ) :
    HasDerivAt (fun t => shape20 14 t y z) (dShape20 14 0 x y z) x ∧
    HasDerivAt (fun t => shape20 14 x t z) (dShape20 14 1 x y z) y ∧
    HasDerivAt (fun t => shape20 14 x y t) (dShape20 14 2 x y z) z := by
  have hN := fun a b c : ℝ => (shape20_node_14 a b c).1
  have h0 := fun a b c : ℝ => (shape20_node_14 a b c).2.1
  have h1 := fun a b c : ℝ => (shape20_node_14 a b c).2.2.1
  have h2 := fun a b c : ℝ => (shape20_node_14 a b c).2.2.2
  refine ⟨hasDerivAt_of_quadratic _ (fun t => dShape20 14 0 t y z) (fun a t => ?_) x,
    hasDerivAt_of_quadratic _ (fun t => dShape20 14 1 x t z) (fun a t => ?_) y,
    hasDerivAt_of_quadratic _ (fun t => dShape20 14 2 x y t) (fun a t => ?_) z⟩ <;>
  · simp only [hN, h0, h1, h2]
    norm_num
    ring

theorem shape20_hasDerivAt_15 (x y z : ℝ) :
    HasDerivAt (fun t => shape20 15 t y z) (dShape20 15 0 x y z) x ∧
    HasDerivAt (fun t => shape20 15 x t z) (dShape20 15 1 x y z) y ∧
    HasDerivAt (fun t => shape20 15 x y t) (dShape20 15 2 x y z) z := by
  have hN := fun a b c : ℝ => (shape20_node_15 a b c).1
  have h0 := fun a b c : ℝ => (shape20_node_15 a b c).2.1
  have h1 := fun a b c : ℝ => (shape20_node_15 a b c).2.2.1
  have h2 := fun a b c : ℝ => (shape20_node_15 a b c).2.2.2
  refine ⟨hasDerivAt_of_quadratic _ (fun t => dShape20 15 0 t y z) (fun a t => ?_) x,
    hasDerivAt_of_quadratic _ (fun t => dShape20 15 1 x t z) (fun a t => ?_) y,
    hasDerivAt_of_quadratic _ (fun t => dShape20 15 2 x y t) (fun a t => ?_) z⟩ <;>
  · simp only [hN, h0, h1, h2]
    norm_num
    ring

theorem shape20_hasDerivAt_16 (x y z : ℝ) :
    HasDerivAt (fun t => shape20 16 t y z) (dShape20 16 0 x y z) x ∧
    HasDerivAt (fun t => shape20 16 x t z) (dShape20 16 1 x y z) y ∧
    HasDerivAt (fun t => shape20 16 x y t) (dShape20 16 2 x y z) z := by
  have hN := fun a b c : ℝ => (shape20_node_16 a b c).1
  have h0 := fun a b c : ℝ => (shape20_node_16 a b c).2.1
  have h1 := fun a b c : ℝ => (shape20_node_16 a b c).2.2.1
  have h2 := fun a b c : ℝ => (shape20_node_16 a b c).2.2.2
  refine ⟨hasDerivAt_of_quadratic _ (fun t => dShape20 16 0 t y z) (fun a t => ?_) x,
    hasDerivAt_of_quadratic _ (fun t => dShape20 16 1 x t z) (fun a t => ?_) y,
    hasDerivAt_of_quadratic _ (fun t => dShape20 16 2 x y t) (fun a t => ?_) z⟩ <;>
  · simp only [hN, h0, h1, h2]
    norm_num
    ring

theorem shape20_hasDerivAt_17 (x y z : ℝ) :
    HasDerivAt (fun t => shape20 17 t y z) (dShape20 17 0 x y z) x ∧
    HasDerivAt (fun t => shape20 17 x t z) (dShape20 17 1 x y z) y ∧
    HasDerivAt (fun t => shape20 17 x y t) (dShape20 17 2 x y z) z := by
  have hN := fun a b c : ℝ => (shape20_node_17 a b c).1
  have h0 := fun a b c : ℝ => (shape20_node_17 a b c).2.1
  have h1 := fun a b c : ℝ => (shape20_node_17 a b c).2.2.1
  have h2 := fun a b c : ℝ => (shape20_node_17 a b c).2.2.2
  refine ⟨hasDerivAt_of_quadratic _ (fun t => dShape20 17 0 t y z) (fun a t => ?_) x,
    hasDerivAt_of_quadratic _ (fun t => dShape20 17 1 x t z) (fun a t => ?_) y,
    hasDerivAt_of_quadratic _ (fun t => dShape20 17 2 x y t) (fun a t => ?_) z⟩ <;>
  · simp only [hN, h0, h1, h2]
    norm_num
    ring

theorem shape20_hasDerivAt_18 (x y z : ℝ) :
    HasDerivAt (fun t => shape20 18 t y z) (dShape20 18 0 x y z) x ∧
    HasDerivAt (fun t => shape20 18 x t z) (dShape20 18 1 x y z) y ∧
    HasDerivAt (fun t => shape20 18 x y t) (dShape20 18 2 x y z) z := by
  have hN := fun a b c : ℝ => (shape20_node_18 a b c).1
  have h0 := fun a b c : ℝ => (shape20_node_18 a b c).2.1
  have h1 := fun a b c : ℝ => (shape20_node_18 a b c).2.2.1
  have h2 := fun a b c : ℝ => (shape20_node_18 a b c).2.2.2
  refine ⟨hasDerivAt_of_quadratic _ (fun t => dShape20 18 0 t y z) (fun a t => ?_) x,
    hasDerivAt_of_quadratic _ (fun t => dShape20 18 1 x t z) (fun a t => ?_) y,
    hasDerivAt_of_quadratic _ (fun t => dShape20 18 2 x y t) (fun a t => ?_) z⟩ <;>
  · simp only [hN, h0, h1, h2]
    norm_num
    ring

theorem shape20_hasDerivAt_19 (x y z : ℝ) :
    HasDerivAt (fun t => shape20 19 t y z) (dShape20 19 0 x y z) x ∧
    HasDerivAt (fun t => shape20 19 x t z) (dShape20 19 1 x y z) y ∧
    HasDerivAt (fun t => shape20 19 x y t) (dShape20 19 2 x y z) z := by
  have hN := fun a b c : ℝ => (shape20_node_19 a b c).1
  have h0 := fun a b c : ℝ => (shape20_node_19 a b c).2.1
  have h1 := fun a b c : ℝ => (shape20_node_19 a b c).2.2.1
  have h2 := fun a b c : ℝ => (shape20_node_19 a b c).2.2.2
  refine ⟨hasDerivAt_of_quadratic _ (fun t => dShape20 19 0 t y z) (fun a t => ?_) x,
    hasDerivAt_of_quadratic _ (fun t => dShape20 19 1 x t z) (fun a t => ?_) y,
    hasDerivAt_of_quadratic _ (fun t => dShape20 19 2 x y t) (fun a t => ?_) z⟩ <;>
  · simp only [hN, h0, h1, h2]
    norm_num
    ring

/-- The three partial derivatives of every shape function of the 20-node hexahedron. -/
theorem shape20_hasDerivAt (m : Nat) (hm : m < 20) (x y z : ℝ) :
    HasDerivAt (fun t => shape20 m t y z) (dShape20 m 0 x y z) x ∧
    HasDerivAt (fun t => shape20 m x t z) (dShape20 m 1 x y z) y ∧
    HasDerivAt (fun t => shape20 m x y t) (dShape20 m 2 x y z) z := by
  interval_cases m
  · exact shape20_hasDerivAt_0 x y z
  · exact shape20_hasDerivAt_1 x y z
  · exact shape20_hasDerivAt_2 x y z
  · exact shape20_hasDerivAt_3 x y z
  · exact shape20_hasDerivAt_4 x y z
  · exact shape20_hasDerivAt_5 x y z
  · exact shape20_hasDerivAt_6 x y z
  · exact shape20_hasDerivAt_7 x y z
  · exact shape20_hasDerivAt_8 x y z
  · exact shape20_hasDerivAt_9 x y z
  · exact shape20_hasDerivAt_10 x y z
  · exact shape20_hasDerivAt_11 x y z
  · exact shape20_hasDerivAt_12 x y z
  · exact shape20_hasDerivAt_13 x y z
  · exact shape20_hasDerivAt_14 x y z
  · exact shape20_hasDerivAt_15 x y z
  · exact shape20_hasDerivAt_16 x y z
  · exact shape20_hasDerivAt_17 x y z
  · exact shape20_hasDerivAt_18 x y z
  · exact shape20_hasDerivAt_19 x y z

end Shapes

/-! ## Fatal errors of the boundary flux points -/

section InvFlux

variable {α : Type} [LinearOrderedField α]

theorem NoFatal_ok {β : Type} (a : β) : NoFatal (Except.ok a : Except Fault β) := by
  intro h; cases h

theorem NoFatal_pure {β : Type} (a : β) : NoFatal (pure a : Except Fault β) := by
  intro h; cases h

theorem NoFatal_bind {β γ : Type} {x : Except Fault β} {f : β → Except Fault γ}
    (hx : NoFatal x) (hf : ∀ a, NoFatal (f a)) : NoFatal (x >>= f) := by
  cases x with
  | ok a => exact hf a
  | error e =>
    intro h
    cases e <;> first | exact hx rfl | cases h

theorem NoFatal_readAt {β : Type} (buf : List β) (i : Nat) : NoFatal (readAt buf i) := by
  unfold readAt NoFatal
  split <;> simp

theorem NoFatal_writeAt {β : Type} (buf : List β) (i : Nat) (x : β) :
    NoFatal (writeAt buf i x) := by
  unfold writeAt NoFatal
  split <;> simp

theorem NoFatal_ite {β : Type} {p : Prop} [Decidable p] {a b : Except Fault β}
    (ha : NoFatal a) (hb : NoFatal b) : NoFatal (if p then a else b) := by
  split
  · exact ha
  · exact hb

theorem NoFatal_loopFrom {σ : Type} {body : Nat → σ → Except Fault σ}
    (hb : ∀ i s, NoFatal (body i s)) (k i : Nat) (s : σ) : NoFatal (loopFrom body k i s) := by
  induction k generalizing i s with
  | zero => exact NoFatal_ok s
  | succ k ih =>
    unfold loopFrom
    have h := hb i s
    cases hbs : body i s with
    | ok s' => exact ih (i + 1) s'
    | error e =>
      rw [hbs] at h
      exact h

theorem NoFatal_forLoop {σ : Type} {body : Nat → σ → Except Fault σ}
    (hb : ∀ i s, NoFatal (body i s)) (n : Nat) (s : σ) : NoFatal (forLoop n body s) :=
  NoFatal_loopFrom hb n 0 s

theorem NoFatal_sumLoop (n : Nat) {term : Nat → Except Fault α}
    (ht : ∀ i, NoFatal (term i)) (acc : α) : NoFatal (sumLoop n term acc) := by
  unfold sumLoop
  exact NoFatal_forLoop (fun i s => NoFatal_bind (ht i) (fun _ => NoFatal_pure _)) n acc

theorem NoFatal_storeLoop {β : Type} (n off : Nat) {value : Nat → Except Fault β}
    (hv : ∀ i, NoFatal (value i)) (buf : List β) : NoFatal (storeLoop n off value buf) := by
  unfold storeLoop
  exact NoFatal_forLoop (fun i s => NoFatal_bind (hv i) (fun _ => NoFatal_writeAt _ _ _)) n buf

theorem NoFatal_sqLoop (n : Nat) {v : Nat → Except Fault α}
    (hv : ∀ i, NoFatal (v i)) : NoFatal (sqLoop n v) := by
  unfold sqLoop
  exact NoFatal_sumLoop n (fun i => NoFatal_bind (hv i) (fun _ => NoFatal_pure _)) 0

theorem NoFatal_dotLoop (n : Nat) {a b : Nat → Except Fault α}
    (ha : ∀ i, NoFatal (a i)) (hb : ∀ i, NoFatal (b i)) : NoFatal (dotLoop n a b) := by
  unfold dotLoop
  exact NoFatal_sumLoop n
    (fun i => NoFatal_bind (ha i) (fun _ => NoFatal_bind (hb i) (fun _ => NoFatal_pure _))) 0

theorem NoFatal_setTurbInf {β : Type} (turb_model : Int) (bdy_params u_r : List β)
    (n_dims : Nat) :
    NoFatal (setTurbInf turb_model bdy_params u_r n_dims) := by
  unfold setTurbInf
  exact NoFatal_ite (NoFatal_bind (NoFatal_readAt _ _) (fun _ => NoFatal_writeAt _ _ _))
    (NoFatal_pure _)

theorem NoFatal_setTurbExtrapolate {β : Type} (turb_model : Int) (u_l u_r : List β)
    (n_dims : Nat) :
    NoFatal (setTurbExtrapolate turb_model u_l u_r n_dims) := by
  unfold setTurbExtrapolate
  exact NoFatal_ite (NoFatal_bind (NoFatal_readAt _ _) (fun _ => NoFatal_writeAt _ _ _))
    (NoFatal_pure _)

theorem NoFatal_setTurbZero (turb_model : Int) (u_r : List α) (n_dims : Nat) :
    NoFatal (setTurbZero turb_model u_r n_dims) := by
  unfold setTurbZero
  exact NoFatal_ite (NoFatal_writeAt _ _ _) (NoFatal_pure _)

theorem NoFatal_inv_bdy_type_1 (turb_model : Int) (u_r bdy_params : List α) (n_dims : Nat)
    (gamma : α) (rho_bound p_l : α) :
    NoFatal (inv_bdy_type_1 turb_model u_r bdy_params n_dims gamma rho_bound p_l) := by
  unfold inv_bdy_type_1
  repeat (first
    | exact NoFatal_pure _
    | exact NoFatal_ok _
    | exact NoFatal_readAt _ _
    | exact NoFatal_writeAt _ _ _
    | exact NoFatal_setTurbInf _ _ _ _
    | exact NoFatal_setTurbExtrapolate _ _ _ _
    | exact NoFatal_setTurbZero _ _ _
    | apply NoFatal_bind
    | apply NoFatal_forLoop
    | apply NoFatal_storeLoop
    | apply NoFatal_sumLoop
    | apply NoFatal_sqLoop
    | apply NoFatal_dotLoop
    | apply NoFatal_ite
    | intro _
    | split)

theorem NoFatal_inv_bdy_type_2 (turb_model : Int) (u_l u_r v_l : List α) (n_dims : Nat)
    (gamma : α) (rho_l p_bound : α) :
    NoFatal (inv_bdy_type_2 turb_model u_l u_r v_l n_dims gamma rho_l p_bound) := by
  unfold inv_bdy_type_2
  repeat (first
    | exact NoFatal_pure _
    | exact NoFatal_ok _
    | exact NoFatal_readAt _ _
    | exact NoFatal_writeAt _ _ _
    | exact NoFatal_setTurbInf _ _ _ _
    | exact NoFatal_setTurbExtrapolate _ _ _ _
    | exact NoFatal_setTurbZero _ _ _
    | apply NoFatal_bind
    | apply NoFatal_forLoop
    | apply NoFatal_storeLoop
    | apply NoFatal_sumLoop
    | apply NoFatal_sqLoop
    | apply NoFatal_dotLoop
    | apply NoFatal_ite
    | intro _
    | split)

theorem NoFatal_inv_bdy_type_3 (sqrt : α → α) (pow : α → α → α) (turb_model : Int)
    (u_r v_l norm bdy_params : List α) (n_dims : Nat) (gamma R_ref : α) (rho_l e_l p_l : α) :
    NoFatal (inv_bdy_type_3 sqrt pow turb_model u_r v_l norm
      bdy_params n_dims gamma R_ref rho_l e_l p_l) := by
  unfold inv_bdy_type_3
  repeat (first
    | exact NoFatal_pure _
    | exact NoFatal_ok _
    | exact NoFatal_readAt _ _
    | exact NoFatal_writeAt _ _ _
    | exact NoFatal_setTurbInf _ _ _ _
    | exact NoFatal_setTurbExtrapolate _ _ _ _
    | exact NoFatal_setTurbZero _ _ _
    | apply NoFatal_bind
    | apply NoFatal_forLoop
    | apply NoFatal_storeLoop
    | apply NoFatal_sumLoop
    | apply NoFatal_sqLoop
    | apply NoFatal_dotLoop
    | apply NoFatal_ite
    | intro _
    | split)

theorem NoFatal_inv_bdy_type_4 (sqrt : α → α) (pow : α → α → α) (turb_model : Int)
    (u_l u_r v_l norm : List α) (n_dims : Nat) (gamma : α) (rho_l p_l p_bound : α) :
    NoFatal (inv_bdy_type_4 sqrt pow turb_model u_l u_r v_l
      norm n_dims gamma rho_l p_l p_bound) := by
  unfold inv_bdy_type_4
  repeat (first
    | exact NoFatal_pure _
    | exact NoFatal_ok _
    | exact NoFatal_readAt _ _
    | exact NoFatal_writeAt _ _ _
    | exact NoFatal_setTurbInf _ _ _ _
    | exact NoFatal_setTurbExtrapolate _ _ _ _
    | exact NoFatal_setTurbZero _ _ _
    | apply NoFatal_bind
    | apply NoFatal_forLoop
    | apply NoFatal_storeLoop
    | apply NoFatal_sumLoop
    | apply NoFatal_sqLoop
    | apply NoFatal_dotLoop
    | apply NoFatal_ite
    | intro _
    | split)

theorem NoFatal_inv_bdy_type_5 (u_r bdy_params : List α) (n_dims : Nat) (gamma : α)
    (rho_bound p_bound : α) :
    NoFatal (inv_bdy_type_5 u_r bdy_params n_dims gamma rho_bound p_bound) := by
  unfold inv_bdy_type_5
  repeat (first
    | exact NoFatal_pure _
    | exact NoFatal_ok _
    | exact NoFatal_readAt _ _
    | exact NoFatal_writeAt _ _ _
    | exact NoFatal_setTurbInf _ _ _ _
    | exact NoFatal_setTurbExtrapolate _ _ _ _
    | exact NoFatal_setTurbZero _ _ _
    | apply NoFatal_bind
    | apply NoFatal_forLoop
    | apply NoFatal_storeLoop
    | apply NoFatal_sumLoop
    | apply NoFatal_sqLoop
    | apply NoFatal_dotLoop
    | apply NoFatal_ite
    | intro _
    | split)

theorem NoFatal_inv_bdy_type_6 (u_r v_l : List α) (n_dims : Nat) (rho_l e_l : α) :
    NoFatal (inv_bdy_type_6 u_r v_l n_dims rho_l e_l) := by
  unfold inv_bdy_type_6
  repeat (first
    | exact NoFatal_pure _
    | exact NoFatal_ok _
    | exact NoFatal_readAt _ _
    | exact NoFatal_writeAt _ _ _
    | exact NoFatal_setTurbInf _ _ _ _
    | exact NoFatal_setTurbExtrapolate _ _ _ _
    | exact NoFatal_setTurbZero _ _ _
    | apply NoFatal_bind
    | apply NoFatal_forLoop
    | apply NoFatal_storeLoop
    | apply NoFatal_sumLoop
    | apply NoFatal_sqLoop
    | apply NoFatal_dotLoop
    | apply NoFatal_ite
    | intro _
    | split)

theorem NoFatal_inv_bdy_type_7 (u_r v_l v_g norm : List α) (n_dims : Nat) (rho_l e_l : α) :
    NoFatal (inv_bdy_type_7 u_r v_l v_g norm n_dims rho_l e_l) := by
  unfold inv_bdy_type_7
  repeat (first
    | exact NoFatal_pure _
    | exact NoFatal_ok _
    | exact NoFatal_readAt _ _
    | exact NoFatal_writeAt _ _ _
    | exact NoFatal_setTurbInf _ _ _ _
    | exact NoFatal_setTurbExtrapolate _ _ _ _
    | exact NoFatal_setTurbZero _ _ _
    | apply NoFatal_bind
    | apply NoFatal_forLoop
    | apply NoFatal_storeLoop
    | apply NoFatal_sumLoop
    | apply NoFatal_sqLoop
    | apply NoFatal_dotLoop
    | apply NoFatal_ite
    | intro _
    | split)

theorem NoFatal_inv_bdy_type_11 (turb_model : Int) (u_r v_g : List α) (n_dims : Nat)
    (gamma R_ref : α) (p_l T_wall : α) :
    NoFatal (inv_bdy_type_11 turb_model u_r v_g n_dims gamma R_ref p_l T_wall) := by
  unfold inv_bdy_type_11
  repeat (first
    | exact NoFatal_pure _
    | exact NoFatal_ok _
    | exact NoFatal_readAt _ _
    | exact NoFatal_writeAt _ _ _
    | exact NoFatal_setTurbInf _ _ _ _
    | exact NoFatal_setTurbExtrapolate _ _ _ _
    | exact NoFatal_setTurbZero _ _ _
    | apply NoFatal_bind
    | apply NoFatal_forLoop
    | apply NoFatal_storeLoop
    | apply NoFatal_sumLoop
    | apply NoFatal_sqLoop
    | apply NoFatal_dotLoop
    | apply NoFatal_ite
    | intro _
    | split)

theorem NoFatal_inv_bdy_type_12 (turb_model : Int) (u_r v_g : List α) (n_dims : Nat)
    (gamma : α) (rho_l p_l : α) :
    NoFatal (inv_bdy_type_12 turb_model u_r v_g n_dims gamma rho_l p_l) := by
  unfold inv_bdy_type_12
  repeat (first
    | exact NoFatal_pure _
    | exact NoFatal_ok _
    | exact NoFatal_readAt _ _
    | exact NoFatal_writeAt _ _ _
    | exact NoFatal_setTurbInf _ _ _ _
    | exact NoFatal_setTurbExtrapolate _ _ _ _
    | exact NoFatal_setTurbZero _ _ _
    | apply NoFatal_bind
    | apply NoFatal_forLoop
    | apply NoFatal_storeLoop
    | apply NoFatal_sumLoop
    | apply NoFatal_sqLoop
    | apply NoFatal_dotLoop
    | apply NoFatal_ite
    | intro _
    | split)

theorem NoFatal_inv_bdy_type_13 (u_r v_g bdy_params : List α) (n_dims : Nat) (gamma R_ref : α)
    (p_l T_wall : α) :
    NoFatal (inv_bdy_type_13 u_r v_g bdy_params n_dims gamma R_ref p_l T_wall) := by
  unfold inv_bdy_type_13
  repeat (first
    | exact NoFatal_pure _
    | exact NoFatal_ok _
    | exact NoFatal_readAt _ _
    | exact NoFatal_writeAt _ _ _
    | exact NoFatal_setTurbInf _ _ _ _
    | exact NoFatal_setTurbExtrapolate _ _ _ _
    | exact NoFatal_setTurbZero _ _ _
    | apply NoFatal_bind
    | apply NoFatal_forLoop
    | apply NoFatal_storeLoop
    | apply NoFatal_sumLoop
    | apply NoFatal_sqLoop
    | apply NoFatal_dotLoop
    | apply NoFatal_ite
    | intro _
    | split)

theorem NoFatal_inv_bdy_type_14 (u_r v_g bdy_params : List α) (n_dims : Nat) (gamma : α)
    (rho_l p_l : α) :
    NoFatal (inv_bdy_type_14 u_r v_g bdy_params n_dims gamma rho_l p_l) := by
  unfold inv_bdy_type_14
  repeat (first
    | exact NoFatal_pure _
    | exact NoFatal_ok _
    | exact NoFatal_readAt _ _
    | exact NoFatal_writeAt _ _ _
    | exact NoFatal_setTurbInf _ _ _ _
    | exact NoFatal_setTurbExtrapolate _ _ _ _
    | exact NoFatal_setTurbZero _ _ _
    | apply NoFatal_bind
    | apply NoFatal_forLoop
    | apply NoFatal_storeLoop
    | apply NoFatal_sumLoop
    | apply NoFatal_sqLoop
    | apply NoFatal_dotLoop
    | apply NoFatal_ite
    | intro _
    | split)

theorem NoFatal_inv_bdy_type_15 (sqrt : α → α) (pow : α → α → α) (turb_model : Int)
    (u_l u_r v_l norm bdy_params : List α) (n_dims : Nat) (gamma : α)
    (rho_l p_l rho_bound p_bound : α) :
    NoFatal (inv_bdy_type_15 sqrt pow turb_model u_l u_r v_l norm
      bdy_params n_dims gamma rho_l p_l rho_bound p_bound) := by
  unfold inv_bdy_type_15
  repeat (first
    | exact NoFatal_pure _
    | exact NoFatal_ok _
    | exact NoFatal_readAt _ _
    | exact NoFatal_writeAt _ _ _
    | exact NoFatal_setTurbInf _ _ _ _
    | exact NoFatal_setTurbExtrapolate _ _ _ _
    | exact NoFatal_setTurbZero _ _ _
    | apply NoFatal_bind
    | apply NoFatal_forLoop
    | apply NoFatal_storeLoop
    | apply NoFatal_sumLoop
    | apply NoFatal_sqLoop
    | apply NoFatal_dotLoop
    | apply NoFatal_ite
    | intro _
    | split)

theorem NoFatal_inv_bdy_type_16 (u_r v_l norm : List α) (n_dims : Nat) (rho_l e_l : α) :
    NoFatal (inv_bdy_type_16 u_r v_l norm n_dims rho_l e_l) := by
  unfold inv_bdy_type_16
  repeat (first
    | exact NoFatal_pure _
    | exact NoFatal_ok _
    | exact NoFatal_readAt _ _
    | exact NoFatal_writeAt _ _ _
    | exact NoFatal_setTurbInf _ _ _ _
    | exact NoFatal_setTurbExtrapolate _ _ _ _
    | exact NoFatal_setTurbZero _ _ _
    | apply NoFatal_bind
    | apply NoFatal_forLoop
    | apply NoFatal_storeLoop
    | apply NoFatal_sumLoop
    | apply NoFatal_sqLoop
    | apply NoFatal_dotLoop
    | apply NoFatal_ite
    | intro _
    | split)

theorem NoFatal_inv_dispatch {unset : UnsetLocals α}
    (sqrt : α → α) (pow : α → α → α) (turb_model : Int)
    (bdy_type : Int) (u_l u_r v_l v_g norm bdy_params : List α) (n_dims : Nat)
    (gamma R_ref : α) (rho_l e_l p_l rho_bound p_bound T_wall : α) :
    NoFatal (inv_dispatch unset sqrt pow turb_model bdy_type u_l u_r v_l v_g norm bdy_params
      n_dims gamma R_ref rho_l e_l p_l rho_bound p_bound T_wall) := by
  unfold inv_dispatch
  refine NoFatal_ite (NoFatal_inv_bdy_type_1 _ _ _ _ _ _ _) ?_
  refine NoFatal_ite (NoFatal_inv_bdy_type_2 _ _ _ _ _ _ _ _) ?_
  refine NoFatal_ite (NoFatal_inv_bdy_type_3 _ _ _ _ _ _ _ _ _ _ _ _ _) ?_
  refine NoFatal_ite (NoFatal_inv_bdy_type_4 _ _ _ _ _ _ _ _ _ _ _ _) ?_
  refine NoFatal_ite (NoFatal_inv_bdy_type_5 _ _ _ _ _ _) ?_
  refine NoFatal_ite (NoFatal_inv_bdy_type_6 _ _ _ _ _) ?_
  refine NoFatal_ite (NoFatal_inv_bdy_type_7 _ _ _ _ _ _ _) ?_
  refine NoFatal_ite (NoFatal_inv_bdy_type_11 _ _ _ _ _ _ _ _) ?_
  refine NoFatal_ite (NoFatal_inv_bdy_type_12 _ _ _ _ _ _ _) ?_
  refine NoFatal_ite (NoFatal_inv_bdy_type_13 _ _ _ _ _ _ _ _) ?_
  refine NoFatal_ite (NoFatal_inv_bdy_type_14 _ _ _ _ _ _ _) ?_
  refine NoFatal_ite (NoFatal_inv_bdy_type_15 _ _ _ _ _ _ _ _ _ _ _ _ _ _) ?_
  exact NoFatal_ite (NoFatal_inv_bdy_type_16 _ _ _ _ _ _) (NoFatal_pure _)

theorem NoFatal_writeConservative (r : RightState α) (n_dims : Nat) :
    NoFatal (writeConservative r n_dims) := by
  unfold writeConservative
  refine NoFatal_bind (NoFatal_writeAt _ _ _) (fun _ => ?_)
  refine NoFatal_bind (NoFatal_storeLoop _ _ (fun _ => ?_) _) (fun _ => NoFatal_writeAt _ _ _)
  exact NoFatal_bind (NoFatal_readAt _ _) (fun _ => NoFatal_pure _)

theorem NoFatal_set_inv_boundary_conditions {unset : UnsetLocals α} (sqrt : α → α) (pow : α → α → α)
    (turb_model : Int) (bdy_type : Int) (u_l u_r v_g norm bdy_params : List α)
    (n_dims : Nat) (gamma R_ref : α) (equation : Int) :
    NoFatal (set_inv_boundary_conditions unset sqrt pow turb_model bdy_type u_l u_r v_g norm
      bdy_params n_dims gamma R_ref equation) := by
  unfold set_inv_boundary_conditions
  refine NoFatal_bind (NoFatal_readAt _ _) (fun _ => ?_)
  refine NoFatal_bind (NoFatal_readAt _ _) (fun _ => ?_)
  refine NoFatal_bind (NoFatal_readAt _ _) (fun _ => ?_)
  have hjp : ∀ u : List α, NoFatal
      (if equation = 1 then if bdy_type = 50 then writeAt u 0 0.0 else pure u else pure u) :=
    fun u => NoFatal_ite (NoFatal_ite (NoFatal_writeAt _ _ _) (NoFatal_pure _)) (NoFatal_pure _)
  refine NoFatal_ite ?_ (NoFatal_bind (NoFatal_pure _) hjp)
  refine NoFatal_bind (NoFatal_readAt _ _) (fun _ => ?_)
  refine NoFatal_bind (NoFatal_storeLoop _ _ (fun _ => ?_) _) (fun _ => ?_)
  · exact NoFatal_bind (NoFatal_readAt _ _)
      (fun _ => NoFatal_bind (NoFatal_readAt _ _) (fun _ => NoFatal_pure _))
  refine NoFatal_bind (NoFatal_readAt _ _) (fun _ => ?_)
  refine NoFatal_bind (NoFatal_sqLoop _ (fun _ => NoFatal_readAt _ _)) (fun _ => ?_)
  refine NoFatal_bind (NoFatal_inv_dispatch _ _ _ _ _ _ _ _ _ _ _ _ _ _ _ _ _ _ _) (fun _ => ?_)
  exact NoFatal_bind (NoFatal_writeConservative _ _) hjp

/-- A loop with at least one iteration stops with the fault of its first iteration. -/
theorem forLoop_first_error {σ : Type} (n : Nat) (body : Nat → σ → Except Fault σ) (s : σ)
    (e : Fault) (hn : 0 < n) (h : body 0 s = .error e) : forLoop n body s = .error e := by
  obtain ⟨k, rfl⟩ : ∃ k, n = k + 1 := ⟨n - 1, by omega⟩
  unfold forLoop loopFrom
  rw [h]

theorem NoFatal_invFlux_exterior {unset : UnsetLocals α}
    (sqrt : α → α) (pow : α → α → α) (c : BdyInters α)
    (i j : Nat) (st : InvFluxState α) : NoFatal (invFlux_exterior unset sqrt pow c i j st) := by
  unfold invFlux_exterior
  repeat (first
    | exact NoFatal_set_inv_boundary_conditions _ _ _ _ _ _ _ _ _ _ _ _ _
    | exact NoFatal_pure _
    | exact NoFatal_readAt _ _
    | exact NoFatal_writeAt _ _ _
    | apply NoFatal_bind
    | apply NoFatal_forLoop
    | apply NoFatal_ite
    | intro _)

theorem invFlux_fluxes_fatal {β : Type} (F : FluxFunctions β) (c : BdyInters β)
    (st : InvFluxState β)
    (h2 : c.n_dims ≠ 2) (h3 : c.n_dims ≠ 3) : invFlux_fluxes F c st = .error .fatal := by
  unfold invFlux_fluxes
  rw [if_neg h2, if_neg h3]

theorem invFlux_fluxes_ok {β : Type} (F : FluxFunctions β) (c : BdyInters β) (st : InvFluxState β)
    (h : c.n_dims = 2 ∨ c.n_dims = 3) :
    ∃ st', invFlux_fluxes F c st = .ok st' ∧ st'.fn = st.fn := by
  unfold invFlux_fluxes
  rcases h with h | h
  · rw [if_pos h]
    dsimp only
    split <;> exact ⟨_, rfl, rfl⟩
  · rw [if_neg (by omega), if_pos h]
    dsimp only
    split <;> exact ⟨_, rfl, rfl⟩

theorem invFlux_riemann_dual_consistent {β : Type} (F : FluxFunctions β) (c : BdyInters β) (i : Nat)
    (st : InvFluxState β) (ht : c.boundary_type[i]? = some 16) :
    ∃ st', invFlux_riemann F c i st = .ok st' ∧ st'.fn.length = st.fn.length := by
  unfold invFlux_riemann
  rw [readAt_of_getElem? ht, ok_bind, if_pos rfl]
  exact ⟨_, rfl, by simp [refill]⟩

theorem NoFatal_invFlux_riemann {β : Type} (F : FluxFunctions β) (c : BdyInters β) (i : Nat)
    (st : InvFluxState β)
    (h : c.riemann_solve_type = 0 ∨ c.riemann_solve_type = 1 ∨ c.riemann_solve_type = 2) :
    NoFatal (invFlux_riemann F c i st) := by
  unfold invFlux_riemann
  refine NoFatal_bind (NoFatal_readAt _ _) (fun t => ?_)
  refine NoFatal_ite (NoFatal_pure _) ?_
  rcases h with h | h | h
  · rw [if_pos h]
    exact NoFatal_pure _
  · rw [if_neg (by omega), if_pos h]
    exact NoFatal_pure _
  · rw [if_neg (by omega), if_neg (by omega), if_pos h]
    exact NoFatal_pure _

theorem NoFatal_invFlux_store (c : BdyInters α) (i j : Nat) (st : InvFluxState α) :
    NoFatal (invFlux_store c i j st) := by
  unfold invFlux_store
  repeat (first
    | exact NoFatal_pure _
    | exact NoFatal_readAt _ _
    | apply NoFatal_bind
    | apply NoFatal_forLoop
    | apply NoFatal_ite
    | intro _)

theorem NoFatal_invFlux_viscous (F : FluxFunctions α) (c : BdyInters α) (i j : Nat)
    (st : InvFluxState α) (h : c.viscous ≠ 0 → c.vis_riemann_solve_type = 0) :
    NoFatal (invFlux_viscous F c i j st) := by
  unfold invFlux_viscous
  by_cases hv : c.viscous ≠ 0
  · rw [if_pos hv]
    refine NoFatal_bind (NoFatal_readAt _ _) (fun t => ?_)
    dsimp only
    refine NoFatal_bind (by rw [if_pos (h hv)]; exact NoFatal_pure _) (fun u => ?_)
    repeat (first
      | exact NoFatal_pure _
      | exact NoFatal_readAt _ _
      | apply NoFatal_bind
      | apply NoFatal_forLoop
      | apply NoFatal_ite
      | intro _)
  · rw [if_neg hv]
    exact NoFatal_pure _

/-- With two or three dimensions, a supported Riemann solver and, for a viscous run, the
supported viscous solver, a boundary flux point raises no fatal error. -/
theorem NoFatal_invFlux_fpt {unset : UnsetLocals α}
    (sqrt : α → α) (pow : α → α → α) (F : FluxFunctions α)
    (c : BdyInters α) (i j : Nat) (st : InvFluxState α)
    (hd : c.n_dims = 2 ∨ c.n_dims = 3)
    (hr : c.riemann_solve_type = 0 ∨ c.riemann_solve_type = 1 ∨ c.riemann_solve_type = 2)
    (hv : c.viscous ≠ 0 → c.vis_riemann_solve_type = 0) :
    NoFatal (invFlux_fpt unset sqrt pow F c i j st) := by
  unfold invFlux_fpt
  refine NoFatal_bind (NoFatal_invFlux_exterior _ _ _ _ _ _) (fun s1 => ?_)
  refine NoFatal_bind ?_ (fun s2 => ?_)
  · obtain ⟨s, hs, _⟩ := invFlux_fluxes_ok F c s1 hd
    rw [hs]
    exact NoFatal_ok _
  refine NoFatal_bind (NoFatal_invFlux_riemann F c i s2 hr) (fun s3 => ?_)
  exact NoFatal_bind (NoFatal_invFlux_store c i j s3)
    (fun s4 => NoFatal_invFlux_viscous F c i j s4 hv)

/-- A boundary flux point whose exterior state has been computed ends in the fatal error
of the dimension check when `n_dims` is neither 2 nor 3. -/
theorem invFlux_fpt_fatal_dims {unset : UnsetLocals α}
    (sqrt : α → α) (pow : α → α → α) (F : FluxFunctions α)
    (c : BdyInters α) (i j : Nat) (st st' : InvFluxState α)
    (hext : invFlux_exterior unset sqrt pow c i j st = .ok st')
    (h2 : c.n_dims ≠ 2) (h3 : c.n_dims ≠ 3) :
    invFlux_fpt unset sqrt pow F c i j st = .error .fatal := by
  unfold invFlux_fpt
  rw [hext, ok_bind, invFlux_fluxes_fatal F c st' h2 h3]
  rfl

theorem forLoop_one {σ : Type} (body : Nat → σ → Except Fault σ) (s : σ) :
    forLoop 1 body s = body 0 s := by
  unfold forLoop loopFrom
  cases body 0 s <;> rfl

/-- A loop that writes entry `m` in iteration `m` returns when the buffer has `n` entries. -/
theorem forLoop_writeAt_ok {β : Type} (n : Nat) (f : Nat → β) (buf : List β)
    (h : n ≤ buf.length) :
    ∃ b, forLoop n (fun m b => writeAt b m (f m)) buf = .ok b ∧ b.length = buf.length := by
  refine forLoop_inv n _ (fun _ b => b.length = buf.length) buf rfl ?_
  intro m b hm hb
  exact ⟨b.set m (f m), writeAt_of_lt _ (by omega), by dsimp only; rw [List.length_set, hb]⟩

/-- At an interface of boundary type 16 of a run at rest the exterior state is computed
when the work arrays have the sizes of the run; `fn` is left as it was. -/
theorem invFlux_exterior_dual_consistent {unset : UnsetLocals α}
    (sqrt : α → α) (pow : α → α → α) (c : BdyInters α)
    (i j : Nat) (st : InvFluxState α) (hm : c.motion = 0) (heq : c.equation = 0)
    (ht : c.boundary_type[i]? = some 16) (hbp : 9 ≤ c.bdy_params.length)
    (hnf : c.n_dims + 2 ≤ c.n_fields) (hn : c.n_dims ≤ st.norm.length)
    (hul : c.n_fields ≤ st.temp_u_l.length) (hur : c.n_dims + 2 ≤ st.temp_u_r.length)
    (hloc : c.n_dims ≤ st.temp_loc.length) :
    ∃ st', invFlux_exterior unset sqrt pow c i j st = .ok st' ∧ st'.fn = st.fn := by
  obtain ⟨nrm, hnrm, hnl⟩ := forLoop_writeAt_ok c.n_dims (fun m => c.norm_fpts j i m)
    st.norm hn
  obtain ⟨ul, hulr, hull⟩ := forLoop_writeAt_ok c.n_fields (fun k => c.disu_fpts_l j i k)
    st.temp_u_l hul
  obtain ⟨loc, hlocr, _⟩ := forLoop_writeAt_ok c.n_dims (fun m => c.pos_fpts j i m)
    st.temp_loc hloc
  obtain ⟨u, hu, _⟩ := @set_inv_type_16 α _ unset sqrt pow c.turb_model ul st.temp_u_r
    (st.temp_v.map (fun _ => 0)) nrm c.bdy_params c.n_dims c.gamma c.R_ref hbp
    (by omega) hur (by omega)
  have hm' : ¬ c.motion ≠ 0 := fun h => h hm
  unfold invFlux_exterior
  simp only [if_neg hm', hnrm, hulr, hlocr, ok_bind, pure_ok, readAt_of_getElem? ht, heq, hu]
  exact ⟨_, rfl, rfl⟩

/-- The normal flux is stored for every field when `fn` has `n_fields` entries. -/
theorem invFlux_store_ok (c : BdyInters α) (i j : Nat) (st : InvFluxState α)
    (hfn : c.n_fields ≤ st.fn.length) : ∃ st', invFlux_store c i j st = .ok st' := by
  unfold invFlux_store
  split
  · obtain ⟨s, hs, _⟩ := forLoop_inv c.n_fields
      (fun k (s : InvFluxState α) => do
        let f ← readAt s.fn k
        pure { s with
          norm_tconf_fpts_l := storeAt s.norm_tconf_fpts_l j i k
            (f * c.ndA_dyn_fpts_l j i * c.tdA_fpts_l j i) })
      (fun _ s => s.fn = st.fn) st rfl
      (by
        intro k s hk hs
        dsimp only
        rw [hs, readAt_of_lt (by omega : k < st.fn.length), ok_bind]
        exact ⟨_, rfl, rfl⟩)
    exact ⟨s, hs⟩
  · obtain ⟨s, hs, _⟩ := forLoop_inv c.n_fields
      (fun k (s : InvFluxState α) => do
        let f ← readAt s.fn k
        pure { s with
          norm_tconf_fpts_l := storeAt s.norm_tconf_fpts_l j i k (f * c.tdA_fpts_l j i) })
      (fun _ s => s.fn = st.fn) st rfl
      (by
        intro k s hk hs
        dsimp only
        rw [hs, readAt_of_lt (by omega : k < st.fn.length), ok_bind]
        exact ⟨_, rfl, rfl⟩)
    exact ⟨s, hs⟩

/-- At an interface of boundary type 16 of an inviscid run at rest in two or three
dimensions a flux point returns, whatever the index of the Riemann solver. -/
theorem invFlux_fpt_dual_consistent {unset : UnsetLocals α}
    (sqrt : α → α) (pow : α → α → α) (F : FluxFunctions α)
    (c : BdyInters α) (i j : Nat) (st : InvFluxState α) (hm : c.motion = 0)
    (heq : c.equation = 0) (hv : c.viscous = 0) (hd : c.n_dims = 2 ∨ c.n_dims = 3)
    (ht : c.boundary_type[i]? = some 16) (hbp : 9 ≤ c.bdy_params.length)
    (hnf : c.n_dims + 2 ≤ c.n_fields) (hn : c.n_dims ≤ st.norm.length)
    (hul : c.n_fields ≤ st.temp_u_l.length) (hur : c.n_dims + 2 ≤ st.temp_u_r.length)
    (hloc : c.n_dims ≤ st.temp_loc.length) (hfn : c.n_fields ≤ st.fn.length) :
    ∃ st', invFlux_fpt unset sqrt pow F c i j st = .ok st' := by
  obtain ⟨s1, h1, hf1⟩ := invFlux_exterior_dual_consistent sqrt pow c i j st hm heq ht hbp
    hnf hn hul hur hloc
  obtain ⟨s2, h2, hf2⟩ := invFlux_fluxes_ok F c s1 hd
  obtain ⟨s3, h3, hf3⟩ := invFlux_riemann_dual_consistent F c i s2 ht
  obtain ⟨s4, h4⟩ := invFlux_store_ok c i j s3 (by rw [hf3, hf2, hf1]; exact hfn)
  have hv' : ¬ c.viscous ≠ 0 := fun h => h hv
  refine ⟨s4, ?_⟩
  unfold invFlux_fpt
  rw [h1, ok_bind, h2, ok_bind, h3, ok_bind, h4, ok_bind]
  unfold invFlux_viscous
  rw [if_neg hv']
  rfl

end InvFlux

/-! ## Completion of the boundary flux points -/

section InvFluxReturns

variable {α : Type} [LinearOrderedField α]

/-- Every branch of the chain returns on arrays that are long enough, the last `else`
included: the exterior velocity has `n_dims` components and `u_r` keeps its length. -/
theorem inv_dispatch_returns (unset : UnsetLocals α) (sqrt : α → α) (pow : α → α → α)
    (turb_model bdy_type : Int) (u_l u_r v_g norm bdy_params : List α) (n_dims : Nat)
    (gamma R_ref : α)
    (hbp : 15 ≤ bdy_params.length) (hb : 11 + n_dims ≤ bdy_params.length)
    (ht : turb_model = 1 → n_dims + 3 ≤ u_l.length ∧ n_dims + 3 ≤ u_r.length)
    (hvg : n_dims ≤ v_g.length) (hn : n_dims ≤ norm.length) :
    ∃ (r : RightState α) (g : Nat → α),
      inv_dispatch unset sqrt pow turb_model bdy_type u_l u_r
        ((List.range n_dims).map (velocity u_l)) v_g norm bdy_params n_dims gamma R_ref
        (u_l.getD 0 0) (u_l.getD (n_dims + 1) 0) (pressure gamma u_l n_dims)
        (bdy_params.getD 0 0) (bdy_params.getD 4 0) (bdy_params.getD 8 0) = .ok r ∧
      r.v_r = (List.range n_dims).map g ∧ r.u_r.length = u_r.length := by
  have hd := inv_dispatch_eq unset sqrt pow turb_model u_l u_r
    ((List.range n_dims).map (velocity u_l)) v_g norm bdy_params n_dims gamma R_ref
    (u_l.getD 0 0) (u_l.getD (n_dims + 1) 0) (pressure gamma u_l n_dims)
    (bdy_params.getD 0 0) (bdy_params.getD 4 0) (bdy_params.getD 8 0)
  have htb : turb_model = 1 → 15 ≤ bdy_params.length ∧ n_dims + 3 ≤ u_r.length :=
    fun h => ⟨hbp, (ht h).2⟩
  have htr : turb_model = 1 → n_dims + 3 ≤ u_r.length := fun h => (ht h).2
  by_cases h1 : bdy_type = 1
  · subst h1
    rw [hd.1, inv_bdy_type_1_eq turb_model u_r bdy_params n_dims gamma _ _ (by omega) htb]
    exact ⟨_, _, rfl, rfl, withTurb_length _ _ _ _⟩
  by_cases h2 : bdy_type = 2
  · subst h2
    rw [hd.2.1, inv_bdy_type_2_eq turb_model u_l u_r n_dims gamma _ _ ht]
    exact ⟨_, _, rfl, rfl, withTurb_length _ _ _ _⟩
  by_cases h3 : bdy_type = 3
  · subst h3
    rw [hd.2.2.1, inv_bdy_type_3_eq sqrt pow turb_model u_l u_r norm bdy_params n_dims gamma
      R_ref hn hb htb]
    exact ⟨_, _, rfl, rfl, withTurb_length _ _ _ _⟩
  by_cases h4 : bdy_type = 4
  · subst h4
    obtain ⟨r, g, hr, hu, hv⟩ := inv_bdy_type_4_eq sqrt pow turb_model u_l u_r norm n_dims
      gamma (u_l.getD 0 0) (pressure gamma u_l n_dims) (bdy_params.getD 4 0) hn ht
    rw [hd.2.2.2.1, hr]
    exact ⟨r, g, rfl, hv, by rw [hu]; exact withTurb_length _ _ _ _⟩
  by_cases h5 : bdy_type = 5
  · subst h5
    rw [hd.2.2.2.2.1, inv_bdy_type_5_eq u_r bdy_params n_dims gamma _ _ (by omega)]
    exact ⟨_, _, rfl, rfl, rfl⟩
  by_cases h6 : bdy_type = 6
  · subst h6
    rw [inv_dispatch_6, inv_bdy_type_6_eq]
    exact ⟨_, _, rfl, rfl, rfl⟩
  by_cases h7 : bdy_type = 7
  · subst h7
    rw [inv_dispatch_7, inv_bdy_type_7_eq u_r u_l v_g norm n_dims _ _ hvg hn]
    exact ⟨_, _, rfl, rfl, rfl⟩
  by_cases h11 : bdy_type = 11
  · subst h11
    rw [hd.2.2.2.2.2.1, inv_bdy_type_11_eq turb_model u_r v_g n_dims gamma R_ref _ _ hvg htr]
    exact ⟨_, _, rfl, rfl, withTurb_length _ _ _ _⟩
  by_cases h12 : bdy_type = 12
  · subst h12
    rw [hd.2.2.2.2.2.2.1, inv_bdy_type_12_eq turb_model u_r v_g n_dims gamma _ _ hvg htr]
    exact ⟨_, _, rfl, rfl, withTurb_length _ _ _ _⟩
  by_cases h13 : bdy_type = 13
  · subst h13
    rw [hd.2.2.2.2.2.2.2.1, inv_bdy_type_13_eq u_r v_g bdy_params n_dims gamma R_ref _ _ hvg
      (by omega)]
    exact ⟨_, _, rfl, rfl, rfl⟩
  by_cases h14 : bdy_type = 14
  · subst h14
    rw [hd.2.2.2.2.2.2.2.2.1, inv_bdy_type_14_eq u_r v_g bdy_params n_dims gamma _ _ hvg
      (by omega)]
    exact ⟨_, _, rfl, rfl, rfl⟩
  by_cases h15 : bdy_type = 15
  · subst h15
    by_cases hin : dotN n_dims (velocity u_l) (fun k => norm.getD k 0) < 0
    · rw [hd.2.2.2.2.2.2.2.2.2, inv_bdy_type_15_inflow sqrt pow turb_model u_l u_r norm
        bdy_params n_dims gamma hn (by omega) htb hin]
      exact ⟨_, _, rfl, rfl, withTurb_length _ _ _ _⟩
    · rw [hd.2.2.2.2.2.2.2.2.2, inv_bdy_type_15_outflow sqrt pow turb_model u_l u_r norm
        bdy_params n_dims gamma hn (by omega) ht hin]
      exact ⟨_, _, rfl, rfl, withTurb_length _ _ _ _⟩
  by_cases h16 : bdy_type = 16
  · subst h16
    rw [inv_dispatch_16, inv_bdy_type_16_eq u_r u_l norm n_dims _ _ hn]
    exact ⟨_, _, rfl, rfl, rfl⟩
  · refine ⟨⟨u_r, unset.rho_r, (List.range n_dims).map unset.v_r, unset.e_r⟩, unset.v_r,
      ?_, rfl, rfl⟩
    unfold inv_dispatch
    rw [if_neg h1, if_neg h2, if_neg h3, if_neg h4, if_neg h5, if_neg h6, if_neg h7,
      if_neg h11, if_neg h12, if_neg h13, if_neg h14, if_neg h15, if_neg h16]
    rfl

/-- The function `set_inv_boundary_conditions` returns for every boundary type and every
equation on arrays that are long enough, and `u_r` keeps its length. -/
theorem set_inv_boundary_conditions_returns (unset : UnsetLocals α) (sqrt : α → α)
    (pow : α → α → α) (turb_model bdy_type : Int) (u_l u_r v_g norm bdy_params : List α)
    (n_dims : Nat) (gamma R_ref : α) (equation : Int)
    (hbp : 15 ≤ bdy_params.length) (hb : 11 + n_dims ≤ bdy_params.length)
    (hr1 : 1 ≤ u_r.length)
    (hul : equation = 0 → n_dims + 2 ≤ u_l.length ∧ n_dims + 2 ≤ u_r.length)
    (ht : equation = 0 → turb_model = 1 → n_dims + 3 ≤ u_l.length ∧ n_dims + 3 ≤ u_r.length)
    (hvg : n_dims ≤ v_g.length) (hn : n_dims ≤ norm.length) :
    ∃ u, set_inv_boundary_conditions unset sqrt pow turb_model bdy_type u_l u_r v_g norm
        bdy_params n_dims gamma R_ref equation = .ok u ∧ u.length = u_r.length := by
  by_cases he : equation = 0
  · subst he
    obtain ⟨r, g, hr, hv, hlen⟩ := inv_dispatch_returns unset sqrt pow turb_model bdy_type
      u_l u_r v_g norm bdy_params n_dims gamma R_ref hbp hb (ht rfl) hvg hn
    obtain ⟨u, hrun, hu⟩ := set_inv_of_dispatch sqrt pow turb_model bdy_type u_l u_r v_g
      norm bdy_params n_dims gamma R_ref (by omega) (hul rfl).1 r g hr hv
      (by rw [hlen]; exact (hul rfl).2)
    exact ⟨u, hrun, by rw [hu.1, hlen]⟩
  · unfold set_inv_boundary_conditions
    simp only [readAt_getD bdy_params 0 (by omega), readAt_getD bdy_params 4 (by omega),
      readAt_getD bdy_params 8 (by omega), ok_bind, if_neg he, pure_ok]
    by_cases h1 : equation = 1
    · by_cases h50 : bdy_type = 50
      · rw [if_pos h1, if_pos h50, writeAt_of_lt _ (by omega)]
        exact ⟨_, rfl, List.length_set _ _ _⟩
      · rw [if_pos h1, if_neg h50]
        exact ⟨_, rfl, rfl⟩
    · rw [if_neg h1]
      exact ⟨_, rfl, rfl⟩


/-- The loop that divides the entries `0 .. n-1` of a buffer by `d` in place returns when
the buffer has `n` entries, and the buffer keeps its length. -/
theorem forLoop_scale_ok (n : Nat) (d : α) (buf : List α) (h : n ≤ buf.length) :
    ∃ b, forLoop n
        (fun k u => do
          let x ← readAt u k
          writeAt u k (x / d))
        buf = .ok b ∧ b.length = buf.length := by
  refine forLoop_inv n _ (fun _ b => b.length = buf.length) buf rfl ?_
  intro m b hm hb
  dsimp only
  rw [readAt_of_lt (by omega : m < b.length), ok_bind, writeAt_of_lt _ (by omega)]
  exact ⟨_, rfl, by rw [List.length_set, hb]⟩

/-- On arrays of the sizes of the run the exterior state of a flux point of an interface
`i < n_inters` is computed, for every boundary type: the part of the loop body before the
dimension check returns, and the arrays keep their sizes. -/
theorem invFlux_exterior_returns (unset : UnsetLocals α) (sqrt : α → α) (pow : α → α → α)
    (c : BdyInters α) (i j : Nat) (st : InvFluxState α) (hi : i < c.n_inters)
    (hs : InvFluxFits c st) :
    ∃ st', invFlux_exterior unset sqrt pow c i j st = .ok st' ∧ InvFluxFits c st' := by
  obtain ⟨⟨h1, hnf, htb, hbt, hbp, hb, hul, hur, hv, hloc⟩, hn, hfn, huc⟩ := hs
  obtain ⟨t, ht⟩ : ∃ t, c.boundary_type[i]? = some t :=
    ⟨_, List.getElem?_eq_getElem (by omega)⟩
  obtain ⟨ul, hulr, hull⟩ := forLoop_writeAt_ok c.n_fields (fun k => c.disu_fpts_l j i k)
    st.temp_u_l hul
  by_cases hm : c.motion ≠ 0
  · obtain ⟨nrm, hnrm, hnl⟩ := forLoop_writeAt_ok c.n_dims (fun m => c.norm_dyn_fpts j i m)
      st.norm hn
    obtain ⟨ul2, hul2, hull2⟩ := forLoop_scale_ok c.n_fields (c.J_dyn_fpts_l j i) ul
      (by omega)
    obtain ⟨tv, htv, htvl⟩ := forLoop_writeAt_ok c.n_dims (fun k => c.grid_vel_fpts j i k)
      st.temp_v hv
    obtain ⟨loc, hlocr, hlocl⟩ := forLoop_writeAt_ok c.n_dims (fun m => c.pos_dyn_fpts j i m)
      st.temp_loc hloc
    obtain ⟨u, hu, hulen⟩ := set_inv_boundary_conditions_returns unset sqrt pow c.turb_model
      t ul2 st.temp_u_r tv nrm c.bdy_params c.n_dims c.gamma c.R_ref c.equation hbp hb
      (by omega) (fun he => ⟨by have := hnf he; omega, by have := hnf he; omega⟩)
      (fun he h => ⟨by have := htb he h; omega, by have := htb he h; omega⟩)
      (by omega) (by omega)
    unfold invFlux_exterior
    simp only [if_pos hm, hnrm, hulr, hul2, htv, hlocr, ok_bind, pure_ok,
      readAt_of_getElem? ht, hu]
    refine ⟨_, rfl, ⟨h1, hnf, htb, hbt, hbp, hb, ?_, ?_, ?_, ?_⟩, ?_, hfn, huc⟩ <;>
      dsimp only <;> omega
  · obtain ⟨nrm, hnrm, hnl⟩ := forLoop_writeAt_ok c.n_dims (fun m => c.norm_fpts j i m)
      st.norm hn
    obtain ⟨loc, hlocr, hlocl⟩ := forLoop_writeAt_ok c.n_dims (fun m => c.pos_fpts j i m)
      st.temp_loc hloc
    obtain ⟨u, hu, hulen⟩ := set_inv_boundary_conditions_returns unset sqrt pow c.turb_model
      t ul st.temp_u_r (st.temp_v.map (fun _ => 0)) nrm c.bdy_params c.n_dims c.gamma c.R_ref
      c.equation hbp hb
      (by omega) (fun he => ⟨by have := hnf he; omega, by have := hnf he; omega⟩)
      (fun he h => ⟨by have := htb he h; omega, by have := htb he h; omega⟩)
      (by rw [List.length_map]; omega) (by omega)
    unfold invFlux_exterior
    simp only [if_neg hm, hnrm, hulr, hlocr, ok_bind, pure_ok, readAt_of_getElem? ht, hu]
    refine ⟨_, rfl, ⟨h1, hnf, htb, hbt, hbp, hb, ?_, ?_, ?_, ?_⟩, ?_, hfn, huc⟩ <;>
      dsimp only <;> first | omega | (rw [List.length_map]; omega)

/-- With two or three dimensions the fluxes are computed and the arrays keep their sizes. -/
theorem invFlux_fluxes_returns {β : Type} (F : FluxFunctions β) (c : BdyInters β)
    (st : InvFluxState β) (h : c.n_dims = 2 ∨ c.n_dims = 3) (hs : InvFluxFits c st) :
    ∃ st', invFlux_fluxes F c st = .ok st' ∧ InvFluxFits c st' := by
  unfold invFlux_fluxes
  rcases h with h | h
  · rw [if_pos h]
    dsimp only
    split <;> exact ⟨_, rfl, hs⟩
  · rw [if_neg (by omega), if_pos h]
    dsimp only
    split <;> exact ⟨_, rfl, hs⟩

/-- The normal flux is computed at an interface of type 16 and, with a solver among 0, 1,
2, at every other interface; otherwise the fatal error of the solver check is raised.  The
arrays keep their sizes. -/
theorem invFlux_riemann_cases {β : Type} (F : FluxFunctions β) (c : BdyInters β) (i : Nat)
    (st : InvFluxState β) (hi : i < c.n_inters) (hs : InvFluxFits c st) :
    ((c.boundary_type[i]? = some 16 ∨ c.riemann_solve_type = 0 ∨ c.riemann_solve_type = 1 ∨
        c.riemann_solve_type = 2) ∧
      ∃ st', invFlux_riemann F c i st = .ok st' ∧ InvFluxFits c st') ∨
    (c.boundary_type[i]? ≠ some 16 ∧ c.riemann_solve_type ≠ 0 ∧ c.riemann_solve_type ≠ 1 ∧
      c.riemann_solve_type ≠ 2 ∧ invFlux_riemann F c i st = .error .fatal) := by
  obtain ⟨t, ht⟩ : ∃ t, c.boundary_type[i]? = some t :=
    ⟨_, List.getElem?_eq_getElem (by have := hs.1.2.2.2.1; omega)⟩
  have hfit : ∀ v : Nat → β, InvFluxFits c { st with fn := refill st.fn v } := by
    intro v
    obtain ⟨h, hn, hfn, huc⟩ := hs
    exact ⟨h, hn, by simpa [refill] using hfn, huc⟩
  unfold invFlux_riemann
  rw [readAt_of_getElem? ht, ok_bind]
  by_cases h16 : t = 16
  · rw [if_pos h16]
    exact Or.inl ⟨Or.inl (by rw [ht, h16]), _, rfl, hfit _⟩
  rw [if_neg h16]
  by_cases h0 : c.riemann_solve_type = 0
  · rw [if_pos h0]
    exact Or.inl ⟨Or.inr (Or.inl h0), _, rfl, hfit _⟩
  rw [if_neg h0]
  by_cases h1 : c.riemann_solve_type = 1
  · rw [if_pos h1]
    exact Or.inl ⟨Or.inr (Or.inr (Or.inl h1)), _, rfl, hfit _⟩
  rw [if_neg h1]
  by_cases h2 : c.riemann_solve_type = 2
  · rw [if_pos h2]
    exact Or.inl ⟨Or.inr (Or.inr (Or.inr h2)), _, rfl, hfit _⟩
  rw [if_neg h2]
  exact Or.inr ⟨fun h => h16 (by rw [ht] at h; exact Option.some.inj h), h0, h1, h2, rfl⟩

/-- The normal flux is stored for every field, and the arrays keep their sizes. -/
theorem invFlux_store_returns (c : BdyInters α) (i j : Nat) (st : InvFluxState α)
    (hs : InvFluxFits c st) :
    ∃ st', invFlux_store c i j st = .ok st' ∧ InvFluxFits c st' := by
  have hfn := hs.2.2.1
  unfold invFlux_store
  split
  · refine forLoop_inv c.n_fields _ (fun _ s => InvFluxFits c s) st hs ?_
    intro k s hk hsk
    dsimp only
    rw [readAt_of_lt (by have := hsk.2.2.1; omega : k < s.fn.length), ok_bind]
    exact ⟨_, rfl, hsk⟩
  · refine forLoop_inv c.n_fields _ (fun _ s => InvFluxFits c s) st hs ?_
    intro k s hk hsk
    dsimp only
    rw [readAt_of_lt (by have := hsk.2.2.1; omega : k < s.fn.length), ok_bind]
    exact ⟨_, rfl, hsk⟩

/-- The common solution of a viscous run is computed with the viscous solver 0 and stored;
with another viscous solver the fatal error is raised.  The arrays keep their sizes. -/
theorem invFlux_viscous_cases (F : FluxFunctions α) (c : BdyInters α) (i j : Nat)
    (st : InvFluxState α) (hi : i < c.n_inters) (hs : InvFluxFits c st) :
    ((c.viscous ≠ 0 → c.vis_riemann_solve_type = 0) ∧
      ∃ st', invFlux_viscous F c i j st = .ok st' ∧ InvFluxFits c st') ∨
    (c.viscous ≠ 0 ∧ c.vis_riemann_solve_type ≠ 0 ∧
      invFlux_viscous F c i j st = .error .fatal) := by
  obtain ⟨t, ht⟩ : ∃ t, c.boundary_type[i]? = some t :=
    ⟨_, List.getElem?_eq_getElem (by have := hs.1.2.2.2.1; omega)⟩
  unfold invFlux_viscous
  by_cases hv : c.viscous ≠ 0
  · rw [if_pos hv, readAt_of_getElem? ht, ok_bind]
    dsimp only
    by_cases h0 : c.vis_riemann_solve_type = 0
    · rw [if_pos h0]
      simp only [pure_ok, ok_bind]
      have hfit : ∀ v : Nat → α, InvFluxFits c { st with u_c := refill st.u_c v } := by
        intro v
        obtain ⟨h, hn, hfn, huc⟩ := hs
        exact ⟨h, hn, hfn, by simpa [refill] using huc⟩
      refine Or.inl ⟨fun _ => h0, ?_⟩
      split
      · refine forLoop_inv c.n_fields _ (fun _ s => InvFluxFits c s) _ (hfit _) ?_
        intro k s hk hsk
        dsimp only
        rw [readAt_of_lt (by have := hsk.2.2.2; omega : k < s.u_c.length), ok_bind,
          readAt_of_lt (by have := hsk.1.2.2.2.2.2.2.1; omega : k < s.temp_u_l.length),
          ok_bind]
        exact ⟨_, rfl, hsk⟩
      · refine forLoop_inv c.n_fields _ (fun _ s => InvFluxFits c s) _ (hfit _) ?_
        intro k s hk hsk
        dsimp only
        rw [readAt_of_lt (by have := hsk.2.2.2; omega : k < s.u_c.length), ok_bind,
          readAt_of_lt (by have := hsk.1.2.2.2.2.2.2.1; omega : k < s.temp_u_l.length),
          ok_bind]
        exact ⟨_, rfl, hsk⟩
    · rw [if_neg h0]
      exact Or.inr ⟨hv, h0, rfl⟩
  · rw [if_neg hv]
    exact Or.inl ⟨fun h => absurd h hv, _, rfl, hs⟩


/-- A boundary flux point on arrays of the sizes of the run either ends in the fatal error,
or `n_dims` is 2 or 3, the interface is of type 16 or the solver is among 0, 1, 2, the
viscous solver of a viscous run is 0, and the flux point returns. -/
theorem invFlux_fpt_cases (unset : UnsetLocals α) (sqrt : α → α) (pow : α → α → α)
    (F : FluxFunctions α) (c : BdyInters α) (i j : Nat) (st : InvFluxState α)
    (hi : i < c.n_inters) (hs : InvFluxFits c st) :
    invFlux_fpt unset sqrt pow F c i j st = .error .fatal ∨
    ((c.n_dims = 2 ∨ c.n_dims = 3) ∧
      (c.boundary_type[i]? = some 16 ∨ c.riemann_solve_type = 0 ∨
        c.riemann_solve_type = 1 ∨ c.riemann_solve_type = 2) ∧
      (c.viscous ≠ 0 → c.vis_riemann_solve_type = 0) ∧
      ∃ st', invFlux_fpt unset sqrt pow F c i j st = .ok st' ∧ InvFluxFits c st') := by
  obtain ⟨s1, he, hs1⟩ := invFlux_exterior_returns unset sqrt pow c i j st hi hs
  by_cases hd : c.n_dims = 2 ∨ c.n_dims = 3
  · obtain ⟨s2, hf, hs2⟩ := invFlux_fluxes_returns F c s1 hd hs1
    rcases invFlux_riemann_cases F c i s2 hi hs2 with ⟨hr, s3, hrm, hs3⟩ | ⟨_, _, _, _, hrm⟩
    · obtain ⟨s4, hst, hs4⟩ := invFlux_store_returns c i j s3 hs3
      rcases invFlux_viscous_cases F c i j s4 hi hs4 with ⟨hv, s5, hvs, hs5⟩ | ⟨_, _, hvs⟩
      · refine Or.inr ⟨hd, hr, hv, s5, ?_, hs5⟩
        unfold invFlux_fpt
        rw [he, ok_bind, hf, ok_bind, hrm, ok_bind, hst, ok_bind, hvs]
      · left
        unfold invFlux_fpt
        rw [he, ok_bind, hf, ok_bind, hrm, ok_bind, hst, ok_bind, hvs]
    · left
      unfold invFlux_fpt
      rw [he, ok_bind, hf, ok_bind, hrm]
      rfl
  · left
    exact invFlux_fpt_fatal_dims sqrt pow F c i j st s1 he (fun h => hd (Or.inl h))
      (fun h => hd (Or.inr h))

/-- A loop whose iterations either return and keep `P` or end in the fatal error, and
whose iteration `m0` ends in the fatal error on every state with `P`, ends in the fatal
error. -/
theorem loopFrom_fatal_at {σ : Type} (body : Nat → σ → Except Fault σ) (P : σ → Prop)
    (n m0 : Nat)
    (hstep : ∀ m t, m < n → P t →
      (∃ t', body m t = .ok t' ∧ P t') ∨ body m t = .error .fatal)
    (hbad : ∀ t, P t → body m0 t = .error .fatal) :
    ∀ (k i : Nat) (s : σ), i + k = n → i ≤ m0 → m0 < n → P s →
      loopFrom body k i s = .error .fatal := by
  intro k
  induction k with
  | zero =>
    intro i s h1 h2 h3 _
    omega
  | succ k ih =>
    intro i s h1 h2 h3 hP
    unfold loopFrom
    by_cases hm : i = m0
    · rw [hm, hbad s hP]
    · rcases hstep i s (by omega) hP with ⟨t', hb, hP'⟩ | hb
      · rw [hb]
        exact ih (i + 1) t' (by omega) (by omega) h3 hP'
      · rw [hb]

theorem forLoop_fatal_at {σ : Type} (n : Nat) (body : Nat → σ → Except Fault σ)
    (P : σ → Prop) (m0 : Nat) (s : σ) (hm0 : m0 < n) (hP : P s)
    (hstep : ∀ m t, m < n → P t →
      (∃ t', body m t = .ok t' ∧ P t') ∨ body m t = .error .fatal)
    (hbad : ∀ t, P t → body m0 t = .error .fatal) :
    forLoop n body s = .error .fatal :=
  loopFrom_fatal_at body P n m0 hstep hbad n 0 s (by omega) (Nat.zero_le _) hm0 hP

/-- A loop whose iterations either return and keep `P` or end in the fatal error does the
same. -/
theorem forLoop_ok_or_fatal {σ : Type} (n : Nat) (body : Nat → σ → Except Fault σ)
    (P : σ → Prop) (s : σ) (hP : P s)
    (hstep : ∀ m t, m < n → P t →
      (∃ t', body m t = .ok t' ∧ P t') ∨ body m t = .error .fatal) :
    (∃ s', forLoop n body s = .ok s' ∧ P s') ∨ forLoop n body s = .error .fatal := by
  have key : ∀ (k i : Nat) (s : σ), i + k = n → P s →
      (∃ s', loopFrom body k i s = .ok s' ∧ P s') ∨ loopFrom body k i s = .error .fatal := by
    intro k
    induction k with
    | zero =>
      intro i s _ hP
      exact Or.inl ⟨s, rfl, hP⟩
    | succ k ih =>
      intro i s h1 hP
      unfold loopFrom
      rcases hstep i s (by omega) hP with ⟨t', hb, hP'⟩ | hb
      · rw [hb]
        exact ih (i + 1) t' (by omega) hP'
      · rw [hb]
        exact Or.inr rfl
  exact key n 0 s (by omega) hP

/-- The state in which the loops of `evaluate_boundaryConditions_invFlux` start has the
sizes of the run when the member arrays have. -/
theorem invFluxFits_start (c : BdyInters α) (st : InvFluxState α) (hs : InvFluxSizes c st) :
    InvFluxFits c
      { st with
        norm := newBuffer c.n_dims, fn := newBuffer c.n_fields,
        u_c := newBuffer c.n_fields } :=
  ⟨hs, by simp [newBuffer], by simp [newBuffer], by simp [newBuffer]⟩

/-- The loop over the flux points of interface `i` either returns, the arrays keeping their
sizes, or ends in the fatal error. -/
theorem invFlux_inter_cases (unset : Nat → UnsetLocals α) (sqrt : α → α) (pow : α → α → α)
    (F : FluxFunctions α) (c : BdyInters α) (i : Nat) (st : InvFluxState α)
    (hi : i < c.n_inters) (hs : InvFluxFits c st) :
    (∃ st', forLoop c.n_fpts_per_inter (fun j s => invFlux_fpt (unset j) sqrt pow F c i j s) st
        = .ok st' ∧ InvFluxFits c st') ∨
      forLoop c.n_fpts_per_inter (fun j s => invFlux_fpt (unset j) sqrt pow F c i j s) st
        = .error .fatal := by
  refine forLoop_ok_or_fatal _ _ (fun s => InvFluxFits c s) st hs ?_
  intro j t _ ht
  rcases invFlux_fpt_cases (unset j) sqrt pow F c i j t hi ht with h | ⟨_, _, _, h⟩
  · exact Or.inr h
  · exact Or.inl h

/-- The function ends in the fatal error when the loop body does so at the first flux point
of some interface, on every state of the sizes of the run. -/
theorem evaluate_fatal_at (unset : Nat → Nat → UnsetLocals α) (sqrt : α → α)
    (pow : α → α → α) (F : FluxFunctions α) (c : BdyInters α) (st : InvFluxState α)
    (hs : InvFluxSizes c st) (i0 : Nat) (hi0 : i0 < c.n_inters) (hj : 0 < c.n_fpts_per_inter)
    (hbad : ∀ t, InvFluxFits c t →
      invFlux_fpt (unset i0 0) sqrt pow F c i0 0 t = .error .fatal) :
    evaluate_boundaryConditions_invFlux unset sqrt pow F c st = .error .fatal := by
  unfold evaluate_boundaryConditions_invFlux
  refine forLoop_fatal_at _ _ (fun s => InvFluxFits c s) i0 _ hi0 (invFluxFits_start c st hs)
    ?_ ?_
  · intro i t hi ht
    exact invFlux_inter_cases (unset i) sqrt pow F c i t hi ht
  · intro t ht
    exact forLoop_first_error _ _ _ _ hj (hbad t ht)

end InvFluxReturns

/-! ## Sizes of the vector -/

section VectorSizes

variable {α : Type} [LinearOrderedField α]

/-- A fill loop with a 32-bit counter does not end when the bound is `2^32` or more: the
counter wraps to 0 before it can reach the bound, whatever the number of steps granted. -/
theorem fillLoop32_timeout {β : Type} (val : β) (nElm : Nat) (h : 2 ^ 32 ≤ nElm) :
    ∀ (fuel i : Nat) (buf : List β), i < 2 ^ 32 → buf.length = nElm →
      fillLoop32 val nElm fuel i buf = .error .timeout := by
  intro fuel
  induction fuel with
  | zero =>
    intro i buf _ _
    rfl
  | succ fuel ih =>
    intro i buf hi hl
    unfold fillLoop32
    rw [if_pos (by omega), writeAt_of_lt val (by omega)]
    exact ih (uint (i + 1)) (buf.set i val) (Nat.mod_lt _ (by norm_num))
      (by rw [List.length_set, hl])

/-- Below `2^32` the fill loop with a 32-bit counter ends after `nElm - i` iterations and
leaves `val` in every entry from `i` on. -/
theorem fillLoop32_fill {β : Type} (val : β) (nElm : Nat) (h : nElm < 2 ^ 32) :
    ∀ (k i : Nat) (buf : List β), i + k = nElm → buf.length = nElm →
      fillLoop32 val nElm (k + 1) i buf = .ok (buf.take i ++ List.replicate k val) := by
  intro k
  induction k with
  | zero =>
    intro i buf hik hl
    unfold fillLoop32
    rw [if_neg (by omega)]
    simp [List.take_of_length_le (by omega : buf.length ≤ i)]
  | succ k ih =>
    intro i buf hik hl
    unfold fillLoop32
    have hu : uint (i + 1) = i + 1 := Nat.mod_eq_of_lt (by omega)
    rw [if_pos (by omega), writeAt_of_lt val (by omega)]
    dsimp only
    rw [hu, ih (i + 1) (buf.set i val) (by omega) (by rw [List.length_set, hl])]
    congr 1
    apply List.ext_getElem?
    intro j
    by_cases hj : j < i
    · rw [List.getElem?_append_left (by simp; omega),
        List.getElem?_append_left (by simp; omega), List.getElem?_take_of_lt (by omega),
        List.getElem?_take_of_lt hj, List.getElem?_set_ne (by omega)]
    · by_cases hji : j = i
      · subst hji
        rw [List.getElem?_append_left (by simp; omega),
          List.getElem?_append_right (by simp), List.getElem?_take_of_lt (by omega),
          List.getElem?_set_self (by omega)]
        simp [List.length_take, Nat.min_eq_left (by omega : j ≤ buf.length)]
      · rw [List.getElem?_append_right (by simp; omega),
          List.getElem?_append_right (by simp; omega)]
        simp only [List.length_take, List.length_set]
        rw [Nat.min_eq_left (by omega), Nat.min_eq_left (by omega),
          List.getElem?_replicate, List.getElem?_replicate]
        by_cases hjk : j - (i + 1) < k
        · rw [if_pos hjk, if_pos (by omega)]
        · rw [if_neg hjk, if_neg (by omega)]

theorem CSysVector.sizeInvariant_of_sameShape {β : Type} (w u : CSysVector β) (h : w.SameShape u)
    (hu : u.SizeInvariant) : w.SizeInvariant := by
  obtain ⟨h1, h2, h3, h4, h5⟩ := h
  unfold CSysVector.SizeInvariant at *
  rw [h1, h2, h3, h4, h5]
  exact hu

theorem CSysVector.zipLoop_shape {β : Type} (this : CSysVector β) (x : Operand β) (f : β → β → β)
    (w : CSysVector β) (h : this.zipLoop x f = .ok w) : w.SameShape this := by
  unfold CSysVector.zipLoop at h
  split at h
  · cases h
    exact ⟨rfl, rfl, rfl, rfl, rfl⟩
  · cases h

theorem CSysVector.mapLoop_shape {β : Type} (this : CSysVector β) (f : β → β)
    (w : CSysVector β) (h : this.mapLoop f = .ok w) : w.SameShape this := by
  unfold CSysVector.mapLoop at h
  split at h
  · cases h
    exact ⟨rfl, rfl, rfl, rfl, rfl⟩
  · cases h

theorem CSysVector.blockLoop_shape {β : Type} (this : CSysVector β) (p : Nat) (r : List β)
    (f : β → β → β) (w : CSysVector β) (h : this.blockLoop p r f = .ok w) :
    w.SameShape this := by
  unfold CSysVector.blockLoop at h
  split at h
  · cases h
    exact ⟨rfl, rfl, rfl, rfl, rfl⟩
  · cases h

theorem CSysVector.copy_shape (u w : CSysVector α) (h : CSysVector.CSysVector_copy u = .ok w) :
    w.SameShape u := by
  unfold CSysVector.CSysVector_copy at h
  split at h
  · cases h
    exact ⟨rfl, rfl, rfl, rfl, rfl⟩
  · cases h

theorem CSysVector.sameShape_trans {β : Type} (a b c : CSysVector β) (h1 : a.SameShape b)
    (h2 : b.SameShape c) : a.SameShape c := by
  obtain ⟨p1, p2, p3, p4, p5⟩ := h1
  obtain ⟨q1, q2, q3, q4, q5⟩ := h2
  exact ⟨p1.trans q1, p2.trans q2, p3.trans q3, p4.trans q4, p5.trans q5⟩

/-- The in-place operations return a vector with the five size fields of the receiver. -/
theorem CSysVector.inPlace_shape (this : CSysVector α) (x y : Operand α) (a b val : α)
    (p q : Nat) (r : List α) (w : CSysVector α)
    (h : this.Equals_AX a x = .ok w ∨ this.Plus_AX a x = .ok w ∨
      this.Equals_AX_Plus_BY a x b y = .ok w ∨ this.operator_assign_val val = .ok w ∨
      this.operator_add_assign x = .ok w ∨ this.operator_sub_assign x = .ok w ∨
      this.operator_mul_assign val = .ok w ∨ this.operator_div_assign val = .ok w ∨
      this.AddBlock p r = .ok w ∨ this.SubtractBlock p r = .ok w ∨
      this.SetBlock p r = .ok w ∨ this.SetBlock_var p q val = .ok w ∨
      this.SetBlock_Zero p = .ok w ∨ this.SetBlock_Zero_var p q = .ok w) :
    w.SameShape this := by
  rcases h with h | h | h | h | h | h | h | h | h | h | h | h | h | h
  · unfold CSysVector.Equals_AX at h
    split at h
    · cases h
    · split at h
      · cases h
        exact ⟨rfl, rfl, rfl, rfl, rfl⟩
      · cases h
  · unfold CSysVector.Plus_AX at h
    split at h
    · cases h
    · exact CSysVector.zipLoop_shape this x _ w h
  · unfold CSysVector.Equals_AX_Plus_BY at h
    split at h
    · cases h
    · split at h
      · cases h
        exact ⟨rfl, rfl, rfl, rfl, rfl⟩
      · cases h
  · unfold CSysVector.operator_assign_val at h
    split at h
    · cases h
      exact ⟨rfl, rfl, rfl, rfl, rfl⟩
    · cases h
  · unfold CSysVector.operator_add_assign at h
    split at h
    · cases h
    · exact CSysVector.zipLoop_shape this x _ w h
  · unfold CSysVector.operator_sub_assign at h
    split at h
    · cases h
    · exact CSysVector.zipLoop_shape this x _ w h
  · exact CSysVector.mapLoop_shape this _ w h
  · exact CSysVector.mapLoop_shape this _ w h
  · exact CSysVector.blockLoop_shape this p r _ w h
  · exact CSysVector.blockLoop_shape this p r _ w h
  · unfold CSysVector.SetBlock at h
    split at h
    · cases h
      exact ⟨rfl, rfl, rfl, rfl, rfl⟩
    · cases h
  · unfold CSysVector.SetBlock_var at h
    split at h
    · cases h
      exact ⟨rfl, rfl, rfl, rfl, rfl⟩
    · cases h
  · unfold CSysVector.SetBlock_Zero at h
    split at h
    · cases h
      exact ⟨rfl, rfl, rfl, rfl, rfl⟩
    · cases h
  · unfold CSysVector.SetBlock_Zero_var at h
    split at h
    · cases h
      exact ⟨rfl, rfl, rfl, rfl, rfl⟩
    · cases h

/-- The value-returning operators return a vector with the five size fields of the
receiver (of the vector argument for the friend operator). -/
theorem CSysVector.operator_shape (this u : CSysVector α) (val : α) (w : CSysVector α)
    (h : this.operator_add u = .ok w ∨ this.operator_sub u = .ok w ∨
      this.operator_mul val = .ok w ∨ CSysVector.operator_mul_scalar val this = .ok w ∨
      this.operator_div val = .ok w) :
    w.SameShape this := by
  rcases h with h | h | h | h | h
  · unfold CSysVector.operator_add at h
    split at h
    · rename_i c hc
      exact CSysVector.sameShape_trans _ _ _
        (CSysVector.inPlace_shape c (.other u) .self 0 0 0 0 0 [] w
          (Or.inr (Or.inr (Or.inr (Or.inr (Or.inl h))))))
        (CSysVector.copy_shape this c hc)
    · cases h
  · unfold CSysVector.operator_sub at h
    split at h
    · rename_i c hc
      exact CSysVector.sameShape_trans _ _ _
        (CSysVector.inPlace_shape c (.other u) .self 0 0 0 0 0 [] w
          (Or.inr (Or.inr (Or.inr (Or.inr (Or.inr (Or.inl h)))))))
        (CSysVector.copy_shape this c hc)
    · cases h
  · unfold CSysVector.operator_mul at h
    split at h
    · rename_i c hc
      exact CSysVector.sameShape_trans _ _ _ (CSysVector.mapLoop_shape c _ w h)
        (CSysVector.copy_shape this c hc)
    · cases h
  · unfold CSysVector.operator_mul_scalar at h
    split at h
    · rename_i c hc
      exact CSysVector.sameShape_trans _ _ _ (CSysVector.mapLoop_shape c _ w h)
        (CSysVector.copy_shape this c hc)
    · cases h
  · unfold CSysVector.operator_div at h
    split at h
    · rename_i c hc
      exact CSysVector.sameShape_trans _ _ _ (CSysVector.mapLoop_shape c _ w h)
        (CSysVector.copy_shape this c hc)
    · cases h

/-- The fill constructor with block sizes, on a product below `2^32`: it returns the
filled vector after `nElm` iterations. -/
theorem CSysVector.blk_val_fill (numBlk numBlkDomain numVar : Nat) (val : α)
    (h0 : 0 < numBlk * numVar) (h32 : numBlk * numVar < 2 ^ 32) :
    CSysVector.CSysVector_blk_val (numBlk * numVar + 1) numBlk numBlkDomain numVar val
      = .ok ⟨numBlk * numVar, ulong (numBlkDomain * numVar), numBlk, numBlkDomain, numVar,
          List.replicate (numBlk * numVar) val⟩ := by
  have hu : ulong (numBlk * numVar) = numBlk * numVar := Nat.mod_eq_of_lt (by omega)
  have hfill := fillLoop32_fill val (numBlk * numVar) h32 (numBlk * numVar) 0
    (newBuffer (numBlk * numVar)) (by omega) (by simp [newBuffer])
  unfold CSysVector.CSysVector_blk_val
  simp only [hu]
  rw [if_neg (by unfold ULONG_MAX; omega), hfill]
  simp

/-- The fill constructor with block sizes, on an accepted product of `2^32` or more: it
does not return, whatever the number of steps granted. -/
theorem CSysVector.blk_val_timeout (fuel numBlk numBlkDomain numVar : Nat) (val : α)
    (h32 : 2 ^ 32 ≤ numBlk * numVar) (h64 : numBlk * numVar < 2 ^ 64 - 1) :
    CSysVector.CSysVector_blk_val fuel numBlk numBlkDomain numVar val = .error .timeout := by
  have hu : ulong (numBlk * numVar) = numBlk * numVar := Nat.mod_eq_of_lt (by omega)
  have hfill := fillLoop32_timeout val (numBlk * numVar) h32 fuel 0
    (newBuffer (numBlk * numVar)) (by norm_num) (by simp [newBuffer])
  unfold CSysVector.CSysVector_blk_val
  simp only [hu]
  rw [if_neg (by unfold ULONG_MAX; omega), hfill]

/-- The fill constructor with a size: every size it accepts is below `2^32 - 1`, and it
returns the filled vector. -/
theorem CSysVector.size_val_fill (size : Nat) (val : α) (h0 : 0 < size)
    (h32 : size < UINT_MAX) :
    CSysVector.CSysVector_size_val (size + 1) size val
      = .ok ⟨size, size, size, size, 1, List.replicate size val⟩ := by
  have h32' : size < 2 ^ 32 := by
    unfold UINT_MAX at h32
    omega
  have hfill := fillLoop32_fill val size h32' size 0 (newBuffer size) (by omega)
    (by simp [newBuffer])
  unfold CSysVector.CSysVector_size_val
  simp only []
  rw [if_neg (by omega), hfill]
  simp

/-- The method `Initialize` on a product that fits: it returns the filled vector. -/
theorem CSysVector.Initialize_eq (numBlk numVar : Nat) (val : α)
    (h0 : 0 < numBlk * numVar) (h64 : numBlk * numVar < 2 ^ 64 - 1) :
    CSysVector.Initialize numBlk numVar val
      = .ok ⟨numBlk * numVar, numBlk * numVar, numBlk, numBlk * numVar, numVar,
          List.replicate (numBlk * numVar) val⟩ := by
  have hu : ulong (numBlk * numVar) = numBlk * numVar := Nat.mod_eq_of_lt (by omega)
  have hfill := forLoop_fill (numBlk * numVar) (fun _ => val)
    (fun i buf => writeAt buf i val) (newBuffer (numBlk * numVar)) (by simp [newBuffer])
    (fun i buf hi hl _ => writeAt_of_lt val (by omega))
  unfold CSysVector.Initialize
  simp only [hu]
  have hrep : (List.range (numBlk * numVar)).map (fun _ => val)
      = List.replicate (numBlk * numVar) val := by
    apply List.ext_getElem?
    intro j
    by_cases hj : j < numBlk * numVar
    · rw [getElem?_range_map _ _ _ hj, List.getElem?_replicate, if_pos hj]
    · rw [List.getElem?_eq_none (by simp; omega), List.getElem?_eq_none (by simp; omega)]
  rw [if_neg (by unfold ULONG_MAX; omega), hfill, hrep]

/-- The fields a constructor leaves when it returns. -/
theorem CSysVector.constructor_fields (fuel size numBlk numBlkDomain numVar : Nat)
    (val : α) (arr : List α) (w : CSysVector α) :
    ((CSysVector.CSysVector_size_val fuel size val = .ok w ∨
        CSysVector.CSysVector_size_array size arr = .ok w) →
      w.nElm = size ∧ w.nElmDomain = size ∧ w.nBlk = size ∧ w.nBlkDomain = size ∧
        w.nVar = 1) ∧
    ((CSysVector.CSysVector_blk_val fuel numBlk numBlkDomain numVar val = .ok w ∨
        CSysVector.CSysVector_blk_array numBlk numBlkDomain numVar arr = .ok w) →
      w.nElm = ulong (numBlk * numVar) ∧ w.nElmDomain = ulong (numBlkDomain * numVar) ∧
        w.nBlk = numBlk ∧ w.nBlkDomain = numBlkDomain ∧ w.nVar = numVar) ∧
    (CSysVector.Initialize numBlk numVar val = .ok w →
      w.nElm = ulong (numBlk * numVar) ∧ w.nElmDomain = ulong (numBlk * numVar) ∧
        w.nBlk = numBlk ∧ w.nBlkDomain = ulong (numBlk * numVar) ∧ w.nVar = numVar) := by
  refine ⟨fun h => ?_, fun h => ?_, fun h => ?_⟩
  · rcases h with h | h
    · unfold CSysVector.CSysVector_size_val at h
      dsimp only at h
      split at h
      · cases h
      · split at h
        · cases h
          exact ⟨rfl, rfl, rfl, rfl, rfl⟩
        · cases h
    · unfold CSysVector.CSysVector_size_array at h
      dsimp only at h
      split at h
      · cases h
      · split at h
        · cases h
          exact ⟨rfl, rfl, rfl, rfl, rfl⟩
        · cases h
  · rcases h with h | h
    · unfold CSysVector.CSysVector_blk_val at h
      dsimp only at h
      split at h
      · cases h
      · split at h
        · cases h
          exact ⟨rfl, rfl, rfl, rfl, rfl⟩
        · cases h
    · unfold CSysVector.CSysVector_blk_array at h
      dsimp only at h
      split at h
      · cases h
      · split at h
        · cases h
          exact ⟨rfl, rfl, rfl, rfl, rfl⟩
        · cases h
  · unfold CSysVector.Initialize at h
    dsimp only at h
    split at h
    · cases h
    · split at h
      · cases h
        exact ⟨rfl, rfl, rfl, rfl, rfl⟩
      · cases h

theorem CSysVector.operator_assign_shape (this u w : CSysVector α)
    (h : this.operator_assign (.other u) = .ok w) : w.SameShape u := by
  unfold CSysVector.operator_assign at h
  dsimp only at h
  split at h
  · cases h
    exact ⟨rfl, rfl, rfl, rfl, rfl⟩
  · cases h

end VectorSizes

/-! ## The boundary parameters -/

section BdyParams

variable {α : Type} [LinearOrderedField α]

/-- The array `set_bdy_params` returns, slot by slot. -/
theorem set_bdy_params_eq (viscous turb_model : Int) (rho_bound : α) (v_bound : List α)
    (p_bound : α) (v_wall : List α) (T_wall p_total_bound T_total_bound : α)
    (nx_free_stream ny_free_stream nz_free_stream mu_tilde_inf : α) (fresh : Nat → α)
    (hvb : 3 ≤ v_bound.length) (hvw : viscous ≠ 0 → 3 ≤ v_wall.length) :
    set_bdy_params viscous turb_model rho_bound v_bound p_bound v_wall T_wall
      p_total_bound T_total_bound nx_free_stream ny_free_stream nz_free_stream
      mu_tilde_inf fresh
    = .ok ([rho_bound, v_bound.getD 0 0, v_bound.getD 1 0, v_bound.getD 2 0, p_bound,
        if viscous ≠ 0 then v_wall.getD 0 0 else fresh 5,
        if viscous ≠ 0 then v_wall.getD 1 0 else fresh 6,
        if viscous ≠ 0 then v_wall.getD 2 0 else fresh 7,
        if viscous ≠ 0 then T_wall else fresh 8,
        p_total_bound, T_total_bound, nx_free_stream, ny_free_stream, nz_free_stream,
        if turb_model = 1 then mu_tilde_inf else fresh 14]
        ++ (List.range 15).map (fun k => fresh (15 + k))) := by
  have hr : (List.range 30).map fresh = [fresh 0, fresh 1, fresh 2, fresh 3, fresh 4,
      fresh 5, fresh 6, fresh 7, fresh 8, fresh 9, fresh 10, fresh 11, fresh 12, fresh 13,
      fresh 14, fresh 15, fresh 16, fresh 17, fresh 18, fresh 19, fresh 20, fresh 21,
      fresh 22, fresh 23, fresh 24, fresh 25, fresh 26, fresh 27, fresh 28, fresh 29] := by
    rfl
  have hr2 : (List.range 15).map (fun k => fresh (15 + k)) = [fresh 15, fresh 16, fresh 17,
      fresh 18, fresh 19, fresh 20, fresh 21, fresh 22, fresh 23, fresh 24, fresh 25,
      fresh 26, fresh 27, fresh 28, fresh 29] := by
    rfl
  unfold set_bdy_params
  simp only [hr, hr2, readAt_getD v_bound 0 (by omega), readAt_getD v_bound 1 (by omega),
    readAt_getD v_bound 2 (by omega)]
  by_cases hv : viscous ≠ 0
  · have hw := hvw hv
    simp only [if_pos hv, readAt_getD v_wall 0 (by omega), readAt_getD v_wall 1 (by omega),
      readAt_getD v_wall 2 (by omega)]
    by_cases ht : turb_model = 1
    · simp [writeAt, ok_bind, pure_ok, ht]
    · simp [writeAt, ok_bind, pure_ok, ht]
  · simp only [if_neg hv]
    by_cases ht : turb_model = 1
    · simp [writeAt, ok_bind, pure_ok, ht]
    · simp [writeAt, ok_bind, pure_ok, ht]

end BdyParams

/-! ## Boundary states that reproduce the interior state -/

section BoundaryFixedPoints

variable {α : Type} [LinearOrderedField α]

/-- A conservative state built from the density, the velocity and the total energy of the
interior state `u_l` has the entries `0 .. n_dims+1` of `u_l`. -/
theorem isConservative_eq_interior (u old u_l : List α) (n_dims : Nat) (rho e : α)
    (v : Nat → α) (h : IsConservative u n_dims rho v e old)
    (hul : n_dims + 2 ≤ u_l.length) (h0 : rho = u_l.getD 0 0) (hr : rho ≠ 0)
    (hv : ∀ i, i < n_dims → v i = velocity u_l i) (he : e = u_l.getD (n_dims + 1) 0) :
    ∀ k, k < n_dims + 2 → u[k]? = u_l[k]? := by
  obtain ⟨_, hu0, hm, hue, _⟩ := h
  intro k hk
  rcases Nat.eq_zero_or_pos k with hk0 | hk0
  · subst hk0
    rw [hu0, h0, getElem?_eq_some_getD 0 (show 0 < u_l.length by omega)]
  · by_cases hk' : k = n_dims + 1
    · subst hk'
      rw [hue, he, getElem?_eq_some_getD 0 (show n_dims + 1 < u_l.length by omega)]
    · obtain ⟨i, rfl⟩ : ∃ i, k = i + 1 := ⟨k - 1, by omega⟩
      have hr' : u_l.getD 0 0 ≠ 0 := h0 ▸ hr
      rw [hm i (by omega), getElem?_eq_some_getD 0 (show i + 1 < u_l.length by omega),
        hv i (by omega), h0, velocity, mul_div_cancel₀ _ hr']

/-- Reflecting a vector `a` in the plane of unit normal `c` keeps its squared length. -/
theorem dotN_reflect (n : Nat) (a c : Nat → α) (hunit : dotN n c c = 1) :
    dotN n (fun i => a i - 2 * dotN n a c * c i) (fun i => a i - 2 * dotN n a c * c i)
      = dotN n a a := by
  have key : ∀ t : α, dotN n (fun i => a i - 2 * t * c i) (fun i => a i - 2 * t * c i)
      = dotN n a a - 4 * t * dotN n a c + 4 * t * t * dotN n c c := by
    intro t
    unfold dotN
    rw [Finset.mul_sum, Finset.mul_sum, ← Finset.sum_sub_distrib, ← Finset.sum_add_distrib]
    exact Finset.sum_congr rfl (fun i _ => by ring)
  rw [key, hunit]
  ring

/-- The far-field velocity built on a velocity `w` whose normal component is `vn_star` is
`w` itself. -/
theorem farFieldVelocity_self (w : Nat → α) (norm : List α) (n_dims : Nat) (i : Nat) :
    farFieldVelocity (dotN n_dims w (fun k => norm.getD k 0)) w norm n_dims i = w i := by
  unfold farFieldVelocity
  ring

/-- Boundary type 15 on arrays that are long enough: the exterior state of the inflow
branch and of the outflow branch. -/
theorem set_inv_type_15 {unset : UnsetLocals α} (sqrt : α → α) (pow : α → α → α)
    (turb_model : Int) (u_l u_r v_g norm bdy_params : List α) (n_dims : Nat)
    (gamma R_ref : α)
    (hbp : 9 ≤ bdy_params.length) (hb : 1 + n_dims ≤ bdy_params.length)
    (hul : n_dims + 2 ≤ u_l.length) (hur : n_dims + 2 ≤ u_r.length)
    (hn : n_dims ≤ norm.length)
    (ht : turb_model = 1 →
      15 ≤ bdy_params.length ∧ n_dims + 3 ≤ u_l.length ∧ n_dims + 3 ≤ u_r.length) :
    ∃ u, set_inv_boundary_conditions unset sqrt pow turb_model 15 u_l u_r v_g norm bdy_params
        n_dims gamma R_ref 0 = .ok u ∧
      ((dotN n_dims (velocity u_l) (fun k => norm.getD k 0) < 0 ∧
        IsConservative u n_dims
          (isentropicDensity pow gamma
            (pow (bdy_params.getD 0 0) gamma / bdy_params.getD 4 0)
            (cStar sqrt gamma u_l norm bdy_params n_dims))
          (farFieldVelocity (vnStar sqrt gamma u_l norm bdy_params n_dims)
            (vBound bdy_params) norm n_dims)
          (isentropicDensity pow gamma
              (pow (bdy_params.getD 0 0) gamma / bdy_params.getD 4 0)
              (cStar sqrt gamma u_l norm bdy_params n_dims)
            * freeStreamEnthalpy gamma bdy_params n_dims
          - acousticPressure gamma
              (isentropicDensity pow gamma
                (pow (bdy_params.getD 0 0) gamma / bdy_params.getD 4 0)
                (cStar sqrt gamma u_l norm bdy_params n_dims))
              (cStar sqrt gamma u_l norm bdy_params n_dims))
          (withTurb turb_model u_r n_dims (bdy_params.getD 14 0))) ∨
      (¬ dotN n_dims (velocity u_l) (fun k => norm.getD k 0) < 0 ∧
        IsConservative u n_dims
          (isentropicDensity pow gamma
            (pow (u_l.getD 0 0) gamma / pressure gamma u_l n_dims)
            (cStar sqrt gamma u_l norm bdy_params n_dims))
          (farFieldVelocity (vnStar sqrt gamma u_l norm bdy_params n_dims)
            (velocity u_l) norm n_dims)
          (totalEnergy gamma
            (acousticPressure gamma
              (isentropicDensity pow gamma
                (pow (u_l.getD 0 0) gamma / pressure gamma u_l n_dims)
                (cStar sqrt gamma u_l norm bdy_params n_dims))
              (cStar sqrt gamma u_l norm bdy_params n_dims))
            (isentropicDensity pow gamma
              (pow (u_l.getD 0 0) gamma / pressure gamma u_l n_dims)
              (cStar sqrt gamma u_l norm bdy_params n_dims))
            n_dims
            (farFieldVelocity (vnStar sqrt gamma u_l norm bdy_params n_dims)
              (velocity u_l) norm n_dims))
          (withTurb turb_model u_r n_dims (u_l.getD (n_dims + 2) 0)))) := by
  have hd := (inv_dispatch_eq unset sqrt pow turb_model u_l u_r
    ((List.range n_dims).map (velocity u_l)) v_g norm bdy_params n_dims gamma R_ref
    (u_l.getD 0 0) (u_l.getD (n_dims + 1) 0) (pressure gamma u_l n_dims)
    (bdy_params.getD 0 0) (bdy_params.getD 4 0) (bdy_params.getD 8 0)).2.2.2.2.2.2.2.2.2
  by_cases hin : dotN n_dims (velocity u_l) (fun k => norm.getD k 0) < 0
  · obtain ⟨u, hrun, hu⟩ := set_inv_of_dispatch sqrt pow turb_model 15 u_l u_r v_g norm
      bdy_params n_dims gamma R_ref hbp hul _ _
      (by rw [hd, inv_bdy_type_15_inflow sqrt pow turb_model u_l u_r norm bdy_params n_dims
        gamma hn hb (fun h => ⟨(ht h).1, (ht h).2.2⟩) hin])
      rfl (by rw [withTurb_length]; exact hur)
    exact ⟨u, hrun, Or.inl ⟨hin, hu⟩⟩
  · obtain ⟨u, hrun, hu⟩ := set_inv_of_dispatch sqrt pow turb_model 15 u_l u_r v_g norm
      bdy_params n_dims gamma R_ref hbp hul _ _
      (by rw [hd, inv_bdy_type_15_outflow sqrt pow turb_model u_l u_r norm bdy_params n_dims
        gamma hn hb (fun h => (ht h).2) hin])
      rfl (by rw [withTurb_length]; exact hur)
    exact ⟨u, hrun, Or.inr ⟨hin, hu⟩⟩

/-- When the interior state is the free stream, `c*` is the free-stream speed of sound,
`v_n*` the free-stream normal velocity, and the density reconstructed from the entropy and
`c*` the free-stream density. -/
theorem farField_free_stream (sqrt : α → α) (pow : α → α → α)
    (u_l norm bdy_params : List α) (n_dims : Nat) (gamma : α)
    (hsqrt : ∀ x, 0 ≤ x → sqrt x * sqrt x = x)
    (hpow : ∀ x, 0 < x → pow (pow x gamma / x) (1 / (gamma - 1)) = x)
    (hgamma : 1 < gamma)
    (hrhob : 0 < bdy_params.getD 0 0) (hpb : 0 < bdy_params.getD 4 0)
    (hrho : u_l.getD 0 0 = bdy_params.getD 0 0)
    (hv : ∀ i, i < n_dims → velocity u_l i = vBound bdy_params i)
    (hp : pressure gamma u_l n_dims = bdy_params.getD 4 0) :
    cStar sqrt gamma u_l norm bdy_params n_dims
      = sqrt (gamma * bdy_params.getD 4 0 / bdy_params.getD 0 0) ∧
    vnStar sqrt gamma u_l norm bdy_params n_dims
      = dotN n_dims (velocity u_l) (fun k => norm.getD k 0) ∧
    isentropicDensity pow gamma (pow (bdy_params.getD 0 0) gamma / bdy_params.getD 4 0)
      (cStar sqrt gamma u_l norm bdy_params n_dims) = bdy_params.getD 0 0 ∧
    acousticPressure gamma (bdy_params.getD 0 0)
      (cStar sqrt gamma u_l norm bdy_params n_dims) = bdy_params.getD 4 0 := by
  have hg1 : gamma - 1 ≠ 0 := by linarith
  have hg0 : gamma ≠ 0 := by linarith
  have hr0 : bdy_params.getD 0 0 ≠ 0 := hrhob.ne'
  have hp0 : bdy_params.getD 4 0 ≠ 0 := hpb.ne'
  have hvn : dotN n_dims (vBound bdy_params) (fun k => norm.getD k 0)
      = dotN n_dims (velocity u_l) (fun k => norm.getD k 0) :=
    (dotN_congr n_dims _ _ _ hv).symm
  have hstar : ∀ t c : α, 1 / 4 * (gamma - 1)
      * (t + 2 / (gamma - 1) * c - (t - 2 / (gamma - 1) * c)) = c := by
    intro t c
    field_simp
    ring
  have hc : cStar sqrt gamma u_l norm bdy_params n_dims
      = sqrt (gamma * bdy_params.getD 4 0 / bdy_params.getD 0 0) := by
    unfold cStar riemannPlus riemannMinus
    rw [hp, hrho, hvn]
    exact hstar _ _
  have hcc : sqrt (gamma * bdy_params.getD 4 0 / bdy_params.getD 0 0)
      * sqrt (gamma * bdy_params.getD 4 0 / bdy_params.getD 0 0)
      = gamma * bdy_params.getD 4 0 / bdy_params.getD 0 0 :=
    hsqrt _ (div_nonneg (mul_nonneg (by linarith) hpb.le) hrhob.le)
  have harg : ∀ P p r : α, p ≠ 0 → r ≠ 0 → 1 / gamma * (P / p * (gamma * p / r)) = P / r := by
    intro P p r hp' hr'
    field_simp
    ring
  have hac : ∀ p r : α, r ≠ 0 → r / gamma * (gamma * p / r) = p := by
    intro p r hr'
    field_simp
    ring
  refine ⟨hc, ?_, ?_, ?_⟩
  · unfold vnStar riemannPlus riemannMinus
    rw [hp, hrho, hvn]
    ring
  · unfold isentropicDensity
    rw [hc, mul_assoc (pow (bdy_params.getD 0 0) gamma / bdy_params.getD 4 0), hcc,
      harg _ _ _ hp0 hr0]
    exact hpow _ hrhob
  · unfold acousticPressure
    rw [hc, mul_assoc, hcc]
    exact hac _ _ hr0

end BoundaryFixedPoints

/-! ## Point numbering of the hexahedron -/

section HexIndexing

variable {α : Type} [LinearOrderedField α]

/-- Invariant rule for three nested loops: `P c` holds once `c` iterations of the innermost
body are done, the iteration `(i, j, k)` being number `k + C*j + C*B*i`. -/
theorem forLoop3_inv {σ : Type} (A B C : Nat) (body : Nat → Nat → Nat → σ → Except Fault σ)
    (P : Nat → σ → Prop) (s : σ) (h0 : P 0 s)
    (hstep : ∀ i j k t, i < A → j < B → k < C → P (k + C * j + C * B * i) t →
      ∃ t', body i j k t = .ok t' ∧ P (k + C * j + C * B * i + 1) t') :
    ∃ s', forLoop A
        (fun i s => forLoop B (fun j s => forLoop C (fun k s => body i j k s) s) s) s
        = .ok s' ∧ P (C * B * A) s' := by
  refine forLoop_inv A _ (fun i s => P (C * B * i) s) s (by simpa using h0) ?_
  intro i t hi ht
  have hmid := forLoop_inv B (fun j s => forLoop C (fun k s => body i j k s) s)
    (fun j s => P (C * j + C * B * i) s) t (by simpa using ht)
    (by
      intro j t' hj ht'
      have hin := forLoop_inv C (fun k s => body i j k s)
        (fun k s => P (k + C * j + C * B * i) s) t' (by simpa using ht')
        (fun k t'' hk ht'' => by
          obtain ⟨u, hu, hP⟩ := hstep i j k t'' hi hj hk ht''
          refine ⟨u, hu, ?_⟩
          have he : k + 1 + C * j + C * B * i = k + C * j + C * B * i + 1 := by omega
          dsimp only
          rw [he]
          exact hP)
      obtain ⟨u, hu, hP⟩ := hin
      refine ⟨u, hu, ?_⟩
      have he : C * (j + 1) + C * B * i = C + C * j + C * B * i := by
        rw [Nat.mul_succ]
        omega
      dsimp only
      rw [he]
      exact hP)
  obtain ⟨u, hu, hP⟩ := hmid
  refine ⟨u, hu, ?_⟩
  have he : C * B * (i + 1) = C * B + C * B * i := by
    rw [Nat.mul_succ]
    omega
  dsimp only
  rw [he]
  exact hP

/-- The index of a point lies below `N*N*A` when `i < A`, and the decoding
`i = idx/(N*N)`, `j = (idx - N*N*i)/N`, `k = idx - N*j - N*N*i` recovers the point. -/
theorem hexIndex_decode (N i j k : Nat) (hj : j < N) (hk : k < N) :
    hexIndex N i j k / (N * N) = i ∧ (hexIndex N i j k - N * N * i) / N = j ∧
      hexIndex N i j k - N * j - N * N * i = k := by
  have hN : 0 < N := by omega
  have hjN : N * j + N ≤ N * N := by
    have := Nat.mul_le_mul_left N (show j + 1 ≤ N from hj)
    rwa [Nat.mul_succ] at this
  unfold hexIndex
  refine ⟨?_, ?_, by omega⟩
  · rw [Nat.add_mul_div_left _ _ (Nat.mul_pos hN hN), Nat.div_eq_of_lt (by omega),
      Nat.zero_add]
  · rw [Nat.add_sub_cancel, Nat.add_mul_div_left _ _ hN, Nat.div_eq_of_lt hk, Nat.zero_add]

theorem hexIndex_lt (N A i j k : Nat) (hi : i < A) (hj : j < N) (hk : k < N) :
    hexIndex N i j k < N * N * A := by
  have hjN : N * j + N ≤ N * N := by
    have := Nat.mul_le_mul_left N (show j + 1 ≤ N from hj)
    rwa [Nat.mul_succ] at this
  have hiM : N * N * i + N * N ≤ N * N * A := by
    have := Nat.mul_le_mul_left (N * N) (show i + 1 ≤ A from hi)
    rwa [Nat.mul_succ] at this
  unfold hexIndex
  omega

/-- The numbering `(i, j, k) ↦ k + N*j + N*N*i` is a bijection from the points with
`i < A`, `j < N`, `k < N` onto the indices below `N*N*A`. -/
theorem hexIndex_bijective (N A : Nat) :
    (∀ i j k, i < A → j < N → k < N → hexIndex N i j k < N * N * A) ∧
    (∀ i j k i' j' k', j < N → k < N → j' < N → k' < N →
      hexIndex N i j k = hexIndex N i' j' k' → i = i' ∧ j = j' ∧ k = k') ∧
    (∀ p, p < N * N * A → ∃ i j k, i < A ∧ j < N ∧ k < N ∧ hexIndex N i j k = p) := by
  refine ⟨fun i j k hi hj hk => hexIndex_lt N A i j k hi hj hk, ?_, ?_⟩
  · intro i j k i' j' k' hj hk hj' hk' h
    obtain ⟨h1, h2, h3⟩ := hexIndex_decode N i j k hj hk
    obtain ⟨h1', h2', h3'⟩ := hexIndex_decode N i' j' k' hj' hk'
    have hi : i = i' := by rw [← h1, ← h1', h]
    subst hi
    have hjj : j = j' := by rw [← h2, ← h2', h]
    subst hjj
    exact ⟨rfl, rfl, by rw [← h3, ← h3', h]⟩
  · intro p hp
    have hN : 0 < N := by
      rcases Nat.eq_zero_or_pos N with h | h
      · subst h
        simp at hp
      · exact h
    have hNN : 0 < N * N := Nat.mul_pos hN hN
    refine ⟨p / (N * N), p % (N * N) / N, p % N, ?_, ?_, Nat.mod_lt _ hN, ?_⟩
    · exact Nat.div_lt_of_lt_mul (by rw [Nat.mul_comm (N * N) A] at hp; rwa [Nat.mul_comm])
    · exact Nat.div_lt_of_lt_mul (Nat.mod_lt _ hNN)
    · unfold hexIndex
      have h1 := Nat.div_add_mod p (N * N)
      have h2 := Nat.div_add_mod (p % (N * N)) N
      have h3 : p % (N * N) % N = p % N := Nat.mod_mul_left_mod p N N
      rw [h3] at h2
      omega

/-- Three nested loops whose iteration `(i, j, k)` writes the three coordinates of point
`k + N*j + N*N*i`: they return, and every point holds what its iteration wrote. -/
theorem fill_columns3 (n_dims n A N : Nat) (h3 : 3 ≤ n_dims) (hn : N * N * A ≤ n)
    (col : Nat → Nat → Nat → α × α × α)
    (body : Nat → Nat → Nat → Array2 α → Except Fault (Array2 α))
    (hbody : ∀ i j k (a : Array2 α), i < A → j < N → k < N →
      body i j k a = a.set3 (k + N * j + N * N * i)
        (col i j k).1 (col i j k).2.1 (col i j k).2.2) :
    ∃ a, forLoop A
        (fun i a => forLoop N (fun j a => forLoop N (fun k a => body i j k a) a) a)
        (Array2.setup n_dims n) = .ok a ∧ a.dim_0 = n_dims ∧ a.dim_1 = n ∧
      ∀ i j k, i < A → j < N → k < N → a.column3 (hexIndex N i j k) = col i j k := by
  obtain ⟨a, hrun, hd0, hd1, ha⟩ := forLoop3_inv A N N body
    (fun c (a : Array2 α) => a.dim_0 = n_dims ∧ a.dim_1 = n ∧
      ∀ i j k, i < A → j < N → k < N → hexIndex N i j k < c →
        a.column3 (hexIndex N i j k) = col i j k)
    (Array2.setup n_dims n)
    ⟨rfl, rfl, fun i j k _ _ _ h => absurd h (Nat.not_lt_zero _)⟩
    (by
      intro i j k c hi hj hk ⟨hd0, hd1, hc⟩
      rw [hbody i j k c hi hj hk]
      have hlt := hexIndex_lt N A i j k hi hj hk
      unfold hexIndex at hlt
      obtain ⟨b, hrun, hb0, hb1, hcol, hrest⟩ := Array2.set3_spec c (k + N * j + N * N * i)
        (col i j k).1 (col i j k).2.1 (col i j k).2.2 (by omega) (by omega)
      refine ⟨b, hrun, by omega, by omega, fun i' j' k' hi' hj' hk' hp => ?_⟩
      by_cases he : hexIndex N i' j' k' = hexIndex N i j k
      · obtain ⟨e1, e2, e3⟩ := (hexIndex_bijective N A).2.1 i' j' k' i j k hj' hk' hj hk he
        subst e1 e2 e3
        exact hcol
      · have hne : hexIndex N i' j' k' ≠ k + N * j + N * N * i := he
        have hsame : b.column3 (hexIndex N i' j' k') = c.column3 (hexIndex N i' j' k') := by
          simp only [Array2.column3, hrest _ hne]
        rw [hsame]
        exact hc i' j' k' hi' hj' hk' (by unfold hexIndex at hp he ⊢; omega))
  exact ⟨a, hrun, hd0, hd1, fun i j k hi hj hk =>
    ha i j k hi hj hk (by
      have := hexIndex_lt N A i j k hi hj hk
      rw [Nat.mul_comm (N * N) A] at this
      rw [Nat.mul_comm, Nat.mul_comm N N]
      rwa [Nat.mul_comm A (N * N)] at this ⊢)⟩

end HexIndexing

section HexPoints

variable {α : Type} [LinearOrderedField α]

/-- Inside the loop over `k` the index `order-k` is `N-1-k`. -/
theorem order_sub_toNat (order : Int) (k : Nat) (hk : k < nPts1d order) :
    (order - (k : Int)).toNat = nPts1d order - 1 - k := by
  unfold nPts1d at *
  omega

/-- The array left by `set_loc_upts`: the point `k + N*j + N*N*i` holds the abscissas of
indices `k`, `j`, `i`. -/
theorem set_loc_upts_spec (n_dims n_upts_per_ele : Nat) (order : Int)
    (loc_1d_upts : List α) (h3 : 3 ≤ n_dims)
    (hn : nPts1d order * nPts1d order * nPts1d order ≤ n_upts_per_ele)
    (hloc : nPts1d order ≤ loc_1d_upts.length) :
    ∃ a, set_loc_upts n_dims n_upts_per_ele order loc_1d_upts = .ok a ∧
      a.dim_0 = n_dims ∧ a.dim_1 = n_upts_per_ele ∧
      ∀ i j k, i < nPts1d order → j < nPts1d order → k < nPts1d order →
        a.column3 (hexIndex (nPts1d order) i j k)
          = (loc_1d_upts.getD k 0, loc_1d_upts.getD j 0, loc_1d_upts.getD i 0) := by
  exact fill_columns3 n_dims n_upts_per_ele (nPts1d order) (nPts1d order) h3 hn
    (fun i j k => (loc_1d_upts.getD k 0, loc_1d_upts.getD j 0, loc_1d_upts.getD i 0))
    (fun i j k a => do
      let upt := k + nPts1d order * j + nPts1d order * nPts1d order * i
      let x ← readAt loc_1d_upts k
      let a ← a.set 0 upt x
      let y ← readAt loc_1d_upts j
      let a ← a.set 1 upt y
      let z ← readAt loc_1d_upts i
      a.set 2 upt z)
    (by
      intro i j k a hi hj hk
      simp only [readAt_getD loc_1d_upts k (by omega), readAt_getD loc_1d_upts j (by omega),
        readAt_getD loc_1d_upts i (by omega), ok_bind, Array2.set3])

/-- The array left by `set_tloc_fpts` for 6 faces: the flux point `(j, k)` of face `f`, of
index `k + N*j + N*N*f`, holds the reference coordinates of that flux point. -/
theorem set_tloc_fpts_spec (n_dims n_fpts_per_ele : Nat) (order : Int)
    (loc_1d_upts : List α) (h3 : 3 ≤ n_dims)
    (hn : nPts1d order * nPts1d order * 6 ≤ n_fpts_per_ele)
    (hloc : nPts1d order ≤ loc_1d_upts.length) :
    ∃ a, set_tloc_fpts n_dims n_fpts_per_ele 6 order loc_1d_upts = .ok a ∧
      a.dim_0 = n_dims ∧ a.dim_1 = n_fpts_per_ele ∧
      ∀ f j k, f < 6 → j < nPts1d order → k < nPts1d order →
        a.column3 (hexIndex (nPts1d order) f j k)
          = refFluxPoint (fun m => loc_1d_upts.getD m 0) (nPts1d order) f j k := by
  exact fill_columns3 n_dims n_fpts_per_ele 6 (nPts1d order) h3 hn
    (fun f j k => refFluxPoint (fun m => loc_1d_upts.getD m 0) (nPts1d order) f j k)
    (fun i j k a =>
      let fpt := k + (nPts1d order * j) + (nPts1d order * nPts1d order * i)
      if i = 0 then do
        let x ← readAt loc_1d_upts (order - k).toNat
        let a ← a.set 0 fpt x
        let y ← readAt loc_1d_upts j
        let a ← a.set 1 fpt y
        a.set 2 fpt (-1.0)
      else if i = 1 then do
        let x ← readAt loc_1d_upts k
        let a ← a.set 0 fpt x
        let a ← a.set 1 fpt (-1.0)
        let z ← readAt loc_1d_upts j
        a.set 2 fpt z
      else if i = 2 then do
        let a ← a.set 0 fpt 1.0
        let y ← readAt loc_1d_upts k
        let a ← a.set 1 fpt y
        let z ← readAt loc_1d_upts j
        a.set 2 fpt z
      else if i = 3 then do
        let x ← readAt loc_1d_upts (order - k).toNat
        let a ← a.set 0 fpt x
        let a ← a.set 1 fpt 1.0
        let z ← readAt loc_1d_upts j
        a.set 2 fpt z
      else if i = 4 then do
        let a ← a.set 0 fpt (-1.0)
        let y ← readAt loc_1d_upts (order - k).toNat
        let a ← a.set 1 fpt y
        let z ← readAt loc_1d_upts j
        a.set 2 fpt z
      else if i = 5 then do
        let x ← readAt loc_1d_upts k
        let a ← a.set 0 fpt x
        let y ← readAt loc_1d_upts j
        let a ← a.set 1 fpt y
        a.set 2 fpt 1.0
      else pure a)
    (by
      intro i j k a hi hj hk
      have hrev := order_sub_toNat order k hk
      have h1 : (1.0 : α) = 1 := by norm_num
      interval_cases i <;>
        simp only [refFluxPoint, hrev, h1, readAt_getD loc_1d_upts k (by omega),
          readAt_getD loc_1d_upts j (by omega),
          readAt_getD loc_1d_upts (nPts1d order - 1 - k) (by omega), ok_bind,
          Array2.set3] <;> rfl)

/-- The truncating quotient of two naturals taken as `int`s. -/
theorem intDiv_natCast (a b : Nat) (hb : 0 < b) :
    intDiv (a : Int) (b : Int) = .ok ((a / b : Nat) : Int) := by
  unfold intDiv
  rw [if_neg (by omega), Int.tdiv_eq_ediv (by omega) (by omega), Int.natCast_div]

/-- On the index of the solution point `(i, j, k)`, `eval_nodal_basis` decodes `i`, `j`,
`k` and returns the product of the three 1-D Lagrange polynomials of these indices. -/
theorem eval_nodal_basis_hexIndex (eval_lagrange : α → Int → List α → α) (order : Int)
    (loc_1d_upts in_loc : List α) (hin : 3 ≤ in_loc.length) (i j k : Nat)
    (hj : j < nPts1d order) (hk : k < nPts1d order) :
    eval_nodal_basis eval_lagrange order loc_1d_upts (hexIndex (nPts1d order) i j k) in_loc
      = .ok (eval_lagrange (in_loc.getD 0 0) k loc_1d_upts
          * eval_lagrange (in_loc.getD 1 0) j loc_1d_upts
          * eval_lagrange (in_loc.getD 2 0) i loc_1d_upts) := by
  have hN : ((nPts1d order : Nat) : Int) = order + 1 := by
    unfold nPts1d at *
    omega
  have hNpos : 0 < nPts1d order := by omega
  obtain ⟨d1, d2, d3⟩ := hexIndex_decode (nPts1d order) i j k hj hk
  have hge : nPts1d order * nPts1d order * i ≤ hexIndex (nPts1d order) i j k := by
    unfold hexIndex
    omega
  have hge2 : nPts1d order * j + nPts1d order * nPts1d order * i
      ≤ hexIndex (nPts1d order) i j k := by
    unfold hexIndex
    omega
  have e1 : intDiv (hexIndex (nPts1d order) i j k : Int) ((order + 1) * (order + 1))
      = .ok (i : Int) := by
    rw [← hN, ← Int.natCast_mul, intDiv_natCast _ _ (Nat.mul_pos hNpos hNpos), d1]
  have e2 : intDiv ((hexIndex (nPts1d order) i j k : Int)
      - ((order + 1) * (order + 1) * (i : Int))) (order + 1) = .ok (j : Int) := by
    rw [← hN, ← Int.natCast_mul, ← Int.natCast_mul, ← Int.natCast_sub hge,
      intDiv_natCast _ _ hNpos, d2]
  have e3 : (hexIndex (nPts1d order) i j k : Int) - ((order + 1) * (j : Int))
      - ((order + 1) * (order + 1) * (i : Int)) = (k : Int) := by
    rw [← hN]
    have : (hexIndex (nPts1d order) i j k : Int)
        = k + (nPts1d order : Int) * j + (nPts1d order : Int) * (nPts1d order : Int) * i := by
      unfold hexIndex
      push_cast
      ring
    rw [this]
    ring
  unfold eval_nodal_basis
  simp only [e1, e2, e3, ok_bind, readAt_getD in_loc 0 (by omega),
    readAt_getD in_loc 1 (by omega), readAt_getD in_loc 2 (by omega), pure_ok]

end HexPoints

section HexFaces

variable {α : Type} [LinearOrderedField α]

/-- The chain of `eval_div_vcjh_basis` on a face `f` below 6 forms the term of the frame
of that face. -/
theorem div_vcjh_face_eq (eval_lagrange : α → Int → List α → α) (d_corr : α → Int → α)
    (order : Int) (loc_1d_upts loc : List α) (hloc : 3 ≤ loc.length) (f j k : Nat)
    (hf : f < 6) :
    div_vcjh_face eval_lagrange d_corr order loc_1d_upts f j k loc
      = .ok (faceTerm eval_lagrange d_corr order loc_1d_upts loc f j k) := by
  interval_cases f <;>
    simp [div_vcjh_face, faceTerm, faceFrame, sideSign, firstIndex,
      readAt_getD loc 0 (by omega), readAt_getD loc 1 (by omega),
      readAt_getD loc 2 (by omega), ok_bind, pure_ok]

/-- On the index of the flux point `(j, k)` of face `f`, `eval_div_vcjh_basis` decodes
`f`, `j`, `k` and forms the term of the frame of the face, with the derivative of the
correction function of the scheme. -/
theorem eval_div_vcjh_basis_hexIndex (eval_lagrange : α → Int → List α → α)
    (eval_d_vcjh_1d : α → Int → Int → α → α) (eval_d_ofr_1d eval_d_oesfr_1d : α → Int → Int → α)
    (compute_eta : Int → Int → α) (scheme : Int) (eta_hexa : α) (order : Int)
    (n_fpts_per_inter : List Int) (loc_1d_upts loc : List α) (hloc : 3 ≤ loc.length)
    (hn0 : n_fpts_per_inter[0]? = some ((order + 1) * (order + 1)))
    (f j k : Nat) (hf : f < 6) (hj : j < nPts1d order) (hk : k < nPts1d order) :
    eval_div_vcjh_basis eval_lagrange eval_d_vcjh_1d eval_d_ofr_1d eval_d_oesfr_1d
        compute_eta scheme eta_hexa order n_fpts_per_inter loc_1d_upts
        (hexIndex (nPts1d order) f j k) loc
      = (if scheme < 5 then
          .ok (faceTerm eval_lagrange
            (fun r side => eval_d_vcjh_1d r side order
              (if scheme = 0 then eta_hexa else compute_eta scheme order))
            order loc_1d_upts loc f j k)
        else if scheme = 5 then
          .ok (faceTerm eval_lagrange (fun r side => eval_d_ofr_1d r side order)
            order loc_1d_upts loc f j k)
        else if scheme = 6 then
          .ok (faceTerm eval_lagrange (fun r side => eval_d_oesfr_1d r side order)
            order loc_1d_upts loc f j k)
        else .error .indeterminate) := by
  have hN : ((nPts1d order : Nat) : Int) = order + 1 := by
    unfold nPts1d at *
    omega
  have hNpos : 0 < nPts1d order := by omega
  obtain ⟨d1, d2, d3⟩ := hexIndex_decode (nPts1d order) f j k hj hk
  have hge : nPts1d order * nPts1d order * f ≤ hexIndex (nPts1d order) f j k := by
    unfold hexIndex
    omega
  have e1 : intDiv (hexIndex (nPts1d order) f j k : Int) ((order + 1) * (order + 1))
      = .ok (f : Int) := by
    rw [← hN, ← Int.natCast_mul, intDiv_natCast _ _ (Nat.mul_pos hNpos hNpos), d1]
  have e2 : intDiv ((hexIndex (nPts1d order) f j k : Int)
      - ((order + 1) * (order + 1) * (f : Int))) (order + 1) = .ok (j : Int) := by
    rw [← hN, ← Int.natCast_mul, ← Int.natCast_mul, ← Int.natCast_sub hge,
      intDiv_natCast _ _ hNpos, d2]
  have e3 : (hexIndex (nPts1d order) f j k : Int)
      - ((order + 1) * (order + 1) * (f : Int)) - ((order + 1) * (j : Int)) = (k : Int) := by
    rw [← hN]
    have : (hexIndex (nPts1d order) f j k : Int)
        = k + (nPts1d order : Int) * j + (nPts1d order : Int) * (nPts1d order : Int) * f := by
      unfold hexIndex
      push_cast
      ring
    rw [this]
    ring
  unfold eval_div_vcjh_basis
  simp only [readAt_of_getElem? hn0, ok_bind, e1, e2, e3]
  split
  · exact div_vcjh_face_eq eval_lagrange _ order loc_1d_upts loc hloc f j k hf
  · split
    · exact div_vcjh_face_eq eval_lagrange _ order loc_1d_upts loc hloc f j k hf
    · split
      · exact div_vcjh_face_eq eval_lagrange _ order loc_1d_upts loc hloc f j k hf
      · rfl

/-- The coordinates of a flux point read through the frame of its face: the abscissas of
the two in-face indices, and the sign of the side on the normal axis. -/
theorem refFluxPoint_frame (x : Nat → α) (N f j k : Nat) (hf : f < 6) :
    comp3 (refFluxPoint x N f j k) (faceFrame f).axisA
        = x (if (faceFrame f).reversed then N - 1 - k else k) ∧
    comp3 (refFluxPoint x N f j k) (faceFrame f).axisB = x j ∧
    comp3 (refFluxPoint x N f j k) (faceFrame f).axisN = sideSign (faceFrame f).side := by
  interval_cases f <;> simp [comp3, refFluxPoint, faceFrame, sideSign]

/-- A flux point has dot product 1 with the reference normal of its face. -/
theorem refFluxPoint_dot_refNormal (x : Nat → α) (N f j k : Nat) (hf : f < 6) :
    dot3 (refFluxPoint x N f j k) (refNormal f) = 1 := by
  interval_cases f <;> simp [dot3, refFluxPoint, refNormal]

/-- The first in-face index as a natural number. -/
theorem firstIndex_natCast (f : Nat) (order : Int) (k : Nat) (hk : k < nPts1d order) :
    firstIndex (faceFrame f) order k
      = ((if (faceFrame f).reversed then nPts1d order - 1 - k else k : Nat) : Int) := by
  unfold firstIndex nPts1d at *
  split <;> omega

end HexFaces

section PlotConnectivity

/-- An in-range write returns; the cell holds the value and every other cell is
unchanged. -/
theorem Array2.set_spec {β : Type} (a : Array2 β) (i j : Nat) (x : β)
    (hi : i < a.dim_0) (hj : j < a.dim_1) :
    ∃ b, a.set i j x = .ok b ∧ b.dim_0 = a.dim_0 ∧ b.dim_1 = a.dim_1 ∧ b.cell i j = x ∧
      ∀ p q, (p ≠ i ∨ q ≠ j) → b.cell p q = a.cell p q := by
  refine ⟨_, Array2.set_ok a i j x hi hj, rfl, rfl, by simp, fun p q h => ?_⟩
  have : ¬ (p = i ∧ q = j) := fun hh => h.elim (fun h1 => h1 hh.1) (fun h2 => h2 hh.2)
  simp [this]

/-- The corners of a plot sub-cell are pairwise distinct and lie in `[0, p_res^3)`. -/
theorem subCellCorner_range (p_res : Int) (hp : 2 ≤ p_res) (k l m : Nat)
    (hk : k < (p_res - 1).toNat) (hl : l < (p_res - 1).toNat) (hm : m < (p_res - 1).toNat) :
    (∀ r, r < 8 → 0 ≤ subCellCorner p_res k l m r ∧
      subCellCorner p_res k l m r < p_res * p_res * p_res) ∧
    ∀ r r', r < 8 → r' < 8 → subCellCorner p_res k l m r = subCellCorner p_res k l m r' →
      r = r' := by
  have hk' : (k : Int) ≤ p_res - 2 := by omega
  have hl' : (l : Int) ≤ p_res - 2 := by omega
  have hm' : (m : Int) ≤ p_res - 2 := by omega
  have hpp : p_res + 2 ≤ p_res * p_res := by nlinarith
  have h1 : 0 ≤ p_res * (l : Int) := mul_nonneg (by omega) (by omega)
  have h2 : 0 ≤ p_res * p_res * (k : Int) := mul_nonneg (by nlinarith) (by omega)
  have h3 : p_res * (l : Int) ≤ p_res * (p_res - 2) :=
    mul_le_mul_of_nonneg_left hl' (by omega)
  have h4 : p_res * p_res * (k : Int) ≤ p_res * p_res * (p_res - 2) :=
    mul_le_mul_of_nonneg_left hk' (by nlinarith)
  have h5 : p_res * (p_res - 2) = p_res * p_res - 2 * p_res := by ring
  have h6 : p_res * p_res * (p_res - 2) = p_res * p_res * p_res - 2 * (p_res * p_res) := by ring
  rw [h5] at h3
  rw [h6] at h4
  have hoff : ∀ r, r < 8 →
      0 ≤ (if r = 0 then 0 else if r = 1 then 1 else if r = 2 then p_res + 1
        else if r = 3 then p_res else if r = 4 then p_res * p_res
        else if r = 5 then p_res * p_res + 1 else if r = 6 then p_res * p_res + p_res + 1
        else p_res * p_res + p_res) ∧
      (if r = 0 then 0 else if r = 1 then 1 else if r = 2 then p_res + 1
        else if r = 3 then p_res else if r = 4 then p_res * p_res
        else if r = 5 then p_res * p_res + 1 else if r = 6 then p_res * p_res + p_res + 1
        else p_res * p_res + p_res) ≤ p_res * p_res + p_res + 1 := by
    intro r hr
    interval_cases r <;> simp <;> omega
  constructor
  · intro r hr
    obtain ⟨ha, hb⟩ := hoff r hr
    unfold subCellCorner
    constructor <;> omega
  · intro r r' hr hr' h
    unfold subCellCorner at h
    have h' := add_left_cancel h
    generalize p_res * p_res = q at h' hpp
    clear h h1 h2 h3 h4 h5 h6 hoff
    interval_cases r <;> interval_cases r' <;> first | rfl | (simp at h' <;> omega)

/-- The eight writes of one sub-cell. -/
theorem connectivity_cell (a : Array2 Int) (p : Nat) (v0 v1 v2 v3 v4 v5 v6 v7 : Int)
    (h8 : 8 ≤ a.dim_0) (hp : p < a.dim_1) :
    ∃ b, (do
        let a ← a.set 0 p v0
        let a ← a.set 1 p v1
        let a ← a.set 2 p v2
        let a ← a.set 3 p v3
        let a ← a.set 4 p v4
        let a ← a.set 5 p v5
        let a ← a.set 6 p v6
        let a ← a.set 7 p v7
        pure (a, p + 1) : Except Fault (Array2 Int × Nat)) = .ok (b, p + 1) ∧
      b.dim_0 = a.dim_0 ∧ b.dim_1 = a.dim_1 ∧
      b.cell 0 p = v0 ∧ b.cell 1 p = v1 ∧ b.cell 2 p = v2 ∧ b.cell 3 p = v3 ∧
      b.cell 4 p = v4 ∧ b.cell 5 p = v5 ∧ b.cell 6 p = v6 ∧ b.cell 7 p = v7 ∧
      (∀ r q, q ≠ p → b.cell r q = a.cell r q) ∧
      ∀ r q, 8 ≤ r → b.cell r q = a.cell r q := by
  obtain ⟨a0, r0, d0, e0, c0, f0⟩ := Array2.set_spec a 0 p v0 (by omega) hp
  obtain ⟨a1, r1, d1, e1, c1, f1⟩ := Array2.set_spec a0 1 p v1 (by omega) (by omega)
  obtain ⟨a2, r2, d2, e2, c2, f2⟩ := Array2.set_spec a1 2 p v2 (by omega) (by omega)
  obtain ⟨a3, r3, d3, e3, c3, f3⟩ := Array2.set_spec a2 3 p v3 (by omega) (by omega)
  obtain ⟨a4, r4, d4, e4, c4, f4⟩ := Array2.set_spec a3 4 p v4 (by omega) (by omega)
  obtain ⟨a5, r5, d5, e5, c5, f5⟩ := Array2.set_spec a4 5 p v5 (by omega) (by omega)
  obtain ⟨a6, r6, d6, e6, c6, f6⟩ := Array2.set_spec a5 6 p v6 (by omega) (by omega)
  obtain ⟨a7, r7, d7, e7, c7, f7⟩ := Array2.set_spec a6 7 p v7 (by omega) (by omega)
  refine ⟨a7, ?_, by omega, by omega, ?_, ?_, ?_, ?_, ?_, ?_, ?_, c7, ?_, ?_⟩
  · rw [r0, ok_bind, r1, ok_bind, r2, ok_bind, r3, ok_bind, r4, ok_bind, r5, ok_bind, r6,
      ok_bind, r7, ok_bind]
    rfl
  · rw [f7 0 p (Or.inl (by omega)), f6 0 p (Or.inl (by omega)), f5 0 p (Or.inl (by omega)),
      f4 0 p (Or.inl (by omega)), f3 0 p (Or.inl (by omega)), f2 0 p (Or.inl (by omega)),
      f1 0 p (Or.inl (by omega)), c0]
  · rw [f7 1 p (Or.inl (by omega)), f6 1 p (Or.inl (by omega)), f5 1 p (Or.inl (by omega)),
      f4 1 p (Or.inl (by omega)), f3 1 p (Or.inl (by omega)), f2 1 p (Or.inl (by omega)), c1]
  · rw [f7 2 p (Or.inl (by omega)), f6 2 p (Or.inl (by omega)), f5 2 p (Or.inl (by omega)),
      f4 2 p (Or.inl (by omega)), f3 2 p (Or.inl (by omega)), c2]
  · rw [f7 3 p (Or.inl (by omega)), f6 3 p (Or.inl (by omega)), f5 3 p (Or.inl (by omega)),
      f4 3 p (Or.inl (by omega)), c3]
  · rw [f7 4 p (Or.inl (by omega)), f6 4 p (Or.inl (by omega)), f5 4 p (Or.inl (by omega)),
      c4]
  · rw [f7 5 p (Or.inl (by omega)), f6 5 p (Or.inl (by omega)), c5]
  · rw [f7 6 p (Or.inl (by omega)), c6]
  · intro r q hq
    rw [f7 r q (Or.inr hq), f6 r q (Or.inr hq), f5 r q (Or.inr hq), f4 r q (Or.inr hq),
      f3 r q (Or.inr hq), f2 r q (Or.inr hq), f1 r q (Or.inr hq), f0 r q (Or.inr hq)]
  · intro r q hr
    rw [f7 r q (Or.inl (by omega)), f6 r q (Or.inl (by omega)), f5 r q (Or.inl (by omega)),
      f4 r q (Or.inl (by omega)), f3 r q (Or.inl (by omega)), f2 r q (Or.inl (by omega)),
      f1 r q (Or.inl (by omega)), f0 r q (Or.inl (by omega))]

/-- The array left by `set_connectivity_plot`: the sub-cell `(k, l, m)` is column
`m + M*l + M*M*k`, with `M = p_res - 1`, and holds its eight corners; the columns from
`M^3` on and the rows from 8 on are unchanged. -/
theorem set_connectivity_plot_spec (p_res : Int) (c : Array2 Int) (h8 : 8 ≤ c.dim_0)
    (hn : (p_res - 1).toNat * (p_res - 1).toNat * (p_res - 1).toNat ≤ c.dim_1) :
    ∃ a, set_connectivity_plot p_res c = .ok a ∧ a.dim_0 = c.dim_0 ∧ a.dim_1 = c.dim_1 ∧
      (∀ k l m r, k < (p_res - 1).toNat → l < (p_res - 1).toNat → m < (p_res - 1).toNat →
        r < 8 → a.cell r (hexIndex (p_res - 1).toNat k l m) = subCellCorner p_res k l m r) ∧
      (∀ r q, (p_res - 1).toNat * (p_res - 1).toNat * (p_res - 1).toNat ≤ q →
        a.cell r q = c.cell r q) ∧
      ∀ r q, 8 ≤ r → a.cell r q = c.cell r q := by
  obtain ⟨st, hrun, hcount, hd0, hd1, hcells, hrest, hrows⟩ := forLoop3_inv
    (p_res - 1).toNat (p_res - 1).toNat (p_res - 1).toNat
    (fun k l m (st : Array2 Int × Nat) => do
      let vertex_0 : Int := m + (p_res * l) + (p_res * p_res * k)
      let vertex_1 := vertex_0 + 1
      let vertex_2 := vertex_0 + p_res + 1
      let vertex_3 := vertex_0 + p_res
      let vertex_4 := vertex_0 + p_res * p_res
      let vertex_5 := vertex_4 + 1
      let vertex_6 := vertex_4 + p_res + 1
      let vertex_7 := vertex_4 + p_res
      let a ← st.1.set 0 st.2 vertex_0
      let a ← a.set 1 st.2 vertex_1
      let a ← a.set 2 st.2 vertex_2
      let a ← a.set 3 st.2 vertex_3
      let a ← a.set 4 st.2 vertex_4
      let a ← a.set 5 st.2 vertex_5
      let a ← a.set 6 st.2 vertex_6
      let a ← a.set 7 st.2 vertex_7
      pure (a, st.2 + 1))
    (fun cnt (st : Array2 Int × Nat) => st.2 = cnt ∧ st.1.dim_0 = c.dim_0 ∧
      st.1.dim_1 = c.dim_1 ∧
      (∀ k l m r, k < (p_res - 1).toNat → l < (p_res - 1).toNat → m < (p_res - 1).toNat →
        r < 8 → hexIndex (p_res - 1).toNat k l m < cnt →
        st.1.cell r (hexIndex (p_res - 1).toNat k l m) = subCellCorner p_res k l m r) ∧
      (∀ r q, cnt ≤ q → st.1.cell r q = c.cell r q) ∧
      ∀ r q, 8 ≤ r → st.1.cell r q = c.cell r q)
    (c, 0)
    ⟨rfl, rfl, rfl, fun _ _ _ _ _ _ _ _ h => absurd h (Nat.not_lt_zero _),
      fun _ _ _ => rfl, fun _ _ _ => rfl⟩
    (by
      intro k l m st hk hl hm ⟨hcnt, hd0, hd1, hcells, hrest, hrows⟩
      have hlt := hexIndex_lt (p_res - 1).toNat (p_res - 1).toNat k l m hk hl hm
      unfold hexIndex at hlt
      obtain ⟨b, hrun, b0, b1, c0, c1, c2, c3, c4, c5, c6, c7, hother, hbrows⟩ :=
        connectivity_cell st.1 st.2
          (m + (p_res * l) + (p_res * p_res * k))
          (m + (p_res * l) + (p_res * p_res * k) + 1)
          (m + (p_res * l) + (p_res * p_res * k) + p_res + 1)
          (m + (p_res * l) + (p_res * p_res * k) + p_res)
          (m + (p_res * l) + (p_res * p_res * k) + p_res * p_res)
          (m + (p_res * l) + (p_res * p_res * k) + p_res * p_res + 1)
          (m + (p_res * l) + (p_res * p_res * k) + p_res * p_res + p_res + 1)
          (m + (p_res * l) + (p_res * p_res * k) + p_res * p_res + p_res)
          (by omega) (by omega)
      refine ⟨(b, st.2 + 1), hrun, by dsimp only; omega, by dsimp only; omega,
        by dsimp only; omega, ?_, ?_, ?_⟩
      · intro k' l' m' r hk' hl' hm' hr hp
        dsimp only
        by_cases he : hexIndex (p_res - 1).toNat k' l' m' = hexIndex (p_res - 1).toNat k l m
        · obtain ⟨e1, e2, e3⟩ := (hexIndex_bijective (p_res - 1).toNat
            (p_res - 1).toNat).2.1 k' l' m' k l m hl' hm' hl hm he
          subst e1 e2 e3
          have hidx : hexIndex (p_res - 1).toNat k' l' m' = st.2 := by
            unfold hexIndex
            omega
          rw [hidx]
          unfold subCellCorner
          interval_cases r
          · rw [c0]; simp
          · rw [c1]; simp
          · rw [c2]; simp; ring
          · rw [c3]; simp
          · rw [c4]; simp
          · rw [c5]; simp; ring
          · rw [c6]; simp; ring
          · rw [c7]; simp; ring
        · have hne : hexIndex (p_res - 1).toNat k' l' m' ≠ st.2 := by
            unfold hexIndex at he ⊢
            omega
          rw [hother r _ hne]
          exact hcells k' l' m' r hk' hl' hm' hr (by unfold hexIndex at he hp ⊢; omega)
      · intro r q hq
        dsimp only
        rw [hother r q (by omega)]
        exact hrest r q (by omega)
      · intro r q hr
        dsimp only
        rw [hbrows r q hr]
        exact hrows r q hr)
  refine ⟨st.1, ?_, hd0, hd1, fun k l m r hk hl hm hr => ?_, hrest, hrows⟩
  · unfold set_connectivity_plot
    rw [hrun]
    rfl
  · exact hcells k l m r hk hl hm hr
      (hexIndex_lt (p_res - 1).toNat (p_res - 1).toNat k l m hk hl hm)

end PlotConnectivity

/-! ## The restart block -/

section Restart

variable {β ρ : Type}

/-- On a stream that is in the failed state without having reached its end, as a file that
could not be opened is, `getline` extracts nothing and `eof()` stays false: the first loop
of `read_restart_info` does not end, whatever the number of iterations granted. -/
theorem read_restart_scan_failed : ∀ (fuel : Nat) (cs str : List Char),
    str ≠ "HEXAS".toList →
    read_restart_scan fuel ⟨cs, false, true⟩ str = .error .timeout := by
  intro fuel
  induction fuel with
  | zero =>
    intro cs str _
    rfl
  | succ fuel ih =>
    intro cs str h
    have hg : getline ⟨cs, false, true⟩ str = (⟨cs, false, true⟩, str) := by
      simp [getline]
    unfold read_restart_scan
    rw [hg]
    dsimp only
    rw [if_neg h, if_neg (by simp)]
    exact ih cs str h

theorem read_restart_info_failed [Zero β] (num_get_int : List Char → Option Int × List Char)
    (num_get_double : List Char → Option β × List Char)
    (set_opp_r : Int → Int → List β → ρ) (fuel : Nat) (cs : List Char)
    (this : RestartInfo β ρ) :
    read_restart_info num_get_int num_get_double set_opp_r fuel ⟨cs, false, true⟩ this
      = .error .timeout := by
  unfold read_restart_info
  rw [read_restart_scan_failed fuel cs [] (by decide)]
  rfl

end Restart

/-! ## The claims -/

section Claims

variable {α : Type} [LinearOrderedField α]

/-- C1: for vectors u, v with equal nElm, whose buffers hold nElm entries and whose domain
extent lies inside them, dotProd(u, v) returns the sum of u[i]*v[i] over i below
u.nElmDomain; the vectors built as 3 blocks of 1 component from [1,2,3] and [4,5,6] give
exactly 32. -/
theorem C1_dotProd_is_domain_sum (u v : CSysVector α) (hu : u.Allocated) (hv : v.Allocated)
    (hn : u.nElm = v.nElm) (hd : u.nElmDomain ≤ u.nElm) :
    dotProd u v = .ok (∑ i ∈ Finset.range u.nElmDomain, u.entry i * v.entry i) ∧
    ∃ a b : CSysVector α,
      CSysVector.CSysVector_blk_array 3 3 1 [1, 2, 3] = .ok a ∧
      CSysVector.CSysVector_blk_array 3 3 1 [4, 5, 6] = .ok b ∧
      dotProd a b = .ok 32 := by
  unfold CSysVector.Allocated at hu hv
  refine ⟨dotProd_eq u v hn (by omega) (by omega), _, _, blk_array_three 1 2 3,
    blk_array_three 4 5 6, ?_⟩
  rw [dotProd_eq (⟨3, 3, 3, 3, 1, [1, 2, 3]⟩ : CSysVector α) ⟨3, 3, 3, 3, 1, [4, 5, 6]⟩ rfl
    (by simp) (by simp)]
  simp only [Finset.sum_range_succ, Finset.range_zero, Finset.sum_empty, CSysVector.entry]
  norm_num

/-- Witness of C1 on rational vectors of 3 entries of which 2 are owned. -/
theorem C1_dotProd_is_domain_sum_witness :
    dotProd (⟨3, 2, 3, 2, 1, [1, 2, 3]⟩ : CSysVector ℚ) ⟨3, 2, 3, 2, 1, [4, 5, 6]⟩
      = .ok (∑ i ∈ Finset.range 2,
          (⟨3, 2, 3, 2, 1, [1, 2, 3]⟩ : CSysVector ℚ).entry i *
          (⟨3, 2, 3, 2, 1, [4, 5, 6]⟩ : CSysVector ℚ).entry i) :=
  (C1_dotProd_is_domain_sum (⟨3, 2, 3, 2, 1, [1, 2, 3]⟩ : CSysVector ℚ)
    ⟨3, 2, 3, 2, 1, [4, 5, 6]⟩ rfl rfl rfl (by decide)).1

/-- C2: for a vector whose buffer holds nElm entries and whose domain extent lies inside
it, norm() returns the square root of the value dotProd(u, u) returns; over the reals the
norm of the vector built from [1,2,3] has square 14. -/
theorem C2_norm_is_sqrt_dotProd (sqrt : α → α) (u : CSysVector α) (hu : u.Allocated)
    (hd : u.nElmDomain ≤ u.nElm) :
    (∃ d, dotProd u u = .ok d ∧ u.norm sqrt = .ok (sqrt d)) ∧
    ∃ (w : CSysVector ℝ) (r : ℝ),
      CSysVector.CSysVector_blk_array 3 3 1 [1, 2, 3] = .ok w ∧
      w.norm Real.sqrt = .ok r ∧ r ^ 2 = 14 := by
  unfold CSysVector.Allocated at hu
  refine ⟨⟨_, dotProd_eq u u rfl (by omega) (by omega), norm_eq sqrt u (by omega)⟩,
    _, _, blk_array_three 1 2 3, norm_eq Real.sqrt _ (by simp), ?_⟩
  simp only [Finset.sum_range_succ, Finset.range_zero, Finset.sum_empty, CSysVector.entry]
  rw [Real.sq_sqrt (by norm_num)]
  norm_num

/-- Witness of C2 on a rational vector, with the identity in place of the square root. -/
theorem C2_norm_is_sqrt_dotProd_witness :
    ∃ d, dotProd (⟨3, 3, 3, 3, 1, [1, 2, 3]⟩ : CSysVector ℚ) ⟨3, 3, 3, 3, 1, [1, 2, 3]⟩ = .ok d ∧
      (⟨3, 3, 3, 3, 1, [1, 2, 3]⟩ : CSysVector ℚ).norm id = .ok (id d) :=
  (C2_norm_is_sqrt_dotProd id (⟨3, 3, 3, 3, 1, [1, 2, 3]⟩ : CSysVector ℚ) rfl (by decide)).1

/-- C3: on vectors whose buffers hold nElm entries (and, for dotProd, whose domain extent
lies inside the buffer), each of operator+, operator-, operator+=, operator-=, Equals_AX,
Plus_AX, Equals_AX_Plus_BY and dotProd throws exactly when an argument's nElm differs from
the receiver's nElm, and returns a result otherwise. -/
theorem C3_binary_ops_throw_iff_size_mismatch (u v : CSysVector α) (x y : Operand α) (a b : α)
    (hu : u.Allocated) (hv : v.Allocated) (hx : x.Allocated) (hy : y.Allocated)
    (hd : u.nElmDomain ≤ u.nElm) :
    ThrowsIff (u.operator_add v) (u.nElm ≠ v.nElm) ∧
    ThrowsIff (u.operator_sub v) (u.nElm ≠ v.nElm) ∧
    ThrowsIff (u.operator_add_assign x) (u.nElm ≠ x.nElm u) ∧
    ThrowsIff (u.operator_sub_assign x) (u.nElm ≠ x.nElm u) ∧
    ThrowsIff (u.Equals_AX a x) (u.nElm ≠ x.nElm u) ∧
    ThrowsIff (u.Plus_AX a x) (u.nElm ≠ x.nElm u) ∧
    ThrowsIff (u.Equals_AX_Plus_BY a x b y) (u.nElm ≠ x.nElm u ∨ u.nElm ≠ y.nElm u) ∧
    ThrowsIff (dotProd u v) (u.nElm ≠ v.nElm) := by
  refine ⟨?_, ?_, ?_, ?_, ?_, ?_, ?_, ?_⟩
  · rw [CSysVector.operator_add_eq u v hu]
    refine throwsIff_of _ _ (fun h => ?_) (fun h => ?_)
    · simp only [CSysVector.operator_add_assign, Operand.nElm, h, ne_eq, not_false_eq_true,
        if_true]
    · exact ⟨_, CSysVector.operator_add_assign_eq u (.other v) hu hv (not_not.mp h)⟩
  · rw [CSysVector.operator_sub_eq u v hu]
    refine throwsIff_of _ _ (fun h => ?_) (fun h => ?_)
    · simp only [CSysVector.operator_sub_assign, Operand.nElm, h, ne_eq, not_false_eq_true,
        if_true]
    · exact ⟨_, CSysVector.operator_sub_assign_eq u (.other v) hu hv (not_not.mp h)⟩
  · refine throwsIff_of _ _ (fun h => ?_) (fun h => ?_)
    · simp only [CSysVector.operator_add_assign, h, ne_eq, not_false_eq_true, if_true]
    · exact ⟨_, CSysVector.operator_add_assign_eq u x hu hx (not_not.mp h)⟩
  · refine throwsIff_of _ _ (fun h => ?_) (fun h => ?_)
    · simp only [CSysVector.operator_sub_assign, h, ne_eq, not_false_eq_true, if_true]
    · exact ⟨_, CSysVector.operator_sub_assign_eq u x hu hx (not_not.mp h)⟩
  · refine throwsIff_of _ _ (fun h => ?_) (fun h => ?_)
    · simp only [CSysVector.Equals_AX, h, ne_eq, not_false_eq_true, if_true]
    · exact ⟨_, CSysVector.Equals_AX_eq u a x hu
        (x.buffer_length u hu hx (not_not.mp h)) (not_not.mp h)⟩
  · refine throwsIff_of _ _ (fun h => ?_) (fun h => ?_)
    · simp only [CSysVector.Plus_AX, h, ne_eq, not_false_eq_true, if_true]
    · exact ⟨_, CSysVector.Plus_AX_eq u a x hu hx (not_not.mp h)⟩
  · refine throwsIff_of _ _ (fun h => ?_) (fun h => ?_)
    · simp only [CSysVector.Equals_AX_Plus_BY, h, if_true]
    · have hxn : u.nElm = x.nElm u := not_not.mp (fun h1 => h (Or.inl h1))
      have hyn : u.nElm = y.nElm u := not_not.mp (fun h1 => h (Or.inr h1))
      exact ⟨_, CSysVector.Equals_AX_Plus_BY_eq u a b x y hu
        (x.buffer_length u hu hx hxn) (y.buffer_length u hu hy hyn) hxn hyn⟩
  · refine throwsIff_of _ _ (fun h => ?_) (fun h => ?_)
    · simp only [dotProd, h, ne_eq, not_false_eq_true, if_true]
    · unfold CSysVector.Allocated at hu hv
      exact ⟨_, dotProd_eq u v (not_not.mp h) (by omega) (by have := not_not.mp h; omega)⟩

/-- Witness of C3: a 6-element receiver combined with a 9-element argument. -/
theorem C3_binary_ops_throw_iff_size_mismatch_witness :
    (⟨6, 6, 6, 6, 1, [1, 2, 3, 4, 5, 6]⟩ : CSysVector ℚ).operator_add
        ⟨9, 9, 9, 9, 1, [1, 2, 3, 4, 5, 6, 7, 8, 9]⟩ = .error .thrown ∧
    dotProd (⟨6, 6, 6, 6, 1, [1, 2, 3, 4, 5, 6]⟩ : CSysVector ℚ)
        ⟨9, 9, 9, 9, 1, [1, 2, 3, 4, 5, 6, 7, 8, 9]⟩ = .error .thrown :=
  have h := C3_binary_ops_throw_iff_size_mismatch
    (⟨6, 6, 6, 6, 1, [1, 2, 3, 4, 5, 6]⟩ : CSysVector ℚ)
    ⟨9, 9, 9, 9, 1, [1, 2, 3, 4, 5, 6, 7, 8, 9]⟩ .self .self 1 1 rfl rfl trivial trivial
    (by decide)
  ⟨h.1.1.mpr (by decide), h.2.2.2.2.2.2.2.1.mpr (by decide)⟩

/-- C4: the constructor (numBlk, numBlkDomain, numVar, val) called with numBlk = 2^63+1 and
numVar = 2, whose product 2^64+2 does not fit in unsigned long, does not throw: the product
wraps to 2 and a vector of 2 entries with nBlk = 2^63+1 is returned. -/
theorem C4_wrapped_size_is_accepted :
    2 ^ 64 ≤ 9223372036854775809 * 2 ∧
    CSysVector.CSysVector_blk_val 3 9223372036854775809 1 2 (0 : ℚ)
      = .ok ⟨2, 2, 9223372036854775809, 1, 2, [0, 0]⟩ := by
  refine ⟨by decide, ?_⟩
  simp [CSysVector.CSysVector_blk_val, fillLoop32, writeAt, newBuffer, ulong, uint, ULONG_MAX]

/-- C5: for vectors u, v with equal nElm whose buffers hold nElm entries and every scalar a,
u+v, u-v, u*a, a*u and u/a return vectors with the five size fields of u, a buffer of nElm
entries, and entries u[i]+v[i], u[i]-v[i], a*u[i], a*u[i] and u[i]/a; each in-place form
(+=, -=, *=, /=) returns the same vector as its value-returning form, also when the argument
of += or -= is the receiver itself.  Arguments are passed by value in the embedding, so the
value-returning forms cannot change them. -/
theorem C5_elementwise_arithmetic (u v : CSysVector α) (a : α)
    (hu : u.Allocated) (hv : v.Allocated) (hn : u.nElm = v.nElm) :
    (∃ w, u.operator_add v = .ok w ∧ u.operator_add_assign (.other v) = .ok w ∧
      w.IsPointwise u (fun i => u.entry i + v.entry i)) ∧
    (∃ w, u.operator_sub v = .ok w ∧ u.operator_sub_assign (.other v) = .ok w ∧
      w.IsPointwise u (fun i => u.entry i - v.entry i)) ∧
    (∃ w, u.operator_mul a = .ok w ∧ CSysVector.operator_mul_scalar a u = .ok w ∧
      u.operator_mul_assign a = .ok w ∧ w.IsPointwise u (fun i => a * u.entry i)) ∧
    (∃ w, u.operator_div a = .ok w ∧ u.operator_div_assign a = .ok w ∧
      w.IsPointwise u (fun i => u.entry i / a)) ∧
    u.operator_add_assign .self = u.operator_add u ∧
    u.operator_sub_assign .self = u.operator_sub u := by
  have hadd := CSysVector.operator_add_assign_eq u (.other v) hu hv hn
  have hsub := CSysVector.operator_sub_assign_eq u (.other v) hu hv hn
  have hmul : u.operator_mul_assign a = .ok { u with
      vec_val := (List.range u.nElm).map (fun i => a * u.entry i) } := by
    simp only [CSysVector.operator_mul_assign, CSysVector.mapLoop_eq u _ hu, mul_comm]
  have hdiv := CSysVector.mapLoop_eq u (fun t => t / a) hu
  refine ⟨⟨_, ?_, hadd, CSysVector.isPointwise_mk u _⟩, ⟨_, ?_, hsub, CSysVector.isPointwise_mk u _⟩,
    ⟨_, ?_, ?_, hmul, CSysVector.isPointwise_mk u _⟩,
    ⟨_, ?_, hdiv, CSysVector.isPointwise_mk u _⟩, ?_, ?_⟩
  · rw [CSysVector.operator_add_eq u v hu, hadd]
  · rw [CSysVector.operator_sub_eq u v hu, hsub]
  · rw [CSysVector.operator_mul_eq u a hu, hmul]
  · rw [CSysVector.operator_mul_scalar_eq u a hu, hmul]
  · rw [CSysVector.operator_div_eq u a hu]
    exact hdiv
  · rw [CSysVector.operator_add_eq u u hu,
      CSysVector.operator_add_assign_eq u .self hu trivial rfl,
      CSysVector.operator_add_assign_eq u (.other u) hu hu rfl]
    rfl
  · rw [CSysVector.operator_sub_eq u u hu,
      CSysVector.operator_sub_assign_eq u .self hu trivial rfl,
      CSysVector.operator_sub_assign_eq u (.other u) hu hu rfl]
    rfl

/-- Witness of C5 on rational vectors of two blocks of one component. -/
theorem C5_elementwise_arithmetic_witness :
    ∃ w, (⟨2, 2, 2, 2, 1, [1, 2]⟩ : CSysVector ℚ).operator_add ⟨2, 2, 2, 2, 1, [3, 5]⟩ = .ok w ∧
      (⟨2, 2, 2, 2, 1, [1, 2]⟩ : CSysVector ℚ).operator_add_assign
        (.other ⟨2, 2, 2, 2, 1, [3, 5]⟩) = .ok w ∧
      w.IsPointwise ⟨2, 2, 2, 2, 1, [1, 2]⟩
        (fun i => (⟨2, 2, 2, 2, 1, [1, 2]⟩ : CSysVector ℚ).entry i +
          (⟨2, 2, 2, 2, 1, [3, 5]⟩ : CSysVector ℚ).entry i) :=
  (C5_elementwise_arithmetic (⟨2, 2, 2, 2, 1, [1, 2]⟩ : CSysVector ℚ) ⟨2, 2, 2, 2, 1, [3, 5]⟩ 3
    rfl rfl rfl).1

/-- C6: on vectors of equal nElm whose buffers hold nElm entries, Equals_AX(a,x) leaves
a*x[i], Plus_AX(a,x) leaves this[i]+a*x[i] and Equals_AX_Plus_BY(a,x,b,y) leaves
a*x[i]+b*y[i] in every entry i below nElm (x and y may each be the receiver itself, the
entries being those on entry to the call); and when y is another vector, Equals_AX(a,x)
followed by Plus_AX(b,y) returns the same vector as Equals_AX_Plus_BY(a,x,b,y). -/
theorem C6_axpy_combinators (u yv : CSysVector α) (x y : Operand α) (a b : α)
    (hu : u.Allocated) (hx : x.Allocated) (hy : y.Allocated) (hyv : yv.Allocated)
    (hnx : u.nElm = x.nElm u) (hny : u.nElm = y.nElm u) (hnyv : u.nElm = yv.nElm) :
    (∃ w, u.Equals_AX a x = .ok w ∧ w.IsPointwise u (fun i => a * x.entry u i)) ∧
    (∃ w, u.Plus_AX a x = .ok w ∧ w.IsPointwise u (fun i => u.entry i + a * x.entry u i)) ∧
    (∃ w, u.Equals_AX_Plus_BY a x b y = .ok w ∧
      w.IsPointwise u (fun i => a * x.entry u i + b * y.entry u i)) ∧
    (∃ w1 w2, u.Equals_AX a x = .ok w1 ∧ w1.Plus_AX b (.other yv) = .ok w2 ∧
      u.Equals_AX_Plus_BY a x b (.other yv) = .ok w2) := by
  have hxl := x.buffer_length u hu hx hnx
  have hyl := y.buffer_length u hu hy hny
  have h1 := CSysVector.Equals_AX_eq u a x hu hxl hnx
  have h2 := CSysVector.Plus_AX_eq u a x hu hx hnx
  have h3 := CSysVector.Equals_AX_Plus_BY_eq u a b x y hu hxl hyl hnx hny
  have h4 := CSysVector.Equals_AX_Plus_BY_eq u a b x (.other yv) hu hxl
    (by simpa [Operand.buffer, CSysVector.Allocated, hnyv] using hyv) hnx hnyv
  have h5 := CSysVector.Plus_AX_eq
    { u with vec_val := (List.range u.nElm).map (fun i => a * (x.buffer u).getD i 0) }
    b (.other yv) (CSysVector.isPointwise_mk u _).2.1 hyv hnyv
  refine ⟨⟨_, h1, CSysVector.isPointwise_mk u _⟩, ⟨_, h2, CSysVector.isPointwise_mk u _⟩,
    ⟨_, h3, CSysVector.isPointwise_mk u _⟩, _, _, h1, h5, ?_⟩
  rw [h4]
  congr 2
  apply List.map_congr_left
  intro i hi
  rw [List.mem_range] at hi
  show _ = CSysVector.entry _ i + b * _
  unfold CSysVector.entry
  dsimp only
  rw [getD_range_map u.nElm _ 0 i hi]
  rfl

/-- Witness of C6 on rational vectors of two entries, x being the receiver itself. -/
theorem C6_axpy_combinators_witness :
    ∃ w1 w2, (⟨2, 2, 2, 2, 1, [1, 2]⟩ : CSysVector ℚ).Equals_AX 3 .self = .ok w1 ∧
      w1.Plus_AX 5 (.other ⟨2, 2, 2, 2, 1, [7, 11]⟩) = .ok w2 ∧
      (⟨2, 2, 2, 2, 1, [1, 2]⟩ : CSysVector ℚ).Equals_AX_Plus_BY 3 .self 5
        (.other ⟨2, 2, 2, 2, 1, [7, 11]⟩) = .ok w2 :=
  (C6_axpy_combinators (⟨2, 2, 2, 2, 1, [1, 2]⟩ : CSysVector ℚ) ⟨2, 2, 2, 2, 1, [7, 11]⟩
    .self .self 3 5 rfl trivial trivial rfl rfl rfl rfl).2.2.2

/-- C7: for a vector with nElm = nBlk*nVar entries in its buffer, a block p below nBlk and a
component c below nVar: after SetBlock(p, vals) GetBlock(p, c) returns vals[c]; after
SetBlock(p, c, x) it returns x; after SetBlock_Zero(p) or SetBlock_Zero(p, c) it returns 0;
after AddBlock(p, vals) and SubtractBlock(p, vals) it returns the old entry plus, minus
vals[c]; and each of these operations leaves the five size fields and every entry outside
positions [p*nVar, p*nVar+nVar) unchanged. -/
theorem C7_block_accessors (u : CSysVector α) (p c : Nat) (vals : List α) (x : α)
    (hu : u.Allocated) (hsz : u.nElm = u.nBlk * u.nVar) (hfit : u.nElm < 2 ^ 64)
    (hp : p < u.nBlk) (hc : c < u.nVar) (hvals : u.nVar ≤ vals.length) :
    (∃ w, u.SetBlock p vals = .ok w ∧ w.GetBlock p c = .ok (vals.getD c 0) ∧
      w.FrameOutsideBlock u p) ∧
    (∃ w, u.SetBlock_var p c x = .ok w ∧ w.GetBlock p c = .ok x ∧ w.FrameOutsideBlock u p) ∧
    (∃ w, u.SetBlock_Zero p = .ok w ∧ w.GetBlock p c = .ok 0 ∧ w.FrameOutsideBlock u p) ∧
    (∃ w, u.SetBlock_Zero_var p c = .ok w ∧ w.GetBlock p c = .ok 0 ∧
      w.FrameOutsideBlock u p) ∧
    (∃ w, u.AddBlock p vals = .ok w ∧
      w.GetBlock p c = .ok (u.entry (p * u.nVar + c) + vals.getD c 0) ∧
      w.FrameOutsideBlock u p) ∧
    (∃ w, u.SubtractBlock p vals = .ok w ∧
      w.GetBlock p c = .ok (u.entry (p * u.nVar + c) - vals.getD c 0) ∧
      w.FrameOutsideBlock u p) := by
  refine ⟨?_, ?_, ?_, ?_, ?_, ?_⟩
  · obtain ⟨w, h1, h2, h3⟩ := u.SetBlock_spec p vals hu hsz hfit hp hvals
    exact ⟨w, h1, h2 c hc, h3⟩
  · obtain ⟨buf, h1, h2, h3⟩ := u.write_one_spec p c x hu hsz hfit hp hc
    exact ⟨_, by simp only [CSysVector.SetBlock_var, h1], h2, h3⟩
  · obtain ⟨w, h1, h2, h3⟩ := u.SetBlock_Zero_spec p hu hsz hfit hp
    exact ⟨w, h1, h2 c hc, h3⟩
  · obtain ⟨buf, h1, h2, h3⟩ := u.write_one_spec p c 0 hu hsz hfit hp hc
    exact ⟨_, by simp only [CSysVector.SetBlock_Zero_var, h1], h2, h3⟩
  · obtain ⟨w, h1, h2, h3⟩ := u.blockLoop_spec p vals (fun t r => t + r) hu hsz hfit hp hvals
    exact ⟨w, h1, h2 c hc, h3⟩
  · obtain ⟨w, h1, h2, h3⟩ := u.blockLoop_spec p vals (fun t r => t - r) hu hsz hfit hp hvals
    exact ⟨w, h1, h2 c hc, h3⟩

/-- Witness of C7: block 1, component 0 of a rational vector of 3 blocks of 2 components. -/
theorem C7_block_accessors_witness :
    ∃ w, (⟨6, 6, 3, 3, 2, [1, 2, 3, 4, 5, 6]⟩ : CSysVector ℚ).SetBlock 1 [7, 8] = .ok w ∧
      w.GetBlock 1 0 = .ok (([7, 8] : List ℚ).getD 0 0) ∧
      w.FrameOutsideBlock ⟨6, 6, 3, 3, 2, [1, 2, 3, 4, 5, 6]⟩ 1 :=
  (C7_block_accessors (⟨6, 6, 3, 3, 2, [1, 2, 3, 4, 5, 6]⟩ : CSysVector ℚ) 1 0 [7, 8] 9
    rfl rfl (by decide) (by decide) (by decide) (by decide)).1

/-- C8: on a matrix whose value buffer holds its nnz*nVar*nEqn entries, SetValZero returns
a matrix with the same sizes and compressed-row arrays whose value buffer is nnz*nVar*nEqn
zeros; and on that matrix SumAbsRowi(i) returns 0 for every row i whose row pointers
row_ptr[i], row_ptr[i+1] exist with row_ptr[i+1] at most nnz. -/
theorem C8_SetValZero_zeroes_all (m : CSysMatrix α)
    (hlen : m.matrix.length = m.nnz * m.nVar * m.nEqn)
    (hfit : m.nnz * m.nVar * m.nEqn < 2 ^ 64) :
    ∃ z, m.SetValZero = .ok z ∧
      z = { m with matrix := List.replicate (m.nnz * m.nVar * m.nEqn) 0 } ∧
      (∀ k, k < m.nnz * m.nVar * m.nEqn → z.matrix[k]? = some 0) ∧
      ∀ i first last, m.row_ptr[i]? = some first → m.row_ptr[i + 1]? = some last →
        last ≤ m.nnz → z.SumAbsRowi i = .ok 0 := by
  refine ⟨_, CSysMatrix.SetValZero_eq m hlen hfit, rfl, fun k hk => ?_,
    fun i first last h1 h2 h3 => ?_⟩
  · simp only [List.getElem?_replicate, if_pos hk]
  · exact CSysMatrix.SumAbsRowi_zero _ i first last rfl h1 h2 h3

/-- Witness of C8: a rational matrix of 2 blocks of size 1 x 2 in one row. -/
theorem C8_SetValZero_zeroes_all_witness :
    ∃ z, (⟨1, 1, 1, 2, [1, -2, 3, 4], [0, 2], [0, 0], 2⟩ : CSysMatrix ℚ).SetValZero = .ok z ∧
      z.SumAbsRowi 0 = .ok 0 :=
  have h := C8_SetValZero_zeroes_all
    (⟨1, 1, 1, 2, [1, -2, 3, 4], [0, 2], [0, 0], 2⟩ : CSysMatrix ℚ) rfl (by decide)
  h.elim (fun z hz => ⟨z, hz.1, hz.2.2.2 0 0 2 rfl rfl (by decide)⟩)

/-- C9: ScaleVals runs its loop to nnz*nVar*nVar, not to the nnz*nVar*nEqn that SetValZero
uses.  With 1 block of size 1 x 2 it scales the first entry only and leaves the second;
with 1 block of size 2 x 1 it runs past the two entries of the buffer; SetValZero covers
exactly the buffer in both cases. -/
theorem C9_ScaleVals_extent :
    (⟨1, 1, 1, 2, [1, 1], [0, 1], [0], 1⟩ : CSysMatrix ℚ).ScaleVals 2
      = .ok ⟨1, 1, 1, 2, [2, 1], [0, 1], [0], 1⟩ ∧
    (⟨1, 1, 1, 2, [1, 1], [0, 1], [0], 1⟩ : CSysMatrix ℚ).SetValZero
      = .ok ⟨1, 1, 1, 2, [0, 0], [0, 1], [0], 1⟩ ∧
    (⟨1, 1, 2, 1, [1, 1], [0, 1], [0], 1⟩ : CSysMatrix ℚ).ScaleVals 2 = .error .outOfBounds ∧
    (⟨1, 1, 2, 1, [1, 1], [0, 1], [0], 1⟩ : CSysMatrix ℚ).SetValZero
      = .ok ⟨1, 1, 2, 1, [0, 0], [0, 1], [0], 1⟩ := by
  refine ⟨?_, ?_, ?_, ?_⟩ <;>
    simp [CSysMatrix.ScaleVals, CSysMatrix.SetValZero, forLoop, loopFrom, readAt, writeAt, ulong]

/-- C10: each adapter throws when its matrix pointer is null, and with a bound matrix m it
returns exactly what m's MatrixVectorProduct(u, v), respectively
ComputeLU_SGSPreconditioner(u, v), returns; hence, when that method itself does not throw,
the adapter throws if and only if the pointer is null. -/
theorem C10_adapters_guard_null {β ρ : Type}
    (MatrixVectorProduct ComputeLU_SGSPreconditioner :
      CSysMatrix β → CSysVector β → CSysVector β → Except Fault ρ)
    (A : CSysMatrixVectorProduct β) (B : CLU_SGSPreconditioner β) (u v : CSysVector β) :
    (A.sparse_matrix = none → A.operator_call MatrixVectorProduct u v = .error .thrown) ∧
    (∀ m, A.sparse_matrix = some m →
      A.operator_call MatrixVectorProduct u v = MatrixVectorProduct m u v) ∧
    ((∀ m, MatrixVectorProduct m u v ≠ .error .thrown) →
      (A.operator_call MatrixVectorProduct u v = .error .thrown ↔ A.sparse_matrix = none)) ∧
    (B.sparse_matrix = none →
      B.operator_call ComputeLU_SGSPreconditioner u v = .error .thrown) ∧
    (∀ m, B.sparse_matrix = some m →
      B.operator_call ComputeLU_SGSPreconditioner u v = ComputeLU_SGSPreconditioner m u v) ∧
    ((∀ m, ComputeLU_SGSPreconditioner m u v ≠ .error .thrown) →
      (B.operator_call ComputeLU_SGSPreconditioner u v = .error .thrown ↔
        B.sparse_matrix = none)) := by
  cases A with
  | mk sa =>
    cases B with
    | mk sb =>
      refine ⟨?_, ?_, ?_, ?_, ?_, ?_⟩
      · intro h
        simp only at h
        subst h
        rfl
      · intro m h
        simp only at h
        subst h
        rfl
      · intro hm
        cases sa with
        | none => exact ⟨fun _ => rfl, fun _ => rfl⟩
        | some m =>
          exact ⟨fun h => absurd h (hm m), fun h => by cases h⟩
      · intro h
        simp only at h
        subst h
        rfl
      · intro m h
        simp only at h
        subst h
        rfl
      · intro hm
        cases sb with
        | none => exact ⟨fun _ => rfl, fun _ => rfl⟩
        | some m =>
          exact ⟨fun h => absurd h (hm m), fun h => by cases h⟩

/-- Witness of C10: a null adapter and a bound one, the matrix method returning its
second argument. -/
theorem C10_adapters_guard_null_witness :
    (⟨none⟩ : CSysMatrixVectorProduct ℚ).operator_call
        (fun _ u _ => (.ok u : Except Fault (CSysVector ℚ)))
        ⟨1, 1, 1, 1, 1, [1]⟩ ⟨1, 1, 1, 1, 1, [0]⟩ = .error .thrown ∧
    (⟨some ⟨1, 1, 1, 1, [2], [0, 1], [0], 1⟩⟩ : CLU_SGSPreconditioner ℚ).operator_call
        (fun _ u _ => (.ok u : Except Fault (CSysVector ℚ)))
        ⟨1, 1, 1, 1, 1, [1]⟩ ⟨1, 1, 1, 1, 1, [0]⟩ = .ok ⟨1, 1, 1, 1, 1, [1]⟩ :=
  have h := C10_adapters_guard_null (fun _ u _ => (.ok u : Except Fault (CSysVector ℚ)))
    (fun _ u _ => (.ok u : Except Fault (CSysVector ℚ)))
    (⟨none⟩ : CSysMatrixVectorProduct ℚ)
    (⟨some ⟨1, 1, 1, 1, [2], [0, 1], [0], 1⟩⟩ : CLU_SGSPreconditioner ℚ)
    ⟨1, 1, 1, 1, 1, [1]⟩ ⟨1, 1, 1, 1, 1, [0]⟩
  ⟨h.1 rfl, h.2.2.2.2.1 _ rfl⟩

/-- C11: boundary type 7 with zero grid velocity and a unit normal n, on an interior state of
non-zero density (Navier-Stokes equations, arrays of the sizes the function indexes): the
exterior velocity v_r = u_r[1..n_dims]/u_r[0] satisfies v_r·n = -(v_l·n), and its
tangential part v_r - (v_r·n)n equals v_l - (v_l·n)n. -/
theorem C11_slip_wall_reflects_normal_velocity {unset : UnsetLocals α}
    (sqrt : α → α) (pow : α → α → α)
    (turb_model : Int) (u_l u_r v_g norm bdy_params : List α) (n_dims : Nat)
    (gamma R_ref : α)
    (hbp : 9 ≤ bdy_params.length) (hul : n_dims + 2 ≤ u_l.length)
    (hur : n_dims + 2 ≤ u_r.length) (hvg : n_dims ≤ v_g.length)
    (hn : n_dims ≤ norm.length) (hrho : u_l.getD 0 0 ≠ 0)
    (hgrid : ∀ i, i < n_dims → v_g.getD i 0 = 0)
    (hunit : dotN n_dims (fun k => norm.getD k 0) (fun k => norm.getD k 0) = 1) :
    ∃ u, set_inv_boundary_conditions unset sqrt pow turb_model 7 u_l u_r v_g norm bdy_params
        n_dims gamma R_ref 0 = .ok u ∧
      dotN n_dims (velocity u) (fun k => norm.getD k 0)
        = - dotN n_dims (velocity u_l) (fun k => norm.getD k 0) ∧
      ∀ i, i < n_dims →
        velocity u i - dotN n_dims (velocity u) (fun k => norm.getD k 0) * norm.getD i 0
          = velocity u_l i
            - dotN n_dims (velocity u_l) (fun k => norm.getD k 0) * norm.getD i 0 := by
  obtain ⟨u, hrun, hu⟩ := set_inv_type_7 sqrt pow turb_model u_l u_r v_g norm bdy_params
    n_dims gamma R_ref hbp hul hur hvg hn
  have hvel := velocity_of_isConservative u u_r n_dims _ _ _ hu hrho
  have hvn : dotN n_dims (fun k => velocity u_l k - v_g.getD k 0) (fun k => norm.getD k 0)
      = dotN n_dims (velocity u_l) (fun k => norm.getD k 0) :=
    dotN_congr n_dims _ _ _ (fun i hi => by rw [hgrid i hi, sub_zero])
  rw [hvn] at hvel
  have hdot : dotN n_dims (velocity u) (fun k => norm.getD k 0)
      = - dotN n_dims (velocity u_l) (fun k => norm.getD k 0) := by
    rw [dotN_congr n_dims _ _ _ hvel, dotN_sub_smul, hunit]
    ring
  refine ⟨u, hrun, hdot, fun i hi => ?_⟩
  rw [hdot, hvel i hi]
  ring

/-- Witness of C11: a 2-D state moving at 45 degrees onto a wall with normal (1, 0). -/
theorem C11_slip_wall_reflects_normal_velocity_witness :
    ∃ u, set_inv_boundary_conditions ⟨0, fun _ => 0, 0⟩ id (fun x _ => x) 0 7 ([2, 2, 2, 5] : List ℚ)
        [0, 0, 0, 0] [0, 0] [1, 0] [0, 0, 0, 0, 0, 0, 0, 0, 0] 2 (7 / 5) 1 0 = .ok u ∧
      dotN 2 (velocity u) (fun k => ([1, 0] : List ℚ).getD k 0)
        = - dotN 2 (velocity ([2, 2, 2, 5] : List ℚ)) (fun k => ([1, 0] : List ℚ).getD k 0) :=
  have h := C11_slip_wall_reflects_normal_velocity id (fun x _ => x) 0
    ([2, 2, 2, 5] : List ℚ) [0, 0, 0, 0] [0, 0] [1, 0] [0, 0, 0, 0, 0, 0, 0, 0, 0] 2 (7 / 5) 1
    (by decide) (by decide) (by decide) (by decide) (by decide) (by norm_num)
    (by intro i hi; interval_cases i <;> rfl)
    (by simp [dotN, Finset.sum_range_succ])
  h.elim (fun u hu => ⟨u, hu.1, hu.2.1⟩)

/-- C12 as stated fails for a normal that is not of unit length: with interior state
(rho, rho*v, e) = (1, (1, 0), 1) and normal (2, 0), boundary type 16 returns the exterior
state (1, (-3, 0), 1), whose velocity has normal component -6. -/
theorem C12_nonunit_normal_counterexample :
    set_inv_boundary_conditions ⟨0, fun _ => 0, 0⟩ id (fun x _ => x) 0 16 ([1, 1, 0, 1] : List ℚ)
        [0, 0, 0, 0] [0, 0] [2, 0] [0, 0, 0, 0, 0, 0, 0, 0, 0] 2 (7 / 5) 1 0
      = .ok [1, -3, 0, 1] ∧
    dotN 2 (velocity ([1, -3, 0, 1] : List ℚ)) (fun k => ([2, 0] : List ℚ).getD k 0) = -6 ∧
    (-6 : ℚ) ≠ 0 := by
  refine ⟨?_, ?_, by norm_num⟩
  · simp [set_inv_boundary_conditions, inv_dispatch, inv_bdy_type_16, writeConservative,
      storeLoop, sqLoop, dotLoop, sumLoop, forLoop, loopFrom, readAt, writeAt, newBuffer,
      ok_bind, pure_ok]
    norm_num
  · simp [dotN, velocity, Finset.sum_range_succ]
    norm_num

/-- C12, amended: boundary type 16 with a unit normal n, on an interior state of non-zero
density (Navier-Stokes equations, arrays of the sizes the function indexes): the exterior
velocity u_r[1..n_dims]/u_r[0] has normal component 0, and u_r[0], u_r[n_dims+1] equal
the interior density and total energy. -/
theorem C12_dual_consistent_zero_normal_velocity {unset : UnsetLocals α}
    (sqrt : α → α) (pow : α → α → α)
    (turb_model : Int) (u_l u_r v_g norm bdy_params : List α) (n_dims : Nat)
    (gamma R_ref : α)
    (hbp : 9 ≤ bdy_params.length) (hul : n_dims + 2 ≤ u_l.length)
    (hur : n_dims + 2 ≤ u_r.length) (hn : n_dims ≤ norm.length)
    (hrho : u_l.getD 0 0 ≠ 0)
    (hunit : dotN n_dims (fun k => norm.getD k 0) (fun k => norm.getD k 0) = 1) :
    ∃ u, set_inv_boundary_conditions unset sqrt pow turb_model 16 u_l u_r v_g norm bdy_params
        n_dims gamma R_ref 0 = .ok u ∧
      dotN n_dims (velocity u) (fun k => norm.getD k 0) = 0 ∧
      u[0]? = u_l[0]? ∧ u[n_dims + 1]? = u_l[n_dims + 1]? := by
  obtain ⟨u, hrun, hu⟩ := set_inv_type_16 sqrt pow turb_model u_l u_r v_g norm bdy_params
    n_dims gamma R_ref hbp hul hur hn
  have hvel := velocity_of_isConservative u u_r n_dims _ _ _ hu hrho
  refine ⟨u, hrun, ?_, ?_, ?_⟩
  · rw [dotN_congr n_dims _ _ _ hvel]
    have := dotN_sub_smul n_dims (velocity u_l) (fun k => norm.getD k 0)
      (dotN n_dims (velocity u_l) (fun k => norm.getD k 0))
    rw [this, hunit]
    ring
  · rw [hu.2.1, getElem?_eq_some_getD 0 (show 0 < u_l.length by omega)]
  · rw [hu.2.2.2.1, getElem?_eq_some_getD 0 (show n_dims + 1 < u_l.length by omega)]

/-- Witness of C12 (amended): a 2-D state and the unit normal (0, 1). -/
theorem C12_dual_consistent_zero_normal_velocity_witness :
    ∃ u, set_inv_boundary_conditions ⟨0, fun _ => 0, 0⟩ id (fun x _ => x) 0 16 ([2, 2, 4, 5] : List ℚ)
        [0, 0, 0, 0] [0, 0] [0, 1] [0, 0, 0, 0, 0, 0, 0, 0, 0] 2 (7 / 5) 1 0 = .ok u ∧
      dotN 2 (velocity u) (fun k => ([0, 1] : List ℚ).getD k 0) = 0 :=
  have h := C12_dual_consistent_zero_normal_velocity id (fun x _ => x) 0
    ([2, 2, 4, 5] : List ℚ) [0, 0, 0, 0] [0, 0] [0, 1] [0, 0, 0, 0, 0, 0, 0, 0, 0] 2 (7 / 5) 1
    (by decide) (by decide) (by decide) (by decide) (by norm_num)
    (by simp [dotN, Finset.sum_range_succ])
  h.elim (fun u hu => ⟨u, hu.1, hu.2.1⟩)

/-- C19: boundary type 7 with any grid velocity v_g and any normal n (Navier-Stokes
equations, arrays of the sizes the function indexes): the function returns u_r with
u_r[0] = u_l[0], u_r[n_dims+1] = u_l[n_dims+1] and
u_r[i+1] = rho_l*(v_l[i] - 2(v_l·n - v_g·n) n[i]), where v_l[i] = u_l[i+1]/u_l[0]; the
entries of u_r from n_dims+2 on are unchanged. -/
theorem C19_slip_wall_exterior_state {unset : UnsetLocals α} (sqrt : α → α) (pow : α → α → α)
    (turb_model : Int) (u_l u_r v_g norm bdy_params : List α) (n_dims : Nat)
    (gamma R_ref : α)
    (hbp : 9 ≤ bdy_params.length) (hul : n_dims + 2 ≤ u_l.length)
    (hur : n_dims + 2 ≤ u_r.length) (hvg : n_dims ≤ v_g.length)
    (hn : n_dims ≤ norm.length) :
    ∃ u, set_inv_boundary_conditions unset sqrt pow turb_model 7 u_l u_r v_g norm bdy_params
        n_dims gamma R_ref 0 = .ok u ∧
      IsConservative u n_dims (u_l.getD 0 0)
        (fun i => velocity u_l i
          - 2 * (dotN n_dims (velocity u_l) (fun k => norm.getD k 0)
              - dotN n_dims (fun k => v_g.getD k 0) (fun k => norm.getD k 0))
            * norm.getD i 0)
        (u_l.getD (n_dims + 1) 0) u_r := by
  obtain ⟨u, hrun, hu⟩ := set_inv_type_7 sqrt pow turb_model u_l u_r v_g norm bdy_params
    n_dims gamma R_ref hbp hul hur hvg hn
  rw [dotN_sub_left] at hu
  exact ⟨u, hrun, hu⟩

/-- Witness of C19: a 2-D state, grid velocity (1, 0) and normal (1, 0). -/
theorem C19_slip_wall_exterior_state_witness :
    ∃ u, set_inv_boundary_conditions ⟨0, fun _ => 0, 0⟩ id (fun x _ => x) 0 7 ([2, 6, 2, 5] : List ℚ)
        [0, 0, 0, 0] [1, 0] [1, 0] [0, 0, 0, 0, 0, 0, 0, 0, 0] 2 (7 / 5) 1 0 = .ok u ∧
      u[0]? = some 2 :=
  have h := C19_slip_wall_exterior_state id (fun x _ => x) 0
    ([2, 6, 2, 5] : List ℚ) [0, 0, 0, 0] [1, 0] [1, 0] [0, 0, 0, 0, 0, 0, 0, 0, 0] 2 (7 / 5) 1
    (by decide) (by decide) (by decide) (by decide) (by decide)
  h.elim (fun u hu => ⟨u, hu.1, hu.2.2.1⟩)

/-- C20: boundary type 6 on an interior state of non-zero density (Navier-Stokes equations,
arrays of the sizes the function indexes): the function returns u_r with
u_r[k] = u_l[k] for every k from 0 to n_dims+1, the later entries of u_r unchanged. -/
theorem C20_supersonic_outflow_extrapolates {unset : UnsetLocals α} (sqrt : α → α) (pow : α → α → α)
    (turb_model : Int) (u_l u_r v_g norm bdy_params : List α) (n_dims : Nat)
    (gamma R_ref : α)
    (hbp : 9 ≤ bdy_params.length) (hul : n_dims + 2 ≤ u_l.length)
    (hur : n_dims + 2 ≤ u_r.length) (hrho : u_l.getD 0 0 ≠ 0) :
    ∃ u, set_inv_boundary_conditions unset sqrt pow turb_model 6 u_l u_r v_g norm bdy_params
        n_dims gamma R_ref 0 = .ok u ∧
      u.length = u_r.length ∧ (∀ k, k < n_dims + 2 → u[k]? = u_l[k]?) ∧
      ∀ k, n_dims + 2 ≤ k → u[k]? = u_r[k]? := by
  obtain ⟨u, hrun, hlen, h0, hm, he, hrest⟩ := set_inv_type_6 sqrt pow turb_model u_l u_r
    v_g norm bdy_params n_dims gamma R_ref hbp hul hur
  refine ⟨u, hrun, hlen, fun k hk => ?_, hrest⟩
  rcases Nat.eq_zero_or_pos k with h | h
  · subst h
    rw [h0, getElem?_eq_some_getD 0 (show 0 < u_l.length by omega)]
  · by_cases hk' : k = n_dims + 1
    · subst hk'
      rw [he, getElem?_eq_some_getD 0 (show n_dims + 1 < u_l.length by omega)]
    · obtain ⟨i, rfl⟩ : ∃ i, k = i + 1 := ⟨k - 1, by omega⟩
      rw [hm i (by omega), getElem?_eq_some_getD 0 (show i + 1 < u_l.length by omega),
        velocity, mul_div_cancel₀ _ hrho]

/-- Witness of C20: a 3-D interior state. -/
theorem C20_supersonic_outflow_extrapolates_witness :
    ∃ u, set_inv_boundary_conditions ⟨0, fun _ => 0, 0⟩ id (fun x _ => x) 0 6 ([2, 6, 2, 4, 9] : List ℚ)
        [0, 0, 0, 0, 0] [0, 0, 0] [1, 0, 0] [0, 0, 0, 0, 0, 0, 0, 0, 0] 3 (7 / 5) 1 0 = .ok u ∧
      ∀ k, k < 3 + 2 → u[k]? = ([2, 6, 2, 4, 9] : List ℚ)[k]? :=
  have h := C20_supersonic_outflow_extrapolates id (fun x _ => x) 0
    ([2, 6, 2, 4, 9] : List ℚ) [0, 0, 0, 0, 0] [0, 0, 0] [1, 0, 0]
    [0, 0, 0, 0, 0, 0, 0, 0, 0] 3 (7 / 5) 1 (by decide) (by decide) (by decide) (by norm_num)
  h.elim (fun u hu => ⟨u, hu.1, hu.2.2.1⟩)

/-- C13: for boundary types 12 and 14, in 2-D and in 3-D (arrays of the sizes the function
indexes), when every density-gradient and momentum-gradient entry of the supplied gradient
array is zero, set_vis_boundary_conditions returns an array whose total-energy gradient
entry is exactly 0 for every direction. -/
theorem C13_adiabatic_wall_zero_gradients (bdy_type : Int)
    (hb : bdy_type = 12 ∨ bdy_type = 14)
    (u_l u_r grad_u : List α) (n_dims n_fields : Nat) (gamma : α)
    (hd : n_dims = 2 ∨ n_dims = 3) (hf : n_dims + 2 ≤ n_fields)
    (hul : n_dims + 2 ≤ u_l.length) (hur : n_dims + 1 ≤ u_r.length)
    (hg : n_dims * n_fields ≤ grad_u.length)
    (hzero : ∀ d k, d < n_dims → k ≤ n_dims → gradEntry grad_u n_fields d k = 0) :
    ∃ g, set_vis_boundary_conditions bdy_type u_l u_r grad_u n_dims n_fields gamma = .ok g ∧
      ∀ d, d < n_dims → g[d * n_fields + (n_dims + 1)]? = some 0 := by
  obtain ⟨g, hrun, _, hval, _⟩ := set_vis_adiabatic bdy_type hb u_l u_r grad_u n_dims
    n_fields gamma hd hf hul hur hg
  refine ⟨g, hrun, fun d hd' => ?_⟩
  rw [hval d hd']
  congr 1
  have hsum : ∑ k ∈ Finset.range n_dims,
      velocity u_r k * velocityGradient u_r grad_u n_fields k d = 0 := by
    apply Finset.sum_eq_zero
    intro k hk
    rw [Finset.mem_range] at hk
    rw [velocityGradient, hzero d (k + 1) hd' (by omega), hzero d 0 hd' (by omega)]
    simp
  rw [wallEnergyGradient, hsum, hzero d 0 hd' (by omega)]
  simp

/-- Witness of C13: a 2-D wall state with 4 fields and an all-zero gradient array. -/
theorem C13_adiabatic_wall_zero_gradients_witness :
    ∃ g, set_vis_boundary_conditions 12 ([1, 2, 0, 5] : List ℚ) [1, 1, 1, 5]
        [0, 0, 0, 7, 0, 0, 0, 9] 2 4 (7 / 5) = .ok g ∧
      ∀ d, d < 2 → g[d * 4 + (2 + 1)]? = some 0 :=
  C13_adiabatic_wall_zero_gradients 12 (Or.inl rfl) ([1, 2, 0, 5] : List ℚ) [1, 1, 1, 5]
    [0, 0, 0, 7, 0, 0, 0, 9] 2 4 (7 / 5) (Or.inl rfl) (by decide) (by decide) (by decide)
    (by decide)
    (by
      intro d k hd hk
      interval_cases d <;> interval_cases k <;> rfl)

/-- C14 as stated fails: in 2-D with 4 fields, interior state (1, (0, 0), 1), exterior state
(1, (1, 0), 1), gamma = 7/5 and a gradient array whose only non-zero entry is
d rho/dx = 1, the code writes 1/2 into the total-energy entry of direction x, while the
formula of the claim, whose last factor is the momentum gradient, gives 3/2. -/
theorem C14_momentum_gradient_formula_counterexample :
    set_vis_boundary_conditions 12 ([1, 0, 0, 1] : List ℚ) [1, 1, 0, 1]
        [1, 0, 0, 0, 0, 0, 0, 0] 2 4 (7 / 5) = .ok [1, 0, 0, 1 / 2, 0, 0, 0, 0] ∧
    specEnergyGradient (7 / 5) ([1, 0, 0, 1] : List ℚ) [1, 1, 0, 1]
        [1, 0, 0, 0, 0, 0, 0, 0] 2 4 0 = 3 / 2 ∧
    (1 / 2 : ℚ) ≠ 3 / 2 := by
  refine ⟨?_, ?_, by norm_num⟩
  · simp [set_vis_boundary_conditions, vis_grad_vel, vis_energy_2d, storeLoop, sumLoop,
      forLoop, loopFrom, readAt, writeAt, newBuffer, ok_bind, pure_ok]
    norm_num
  · simp [specEnergyGradient, wallInternalEnergy, wallPressure, gradEntry, dotN, velocity,
      Finset.sum_range_succ]
    norm_num

/-- C14, amended: for boundary types 12 and 14, in 2-D and in 3-D (arrays of the sizes the
function indexes), the total-energy gradient entry written for each direction d equals
e_int*(d rho/dd) + 1/2 |v|^2 (d rho/dd) + rho * sum_k v_k * (d v_k/dd), where the velocity
gradient d v_k/dd = (d(rho v_k)/dd - (d rho/dd) v_k)/rho is derived from the momentum and
density gradient entries of the supplied array, rho and v = (rho v)/rho are taken from the
exterior state and e_int = p/((gamma-1) rho) with p the interior pressure; no other entry
of the gradient array is modified, and for every other boundary type the array is returned
unchanged. -/
theorem C14_adiabatic_wall_energy_gradient (bdy_type : Int)
    (hb : bdy_type = 12 ∨ bdy_type = 14)
    (u_l u_r grad_u : List α) (n_dims n_fields : Nat) (gamma : α)
    (hd : n_dims = 2 ∨ n_dims = 3) (hf : n_dims + 2 ≤ n_fields)
    (hul : n_dims + 2 ≤ u_l.length) (hur : n_dims + 1 ≤ u_r.length)
    (hg : n_dims * n_fields ≤ grad_u.length) :
    (∃ g, set_vis_boundary_conditions bdy_type u_l u_r grad_u n_dims n_fields gamma = .ok g ∧
      g.length = grad_u.length ∧
      (∀ d, d < n_dims → g[d * n_fields + (n_dims + 1)]? =
        some (wallEnergyGradient gamma u_l u_r grad_u n_dims n_fields d)) ∧
      (∀ j, (∀ d, d < n_dims → d * n_fields + (n_dims + 1) ≠ j) → g[j]? = grad_u[j]?)) ∧
    ∀ other : Int, other ≠ 12 → other ≠ 14 →
      set_vis_boundary_conditions other u_l u_r grad_u n_dims n_fields gamma = .ok grad_u :=
  ⟨set_vis_adiabatic bdy_type hb u_l u_r grad_u n_dims n_fields gamma hd hf hul hur hg,
    fun other h12 h14 => set_vis_other_type other h12 h14 u_l u_r grad_u n_dims n_fields gamma⟩

/-- Witness of C14 (amended): a 3-D wall state with 5 fields, boundary type 14. -/
theorem C14_adiabatic_wall_energy_gradient_witness :
    ∃ g, set_vis_boundary_conditions 14 ([1, 2, 0, 1, 5] : List ℚ) [2, 1, 1, 0, 5]
        [1, 2, 3, 4, 0, 0, 1, 0, 1, 0, 2, 0, 0, 0, 0] 3 5 (7 / 5) = .ok g ∧
      g.length = 15 :=
  have h := C14_adiabatic_wall_energy_gradient 14 (Or.inr rfl) ([1, 2, 0, 1, 5] : List ℚ)
    [2, 1, 1, 0, 5] [1, 2, 3, 4, 0, 0, 1, 0, 1, 0, 2, 0, 0, 0, 0] 3 5 (7 / 5) (Or.inr rfl)
    (by decide) (by decide) (by decide) (by decide)
  h.1.elim (fun g hg => ⟨g, hg.1, hg.2.1⟩)

/-- C15: with a supported equation (run_input.equation 0 or 1; any other value ends in
FatalError) and for every order and p_res, setup_ele_type_specific returns and leaves
n_upts_per_ele = (order+1)^3, n_fpts_per_ele = 6*(order+1)^2, n_inters_per_ele = 6,
n_verts_per_ele = 8, n_ppts_per_ele = p_res^3 and n_peles_per_ele = (p_res-1)^3. -/
theorem C15_hexa_element_counts (order p_res equation turb_model upts_type_hexa : Int)
    (heq : equation = 0 ∨ equation = 1) :
    ∃ e, setup_ele_type_specific order p_res equation turb_model upts_type_hexa = .ok e ∧
      e.n_upts_per_ele = (order + 1) ^ 3 ∧ e.n_fpts_per_ele = 6 * (order + 1) ^ 2 ∧
      e.n_inters_per_ele = 6 ∧ e.n_verts_per_ele = 8 ∧ e.n_ppts_per_ele = p_res ^ 3 ∧
      e.n_peles_per_ele = (p_res - 1) ^ 3 := by
  refine ⟨_, setup_ele_type_specific_eq order p_res equation turb_model upts_type_hexa heq,
    ?_, ?_, rfl, rfl, ?_, ?_⟩ <;> dsimp only <;> ring

/-- Witness of C15: order 2 with the Euler/Navier-Stokes equation gives 27 solution points
and 54 flux points. -/
theorem C15_hexa_element_counts_witness :
    ∃ e, setup_ele_type_specific 2 3 0 0 0 = .ok e ∧
      e.n_upts_per_ele = 27 ∧ e.n_fpts_per_ele = 54 :=
  (C15_hexa_element_counts 2 3 0 0 0 (Or.inl rfl)).elim
    (fun e he => ⟨e, he.1, he.2.1, he.2.2.1⟩)

/-- C16: for an array of at least 3 rows and at least 6*(order+1)^2 columns,
set_tnorm_fpts returns and every flux point p of face f, f*(order+1)^2 <= p < (f+1)*(order+1)^2,
carries the reference normal of face f (0: (0,0,-1), 1: (0,-1,0), 2: (1,0,0), 3: (0,1,0),
4: (-1,0,0), 5: (0,0,1)); each of the six normals has exactly one component of magnitude 1
and the rest zero, the six are pairwise distinct, and every axis direction is the normal of
some face; set_inters_cubpts returns and the normals it stores for face f are the reference
normal of face f at every cubature point. -/
theorem C16_reference_face_normals (n_cubpts_quad : Nat) (get_r get_s get_weight : Nat → α)
    (order : Int) (n_dims n_fpts_per_ele : Nat) (h3 : 3 ≤ n_dims)
    (hn : 6 * (nPts1d order * nPts1d order) ≤ n_fpts_per_ele) :
    (∃ a : Array2 α, set_tnorm_fpts n_dims n_fpts_per_ele 6 order = .ok a ∧
      ∀ f p, f < 6 → f * (nPts1d order * nPts1d order) ≤ p →
        p < (f + 1) * (nPts1d order * nPts1d order) → a.column3 p = refNormal f) ∧
    ((refNormal 0 : α × α × α) = (0, 0, -1) ∧ (refNormal 1 : α × α × α) = (0, -1, 0) ∧
      (refNormal 2 : α × α × α) = (1, 0, 0) ∧ (refNormal 3 : α × α × α) = (0, 1, 0) ∧
      (refNormal 4 : α × α × α) = (-1, 0, 0) ∧ (refNormal 5 : α × α × α) = (0, 0, 1)) ∧
    (∀ f, f < 6 → IsAxisDirection (refNormal f : α × α × α)) ∧
    (∀ f g, f < 6 → g < 6 → f ≠ g → (refNormal f : α × α × α) ≠ refNormal g) ∧
    (∀ v : α × α × α, IsAxisDirection v → ∃ f, f < 6 ∧ refNormal f = v) ∧
    (∃ r, set_inters_cubpts n_cubpts_quad get_r get_s get_weight n_dims 6 = .ok r ∧
      ∀ f, f < 6 → ∃ tn, r.tnorm_inters_cubpts[f]? = some tn ∧
        ∀ j, j < n_cubpts_quad → tn.column3 j = refNormal f) := by
  refine ⟨?_, ⟨rfl, rfl, rfl, rfl, rfl, rfl⟩, ?_, ?_, ?_, ?_⟩
  · obtain ⟨a, hrun, _, _, ha⟩ := set_tnorm_fpts_spec (α := α) n_dims n_fpts_per_ele order
      h3 hn
    exact ⟨a, hrun, ha⟩
  · intro f hf
    interval_cases f <;> simp [IsAxisDirection, refNormal]
  · intro f g hf hg hfg
    interval_cases f <;> interval_cases g <;>
      first
        | exact absurd rfl hfg
        | norm_num [refNormal, Prod.ext_iff]
  · intro v hv
    obtain ⟨x, y, z⟩ := v
    simp only [IsAxisDirection] at hv
    rcases hv with ⟨hx | hx, hy, hz⟩ | ⟨hx, hy | hy, hz⟩ | ⟨hx, hy, hz | hz⟩
    · exact ⟨2, by decide, by simp [refNormal, hx, hy, hz]⟩
    · exact ⟨4, by decide, by simp [refNormal, hx, hy, hz]⟩
    · exact ⟨3, by decide, by simp [refNormal, hx, hy, hz]⟩
    · exact ⟨1, by decide, by simp [refNormal, hx, hy, hz]⟩
    · exact ⟨5, by decide, by simp [refNormal, hx, hy, hz]⟩
    · exact ⟨0, by decide, by simp [refNormal, hx, hy, hz]⟩
  · obtain ⟨r, hrun, hr⟩ := set_inters_cubpts_spec n_cubpts_quad get_r get_s get_weight
      n_dims h3
    refine ⟨r, hrun, fun f hf => ?_⟩
    obtain ⟨tn, htn, _, _, hcol⟩ := hr f hf
    exact ⟨tn, htn, hcol⟩

/-- Witness of C16: order 1 in 3-D with 24 flux points; the last flux point, on face 5,
carries (0, 0, 1). -/
theorem C16_reference_face_normals_witness :
    ∃ a : Array2 ℚ, set_tnorm_fpts 3 24 6 1 = .ok a ∧ a.column3 23 = (0, 0, 1) :=
  have h := C16_reference_face_normals 4 (fun _ => (0 : ℚ)) (fun _ => 0) (fun _ => 1) 1 3 24
    (by decide) (by decide)
  h.1.elim (fun a ha => ⟨a, ha.1, ha.2 5 23 (by decide) (by decide) (by decide)⟩)

/-- C21: boundary type 5 (Navier-Stokes equations, arrays of the sizes the function indexes):
the function returns u_r with u_r[0] = rho_bound, u_r[i+1] = rho_bound*v_bound[i] and
u_r[n_dims+1] = p_bound/(gamma-1) + 1/2 rho_bound |v_bound|^2, so two runs with the same
boundary parameters and gamma, whatever their interior states, grid velocities, normals and
previous contents of u_r, return the same entries u_r[0..n_dims+1]. -/
theorem C21_supersonic_inflow_is_imposed {unset : UnsetLocals α} (sqrt : α → α) (pow : α → α → α)
    (turb_model : Int) (u_l u_r v_g norm u_l' u_r' v_g' norm' bdy_params : List α)
    (n_dims : Nat) (gamma R_ref : α)
    (hbp : 9 ≤ bdy_params.length) (hb : 1 + n_dims ≤ bdy_params.length)
    (hul : n_dims + 2 ≤ u_l.length) (hur : n_dims + 2 ≤ u_r.length)
    (hul' : n_dims + 2 ≤ u_l'.length) (hur' : n_dims + 2 ≤ u_r'.length) :
    ∃ u u', set_inv_boundary_conditions unset sqrt pow turb_model 5 u_l u_r v_g norm bdy_params
          n_dims gamma R_ref 0 = .ok u ∧
      set_inv_boundary_conditions unset sqrt pow turb_model 5 u_l' u_r' v_g' norm' bdy_params
          n_dims gamma R_ref 0 = .ok u' ∧
      u[0]? = some (bdy_params.getD 0 0) ∧
      (∀ i, i < n_dims → u[i + 1]? = some (bdy_params.getD 0 0 * bdy_params.getD (1 + i) 0)) ∧
      u[n_dims + 1]? = some (bdy_params.getD 4 0 / (gamma - 1)
        + 1 / 2 * bdy_params.getD 0 0 * dotN n_dims (vBound bdy_params) (vBound bdy_params)) ∧
      ∀ k, k < n_dims + 2 → u[k]? = u'[k]? := by
  have key : ∀ (a b c d : List α), n_dims + 2 ≤ a.length → n_dims + 2 ≤ b.length →
      ∃ u, set_inv_boundary_conditions unset sqrt pow turb_model 5 a b c d bdy_params
          n_dims gamma R_ref 0 = .ok u ∧
        IsConservative u n_dims (bdy_params.getD 0 0) (vBound bdy_params)
          (totalEnergy gamma (bdy_params.getD 4 0) (bdy_params.getD 0 0) n_dims
            (vBound bdy_params)) b := by
    intro a b c d ha hb'
    exact set_inv_of_dispatch sqrt pow turb_model 5 a b c d bdy_params n_dims gamma R_ref
      hbp ha _ (vBound bdy_params)
      (by rw [(inv_dispatch_eq unset sqrt pow turb_model a b _ c d bdy_params n_dims gamma R_ref
        _ _ _ _ _ _).2.2.2.2.1, inv_bdy_type_5_eq b bdy_params n_dims gamma _ _ hb])
      rfl hb'
  obtain ⟨u, hrun, _, h0, hm, he, _⟩ := key u_l u_r v_g norm hul hur
  obtain ⟨u', hrun', _, h0', hm', he', _⟩ := key u_l' u_r' v_g' norm' hul' hur'
  refine ⟨u, u', hrun, hrun', h0, hm, he, fun k hk => ?_⟩
  rcases Nat.eq_zero_or_pos k with h | h
  · subst h
    rw [h0, h0']
  · by_cases hk' : k = n_dims + 1
    · subst hk'
      rw [he, he']
    · obtain ⟨i, rfl⟩ : ∃ i, k = i + 1 := ⟨k - 1, by omega⟩
      rw [hm i (by omega), hm' i (by omega)]

/-- Witness of C21: two 2-D runs with different interior states, grid velocities and
normals. -/
theorem C21_supersonic_inflow_is_imposed_witness :
    ∃ u u', set_inv_boundary_conditions ⟨0, fun _ => 0, 0⟩ id (fun x _ => x) 0 5 ([2, 6, 2, 5] : List ℚ)
          [0, 0, 0, 0] [0, 0] [1, 0] [1, 2, 3, 0, 4, 0, 0, 0, 0] 2 (7 / 5) 1 0 = .ok u ∧
      set_inv_boundary_conditions ⟨0, fun _ => 0, 0⟩ id (fun x _ => x) 0 5 ([1, 1, 1, 9] : List ℚ)
          [7, 7, 7, 7] [1, 1] [0, 1] [1, 2, 3, 0, 4, 0, 0, 0, 0] 2 (7 / 5) 1 0 = .ok u' ∧
      ∀ k, k < 2 + 2 → u[k]? = u'[k]? :=
  have h := C21_supersonic_inflow_is_imposed id (fun x _ => x) 0 ([2, 6, 2, 5] : List ℚ)
    [0, 0, 0, 0] [0, 0] [1, 0] [1, 1, 1, 9] [7, 7, 7, 7] [1, 1] [0, 1]
    [1, 2, 3, 0, 4, 0, 0, 0, 0] 2 (7 / 5) 1 (by decide) (by decide) (by decide) (by decide)
    (by decide) (by decide)
  h.elim (fun u hu => hu.elim (fun u' hu' => ⟨u, u', hu'.1, hu'.2.1, hu'.2.2.2.2.2⟩))

/-- C22: isothermal no-slip walls (Navier-Stokes equations, arrays of the sizes the function
indexes), with p_l = (gamma-1)(e_l - 1/2 rho_l |v_l|^2) the interior pressure and
T_wall = bdy_params[8]: type 11 returns u_r holding rho_r = p_l/(R_ref*T_wall),
momentum rho_r*v_grid and e_r = p_l/(gamma-1) + 1/2 rho_r |v_r|^2; type 13 returns the same
with v_r = v_wall + v_grid; in both cases the pressure recomputed from u_r equals p_l, and
the velocity u_r[i+1]/u_r[0] is v_r when rho_r is not zero. -/
theorem C22_isothermal_walls {unset : UnsetLocals α} (sqrt : α → α) (pow : α → α → α)
    (turb_model : Int) (u_l u_r v_g norm bdy_params : List α) (n_dims : Nat)
    (gamma R_ref : α)
    (hbp : 9 ≤ bdy_params.length) (hb : 5 + n_dims ≤ bdy_params.length)
    (hul : n_dims + 2 ≤ u_l.length) (hur : n_dims + 2 ≤ u_r.length)
    (hvg : n_dims ≤ v_g.length) (ht : turb_model = 1 → n_dims + 3 ≤ u_r.length) :
    (∃ u, set_inv_boundary_conditions unset sqrt pow turb_model 11 u_l u_r v_g norm bdy_params
          n_dims gamma R_ref 0 = .ok u ∧
      IsConservative u n_dims (pressure gamma u_l n_dims / (R_ref * bdy_params.getD 8 0))
        (fun i => v_g.getD i 0)
        (pressure gamma u_l n_dims / (gamma - 1)
          + 1 / 2 * (pressure gamma u_l n_dims / (R_ref * bdy_params.getD 8 0))
            * dotN n_dims (fun i => v_g.getD i 0) (fun i => v_g.getD i 0))
        (withTurb turb_model u_r n_dims 0) ∧
      pressure gamma u n_dims = pressure gamma u_l n_dims ∧
      (pressure gamma u_l n_dims / (R_ref * bdy_params.getD 8 0) ≠ 0 →
        ∀ i, i < n_dims → velocity u i = v_g.getD i 0)) ∧
    (∃ u, set_inv_boundary_conditions unset sqrt pow turb_model 13 u_l u_r v_g norm bdy_params
          n_dims gamma R_ref 0 = .ok u ∧
      IsConservative u n_dims (pressure gamma u_l n_dims / (R_ref * bdy_params.getD 8 0))
        (fun i => vWall bdy_params i + v_g.getD i 0)
        (pressure gamma u_l n_dims / (gamma - 1)
          + 1 / 2 * (pressure gamma u_l n_dims / (R_ref * bdy_params.getD 8 0))
            * dotN n_dims (fun i => vWall bdy_params i + v_g.getD i 0)
                (fun i => vWall bdy_params i + v_g.getD i 0))
        u_r ∧
      pressure gamma u n_dims = pressure gamma u_l n_dims ∧
      (pressure gamma u_l n_dims / (R_ref * bdy_params.getD 8 0) ≠ 0 →
        ∀ i, i < n_dims → velocity u i = vWall bdy_params i + v_g.getD i 0)) := by
  constructor
  · obtain ⟨u, hrun, hu⟩ := set_inv_of_dispatch sqrt pow turb_model 11 u_l u_r v_g norm
      bdy_params n_dims gamma R_ref hbp hul _ (fun i => v_g.getD i 0)
      (by rw [(inv_dispatch_eq unset sqrt pow turb_model u_l u_r _ v_g norm bdy_params n_dims gamma
        R_ref _ _ _ _ _ _).2.2.2.2.2.1, inv_bdy_type_11_eq turb_model u_r v_g n_dims gamma
        R_ref _ _ hvg ht])
      rfl (by rw [withTurb_length]; exact hur)
    exact ⟨u, hrun, hu,
      pressure_of_isConservative gamma _ _ u _ n_dims _ hu
        (pressure_gamma_one gamma u_l n_dims),
      fun hr i hi => velocity_of_isConservative u _ n_dims _ _ _ hu hr i hi⟩
  · obtain ⟨u, hrun, hu⟩ := set_inv_of_dispatch sqrt pow turb_model 13 u_l u_r v_g norm
      bdy_params n_dims gamma R_ref hbp hul _ (fun i => vWall bdy_params i + v_g.getD i 0)
      (by rw [(inv_dispatch_eq unset sqrt pow turb_model u_l u_r _ v_g norm bdy_params n_dims gamma
        R_ref _ _ _ _ _ _).2.2.2.2.2.2.2.1, inv_bdy_type_13_eq u_r v_g bdy_params n_dims
        gamma R_ref _ _ hvg hb])
      rfl hur
    exact ⟨u, hrun, hu,
      pressure_of_isConservative gamma _ _ u _ n_dims _ hu
        (pressure_gamma_one gamma u_l n_dims),
      fun hr i hi => velocity_of_isConservative u _ n_dims _ _ _ hu hr i hi⟩

/-- Witness of C22: a 2-D interior state at rest with pressure 2, wall temperature 2 and
grid velocity (1, 0). -/
theorem C22_isothermal_walls_witness :
    ∃ u, set_inv_boundary_conditions ⟨0, fun _ => 0, 0⟩ id (fun x _ => x) 0 11 ([1, 0, 0, 5] : List ℚ)
        [0, 0, 0, 0] [1, 0] [1, 0] [1, 0, 0, 0, 1, 0, 0, 0, 2] 2 (7 / 5) 1 0 = .ok u ∧
      pressure (7 / 5) u 2 = pressure (7 / 5) ([1, 0, 0, 5] : List ℚ) 2 :=
  have h := C22_isothermal_walls id (fun x _ => x) 0 ([1, 0, 0, 5] : List ℚ)
    [0, 0, 0, 0] [1, 0] [1, 0] [1, 0, 0, 0, 1, 0, 0, 0, 2] 2 (7 / 5) 1
    (by decide) (by decide) (by decide) (by decide) (by decide) (by decide)
  h.1.elim (fun u hu => ⟨u, hu.1, hu.2.2.1⟩)

/-- C23: adiabatic no-slip walls (Navier-Stokes equations, arrays of the sizes the function
indexes): type 12 returns u_r holding rho_r = rho_l, momentum rho_l*v_grid and
e_r = p_l/(gamma-1) + 1/2 rho_l |v_grid|^2, so that the pressure recomputed from u_r
equals the interior pressure p_l; type 14 returns the same with v_r = v_wall + v_grid.
With zero grid velocity, type 12 gives zero exterior momentum and e_r = p_l/(gamma-1). -/
theorem C23_adiabatic_walls {unset : UnsetLocals α} (sqrt : α → α) (pow : α → α → α)
    (turb_model : Int) (u_l u_r v_g norm bdy_params : List α) (n_dims : Nat)
    (gamma R_ref : α)
    (hbp : 9 ≤ bdy_params.length) (hb : 5 + n_dims ≤ bdy_params.length)
    (hul : n_dims + 2 ≤ u_l.length) (hur : n_dims + 2 ≤ u_r.length)
    (hvg : n_dims ≤ v_g.length) (ht : turb_model = 1 → n_dims + 3 ≤ u_r.length) :
    (∃ u, set_inv_boundary_conditions unset sqrt pow turb_model 12 u_l u_r v_g norm bdy_params
          n_dims gamma R_ref 0 = .ok u ∧
      IsConservative u n_dims (u_l.getD 0 0) (fun i => v_g.getD i 0)
        (pressure gamma u_l n_dims / (gamma - 1)
          + 1 / 2 * u_l.getD 0 0
            * dotN n_dims (fun i => v_g.getD i 0) (fun i => v_g.getD i 0))
        (withTurb turb_model u_r n_dims 0) ∧
      pressure gamma u n_dims = pressure gamma u_l n_dims ∧
      (u_l.getD 0 0 ≠ 0 → ∀ i, i < n_dims → velocity u i = v_g.getD i 0) ∧
      ((∀ i, i < n_dims → v_g.getD i 0 = 0) →
        (∀ i, i < n_dims → u[i + 1]? = some 0) ∧
        u[n_dims + 1]? = some (pressure gamma u_l n_dims / (gamma - 1)))) ∧
    (∃ u, set_inv_boundary_conditions unset sqrt pow turb_model 14 u_l u_r v_g norm bdy_params
          n_dims gamma R_ref 0 = .ok u ∧
      IsConservative u n_dims (u_l.getD 0 0) (fun i => vWall bdy_params i + v_g.getD i 0)
        (pressure gamma u_l n_dims / (gamma - 1)
          + 1 / 2 * u_l.getD 0 0
            * dotN n_dims (fun i => vWall bdy_params i + v_g.getD i 0)
                (fun i => vWall bdy_params i + v_g.getD i 0))
        u_r ∧
      pressure gamma u n_dims = pressure gamma u_l n_dims ∧
      (u_l.getD 0 0 ≠ 0 →
        ∀ i, i < n_dims → velocity u i = vWall bdy_params i + v_g.getD i 0)) := by
  constructor
  · obtain ⟨u, hrun, hu⟩ := set_inv_of_dispatch sqrt pow turb_model 12 u_l u_r v_g norm
      bdy_params n_dims gamma R_ref hbp hul _ (fun i => v_g.getD i 0)
      (by rw [(inv_dispatch_eq unset sqrt pow turb_model u_l u_r _ v_g norm bdy_params n_dims gamma
        R_ref _ _ _ _ _ _).2.2.2.2.2.2.1, inv_bdy_type_12_eq turb_model u_r v_g n_dims gamma
        _ _ hvg ht])
      rfl (by rw [withTurb_length]; exact hur)
    refine ⟨u, hrun, hu,
      pressure_of_isConservative gamma _ _ u _ n_dims _ hu
        (pressure_gamma_one gamma u_l n_dims),
      fun hr i hi => velocity_of_isConservative u _ n_dims _ _ _ hu hr i hi,
      fun hz => ⟨fun i hi => ?_, ?_⟩⟩
    · rw [hu.2.2.1 i hi]
      dsimp only
      rw [hz i hi, mul_zero]
    · have hd : dotN n_dims (fun i => v_g.getD i 0) (fun i => v_g.getD i 0) = 0 := by
        unfold dotN
        exact Finset.sum_eq_zero (fun i hi => by
          dsimp only
          rw [hz i (Finset.mem_range.mp hi), mul_zero])
      rw [hu.2.2.2.1]
      dsimp only [totalEnergy]
      rw [hd, mul_zero, add_zero]
  · obtain ⟨u, hrun, hu⟩ := set_inv_of_dispatch sqrt pow turb_model 14 u_l u_r v_g norm
      bdy_params n_dims gamma R_ref hbp hul _ (fun i => vWall bdy_params i + v_g.getD i 0)
      (by rw [(inv_dispatch_eq unset sqrt pow turb_model u_l u_r _ v_g norm bdy_params n_dims gamma
        R_ref _ _ _ _ _ _).2.2.2.2.2.2.2.2.1, inv_bdy_type_14_eq u_r v_g bdy_params n_dims
        gamma _ _ hvg hb])
      rfl hur
    exact ⟨u, hrun, hu,
      pressure_of_isConservative gamma _ _ u _ n_dims _ hu
        (pressure_gamma_one gamma u_l n_dims),
      fun hr i hi => velocity_of_isConservative u _ n_dims _ _ _ hu hr i hi⟩

/-- Witness of C23: a 2-D interior state and zero grid velocity at a fixed adiabatic wall. -/
theorem C23_adiabatic_walls_witness :
    ∃ u, set_inv_boundary_conditions ⟨0, fun _ => 0, 0⟩ id (fun x _ => x) 0 12 ([2, 2, 0, 5] : List ℚ)
        [0, 0, 0, 0] [0, 0] [1, 0] [1, 0, 0, 0, 1, 0, 0, 0, 2] 2 (7 / 5) 1 0 = .ok u ∧
      pressure (7 / 5) u 2 = pressure (7 / 5) ([2, 2, 0, 5] : List ℚ) 2 :=
  have h := C23_adiabatic_walls id (fun x _ => x) 0 ([2, 2, 0, 5] : List ℚ)
    [0, 0, 0, 0] [0, 0] [1, 0] [1, 0, 0, 0, 1, 0, 0, 0, 2] 2 (7 / 5) 1
    (by decide) (by decide) (by decide) (by decide) (by decide) (by decide)
  h.1.elim (fun u hu => ⟨u, hu.1, hu.2.2.1⟩)

/-- C26 as stated fails: with the turbulence model active, in 2-D with interior state
(1, (0, 0), 1) and interior working variable 7, previous exterior working variable 9 and
far-field value bdy_params[14] = 3, the adiabatic wall of type 12 returns the value 0
of the working variable, not the interior value 7, and the isothermal wall of type 13 returns
the previous content 9 of u_r[4], which is neither the far-field value 3 nor 0. -/
theorem C26_turbulence_variable_counterexample :
    set_inv_boundary_conditions ⟨0, fun _ => 0, 0⟩ id (fun x _ => x) 1 12 ([1, 0, 0, 1, 7] : List ℚ)
        [0, 0, 0, 0, 9] [0, 0] [1, 0] [1, 0, 0, 0, 1, 0, 0, 0, 2, 0, 0, 0, 0, 0, 3]
        2 (7 / 5) 1 0 = .ok [1, 0, 0, 1, 0] ∧
    ([1, 0, 0, 1, 0] : List ℚ)[2 + 2]? ≠ ([1, 0, 0, 1, 7] : List ℚ)[2 + 2]? ∧
    set_inv_boundary_conditions ⟨0, fun _ => 0, 0⟩ id (fun x _ => x) 1 13 ([1, 0, 0, 1, 7] : List ℚ)
        [0, 0, 0, 0, 9] [0, 0] [1, 0] [1, 0, 0, 0, 1, 0, 0, 0, 2, 0, 0, 0, 0, 0, 3]
        2 (7 / 5) 1 0 = .ok [1 / 5, 0, 0, 1, 9] ∧
    ([1 / 5, 0, 0, 1, 9] : List ℚ)[2 + 2]? ≠ some 3 ∧
    ([1 / 5, 0, 0, 1, 9] : List ℚ)[2 + 2]? ≠ some 0 := by
  refine ⟨?_, by simp, ?_, by simp, by simp⟩
  · simp [set_inv_boundary_conditions, inv_dispatch, inv_bdy_type_12, setTurbZero,
      writeConservative, storeLoop, sqLoop, dotLoop, sumLoop, forLoop, loopFrom, readAt,
      writeAt, newBuffer, ok_bind, pure_ok]
    norm_num
  · simp [set_inv_boundary_conditions, inv_dispatch, inv_bdy_type_13, writeConservative,
      storeLoop, sqLoop, dotLoop, sumLoop, forLoop, loopFrom, readAt, writeAt, newBuffer,
      ok_bind, pure_ok]
    norm_num

/-- C26, amended: when the one-equation turbulence model is active (turb_model == 1), the
branches 1, 2, 3, 4, 11, 12 and 15 set the exterior working variable u_r[n_dims+2]
(Navier-Stokes equations, arrays of the sizes the function indexes): the inflow branches
1 and 3 and the inflow side of 15 (v_l·n < 0) impose bdy_params[14]; the fixed walls 11
(isothermal) and 12 (adiabatic) impose zero; the outflow branches 2 and 4 and the outflow
side of 15 extrapolate it, u_r[n_dims+2] = u_l[n_dims+2]. -/
theorem C26_turbulence_variable_is_set {unset : UnsetLocals α} (sqrt : α → α) (pow : α → α → α)
    (u_l u_r v_g norm bdy_params : List α) (n_dims : Nat) (gamma R_ref : α)
    (hbp : 15 ≤ bdy_params.length) (hb : 11 + n_dims ≤ bdy_params.length)
    (hul : n_dims + 3 ≤ u_l.length) (hur : n_dims + 3 ≤ u_r.length)
    (hvg : n_dims ≤ v_g.length) (hn : n_dims ≤ norm.length) :
    (∀ t : Int, t = 1 ∨ t = 3 →
      ∃ u, set_inv_boundary_conditions unset sqrt pow 1 t u_l u_r v_g norm bdy_params n_dims
        gamma R_ref 0 = .ok u ∧ u[n_dims + 2]? = some (bdy_params.getD 14 0)) ∧
    (∀ t : Int, t = 11 ∨ t = 12 →
      ∃ u, set_inv_boundary_conditions unset sqrt pow 1 t u_l u_r v_g norm bdy_params n_dims
        gamma R_ref 0 = .ok u ∧ u[n_dims + 2]? = some 0) ∧
    (∀ t : Int, t = 2 ∨ t = 4 →
      ∃ u, set_inv_boundary_conditions unset sqrt pow 1 t u_l u_r v_g norm bdy_params n_dims
        gamma R_ref 0 = .ok u ∧ u[n_dims + 2]? = some (u_l.getD (n_dims + 2) 0)) ∧
    (∃ u, set_inv_boundary_conditions unset sqrt pow 1 15 u_l u_r v_g norm bdy_params n_dims
        gamma R_ref 0 = .ok u ∧
      u[n_dims + 2]? = some (if dotN n_dims (velocity u_l) (fun k => norm.getD k 0) < 0
        then bdy_params.getD 14 0 else u_l.getD (n_dims + 2) 0)) := by
  have key := @set_inv_turbulence α _ unset sqrt pow u_l u_r v_g norm bdy_params n_dims
    gamma R_ref hbp hb hul hur hvg hn
  refine ⟨fun t ht => ?_, fun t ht => ?_, fun t ht => ?_, ?_⟩
  · rcases ht with rfl | rfl
    · exact key 1 _ (Or.inl ⟨rfl, rfl⟩)
    · exact key 3 _ (Or.inr (Or.inr (Or.inl ⟨rfl, rfl⟩)))
  · rcases ht with rfl | rfl
    · exact key 11 _ (Or.inr (Or.inr (Or.inr (Or.inr (Or.inl ⟨rfl, rfl⟩)))))
    · exact key 12 _ (Or.inr (Or.inr (Or.inr (Or.inr (Or.inr (Or.inl ⟨rfl, rfl⟩))))))
  · rcases ht with rfl | rfl
    · exact key 2 _ (Or.inr (Or.inl ⟨rfl, rfl⟩))
    · exact key 4 _ (Or.inr (Or.inr (Or.inr (Or.inl ⟨rfl, rfl⟩))))
  · by_cases hin : dotN n_dims (velocity u_l) (fun k => norm.getD k 0) < 0
    · rw [if_pos hin]
      exact key 15 _ (Or.inr (Or.inr (Or.inr (Or.inr (Or.inr (Or.inr
        (Or.inl ⟨rfl, hin, rfl⟩)))))))
    · rw [if_neg hin]
      exact key 15 _ (Or.inr (Or.inr (Or.inr (Or.inr (Or.inr (Or.inr
        (Or.inr ⟨rfl, hin, rfl⟩)))))))

/-- Witness of C26 (amended): a 2-D state with five fields at a subsonic outflow. -/
theorem C26_turbulence_variable_is_set_witness :
    ∃ u, set_inv_boundary_conditions ⟨0, fun _ => 0, 0⟩ id (fun x _ => x) 1 2 ([1, 0, 0, 1, 7] : List ℚ)
        [0, 0, 0, 0, 9] [0, 0] [1, 0] [1, 0, 0, 0, 1, 0, 0, 0, 2, 0, 0, 0, 0, 0, 3]
        2 (7 / 5) 1 0 = .ok u ∧ u[2 + 2]? = some 7 :=
  (C26_turbulence_variable_is_set id (fun x _ => x) ([1, 0, 0, 1, 7] : List ℚ)
    [0, 0, 0, 0, 9] [0, 0] [1, 0] [1, 0, 0, 0, 1, 0, 0, 0, 2, 0, 0, 0, 0, 0, 3]
    2 (7 / 5) 1 (by decide) (by decide) (by decide) (by decide) (by decide)
    (by decide)).2.2.1 2 (Or.inl rfl)

/-- C24: boundary type 3 with gamma > 1 and a square root that is non-negative and squares
back on non-negative arguments (Navier-Stokes equations, arrays of the sizes the function
indexes): the function returns; the argument of the square root of the discriminant is
max(dd, 0), which is 0 for a negative discriminant; the boundary speed V_r is non-negative;
the exterior momentum is rho_r * V_r times the free-stream direction, so the exterior
velocity is V_r times that direction when rho_r is not zero; and whenever the final
c_r_sq is positive, V_r^2/c_r_sq is at most 1. -/
theorem C24_characteristic_inflow_clamps {unset : UnsetLocals α} (sqrt : α → α) (pow : α → α → α)
    (turb_model : Int) (u_l u_r v_g norm bdy_params : List α) (n_dims : Nat)
    (gamma R_ref : α)
    (hsqrt : ∀ x, 0 ≤ x → 0 ≤ sqrt x ∧ sqrt x * sqrt x = x) (hgamma : 1 < gamma)
    (hb : 11 + n_dims ≤ bdy_params.length)
    (hul : n_dims + 2 ≤ u_l.length) (hur : n_dims + 2 ≤ u_r.length)
    (hn : n_dims ≤ norm.length)
    (ht : turb_model = 1 → 15 ≤ bdy_params.length ∧ n_dims + 3 ≤ u_r.length) :
    ∃ u, set_inv_boundary_conditions unset sqrt pow turb_model 3 u_l u_r v_g norm bdy_params
        n_dims gamma R_ref 0 = .ok u ∧
      IsConservative u n_dims
        (charInflow sqrt pow gamma R_ref u_l norm bdy_params n_dims).rho_r
        (fun i => (charInflow sqrt pow gamma R_ref u_l norm bdy_params n_dims).V_r
          * bdy_params.getD (11 + i) 0)
        (charInflow sqrt pow gamma R_ref u_l norm bdy_params n_dims).e_r
        (withTurb turb_model u_r n_dims (bdy_params.getD 14 0)) ∧
      ((charInflow sqrt pow gamma R_ref u_l norm bdy_params n_dims).rho_r ≠ 0 →
        ∀ i, i < n_dims → velocity u i
          = (charInflow sqrt pow gamma R_ref u_l norm bdy_params n_dims).V_r
            * bdy_params.getD (11 + i) 0) ∧
      (charInflow sqrt pow gamma R_ref u_l norm bdy_params n_dims).radicand
        = max (charInflow sqrt pow gamma R_ref u_l norm bdy_params n_dims).disc 0 ∧
      ((charInflow sqrt pow gamma R_ref u_l norm bdy_params n_dims).disc < 0 →
        (charInflow sqrt pow gamma R_ref u_l norm bdy_params n_dims).radicand = 0) ∧
      0 ≤ (charInflow sqrt pow gamma R_ref u_l norm bdy_params n_dims).V_r ∧
      (0 < (charInflow sqrt pow gamma R_ref u_l norm bdy_params n_dims).c_r_sq →
        (charInflow sqrt pow gamma R_ref u_l norm bdy_params n_dims).V_r
          * (charInflow sqrt pow gamma R_ref u_l norm bdy_params n_dims).V_r
          / (charInflow sqrt pow gamma R_ref u_l norm bdy_params n_dims).c_r_sq ≤ 1) := by
  obtain ⟨hrad, _, hV, hM⟩ := charInflow_spec sqrt pow gamma R_ref u_l norm bdy_params
    n_dims hsqrt hgamma
  obtain ⟨u, hrun, hu⟩ := set_inv_of_dispatch sqrt pow turb_model 3 u_l u_r v_g norm
    bdy_params n_dims gamma R_ref (by omega) hul _
    (fun i => (charInflow sqrt pow gamma R_ref u_l norm bdy_params n_dims).V_r
      * bdy_params.getD (11 + i) 0)
    (by rw [(inv_dispatch_eq unset sqrt pow turb_model u_l u_r _ v_g norm bdy_params n_dims gamma
      R_ref _ _ _ _ _ _).2.2.1, inv_bdy_type_3_eq sqrt pow turb_model u_l u_r norm
      bdy_params n_dims gamma R_ref hn hb ht])
    rfl (by rw [withTurb_length]; exact hur)
  exact ⟨u, hrun, hu, fun hr i hi => velocity_of_isConservative u _ n_dims _ _ _ hu hr i hi,
    hrad, fun hneg => by rw [hrad]; exact max_eq_right hneg.le, hV, hM⟩

/-- Witness of C24: a 2-D interior state over the reals with the real square root. -/
theorem C24_characteristic_inflow_clamps_witness :
    ∃ u, set_inv_boundary_conditions ⟨0, fun _ => 0, 0⟩ Real.sqrt (fun x _ => x) 0 3 ([1, 1, 0, 5] : List ℝ)
        [0, 0, 0, 0] [0, 0] [1, 0] [1, 0, 0, 0, 1, 0, 0, 0, 2, 1, 1, 1, 0] 2 (7 / 5) 1 0
        = .ok u ∧
      0 ≤ (charInflow Real.sqrt (fun x _ => x) (7 / 5) 1 ([1, 1, 0, 5] : List ℝ) [1, 0]
        [1, 0, 0, 0, 1, 0, 0, 0, 2, 1, 1, 1, 0] 2).V_r :=
  have h := C24_characteristic_inflow_clamps Real.sqrt (fun x _ => x) 0
    ([1, 1, 0, 5] : List ℝ) [0, 0, 0, 0] [0, 0] [1, 0]
    [1, 0, 0, 0, 1, 0, 0, 0, 2, 1, 1, 1, 0] 2 (7 / 5) 1
    (fun x hx => ⟨Real.sqrt_nonneg x, Real.mul_self_sqrt hx⟩) (by norm_num)
    (by simp) (by simp) (by simp) (by simp) (by simp)
  h.elim (fun u hu => ⟨u, hu.1, hu.2.2.2.2.2.1⟩)

/-- C25: boundary type 15 (Navier-Stokes equations, arrays of the sizes the function
indexes), with R+ = v_l·n + 2 c_l/(gamma-1) from the interior state,
R- = v_bound·n - 2 c_bound/(gamma-1) from the free stream, c* = 1/4 (gamma-1)(R+ - R-) and
v_n* = 1/2 (R+ + R-): when v_l·n < 0 the function returns the inflow state, whose density
is reconstructed from the free-stream entropy and c*, and whose velocity is
v_n* n + (v_bound - (v_bound·n) n); otherwise it returns the outflow state, whose density
is reconstructed from the interior entropy and c*, and whose velocity is
v_n* n + (v_l - (v_l·n) n); for a unit normal the normal component of either velocity is
v_n*. -/
theorem C25_far_field_characteristic {unset : UnsetLocals α} (sqrt : α → α) (pow : α → α → α)
    (turb_model : Int) (u_l u_r v_g norm bdy_params : List α) (n_dims : Nat)
    (gamma R_ref : α)
    (hbp : 9 ≤ bdy_params.length) (hb : 1 + n_dims ≤ bdy_params.length)
    (hul : n_dims + 2 ≤ u_l.length) (hur : n_dims + 2 ≤ u_r.length)
    (hn : n_dims ≤ norm.length)
    (ht : turb_model = 1 →
      15 ≤ bdy_params.length ∧ n_dims + 3 ≤ u_l.length ∧ n_dims + 3 ≤ u_r.length) :
    (dotN n_dims (velocity u_l) (fun k => norm.getD k 0) < 0 →
      ∃ u, set_inv_boundary_conditions unset sqrt pow turb_model 15 u_l u_r v_g norm bdy_params
          n_dims gamma R_ref 0 = .ok u ∧
        IsConservative u n_dims
          (isentropicDensity pow gamma
            (pow (bdy_params.getD 0 0) gamma / bdy_params.getD 4 0)
            (cStar sqrt gamma u_l norm bdy_params n_dims))
          (farFieldVelocity (vnStar sqrt gamma u_l norm bdy_params n_dims)
            (vBound bdy_params) norm n_dims)
          (isentropicDensity pow gamma
              (pow (bdy_params.getD 0 0) gamma / bdy_params.getD 4 0)
              (cStar sqrt gamma u_l norm bdy_params n_dims)
            * freeStreamEnthalpy gamma bdy_params n_dims
          - acousticPressure gamma
              (isentropicDensity pow gamma
                (pow (bdy_params.getD 0 0) gamma / bdy_params.getD 4 0)
                (cStar sqrt gamma u_l norm bdy_params n_dims))
              (cStar sqrt gamma u_l norm bdy_params n_dims))
          (withTurb turb_model u_r n_dims (bdy_params.getD 14 0))) ∧
    (¬ dotN n_dims (velocity u_l) (fun k => norm.getD k 0) < 0 →
      ∃ u, set_inv_boundary_conditions unset sqrt pow turb_model 15 u_l u_r v_g norm bdy_params
          n_dims gamma R_ref 0 = .ok u ∧
        IsConservative u n_dims
          (isentropicDensity pow gamma
            (pow (u_l.getD 0 0) gamma / pressure gamma u_l n_dims)
            (cStar sqrt gamma u_l norm bdy_params n_dims))
          (farFieldVelocity (vnStar sqrt gamma u_l norm bdy_params n_dims)
            (velocity u_l) norm n_dims)
          (totalEnergy gamma
            (acousticPressure gamma
              (isentropicDensity pow gamma
                (pow (u_l.getD 0 0) gamma / pressure gamma u_l n_dims)
                (cStar sqrt gamma u_l norm bdy_params n_dims))
              (cStar sqrt gamma u_l norm bdy_params n_dims))
            (isentropicDensity pow gamma
              (pow (u_l.getD 0 0) gamma / pressure gamma u_l n_dims)
              (cStar sqrt gamma u_l norm bdy_params n_dims))
            n_dims
            (farFieldVelocity (vnStar sqrt gamma u_l norm bdy_params n_dims)
              (velocity u_l) norm n_dims))
          (withTurb turb_model u_r n_dims (u_l.getD (n_dims + 2) 0))) ∧
    (dotN n_dims (fun k => norm.getD k 0) (fun k => norm.getD k 0) = 1 →
      ∀ w : Nat → α,
        dotN n_dims (farFieldVelocity (vnStar sqrt gamma u_l norm bdy_params n_dims) w norm
          n_dims) (fun k => norm.getD k 0)
        = vnStar sqrt gamma u_l norm bdy_params n_dims) ∧
    (∀ u rho e old (w : Nat → α), rho ≠ 0 →
      dotN n_dims (fun k => norm.getD k 0) (fun k => norm.getD k 0) = 1 →
      IsConservative u n_dims rho
        (farFieldVelocity (vnStar sqrt gamma u_l norm bdy_params n_dims) w norm n_dims)
        e old →
      dotN n_dims (velocity u) (fun k => norm.getD k 0)
        = vnStar sqrt gamma u_l norm bdy_params n_dims) := by
  have hd := (inv_dispatch_eq unset sqrt pow turb_model u_l u_r
    ((List.range n_dims).map (velocity u_l)) v_g norm bdy_params n_dims gamma R_ref
    (u_l.getD 0 0) (u_l.getD (n_dims + 1) 0) (pressure gamma u_l n_dims)
    (bdy_params.getD 0 0) (bdy_params.getD 4 0) (bdy_params.getD 8 0)).2.2.2.2.2.2.2.2.2
  refine ⟨fun hin => ?_, fun hout => ?_, fun hunit w => ?_, ?_⟩
  · exact set_inv_of_dispatch sqrt pow turb_model 15 u_l u_r v_g norm bdy_params n_dims
      gamma R_ref hbp hul _ _
      (by rw [hd, inv_bdy_type_15_inflow sqrt pow turb_model u_l u_r norm bdy_params n_dims
        gamma hn hb (fun h => ⟨(ht h).1, (ht h).2.2⟩) hin])
      rfl (by rw [withTurb_length]; exact hur)
  · exact set_inv_of_dispatch sqrt pow turb_model 15 u_l u_r v_g norm bdy_params n_dims
      gamma R_ref hbp hul _ _
      (by rw [hd, inv_bdy_type_15_outflow sqrt pow turb_model u_l u_r norm bdy_params n_dims
        gamma hn hb (fun h => (ht h).2) hout])
      rfl (by rw [withTurb_length]; exact hur)
  · exact farFieldVelocity_normal _ w norm n_dims hunit
  · intro u rho e old w hrho hunit hu
    rw [dotN_congr n_dims _ _ _
      (fun i hi => velocity_of_isConservative u old n_dims rho e _ hu hrho i hi)]
    exact farFieldVelocity_normal _ w norm n_dims hunit

/-- Witness of C25: a 2-D interior state flowing out through a face of normal (1, 0). -/
theorem C25_far_field_characteristic_witness :
    ∃ u, set_inv_boundary_conditions ⟨0, fun _ => 0, 0⟩ id (fun x _ => x) 0 15 ([1, 1, 0, 5] : List ℚ)
        [0, 0, 0, 0] [0, 0] [1, 0] [1, 2, 0, 0, 1, 0, 0, 0, 2] 2 (7 / 5) 1 0 = .ok u ∧
      u.length = 4 :=
  have h := C25_far_field_characteristic id (fun x _ => x) 0 ([1, 1, 0, 5] : List ℚ)
    [0, 0, 0, 0] [0, 0] [1, 0] [1, 2, 0, 0, 1, 0, 0, 0, 2] 2 (7 / 5) 1
    (by decide) (by decide) (by decide) (by decide) (by decide) (by decide)
  (h.2.1 (by simp [dotN, velocity, Finset.sum_range_succ])).elim
    (fun u hu => ⟨u, hu.1, hu.2.1⟩)

/-- C28: on a position-gradient tensor of at least 3 x 3 entries, with a square root that is
non-negative and squares back on non-negative arguments, compute_inter_detjac_inters_cubpts
returns for every face 0..5 the Euclidean norm of the cross product of the columns (u, v)
of the tensor, (u, v) = (0, 1) for faces 0 and 5, (0, 2) for faces 1 and 3, (1, 2) for
faces 2 and 4: the value is non-negative and its square is the squared length of the cross
product; opposite faces (0, 5), (1, 3), (2, 4) give equal values; and for the identity
tensor the value is 1 for every face. -/
theorem C28_face_jacobian_is_cross_product_norm (sqrt : α → α) (d_pos : Array2 α)
    (hsqrt : ∀ x, 0 ≤ x → 0 ≤ sqrt x ∧ sqrt x * sqrt x = x)
    (h0 : 3 ≤ d_pos.dim_0) (h1 : 3 ≤ d_pos.dim_1) :
    (∀ f : Int, 0 ≤ f → f ≤ 5 →
      ∃ v, compute_inter_detjac_inters_cubpts sqrt f d_pos = .ok v ∧
        v = sqrt (normSq3 (cross3 (d_pos.column3 (faceTangents f).1)
          (d_pos.column3 (faceTangents f).2))) ∧
        0 ≤ v ∧
        v * v = normSq3 (cross3 (d_pos.column3 (faceTangents f).1)
          (d_pos.column3 (faceTangents f).2))) ∧
    compute_inter_detjac_inters_cubpts sqrt 0 d_pos
      = compute_inter_detjac_inters_cubpts sqrt 5 d_pos ∧
    compute_inter_detjac_inters_cubpts sqrt 1 d_pos
      = compute_inter_detjac_inters_cubpts sqrt 3 d_pos ∧
    compute_inter_detjac_inters_cubpts sqrt 2 d_pos
      = compute_inter_detjac_inters_cubpts sqrt 4 d_pos ∧
    ((∀ i j, i < 3 → j < 3 → d_pos.cell i j = if i = j then 1 else 0) →
      ∀ f : Int, 0 ≤ f → f ≤ 5 → compute_inter_detjac_inters_cubpts sqrt f d_pos = .ok 1) := by
  have key := fun (f : Int) (hlo : 0 ≤ f) (hhi : f ≤ 5) =>
    compute_inter_detjac_eq sqrt f d_pos h0 h1 hlo hhi
  refine ⟨fun f hlo hhi => ⟨_, key f hlo hhi, rfl, (hsqrt _ (normSq3_nonneg _)).1,
    (hsqrt _ (normSq3_nonneg _)).2⟩, ?_, ?_, ?_, fun hid f hlo hhi => ?_⟩
  · rw [key 0 (by norm_num) (by norm_num), key 5 (by norm_num) (by norm_num)]
    rfl
  · rw [key 1 (by norm_num) (by norm_num), key 3 (by norm_num) (by norm_num)]
    rfl
  · rw [key 2 (by norm_num) (by norm_num), key 4 (by norm_num) (by norm_num)]
    rfl
  · rw [key f hlo hhi]
    have hn : normSq3 (cross3 (d_pos.column3 (faceTangents f).1)
        (d_pos.column3 (faceTangents f).2)) = 1 := by
      have hcases : f = 0 ∨ f = 1 ∨ f = 2 ∨ f = 3 ∨ f = 4 ∨ f = 5 := by omega
      rcases hcases with h | h | h | h | h | h <;> subst h <;>
        simp [faceTangents, cross3, normSq3, Array2.column3, hid]
    rw [hn]
    congr 1
    exact eq_one_of_sq _ (hsqrt 1 zero_le_one).1 (hsqrt 1 zero_le_one).2

/-- Witness of C28: the identity tensor over the reals, with the real square root. -/
theorem C28_face_jacobian_is_cross_product_norm_witness :
    compute_inter_detjac_inters_cubpts Real.sqrt 0
        (⟨3, 3, fun i j => if i = j then 1 else 0⟩ : Array2 ℝ)
      = compute_inter_detjac_inters_cubpts Real.sqrt 5
        (⟨3, 3, fun i j => if i = j then 1 else 0⟩ : Array2 ℝ) :=
  (C28_face_jacobian_is_cross_product_norm Real.sqrt
    (⟨3, 3, fun i j => if i = j then 1 else 0⟩ : Array2 ℝ)
    (fun x hx => ⟨Real.sqrt_nonneg x, Real.mul_self_sqrt hx⟩)
    (Nat.le_refl 3) (Nat.le_refl 3)).2.1

/-- C29: with 20 judged not a perfect cube, for every node m = 0..19 of the 20-node
hexahedron and every real point (x, y, z): eval_nodal_s_basis(m, (x, y, z), 20) returns the
shape function value, eval_d_nodal_s_basis on an array of at least 20 x 3 cells returns,
and the entries (m, 0), (m, 1), (m, 2) it leaves are the partial derivatives of that shape
function with respect to x, y and z at the point; and for a node count that is judged not
a perfect cube and is not 20, both functions end in FatalError. -/
theorem C29_serendipity_shape_derivatives (is_perfect_cube : Int → Bool)
    (lagrange_basis : Int → List ℝ → Int → Except Fault ℝ)
    (lagrange_d : Array2 ℝ → List ℝ → Int → Except Fault (Array2 ℝ))
    (d0 : Array2 ℝ) (h20 : is_perfect_cube 20 = false)
    (hd0 : 20 ≤ d0.dim_0) (hd1 : 3 ≤ d0.dim_1) (m : Nat) (hm : m < 20) :
    (∀ x y z : ℝ,
      eval_nodal_s_basis is_perfect_cube lagrange_basis (m : Int) [x, y, z] 20
        = .ok (shape20 m x y z)) ∧
    (∀ x y z : ℝ,
      ∃ d, eval_d_nodal_s_basis is_perfect_cube lagrange_d d0 [x, y, z] 20 = .ok d ∧
        HasDerivAt (fun t => shape20 m t y z) (d.cell m 0) x ∧
        HasDerivAt (fun t => shape20 m x t z) (d.cell m 1) y ∧
        HasDerivAt (fun t => shape20 m x y t) (d.cell m 2) z) ∧
    (∀ (n in_index : Int) (in_loc : List ℝ) (d : Array2 ℝ),
      is_perfect_cube n = false → n ≠ 20 →
      eval_nodal_s_basis is_perfect_cube lagrange_basis in_index in_loc n = .error .fatal ∧
      eval_d_nodal_s_basis is_perfect_cube lagrange_d d in_loc n = .error .fatal) := by
  refine ⟨fun x y z => ?_, fun x y z => ?_, fun n in_index in_loc d hc hn => ?_⟩
  · exact eval_nodal_s_basis_20 is_perfect_cube lagrange_basis m hm [x, y, z] h20
      (Nat.le_refl 3)
  · obtain ⟨d, hrun, _, _, hcell⟩ := eval_d_nodal_s_basis_20 is_perfect_cube lagrange_d d0
      [x, y, z] h20 (Nat.le_refl 3) hd0 hd1
    obtain ⟨k0, k1, k2⟩ := shape20_hasDerivAt m hm x y z
    refine ⟨d, hrun, ?_, ?_, ?_⟩
    · rw [hcell m 0 hm (by norm_num)]
      exact k0
    · rw [hcell m 1 hm (by norm_num)]
      exact k1
    · rw [hcell m 2 hm (by norm_num)]
      exact k2
  · exact eval_nodal_s_basis_fatal is_perfect_cube lagrange_basis lagrange_d n in_index
      in_loc d hc hn

/-- Witness of C29: node 8 at the centre of the reference cube, with a cube test that
accepts 8 and 27 only. -/
theorem C29_serendipity_shape_derivatives_witness :
    eval_nodal_s_basis (fun n => n == 8 || n == 27) (fun _ _ _ => .ok 0) ((8 : Nat) : Int)
        ([0, 0, 0] : List ℝ) 20 = .ok (shape20 8 0 0 0) :=
  (C29_serendipity_shape_derivatives (fun n => n == 8 || n == 27) (fun _ _ _ => .ok 0)
    (fun d _ _ => .ok d) (Array2.setup 20 3) (by decide) (Nat.le_refl 20) (Nat.le_refl 3)
    8 (by decide)).1 0 0 0

/-- C27, as claimed, fails: one interface of boundary type 16 with one flux point, two
dimensions and `riemann_solve_type = 7`.  There is a boundary flux point and the solver is
none of 0, 1, 2, yet `evaluate_boundaryConditions_invFlux` returns, whatever the callees
compute: at a type-16 interface `right_flux` is called and the solver index is not read. -/
theorem C27_dual_consistent_interface_skips_solver_check_counterexample :
    0 < (singleFluxPointRun 2 16 7).n_inters ∧
    0 < (singleFluxPointRun 2 16 7).n_fpts_per_inter ∧
    (singleFluxPointRun 2 16 7).riemann_solve_type ≠ 0 ∧
    (singleFluxPointRun 2 16 7).riemann_solve_type ≠ 1 ∧
    (singleFluxPointRun 2 16 7).riemann_solve_type ≠ 2 ∧
    ∀ (unset : Nat → Nat → UnsetLocals ℚ) (sqrt : ℚ → ℚ) (pow : ℚ → ℚ → ℚ)
      (F : FluxFunctions ℚ),
      ∃ st, evaluate_boundaryConditions_invFlux unset sqrt pow F (singleFluxPointRun 2 16 7)
        (singleFluxPointArrays 2) = .ok st := by
  refine ⟨by decide, by decide, by decide, by decide, by decide, ?_⟩
  intro unset sqrt pow F
  have h1 : (singleFluxPointRun 2 16 7).n_inters = 1 := rfl
  have h2 : (singleFluxPointRun 2 16 7).n_fpts_per_inter = 1 := rfl
  unfold evaluate_boundaryConditions_invFlux
  rw [h1, h2, forLoop_one, forLoop_one]
  exact invFlux_fpt_dual_consistent sqrt pow F (singleFluxPointRun 2 16 7) 0 0 _ rfl rfl rfl
    (Or.inl rfl) rfl (by simp [singleFluxPointRun]) (Nat.le_refl _)
    (by simp [singleFluxPointRun, newBuffer])
    (by simp [singleFluxPointRun, singleFluxPointArrays])
    (by simp [singleFluxPointRun, singleFluxPointArrays])
    (by simp [singleFluxPointRun, singleFluxPointArrays])
    (by simp [singleFluxPointRun, newBuffer])

/-- C27 (amended): on arrays of the sizes of the run, `evaluate_boundaryConditions_invFlux`
(CPU path) ends in the fatal error whenever there is a boundary flux point and `n_dims` is
neither 2 nor 3, for every boundary type of the interfaces, type 16 and the types without a
branch included; and whenever the interfaces have a flux point, `riemann_solve_type` is none
of 0, 1, 2 and some interface is not of type 16.  With `n_dims` 2 or 3, a solver among 0,
1, 2 and, for a viscous run, `vis_riemann_solve_type = 0`, the function raises no fatal
error, and on arrays of the sizes of the run it returns; a viscous run with another viscous
solver ends in the fatal error at its first flux point. -/
theorem C27_fatal_checks_at_boundary_flux_points (unset : Nat → Nat → UnsetLocals α)
    (sqrt : α → α) (pow : α → α → α) (F : FluxFunctions α) (c : BdyInters α)
    (st : InvFluxState α) :
    (InvFluxSizes c st → 0 < c.n_inters → 0 < c.n_fpts_per_inter →
      c.n_dims ≠ 2 → c.n_dims ≠ 3 →
      evaluate_boundaryConditions_invFlux unset sqrt pow F c st = .error .fatal) ∧
    (InvFluxSizes c st → 0 < c.n_fpts_per_inter →
      (∃ i, i < c.n_inters ∧ c.boundary_type[i]? ≠ some 16) →
      c.riemann_solve_type ≠ 0 → c.riemann_solve_type ≠ 1 → c.riemann_solve_type ≠ 2 →
      evaluate_boundaryConditions_invFlux unset sqrt pow F c st = .error .fatal) ∧
    ((c.n_dims = 2 ∨ c.n_dims = 3) →
      (c.riemann_solve_type = 0 ∨ c.riemann_solve_type = 1 ∨ c.riemann_solve_type = 2) →
      (c.viscous ≠ 0 → c.vis_riemann_solve_type = 0) →
      evaluate_boundaryConditions_invFlux unset sqrt pow F c st ≠ .error .fatal ∧
      (InvFluxSizes c st →
        ∃ st', evaluate_boundaryConditions_invFlux unset sqrt pow F c st = .ok st')) ∧
    (InvFluxSizes c st → 0 < c.n_inters → 0 < c.n_fpts_per_inter →
      c.viscous ≠ 0 → c.vis_riemann_solve_type ≠ 0 →
      evaluate_boundaryConditions_invFlux unset sqrt pow F c st = .error .fatal) := by
  refine ⟨?_, ?_, ?_, ?_⟩
  · intro hs hi hj h2 h3
    refine evaluate_fatal_at unset sqrt pow F c st hs 0 hi hj (fun t ht => ?_)
    rcases invFlux_fpt_cases (unset 0 0) sqrt pow F c 0 0 t hi ht with h | ⟨hd, _⟩
    · exact h
    · rcases hd with hd | hd
      · exact absurd hd h2
      · exact absurd hd h3
  · intro hs hj hex h0 h1 h2
    obtain ⟨i, hi, h16⟩ := hex
    refine evaluate_fatal_at unset sqrt pow F c st hs i hi hj (fun t ht => ?_)
    rcases invFlux_fpt_cases (unset i 0) sqrt pow F c i 0 t hi ht with h | ⟨_, hr, _⟩
    · exact h
    · rcases hr with hr | hr | hr | hr
      · exact absurd hr h16
      · exact absurd hr h0
      · exact absurd hr h1
      · exact absurd hr h2
  · intro hd hr hv
    have hnf : NoFatal (evaluate_boundaryConditions_invFlux unset sqrt pow F c st) := by
      unfold evaluate_boundaryConditions_invFlux
      exact NoFatal_forLoop
        (fun i s => NoFatal_forLoop
          (fun j s' => NoFatal_invFlux_fpt sqrt pow F c i j s' hd hr hv) _ s) _ _
    refine ⟨hnf, fun hs => ?_⟩
    have hloop : (∃ s', evaluate_boundaryConditions_invFlux unset sqrt pow F c st = .ok s' ∧
        InvFluxFits c s') ∨
        evaluate_boundaryConditions_invFlux unset sqrt pow F c st = .error .fatal := by
      unfold evaluate_boundaryConditions_invFlux
      exact forLoop_ok_or_fatal _ _ (fun s => InvFluxFits c s) _ (invFluxFits_start c st hs)
        (fun i t hi ht => invFlux_inter_cases (unset i) sqrt pow F c i t hi ht)
    rcases hloop with ⟨s', h, _⟩ | h
    · exact ⟨s', h⟩
    · exact absurd h hnf
  · intro hs hi hj hv h0
    refine evaluate_fatal_at unset sqrt pow F c st hs 0 hi hj (fun t ht => ?_)
    rcases invFlux_fpt_cases (unset 0 0) sqrt pow F c 0 0 t hi ht with h | ⟨_, _, hvis, _⟩
    · exact h
    · exact absurd (hvis hv) h0

/-- C27 (amended), at concrete inputs, whatever the callees compute and the unassigned
locals hold: one interface of the unknown boundary type 8 with one flux point, the
supported solver 0 and `n_dims = 1` end in the fatal error of the dimension check; two
interfaces of types 16 and 1 in two dimensions with the solver index 7 end in the fatal
error of the solver check. -/
theorem C27_fatal_checks_at_boundary_flux_points_witness :
    (singleFluxPointRun 1 8 0).boundary_type = [8] ∧
    (singleFluxPointRun 1 8 0).n_dims = 1 ∧
    (∀ (unset : Nat → Nat → UnsetLocals ℚ) (sqrt : ℚ → ℚ) (pow : ℚ → ℚ → ℚ)
      (F : FluxFunctions ℚ),
      evaluate_boundaryConditions_invFlux unset sqrt pow F (singleFluxPointRun 1 8 0)
        (singleFluxPointArrays 1) = .error .fatal) ∧
    (∀ (unset : Nat → Nat → UnsetLocals ℚ) (sqrt : ℚ → ℚ) (pow : ℚ → ℚ → ℚ)
      (F : FluxFunctions ℚ),
      evaluate_boundaryConditions_invFlux unset sqrt pow F
        { singleFluxPointRun 2 16 7 with n_inters := 2, boundary_type := [16, 1] }
        (singleFluxPointArrays 2) = .error .fatal) :=
  ⟨rfl, rfl,
    fun unset sqrt pow F =>
      (C27_fatal_checks_at_boundary_flux_points unset sqrt pow F (singleFluxPointRun 1 8 0)
        (singleFluxPointArrays 1)).1
        (by simp [InvFluxSizes, singleFluxPointRun, singleFluxPointArrays])
        (by decide) (by decide) (by decide) (by decide),
    fun unset sqrt pow F =>
      (C27_fatal_checks_at_boundary_flux_points unset sqrt pow F
        { singleFluxPointRun 2 16 7 with n_inters := 2, boundary_type := [16, 1] }
        (singleFluxPointArrays 2)).2.1
        (by simp [InvFluxSizes, singleFluxPointRun, singleFluxPointArrays])
        (by decide) ⟨1, by decide, by decide⟩ (by decide) (by decide) (by decide)⟩

/-- C34: for a vector whose buffer holds nElm entries and whose domain extent lies inside
it, and a square root that is non-negative and vanishes only at 0 on non-negative
arguments: dotProd(u, u) returns a value d >= 0, so norm() does not take its error branch
and returns sqrt(d) >= 0, which is 0 exactly when every domain entry of u is 0. -/
theorem C34_norm_never_fails (sqrt : α → α) (u : CSysVector α) (hu : u.Allocated)
    (hd : u.nElmDomain ≤ u.nElm)
    (hsqrt : ∀ x, 0 ≤ x → 0 ≤ sqrt x ∧ (sqrt x = 0 ↔ x = 0)) :
    ∃ d, dotProd u u = .ok d ∧ 0 ≤ d ∧ u.norm sqrt = .ok (sqrt d) ∧
      u.norm sqrt ≠ .error .thrown ∧ 0 ≤ sqrt d ∧
      (sqrt d = 0 ↔ ∀ i, i < u.nElmDomain → u.entry i = 0) := by
  unfold CSysVector.Allocated at hu
  have hnn := sum_sq_nonneg u u.nElmDomain
  have hnorm := norm_eq sqrt u (by omega)
  refine ⟨_, dotProd_eq u u rfl (by omega) (by omega), hnn, hnorm, ?_, (hsqrt _ hnn).1, ?_⟩
  · rw [hnorm]
    intro h
    cases h
  · rw [(hsqrt _ hnn).2,
      Finset.sum_eq_zero_iff_of_nonneg (fun i _ => mul_self_nonneg (u.entry i))]
    constructor
    · intro h i hi
      exact mul_self_eq_zero.mp (h i (Finset.mem_range.mpr hi))
    · intro h i hi
      rw [h i (Finset.mem_range.mp hi), mul_zero]

/-- Witness of C34 over the reals: the vector (3, 4, 0) with two owned entries. -/
theorem C34_norm_never_fails_witness :
    ∃ d, dotProd (⟨3, 2, 3, 2, 1, [3, 4, 0]⟩ : CSysVector ℝ) ⟨3, 2, 3, 2, 1, [3, 4, 0]⟩
        = .ok d ∧ 0 ≤ d ∧
      (⟨3, 2, 3, 2, 1, [3, 4, 0]⟩ : CSysVector ℝ).norm Real.sqrt = .ok (Real.sqrt d) :=
  have h := C34_norm_never_fails Real.sqrt (⟨3, 2, 3, 2, 1, [3, 4, 0]⟩ : CSysVector ℝ)
    (by simp [CSysVector.Allocated]) (by norm_num)
    (fun x hx => ⟨Real.sqrt_nonneg x, Real.sqrt_eq_zero hx⟩)
  h.elim (fun d hd => ⟨d, hd.1, hd.2.1, hd.2.2.1⟩)

/-- C35 as stated fails: the constructor builds u from [1, 2, 3] with 3 blocks of which 2
are owned and v from [4, 5, 6] with 3 blocks, all owned; nElm is 3 for both, yet
dotProd(u, v) = 1*4 + 2*5 = 14 and dotProd(v, u) = 32, because the sum runs over the
domain extent of the first argument. -/
theorem C35_dotProd_domain_extent_counterexample :
    CSysVector.CSysVector_blk_array 3 2 1 ([1, 2, 3] : List ℚ)
      = .ok ⟨3, 2, 3, 2, 1, [1, 2, 3]⟩ ∧
    CSysVector.CSysVector_blk_array 3 3 1 ([4, 5, 6] : List ℚ)
      = .ok ⟨3, 3, 3, 3, 1, [4, 5, 6]⟩ ∧
    dotProd (⟨3, 2, 3, 2, 1, [1, 2, 3]⟩ : CSysVector ℚ) ⟨3, 3, 3, 3, 1, [4, 5, 6]⟩
      = .ok 14 ∧
    dotProd (⟨3, 3, 3, 3, 1, [4, 5, 6]⟩ : CSysVector ℚ) ⟨3, 2, 3, 2, 1, [1, 2, 3]⟩
      = .ok 32 ∧
    (14 : ℚ) ≠ 32 := by
  refine ⟨rfl, rfl, ?_, ?_, by norm_num⟩
  · rw [dotProd_eq (⟨3, 2, 3, 2, 1, [1, 2, 3]⟩ : CSysVector ℚ) ⟨3, 3, 3, 3, 1, [4, 5, 6]⟩ rfl
      (by simp) (by simp)]
    simp only [Finset.sum_range_succ, Finset.range_zero, Finset.sum_empty, CSysVector.entry]
    norm_num
  · rw [dotProd_eq (⟨3, 3, 3, 3, 1, [4, 5, 6]⟩ : CSysVector ℚ) ⟨3, 2, 3, 2, 1, [1, 2, 3]⟩ rfl
      (by simp) (by simp)]
    simp only [Finset.sum_range_succ, Finset.range_zero, Finset.sum_empty, CSysVector.entry]
    norm_num

/-- C35, amended: for vectors u, v with equal nElm and equal nElmDomain, whose buffers hold
nElm entries and whose domain extent lies inside them, dotProd(u, v) and dotProd(v, u)
return the same value. -/
theorem C35_dotProd_is_symmetric (u v : CSysVector α) (hu : u.Allocated) (hv : v.Allocated)
    (hn : u.nElm = v.nElm) (hdom : u.nElmDomain = v.nElmDomain)
    (hd : u.nElmDomain ≤ u.nElm) :
    ∃ d, dotProd u v = .ok d ∧ dotProd v u = .ok d := by
  unfold CSysVector.Allocated at hu hv
  refine ⟨_, dotProd_eq u v hn (by omega) (by omega), ?_⟩
  rw [dotProd_eq v u hn.symm (by omega) (by omega), hdom]
  congr 1
  exact Finset.sum_congr rfl (fun i _ => mul_comm _ _)

/-- Witness of C35 (amended) on rational vectors of 3 entries of which 2 are owned. -/
theorem C35_dotProd_is_symmetric_witness :
    ∃ d, dotProd (⟨3, 2, 3, 2, 1, [1, 2, 3]⟩ : CSysVector ℚ) ⟨3, 2, 3, 2, 1, [4, 5, 6]⟩
        = .ok d ∧
      dotProd (⟨3, 2, 3, 2, 1, [4, 5, 6]⟩ : CSysVector ℚ) ⟨3, 2, 3, 2, 1, [1, 2, 3]⟩
        = .ok d :=
  C35_dotProd_is_symmetric (⟨3, 2, 3, 2, 1, [1, 2, 3]⟩ : CSysVector ℚ)
    ⟨3, 2, 3, 2, 1, [4, 5, 6]⟩ rfl rfl rfl rfl (by decide)

/-- C36 as stated fails: the constructor called with 1 block of which 2 are owned, of 1
component, returns a vector with nElm = 1 and nElmDomain = 2, which breaks
nElmDomain <= nElm, and dotProd on it reads past the buffer; the constructor has no check
of numBlkDomain against numBlk.  Initialize(2, 3, val) returns nBlkDomain = 6, so that
nBlkDomain*nVar = 18 is not nElmDomain = 6. -/
theorem C36_domain_extent_counterexample :
    CSysVector.CSysVector_blk_val 2 1 2 1 (0 : ℚ) = .ok ⟨1, 2, 1, 2, 1, [0]⟩ ∧
    ¬ (⟨1, 2, 1, 2, 1, [0]⟩ : CSysVector ℚ).SizeInvariant ∧
    dotProd (⟨1, 2, 1, 2, 1, [0]⟩ : CSysVector ℚ) ⟨1, 2, 1, 2, 1, [0]⟩
      = .error .outOfBounds ∧
    CSysVector.Initialize 2 3 (0 : ℚ) = .ok ⟨6, 6, 2, 6, 3, [0, 0, 0, 0, 0, 0]⟩ ∧
    ¬ (⟨6, 6, 2, 6, 3, [0, 0, 0, 0, 0, 0]⟩ : CSysVector ℚ).SizeInvariant := by
  refine ⟨?_, ?_, ?_, ?_, ?_⟩
  · simp [CSysVector.CSysVector_blk_val, fillLoop32, writeAt, newBuffer, ulong, uint,
      ULONG_MAX]
  · simp [CSysVector.SizeInvariant]
  · simp [dotProd, forLoop, loopFrom, readAt]
  · rw [CSysVector.Initialize_eq 2 3 (0 : ℚ) (by norm_num) (by norm_num)]
    rfl
  · simp [CSysVector.SizeInvariant]

/-- C36, amended: a vector returned by a constructor satisfies nElm = nBlk*nVar,
nElmDomain = nBlkDomain*nVar and nElmDomain <= nElm, for the constructors with block sizes
when numBlk*numVar fits in an unsigned long and numBlkDomain <= numBlk; a vector returned
by Initialize(numBlk, numVar, val) with a product that fits satisfies nElm = nBlk*nVar and
nElmDomain = nElm; the copy constructor, both assignments and every arithmetic or block
operation return a vector that satisfies the three relations when their source does; and
dotProd on vectors with equal nElm that satisfy them and whose buffers hold nElm entries
returns, reading inside both buffers. -/
theorem C36_size_invariant (fuel size numBlk numBlkDomain numVar p q : Nat)
    (this u : CSysVector α) (x y : Operand α) (a b val : α) (r arr : List α)
    (w : CSysVector α) :
    ((CSysVector.CSysVector_size_val fuel size val = .ok w ∨
        CSysVector.CSysVector_size_array size arr = .ok w) → w.SizeInvariant) ∧
    (numBlk * numVar < 2 ^ 64 → numBlkDomain ≤ numBlk →
      (CSysVector.CSysVector_blk_val fuel numBlk numBlkDomain numVar val = .ok w ∨
        CSysVector.CSysVector_blk_array numBlk numBlkDomain numVar arr = .ok w) →
      w.SizeInvariant) ∧
    (numBlk * numVar < 2 ^ 64 → CSysVector.Initialize numBlk numVar val = .ok w →
      w.nElm = w.nBlk * w.nVar ∧ w.nElmDomain = w.nElm) ∧
    (u.SizeInvariant →
      (CSysVector.CSysVector_copy u = .ok w ∨ this.operator_assign (.other u) = .ok w) →
      w.SizeInvariant) ∧
    (this.SizeInvariant →
      (this.operator_assign .self = .ok w ∨
        this.Equals_AX a x = .ok w ∨ this.Plus_AX a x = .ok w ∨
        this.Equals_AX_Plus_BY a x b y = .ok w ∨ this.operator_assign_val val = .ok w ∨
        this.operator_add_assign x = .ok w ∨ this.operator_sub_assign x = .ok w ∨
        this.operator_mul_assign val = .ok w ∨ this.operator_div_assign val = .ok w ∨
        this.AddBlock p r = .ok w ∨ this.SubtractBlock p r = .ok w ∨
        this.SetBlock p r = .ok w ∨ this.SetBlock_var p q val = .ok w ∨
        this.SetBlock_Zero p = .ok w ∨ this.SetBlock_Zero_var p q = .ok w ∨
        this.operator_add u = .ok w ∨ this.operator_sub u = .ok w ∨
        this.operator_mul val = .ok w ∨ CSysVector.operator_mul_scalar val this = .ok w ∨
        this.operator_div val = .ok w) →
      w.SizeInvariant) ∧
    (this.SizeInvariant → this.Allocated → u.Allocated → this.nElm = u.nElm →
      this.nElmDomain ≤ this.vec_val.length ∧ this.nElmDomain ≤ u.vec_val.length ∧
        ∃ d, dotProd this u = .ok d) := by
  have hc := CSysVector.constructor_fields fuel size numBlk numBlkDomain numVar val arr w
  refine ⟨fun h => ?_, fun hfit hle h => ?_, fun hfit h => ?_, fun hu h => ?_,
    fun ht h => ?_, fun ht hta hua hn => ?_⟩
  · obtain ⟨h1, h2, h3, h4, h5⟩ := hc.1 h
    unfold CSysVector.SizeInvariant
    rw [h1, h2, h3, h4, h5]
    omega
  · obtain ⟨h1, h2, h3, h4, h5⟩ := hc.2.1 h
    have hle' : numBlkDomain * numVar ≤ numBlk * numVar := Nat.mul_le_mul_right _ hle
    unfold CSysVector.SizeInvariant
    rw [h1, h2, h3, h4, h5, ulong, ulong, Nat.mod_eq_of_lt hfit,
      Nat.mod_eq_of_lt (by omega)]
    exact ⟨rfl, rfl, hle'⟩
  · obtain ⟨h1, h2, h3, _, h5⟩ := hc.2.2 h
    rw [h1, h2, h3, h5, ulong, Nat.mod_eq_of_lt hfit]
    exact ⟨rfl, rfl⟩
  · rcases h with h | h
    · exact CSysVector.sizeInvariant_of_sameShape w u (CSysVector.copy_shape u w h) hu
    · exact CSysVector.sizeInvariant_of_sameShape w u
        (CSysVector.operator_assign_shape this u w h) hu
  · rcases h with h | h
    · cases h
      exact ht
    · refine CSysVector.sizeInvariant_of_sameShape w this ?_ ht
      rcases h with h | h | h | h | h | h | h | h | h | h | h | h | h | h | h
      · exact CSysVector.inPlace_shape this x y a b val p q r w (Or.inl h)
      · exact CSysVector.inPlace_shape this x y a b val p q r w (Or.inr (Or.inl h))
      · exact CSysVector.inPlace_shape this x y a b val p q r w (Or.inr (Or.inr (Or.inl h)))
      · exact CSysVector.inPlace_shape this x y a b val p q r w
          (Or.inr (Or.inr (Or.inr (Or.inl h))))
      · exact CSysVector.inPlace_shape this x y a b val p q r w
          (Or.inr (Or.inr (Or.inr (Or.inr (Or.inl h)))))
      · exact CSysVector.inPlace_shape this x y a b val p q r w
          (Or.inr (Or.inr (Or.inr (Or.inr (Or.inr (Or.inl h))))))
      · exact CSysVector.inPlace_shape this x y a b val p q r w
          (Or.inr (Or.inr (Or.inr (Or.inr (Or.inr (Or.inr (Or.inl h)))))))
      · exact CSysVector.inPlace_shape this x y a b val p q r w
          (Or.inr (Or.inr (Or.inr (Or.inr (Or.inr (Or.inr (Or.inr (Or.inl h))))))))
      · exact CSysVector.inPlace_shape this x y a b val p q r w
          (Or.inr (Or.inr (Or.inr (Or.inr (Or.inr (Or.inr (Or.inr (Or.inr (Or.inl h)))))))))
      · exact CSysVector.inPlace_shape this x y a b val p q r w
          (Or.inr (Or.inr (Or.inr (Or.inr (Or.inr (Or.inr (Or.inr (Or.inr (Or.inr
            (Or.inl h))))))))))
      · exact CSysVector.inPlace_shape this x y a b val p q r w
          (Or.inr (Or.inr (Or.inr (Or.inr (Or.inr (Or.inr (Or.inr (Or.inr (Or.inr
            (Or.inr (Or.inl h)))))))))))
      · exact CSysVector.inPlace_shape this x y a b val p q r w
          (Or.inr (Or.inr (Or.inr (Or.inr (Or.inr (Or.inr (Or.inr (Or.inr (Or.inr
            (Or.inr (Or.inr (Or.inl h))))))))))))
      · exact CSysVector.inPlace_shape this x y a b val p q r w
          (Or.inr (Or.inr (Or.inr (Or.inr (Or.inr (Or.inr (Or.inr (Or.inr (Or.inr
            (Or.inr (Or.inr (Or.inr (Or.inl h)))))))))))))
      · exact CSysVector.inPlace_shape this x y a b val p q r w
          (Or.inr (Or.inr (Or.inr (Or.inr (Or.inr (Or.inr (Or.inr (Or.inr (Or.inr
            (Or.inr (Or.inr (Or.inr (Or.inr h)))))))))))))
      · exact CSysVector.operator_shape this u val w h
  · obtain ⟨_, _, hle⟩ := ht
    unfold CSysVector.Allocated at hta hua
    exact ⟨by omega, by omega, _, dotProd_eq this u hn (by omega) (by omega)⟩

/-- Witness of C36 (amended): the constructor on 2 blocks of which 1 is owned, of 2
components. -/
theorem C36_size_invariant_witness :
    CSysVector.CSysVector_blk_val 5 2 1 2 (0 : ℚ) = .ok ⟨4, 2, 2, 1, 2, [0, 0, 0, 0]⟩ ∧
    (⟨4, 2, 2, 1, 2, [0, 0, 0, 0]⟩ : CSysVector ℚ).SizeInvariant :=
  have h : CSysVector.CSysVector_blk_val 5 2 1 2 (0 : ℚ)
      = .ok ⟨4, 2, 2, 1, 2, [0, 0, 0, 0]⟩ := by
    simp [CSysVector.CSysVector_blk_val, fillLoop32, writeAt, newBuffer, ulong, uint,
      ULONG_MAX]
  ⟨h, (C36_size_invariant 5 0 2 1 2 0 0 ⟨4, 2, 2, 1, 2, [0, 0, 0, 0]⟩
    ⟨4, 2, 2, 1, 2, [0, 0, 0, 0]⟩ .self .self 0 0 0 [] []
    ⟨4, 2, 2, 1, 2, [0, 0, 0, 0]⟩).2.1 (by norm_num) (by norm_num) (Or.inl h)⟩

/-- C37 fails on the code: the constructor (numBlk, numBlkDomain, numVar, val) accepts
every product with 0 < nElm < ULONG_MAX, and on a product of 2^32 or more its fill loop,
whose counter is an unsigned int, does not end: the call returns for no number of steps.
On a product below 2^32 the call returns the vector filled with val; the constructor
(size, val) accepts only sizes below UINT_MAX and returns the filled vector on all of
them. -/
theorem C37_fill_loop_never_ends (numBlk numBlkDomain numVar : Nat) (val : α)
    (h0 : 0 < numBlk * numVar) (h64 : numBlk * numVar < 2 ^ 64 - 1) :
    (2 ^ 32 ≤ numBlk * numVar → ∀ fuel,
      CSysVector.CSysVector_blk_val fuel numBlk numBlkDomain numVar val
        = .error .timeout) ∧
    (numBlk * numVar < 2 ^ 32 →
      CSysVector.CSysVector_blk_val (numBlk * numVar + 1) numBlk numBlkDomain numVar val
        = .ok ⟨numBlk * numVar, ulong (numBlkDomain * numVar), numBlk, numBlkDomain,
            numVar, List.replicate (numBlk * numVar) val⟩) ∧
    (∀ size, 0 < size → size < UINT_MAX →
      CSysVector.CSysVector_size_val (size + 1) size val
        = .ok ⟨size, size, size, size, 1, List.replicate size val⟩) ∧
    CSysVector.Initialize numBlk numVar val
      = .ok ⟨numBlk * numVar, numBlk * numVar, numBlk, numBlk * numVar, numVar,
          List.replicate (numBlk * numVar) val⟩ :=
  ⟨fun h32 fuel => CSysVector.blk_val_timeout fuel numBlk numBlkDomain numVar val h32 h64,
    fun h32 => CSysVector.blk_val_fill numBlk numBlkDomain numVar val h0 h32,
    fun size hs0 hs32 => CSysVector.size_val_fill size val hs0 hs32,
    CSysVector.Initialize_eq numBlk numVar val h0 h64⟩

/-- Witness of C37: 2^32 blocks of one component pass the validity check of the
constructor, which then returns for no number of steps, while Initialize, whose counter
is an unsigned long, returns on the same sizes. -/
theorem C37_fill_loop_never_ends_witness :
    0 < ulong (4294967296 * 1) ∧ ulong (4294967296 * 1) < ULONG_MAX ∧
    (∀ fuel, CSysVector.CSysVector_blk_val fuel 4294967296 4294967296 1 (0 : ℚ)
      = .error .timeout) ∧
    CSysVector.Initialize 4294967296 1 (0 : ℚ)
      = .ok ⟨4294967296 * 1, 4294967296 * 1, 4294967296, 4294967296 * 1, 1,
          List.replicate (4294967296 * 1) 0⟩ :=
  have h := C37_fill_loop_never_ends 4294967296 4294967296 1 (0 : ℚ) (by norm_num)
    (by norm_num)
  ⟨by decide, by decide, h.1 (by norm_num), h.2.2.2⟩

/-- C33 as stated fails: in an inviscid run (viscous = 0) with wall velocity (1, 2, 3) and
wall temperature 4, on storage allocated with zeros, set_bdy_params leaves the slots 5 to
8 as allocated; they hold neither the wall velocity nor the wall temperature. -/
theorem C33_inviscid_wall_slots_counterexample :
    set_bdy_params 0 0 (1 : ℚ) [1, 0, 0] 1 [1, 2, 3] 4 1 1 1 0 0 5 (fun _ => 0)
      = .ok [1, 1, 0, 0, 1, 0, 0, 0, 0, 1, 1, 1, 0, 0, 0, 0, 0, 0, 0, 0, 0, 0, 0, 0, 0, 0,
          0, 0, 0, 0] ∧
    ([1, 1, 0, 0, 1, 0, 0, 0, 0, 1, 1, 1, 0, 0, 0, 0, 0, 0, 0, 0, 0, 0, 0, 0, 0, 0,
      0, 0, 0, 0] : List ℚ)[5]? ≠ some 1 ∧
    ([1, 1, 0, 0, 1, 0, 0, 0, 0, 1, 1, 1, 0, 0, 0, 0, 0, 0, 0, 0, 0, 0, 0, 0, 0, 0,
      0, 0, 0, 0] : List ℚ)[8]? ≠ some 4 := by
  refine ⟨?_, by simp, by simp⟩
  rw [set_bdy_params_eq 0 0 (1 : ℚ) [1, 0, 0] 1 [1, 2, 3] 4 1 1 1 0 0 5 (fun _ => 0)
    (by simp) (by simp)]
  rfl

/-- C33, amended: with free-stream and wall velocities of three components,
set_bdy_params returns a vector of 30 slots that holds, for every configuration,
[0] = free-stream density, [1..3] = free-stream velocity, [4] = free-stream pressure,
[9] = total pressure, [10] = total temperature, [11..13] = free-stream direction; in a
viscous run [5..7] = wall velocity and [8] = wall temperature, in an inviscid run the
slots 5 to 8 are as allocated; [14] = far-field eddy viscosity when turb_model = 1 and is
as allocated otherwise; the slots 15 to 29 are as allocated. -/
theorem C33_boundary_parameter_slots (viscous turb_model : Int) (rho_bound : α)
    (v_bound : List α) (p_bound : α) (v_wall : List α)
    (T_wall p_total_bound T_total_bound : α)
    (nx_free_stream ny_free_stream nz_free_stream mu_tilde_inf : α) (fresh : Nat → α)
    (hvb : 3 ≤ v_bound.length) (hvw : viscous ≠ 0 → 3 ≤ v_wall.length) :
    ∃ b, set_bdy_params viscous turb_model rho_bound v_bound p_bound v_wall T_wall
        p_total_bound T_total_bound nx_free_stream ny_free_stream nz_free_stream
        mu_tilde_inf fresh = .ok b ∧
      b.length = 30 ∧ b[0]? = some rho_bound ∧
      (∀ i, i < 3 → b[1 + i]? = some (v_bound.getD i 0)) ∧ b[4]? = some p_bound ∧
      (viscous ≠ 0 →
        (∀ i, i < 3 → b[5 + i]? = some (v_wall.getD i 0)) ∧ b[8]? = some T_wall) ∧
      (viscous = 0 → ∀ i, i < 4 → b[5 + i]? = some (fresh (5 + i))) ∧
      b[9]? = some p_total_bound ∧ b[10]? = some T_total_bound ∧
      b[11]? = some nx_free_stream ∧ b[12]? = some ny_free_stream ∧
      b[13]? = some nz_free_stream ∧
      (turb_model = 1 → b[14]? = some mu_tilde_inf) ∧
      (turb_model ≠ 1 → b[14]? = some (fresh 14)) ∧
      ∀ i, i < 15 → b[15 + i]? = some (fresh (15 + i)) := by
  refine ⟨_, set_bdy_params_eq viscous turb_model rho_bound v_bound p_bound v_wall T_wall
    p_total_bound T_total_bound nx_free_stream ny_free_stream nz_free_stream mu_tilde_inf
    fresh hvb hvw, by simp, rfl, ?_, rfl, ?_, ?_, rfl, rfl, rfl, rfl, rfl, ?_, ?_, ?_⟩
  · intro i hi
    interval_cases i <;> rfl
  · intro hv
    refine ⟨fun i hi => ?_, ?_⟩
    · interval_cases i <;> simp [hv]
    · simp [hv]
  · intro hv i hi
    interval_cases i <;> simp [hv]
  · intro ht
    simp [ht]
  · intro ht
    simp [ht]
  · intro i hi
    interval_cases i <;> rfl

/-- Witness of C33 (amended): a viscous run with the turbulence model. -/
theorem C33_boundary_parameter_slots_witness :
    ∃ b, set_bdy_params 1 1 (1 : ℚ) [1, 0, 0] 1 [1, 2, 3] 4 1 1 1 0 0 5 (fun _ => 0)
        = .ok b ∧ b.length = 30 ∧ b[8]? = some 4 ∧ b[14]? = some 5 :=
  have h := C33_boundary_parameter_slots 1 1 (1 : ℚ) [1, 0, 0] 1 [1, 2, 3] 4 1 1 1 0 0 5
    (fun _ => 0) (by simp) (by simp)
  h.elim (fun b hb => ⟨b, hb.1, hb.2.1, (hb.2.2.2.2.2.1 (by decide)).2,
    hb.2.2.2.2.2.2.2.2.2.2.2.2.1 rfl⟩)

/-- C38: boundary type 7 with zero grid velocity and a unit normal n, on an interior state
of non-zero density (Navier-Stokes equations, arrays of the sizes the function indexes):
the exterior state u has |v_r|^2 = |v_l|^2 and the pressure of the interior state, and
the function applied to u as interior state returns a state whose entries 0 to n_dims+1
are those of the original interior state. -/
theorem C38_slip_wall_is_involution {unset : UnsetLocals α} (sqrt : α → α) (pow : α → α → α)
    (turb_model : Int) (u_l u_r u_r2 v_g norm bdy_params : List α) (n_dims : Nat)
    (gamma R_ref : α)
    (hbp : 9 ≤ bdy_params.length) (hul : n_dims + 2 ≤ u_l.length)
    (hur : n_dims + 2 ≤ u_r.length) (hur2 : n_dims + 2 ≤ u_r2.length)
    (hvg : n_dims ≤ v_g.length) (hn : n_dims ≤ norm.length) (hrho : u_l.getD 0 0 ≠ 0)
    (hgrid : ∀ i, i < n_dims → v_g.getD i 0 = 0)
    (hunit : dotN n_dims (fun k => norm.getD k 0) (fun k => norm.getD k 0) = 1) :
    ∃ u, set_inv_boundary_conditions unset sqrt pow turb_model 7 u_l u_r v_g norm bdy_params
        n_dims gamma R_ref 0 = .ok u ∧
      dotN n_dims (velocity u) (velocity u) = dotN n_dims (velocity u_l) (velocity u_l) ∧
      pressure gamma u n_dims = pressure gamma u_l n_dims ∧
      ∃ w, set_inv_boundary_conditions unset sqrt pow turb_model 7 u u_r2 v_g norm bdy_params
          n_dims gamma R_ref 0 = .ok w ∧
        ∀ k, k < n_dims + 2 → w[k]? = u_l[k]? := by
  obtain ⟨u, hrun, hu⟩ := set_inv_type_7 sqrt pow turb_model u_l u_r v_g norm bdy_params
    n_dims gamma R_ref hbp hul hur hvg hn
  have hvn : dotN n_dims (fun k => velocity u_l k - v_g.getD k 0) (fun k => norm.getD k 0)
      = dotN n_dims (velocity u_l) (fun k => norm.getD k 0) :=
    dotN_congr n_dims _ _ _ (fun i hi => by rw [hgrid i hi, sub_zero])
  rw [hvn] at hu
  have hvel := velocity_of_isConservative u u_r n_dims _ _ _ hu hrho
  have h0 : u.getD 0 0 = u_l.getD 0 0 := getD_of_getElem? u 0 0 _ hu.2.1
  have he : u.getD (n_dims + 1) 0 = u_l.getD (n_dims + 1) 0 :=
    getD_of_getElem? u (n_dims + 1) 0 _ hu.2.2.2.1
  have hsq : dotN n_dims (velocity u) (velocity u)
      = dotN n_dims (velocity u_l) (velocity u_l) := by
    rw [dotN_congr_both n_dims _ _ hvel]
    exact dotN_reflect n_dims (velocity u_l) (fun k => norm.getD k 0) hunit
  have hp : pressure gamma u n_dims = pressure gamma u_l n_dims := by
    unfold pressure
    rw [he, h0, hsq]
  obtain ⟨w, hrun2, hw⟩ := set_inv_type_7 sqrt pow turb_model u u_r2 v_g norm bdy_params
    n_dims gamma R_ref hbp (by rw [hu.1]; exact hur) hur2 hvg hn
  have hvn2 : dotN n_dims (fun k => velocity u k - v_g.getD k 0) (fun k => norm.getD k 0)
      = - dotN n_dims (velocity u_l) (fun k => norm.getD k 0) := by
    rw [dotN_congr n_dims _
      (fun i => velocity u_l i
        - 2 * dotN n_dims (velocity u_l) (fun k => norm.getD k 0) * norm.getD i 0) _
      (fun i hi => by rw [hgrid i hi, sub_zero, hvel i hi]), dotN_sub_smul, hunit]
    ring
  rw [hvn2] at hw
  refine ⟨u, hrun, hsq, hp, w, hrun2, ?_⟩
  refine isConservative_eq_interior w u_r2 u_l n_dims _ _ _ hw hul h0 (h0 ▸ hrho)
    (fun i hi => ?_) he
  rw [hvel i hi]
  ring

/-- Witness of C38: a 2-D state moving at 45 degrees onto a wall with normal (1, 0). -/
theorem C38_slip_wall_is_involution_witness :
    ∃ u, set_inv_boundary_conditions ⟨0, fun _ => 0, 0⟩ id (fun x _ => x) 0 7 ([2, 2, 2, 5] : List ℚ)
        [0, 0, 0, 0] [0, 0] [1, 0] [0, 0, 0, 0, 0, 0, 0, 0, 0] 2 (7 / 5) 1 0 = .ok u ∧
      ∃ w, set_inv_boundary_conditions ⟨0, fun _ => 0, 0⟩ id (fun x _ => x) 0 7 u
          [0, 0, 0, 0] [0, 0] [1, 0] [0, 0, 0, 0, 0, 0, 0, 0, 0] 2 (7 / 5) 1 0 = .ok w ∧
        ∀ k, k < 2 + 2 → w[k]? = ([2, 2, 2, 5] : List ℚ)[k]? :=
  have h := C38_slip_wall_is_involution id (fun x _ => x) 0
    ([2, 2, 2, 5] : List ℚ) [0, 0, 0, 0] [0, 0, 0, 0] [0, 0] [1, 0]
    [0, 0, 0, 0, 0, 0, 0, 0, 0] 2 (7 / 5) 1
    (by decide) (by decide) (by decide) (by decide) (by decide) (by decide) (by norm_num)
    (by intro i hi; interval_cases i <;> rfl)
    (by simp [dotN, Finset.sum_range_succ])
  h.elim (fun u hu => ⟨u, hu.1, hu.2.2.2⟩)

/-- C39: boundary type 15 with gamma > 1, a square root that squares back on non-negative
arguments and a power function with pow(pow(x, gamma)/x, 1/(gamma-1)) = x for x > 0
(Navier-Stokes equations, arrays of the sizes the function indexes): when the free-stream
density and pressure are positive and the interior state has the density, the velocity
and the pressure of the free stream, the function returns, for every normal and in
either branch, an exterior state with u_r[k] = u_l[k] for k = 0 .. n_dims+1. -/
theorem C39_free_stream_is_preserved {unset : UnsetLocals α} (sqrt : α → α) (pow : α → α → α)
    (turb_model : Int) (u_l u_r v_g norm bdy_params : List α) (n_dims : Nat)
    (gamma R_ref : α)
    (hsqrt : ∀ x, 0 ≤ x → sqrt x * sqrt x = x)
    (hpow : ∀ x, 0 < x → pow (pow x gamma / x) (1 / (gamma - 1)) = x)
    (hgamma : 1 < gamma)
    (hbp : 9 ≤ bdy_params.length) (hb : 1 + n_dims ≤ bdy_params.length)
    (hul : n_dims + 2 ≤ u_l.length) (hur : n_dims + 2 ≤ u_r.length)
    (hn : n_dims ≤ norm.length)
    (ht : turb_model = 1 →
      15 ≤ bdy_params.length ∧ n_dims + 3 ≤ u_l.length ∧ n_dims + 3 ≤ u_r.length)
    (hrhob : 0 < bdy_params.getD 0 0) (hpb : 0 < bdy_params.getD 4 0)
    (hrho : u_l.getD 0 0 = bdy_params.getD 0 0)
    (hv : ∀ i, i < n_dims → velocity u_l i = vBound bdy_params i)
    (hp : pressure gamma u_l n_dims = bdy_params.getD 4 0) :
    ∃ u, set_inv_boundary_conditions unset sqrt pow turb_model 15 u_l u_r v_g norm bdy_params
        n_dims gamma R_ref 0 = .ok u ∧
      ∀ k, k < n_dims + 2 → u[k]? = u_l[k]? := by
  obtain ⟨hc, hvn, hdens, hpr⟩ := farField_free_stream sqrt pow u_l norm bdy_params n_dims
    gamma hsqrt hpow hgamma hrhob hpb hrho hv hp
  have hg1 : gamma - 1 ≠ 0 := by linarith
  have hr0 : bdy_params.getD 0 0 ≠ 0 := hrhob.ne'
  have he : u_l.getD (n_dims + 1) 0 = bdy_params.getD 4 0 / (gamma - 1)
      + 1 / 2 * bdy_params.getD 0 0 * dotN n_dims (velocity u_l) (velocity u_l) := by
    have h := hp
    unfold pressure at h
    rw [hrho] at h
    have h2 : u_l.getD (n_dims + 1) 0
        - 1 / 2 * bdy_params.getD 0 0 * dotN n_dims (velocity u_l) (velocity u_l)
        = bdy_params.getD 4 0 / (gamma - 1) := by
      rw [eq_div_iff hg1]
      linear_combination h
    linear_combination h2
  have hvv : dotN n_dims (vBound bdy_params) (vBound bdy_params)
      = dotN n_dims (velocity u_l) (velocity u_l) :=
    (dotN_congr_both n_dims _ _ hv).symm
  have hin : ∀ p r k : α, r ≠ 0 →
      r * (gamma / (gamma - 1) * p / r + 1 / 2 * k) - p = p / (gamma - 1) + 1 / 2 * r * k := by
    intro p r k hr'
    field_simp
    ring
  obtain ⟨u, hrun, hu⟩ := set_inv_type_15 sqrt pow turb_model u_l u_r v_g norm bdy_params
    n_dims gamma R_ref hbp hb hul hur hn ht
  refine ⟨u, hrun, ?_⟩
  rcases hu with ⟨_, hu⟩ | ⟨_, hu⟩
  · rw [hdens, hpr] at hu
    refine isConservative_eq_interior u _ u_l n_dims _ _ _ hu hul hrho.symm hr0
      (fun i hi => ?_) ?_
    · rw [hvn, dotN_congr n_dims (velocity u_l) (vBound bdy_params) _ hv,
        farFieldVelocity_self, hv i hi]
    · rw [he]
      unfold freeStreamEnthalpy
      rw [hvv]
      exact hin _ _ _ hr0
  · rw [hrho, hp, hdens, hpr] at hu
    refine isConservative_eq_interior u _ u_l n_dims _ _ _ hu hul hrho.symm hr0
      (fun i hi => ?_) ?_
    · rw [hvn, farFieldVelocity_self]
    · rw [he]
      unfold totalEnergy
      rw [dotN_congr_both n_dims _ (velocity u_l)
        (fun i _ => by rw [hvn, farFieldVelocity_self])]

/-- Witness of C39 over the reals, with the square root and the power function of the
reals: a 2-D free stream of density 1, velocity (1, 0) and pressure 1 at gamma = 7/5, met
by an interior state equal to it on a face of normal (1, 0). -/
theorem C39_free_stream_is_preserved_witness :
    ∃ u, set_inv_boundary_conditions ⟨0, fun _ => 0, 0⟩ Real.sqrt (fun x y => x ^ y) 0 15
        ([1, 1, 0, 3] : List ℝ) [0, 0, 0, 0] [0, 0] [1, 0] [1, 1, 0, 0, 1, 0, 0, 0, 0]
        2 (7 / 5) 1 0 = .ok u ∧
      ∀ k, k < 2 + 2 → u[k]? = ([1, 1, 0, 3] : List ℝ)[k]? :=
  C39_free_stream_is_preserved Real.sqrt (fun x y => x ^ y) 0
    ([1, 1, 0, 3] : List ℝ) [0, 0, 0, 0] [0, 0] [1, 0] [1, 1, 0, 0, 1, 0, 0, 0, 0]
    2 (7 / 5) 1
    (fun x hx => Real.mul_self_sqrt hx)
    (fun x hx => by
      have h1 : x ^ ((7 : ℝ) / 5) / x = x ^ ((7 : ℝ) / 5 - 1) :=
        (Real.rpow_sub_one hx.ne' _).symm
      show (x ^ ((7 : ℝ) / 5) / x) ^ (1 / ((7 : ℝ) / 5 - 1)) = x
      rw [h1, ← Real.rpow_mul hx.le]
      norm_num)
    (by norm_num) (by simp) (by simp) (by simp) (by simp) (by simp)
    (by intro h; exact absurd h (by decide))
    (by norm_num) (by norm_num) (by simp)
    (by
      intro i hi
      interval_cases i <;> simp [velocity, vBound])
    (by simp [pressure, dotN, velocity, Finset.sum_range_succ]; norm_num)

/-- C31: with order >= 0, N = order+1 abscissas in loc_1d_upts and the sizes
n_upts_per_ele = N^3 and n_fpts_per_ele = 6 N^2 that setup_ele_type_specific assigns:
set_loc_upts returns and the solution point of index k + N*j + N^2*i holds
(loc_1d_upts(k), loc_1d_upts(j), loc_1d_upts(i)); set_tloc_fpts returns and the index
face*N^2 + N*j + k holds the reference coordinates of the flux point (face, j, k); both
index maps are bijections onto [0, N^3) and [0, 6 N^2); and on the index of the solution
point (i, j, k) eval_nodal_basis decodes i, j, k: it returns the product of the 1-D
Lagrange polynomials of indices k, j, i at the three coordinates of the location. -/
theorem C31_point_numbering (eval_lagrange : α → Int → List α → α) (order : Int)
    (loc_1d_upts in_loc : List α) (p_res equation turb_model upts_type_hexa : Int)
    (horder : 0 ≤ order) (hloc : nPts1d order ≤ loc_1d_upts.length)
    (hin : 3 ≤ in_loc.length) :
    (∀ e, setup_ele_type_specific order p_res equation turb_model upts_type_hexa = .ok e →
      e.n_dims = 3 ∧
      e.n_upts_per_ele = ((nPts1d order * nPts1d order * nPts1d order : Nat) : Int) ∧
      e.n_fpts_per_ele = ((nPts1d order * nPts1d order * 6 : Nat) : Int)) ∧
    (∃ a, set_loc_upts 3 (nPts1d order * nPts1d order * nPts1d order) order loc_1d_upts
        = .ok a ∧
      ∀ i j k, i < nPts1d order → j < nPts1d order → k < nPts1d order →
        a.column3 (hexIndex (nPts1d order) i j k)
          = (loc_1d_upts.getD k 0, loc_1d_upts.getD j 0, loc_1d_upts.getD i 0)) ∧
    (∃ a, set_tloc_fpts 3 (nPts1d order * nPts1d order * 6) 6 order loc_1d_upts = .ok a ∧
      ∀ f j k, f < 6 → j < nPts1d order → k < nPts1d order →
        a.column3 (hexIndex (nPts1d order) f j k)
          = refFluxPoint (fun m => loc_1d_upts.getD m 0) (nPts1d order) f j k) ∧
    (∀ A, A = nPts1d order ∨ A = 6 →
      (∀ i j k, i < A → j < nPts1d order → k < nPts1d order →
        hexIndex (nPts1d order) i j k < nPts1d order * nPts1d order * A) ∧
      (∀ i j k i' j' k', j < nPts1d order → k < nPts1d order → j' < nPts1d order →
        k' < nPts1d order →
        hexIndex (nPts1d order) i j k = hexIndex (nPts1d order) i' j' k' →
        i = i' ∧ j = j' ∧ k = k') ∧
      (∀ p, p < nPts1d order * nPts1d order * A →
        ∃ i j k, i < A ∧ j < nPts1d order ∧ k < nPts1d order ∧
          hexIndex (nPts1d order) i j k = p)) ∧
    (∀ i j k, i < nPts1d order → j < nPts1d order → k < nPts1d order →
      eval_nodal_basis eval_lagrange order loc_1d_upts (hexIndex (nPts1d order) i j k)
          in_loc
        = .ok (eval_lagrange (in_loc.getD 0 0) k loc_1d_upts
            * eval_lagrange (in_loc.getD 1 0) j loc_1d_upts
            * eval_lagrange (in_loc.getD 2 0) i loc_1d_upts)) := by
  have hN : ((nPts1d order : Nat) : Int) = order + 1 := by
    unfold nPts1d
    omega
  refine ⟨fun e he => ?_, ?_, ?_, fun A _ => hexIndex_bijective (nPts1d order) A,
    fun i j k _ hj hk =>
      eval_nodal_basis_hexIndex eval_lagrange order loc_1d_upts in_loc hin i j k hj hk⟩
  · have heq : equation = 0 ∨ equation = 1 := by
      by_contra hne
      rw [setup_ele_type_specific_fatal order p_res equation turb_model upts_type_hexa
        (fun h => hne (Or.inl h)) (fun h => hne (Or.inr h))] at he
      cases he
    rw [setup_ele_type_specific_eq order p_res equation turb_model upts_type_hexa heq] at he
    cases he
    refine ⟨rfl, ?_, ?_⟩
    · push_cast
      rw [hN]
    · push_cast
      rw [hN]
      ring
  · obtain ⟨a, hrun, _, _, ha⟩ := set_loc_upts_spec 3
      (nPts1d order * nPts1d order * nPts1d order) order loc_1d_upts (Nat.le_refl 3)
      (Nat.le_refl _) hloc
    exact ⟨a, hrun, ha⟩
  · obtain ⟨a, hrun, _, _, ha⟩ := set_tloc_fpts_spec 3
      (nPts1d order * nPts1d order * 6) order loc_1d_upts (Nat.le_refl 3)
      (Nat.le_refl _) hloc
    exact ⟨a, hrun, ha⟩

/-- Witness of C31: order 1 with the abscissas -1 and 1; the solution point (1, 0, 1) has
index 5 and holds (1, -1, 1). -/
theorem C31_point_numbering_witness :
    hexIndex (nPts1d 1) 1 0 1 = 5 ∧
    ∃ a, set_loc_upts 3 (nPts1d 1 * nPts1d 1 * nPts1d 1) 1 ([-1, 1] : List ℚ) = .ok a ∧
      a.column3 (hexIndex (nPts1d 1) 1 0 1) = (1, -1, 1) :=
  have h := (C31_point_numbering (fun _ _ _ => (0 : ℚ)) 1 [-1, 1] [0, 0, 0] 2 0 0 0
    (by decide) (by decide) (by decide)).2.1
  ⟨by decide, h.elim (fun a ha => ⟨a, ha.1, ha.2 1 0 1 (by decide) (by decide) (by decide)⟩)⟩

/-- C32: for p_res >= 2 and a connectivity array of at least 8 rows and (p_res-1)^3
columns, set_connectivity_plot returns; the sub-cell (k, l, m) is column
m + (p_res-1)*l + (p_res-1)^2*k and holds in rows 0 to 7 the corners
v0 = m + p_res*l + p_res^2*k, v0+1, v0+p_res+1, v0+p_res and the same four plus p_res^2;
these columns are exactly the columns 0 to (p_res-1)^3 - 1 and every later column is
unchanged; the 8 corners of every sub-cell are pairwise distinct and lie in
[0, p_res^3). -/
theorem C32_plot_connectivity (p_res : Int) (hp : 2 ≤ p_res) (c : Array2 Int)
    (h8 : 8 ≤ c.dim_0)
    (hn : (p_res - 1).toNat * (p_res - 1).toNat * (p_res - 1).toNat ≤ c.dim_1) :
    ∃ a, set_connectivity_plot p_res c = .ok a ∧
      (∀ k l m r, k < (p_res - 1).toNat → l < (p_res - 1).toNat →
        m < (p_res - 1).toNat → r < 8 →
        a.cell r (hexIndex (p_res - 1).toNat k l m) = subCellCorner p_res k l m r) ∧
      (∀ r q, (p_res - 1).toNat * (p_res - 1).toNat * (p_res - 1).toNat ≤ q →
        a.cell r q = c.cell r q) ∧
      ((∀ k l m, k < (p_res - 1).toNat → l < (p_res - 1).toNat → m < (p_res - 1).toNat →
          hexIndex (p_res - 1).toNat k l m
            < (p_res - 1).toNat * (p_res - 1).toNat * (p_res - 1).toNat) ∧
        (∀ k l m k' l' m', l < (p_res - 1).toNat → m < (p_res - 1).toNat →
          l' < (p_res - 1).toNat → m' < (p_res - 1).toNat →
          hexIndex (p_res - 1).toNat k l m = hexIndex (p_res - 1).toNat k' l' m' →
          k = k' ∧ l = l' ∧ m = m') ∧
        (∀ q, q < (p_res - 1).toNat * (p_res - 1).toNat * (p_res - 1).toNat →
          ∃ k l m, k < (p_res - 1).toNat ∧ l < (p_res - 1).toNat ∧
            m < (p_res - 1).toNat ∧ hexIndex (p_res - 1).toNat k l m = q)) ∧
      ∀ k l m, k < (p_res - 1).toNat → l < (p_res - 1).toNat → m < (p_res - 1).toNat →
        (∀ r, r < 8 → 0 ≤ subCellCorner p_res k l m r ∧
          subCellCorner p_res k l m r < p_res * p_res * p_res) ∧
        ∀ r r', r < 8 → r' < 8 →
          subCellCorner p_res k l m r = subCellCorner p_res k l m r' → r = r' := by
  obtain ⟨a, hrun, _, _, hcells, hrest, _⟩ := set_connectivity_plot_spec p_res c h8 hn
  exact ⟨a, hrun, hcells, hrest, hexIndex_bijective (p_res - 1).toNat (p_res - 1).toNat,
    fun k l m hk hl hm => subCellCorner_range p_res hp k l m hk hl hm⟩

/-- Witness of C32: p_res = 2 gives one sub-cell, whose corner 2 is the vertex 3. -/
theorem C32_plot_connectivity_witness :
    hexIndex (2 - 1 : Int).toNat 0 0 0 = 0 ∧ subCellCorner 2 0 0 0 2 = 3 ∧
    ∃ a, set_connectivity_plot 2 ⟨8, 1, fun _ _ => 0⟩ = .ok a ∧
      a.cell 2 (hexIndex (2 - 1 : Int).toNat 0 0 0) = subCellCorner 2 0 0 0 2 :=
  have h := C32_plot_connectivity 2 (by decide) ⟨8, 1, fun _ _ => 0⟩ (by decide) (by decide)
  ⟨by decide, by decide, h.elim (fun a ha =>
    ⟨a, ha.1, ha.2.1 0 0 0 2 (by decide) (by decide) (by decide) (by decide)⟩)⟩

/-- C40: with N = order+1 abscissas in loc_1d_upts and n_fpts_per_inter(0) = N^2,
set_tloc_fpts and set_tnorm_fpts return, and for every face f below 6 and j, k below N,
at the index k + N*j + N^2*f: the flux point has dot product 1 with the normal; it lies
on the face named by the normal, its coordinate on the normal axis of the face being the
sign of the side; its two in-face coordinates are the abscissas of index k or order-k,
and j; and eval_div_vcjh_basis on that index forms the term of the face with exactly
these two indices, the sign of the side and the side; the side is 0 (sign -1) on faces
0, 1, 4 and 1 (sign +1) on faces 2, 3, 5. -/
theorem C40_flux_points_normals_correction_agree (eval_lagrange : α → Int → List α → α)
    (eval_d_vcjh_1d : α → Int → Int → α → α) (eval_d_ofr_1d eval_d_oesfr_1d : α → Int → Int → α)
    (compute_eta : Int → Int → α) (scheme : Int) (eta_hexa : α) (order : Int)
    (n_fpts_per_inter : List Int) (loc_1d_upts loc : List α)
    (hloc1d : nPts1d order ≤ loc_1d_upts.length) (hloc : 3 ≤ loc.length)
    (hn0 : n_fpts_per_inter[0]? = some ((order + 1) * (order + 1))) :
    ∃ tloc tnorm : Array2 α,
      set_tloc_fpts 3 (6 * (nPts1d order * nPts1d order)) 6 order loc_1d_upts = .ok tloc ∧
      set_tnorm_fpts 3 (6 * (nPts1d order * nPts1d order)) 6 order = .ok tnorm ∧
      ∀ f j k, f < 6 → j < nPts1d order → k < nPts1d order →
        dot3 (tloc.column3 (hexIndex (nPts1d order) f j k))
          (tnorm.column3 (hexIndex (nPts1d order) f j k)) = 1 ∧
        comp3 (tnorm.column3 (hexIndex (nPts1d order) f j k)) (faceFrame f).axisN
          = sideSign (faceFrame f).side ∧
        comp3 (tloc.column3 (hexIndex (nPts1d order) f j k)) (faceFrame f).axisN
          = sideSign (faceFrame f).side ∧
        comp3 (tloc.column3 (hexIndex (nPts1d order) f j k)) (faceFrame f).axisA
          = loc_1d_upts.getD (firstIndex (faceFrame f) order k).toNat 0 ∧
        comp3 (tloc.column3 (hexIndex (nPts1d order) f j k)) (faceFrame f).axisB
          = loc_1d_upts.getD j 0 ∧
        firstIndex (faceFrame f) order k = (if f = 0 ∨ f = 3 ∨ f = 4 then order - k else k) ∧
        (faceFrame f).side = (if f = 0 ∨ f = 1 ∨ f = 4 then 0 else 1) ∧
        sideSign (α := α) (faceFrame f).side = (if f = 0 ∨ f = 1 ∨ f = 4 then -1 else 1) ∧
        eval_div_vcjh_basis eval_lagrange eval_d_vcjh_1d eval_d_ofr_1d eval_d_oesfr_1d
            compute_eta scheme eta_hexa order n_fpts_per_inter loc_1d_upts
            (hexIndex (nPts1d order) f j k) loc
          = (if scheme < 5 then
              .ok (faceTerm eval_lagrange
                (fun r side => eval_d_vcjh_1d r side order
                  (if scheme = 0 then eta_hexa else compute_eta scheme order))
                order loc_1d_upts loc f j k)
            else if scheme = 5 then
              .ok (faceTerm eval_lagrange (fun r side => eval_d_ofr_1d r side order)
                order loc_1d_upts loc f j k)
            else if scheme = 6 then
              .ok (faceTerm eval_lagrange (fun r side => eval_d_oesfr_1d r side order)
                order loc_1d_upts loc f j k)
            else .error .indeterminate) := by
  obtain ⟨tloc, hrun1, _, _, hloccol⟩ := set_tloc_fpts_spec 3
    (6 * (nPts1d order * nPts1d order)) order loc_1d_upts (Nat.le_refl 3) (by omega) hloc1d
  obtain ⟨tnorm, hrun2, _, _, hnormcol⟩ := set_tnorm_fpts_spec (α := α) 3
    (6 * (nPts1d order * nPts1d order)) order (Nat.le_refl 3) (Nat.le_refl _)
  refine ⟨tloc, tnorm, hrun1, hrun2, fun f j k hf hj hk => ?_⟩
  have hjN : nPts1d order * j + nPts1d order ≤ nPts1d order * nPts1d order := by
    have := Nat.mul_le_mul_left (nPts1d order) (show j + 1 ≤ nPts1d order from hj)
    rwa [Nat.mul_succ] at this
  have hn := hnormcol f (hexIndex (nPts1d order) f j k) hf
    (by unfold hexIndex; rw [Nat.mul_comm f]; omega)
    (by unfold hexIndex; rw [Nat.add_mul, Nat.one_mul, Nat.mul_comm f]; omega)
  obtain ⟨fa, fb, fn⟩ := refFluxPoint_frame (fun m => loc_1d_upts.getD m 0)
    (nPts1d order) f j k hf
  have hfirst := firstIndex_natCast f order k hk
  rw [hloccol f j k hf hj hk, hn]
  refine ⟨refFluxPoint_dot_refNormal _ _ f j k hf, ?_, fn, ?_, fb, ?_, ?_, ?_,
    eval_div_vcjh_basis_hexIndex eval_lagrange eval_d_vcjh_1d eval_d_ofr_1d
      eval_d_oesfr_1d compute_eta scheme eta_hexa order n_fpts_per_inter loc_1d_upts loc
      hloc hn0 f j k hf hj hk⟩
  · interval_cases f <;> simp [comp3, refNormal, faceFrame, sideSign]
  · rw [fa, hfirst, Int.toNat_ofNat]
  · interval_cases f <;> simp [firstIndex, faceFrame]
  · interval_cases f <;> simp [faceFrame]
  · interval_cases f <;> simp [faceFrame, sideSign]

/-- Witness of C40: order 1 with the abscissas -1 and 1, at a location of three
coordinates. -/
theorem C40_flux_points_normals_correction_agree_witness :
    ∃ tloc tnorm : Array2 ℚ,
      set_tloc_fpts 3 (6 * (nPts1d 1 * nPts1d 1)) 6 1 ([-1, 1] : List ℚ) = .ok tloc ∧
      set_tnorm_fpts 3 (6 * (nPts1d 1 * nPts1d 1)) 6 1 = .ok tnorm ∧
      dot3 (tloc.column3 (hexIndex (nPts1d 1) 4 1 0))
        (tnorm.column3 (hexIndex (nPts1d 1) 4 1 0)) = 1 :=
  have h := C40_flux_points_normals_correction_agree (fun _ _ _ => (0 : ℚ))
    (fun _ _ _ _ => 0) (fun _ _ _ => 0) (fun _ _ _ => 0) (fun _ _ => 0) 0 0 1 [4]
    ([-1, 1] : List ℚ) [0, 0, 0] (by decide) (by decide) (by decide)
  h.elim (fun tloc h1 => h1.elim (fun tnorm h2 =>
    ⟨tloc, tnorm, h2.1, h2.2.1, (h2.2.2 4 1 0 (by decide) (by decide) (by decide)).1⟩))

end Claims

end FR
